import Mathlib

/-! # LibrePCB net-segment connectivity: a verification development

Shallow embedding of the board net-segment (`bi_netsegment.cpp`) and of the
net signal (`netsignal.cpp`), followed by theorems about them.

Conventions of the embedding

* A C++ object is a record carrying a field `ptr`, the address of the object.
  A value of the record type plays the role of the pointer to the object: two
  pointers are equal exactly when the records are equal.
* A `Uuid` is a natural number (only equality of UUIDs is ever used).
* An operation that can throw returns `Outcome σ`: either the state it
  returned with, or the exception together with the state it left behind.
-/

namespace LibrePCB

/-! ## Exceptions and outcomes -/

/-- The two exception classes thrown by the embedded code. -/
inductive Exception where
  | LogicError
  | RuntimeError
  deriving DecidableEq, Repr

/-- Result of running a throwing operation on a state of type `σ`:
`ok s` when it returned normally in state `s`, `error (e, s)` when it threw
`e` and left the state `s` behind. -/
abbrev Outcome (σ : Type) := Except (Exception × σ) σ

/-- The state an operation leaves behind, however it ended. -/
def Outcome.state {σ : Type} : Outcome σ → σ
  | .ok s => s
  | .error (_, s) => s

/-- The exception an operation ended with, if any. -/
def Outcome.thrown {σ : Type} : Outcome σ → Option Exception
  | .ok _ => none
  | .error (e, _) => some e

/-! ## Board items held by a net segment -/

abbrev Uuid := Nat

/-- A `BI_Via*`: address of the via, address of its net segment
(`getNetSegment()`), and its UUID. -/
structure BI_Via where
  ptr : Nat
  mNetSegment : Nat
  mUuid : Uuid
  deriving DecidableEq, Repr

/-- A `BI_NetPoint*` with the attributes of `bi_netpoint.h`: owning segment,
UUID, position, layer, the pad it is attached to (or null) and the via it is
attached to (or null). -/
structure BI_NetPoint where
  ptr : Nat
  mNetSegment : Nat
  mUuid : Uuid
  mPosition : Int × Int
  mLayer : Nat
  mFootprintPad : Option Nat
  mVia : Option BI_Via
  deriving DecidableEq, Repr

/-- A `BI_NetLine*` with the attributes of `bi_netline.h`: UUID, the two end
points and the width. -/
structure BI_NetLine where
  ptr : Nat
  mUuid : Uuid
  mStartPoint : BI_NetPoint
  mEndPoint : BI_NetPoint
  mWidth : Int
  deriving DecidableEq, Repr

/-- `BI_NetPoint::isAttachedToVia` (bi_netpoint.h). -/
def BI_NetPoint.isAttachedToVia (p : BI_NetPoint) : Bool := p.mVia.isSome

/-- `BI_NetPoint::getVia` (bi_netpoint.h). -/
def BI_NetPoint.getVia (p : BI_NetPoint) : Option BI_Via := p.mVia

/-- Modelled from the spec: `BI_NetLine::getOtherPoint` (declared in
bi_netline.h, body in bi_netline.cpp which is not among the sources) returns
the endpoint that is not `firstPoint`, and none if `firstPoint` is not an
endpoint of this line. -/
def BI_NetLine.getOtherPoint (l : BI_NetLine) (firstPoint : BI_NetPoint) : Option BI_NetPoint :=
  if firstPoint = l.mStartPoint then some l.mEndPoint
  else if firstPoint = l.mEndPoint then some l.mStartPoint
  else none

/-- Modelled from the spec: `BI_NetLine::getNetSegment` (declared in
bi_netline.h, body not among the sources). A net line has no segment member of
its own; its two endpoints belong to the same segment, which is the segment of
the line. -/
def BI_NetLine.getNetSegment (l : BI_NetLine) : Nat := l.mStartPoint.mNetSegment

/-- State of a `BI_NetSegment` object: its address, UUID, the circuit it lives
in (`getCircuit()`), the address of its net signal, the `isAddedToBoard()`
flag of `BI_Base`, and the three element lists. -/
structure BI_NetSegment where
  ptr : Nat
  mUuid : Uuid
  circuit : Nat
  mNetSignal : Nat
  mIsAddedToBoard : Bool
  mVias : List BI_Via
  mNetPoints : List BI_NetPoint
  mNetLines : List BI_NetLine
  deriving DecidableEq, Repr

namespace BI_NetSegment

/-- `BI_NetSegment::isUsed`. -/
def isUsed (s : BI_NetSegment) : Bool :=
  (!s.mVias.isEmpty) || (!s.mNetPoints.isEmpty) || (!s.mNetLines.isEmpty)

/-- `BI_NetSegment::getViaByUuid`. -/
def getViaByUuid (s : BI_NetSegment) (uuid : Uuid) : Option BI_Via :=
  s.mVias.find? (fun via => via.mUuid = uuid)

/-- `BI_NetSegment::getNetPointByUuid`. -/
def getNetPointByUuid (s : BI_NetSegment) (uuid : Uuid) : Option BI_NetPoint :=
  s.mNetPoints.find? (fun netpoint => netpoint.mUuid = uuid)

/-- `BI_NetSegment::getNetLineByUuid`. -/
def getNetLineByUuid (s : BI_NetSegment) (uuid : Uuid) : Option BI_NetLine :=
  s.mNetLines.find? (fun netline => netline.mUuid = uuid)

/-! ### The cohesion check -/

/-- The first `foreach` of `findAllConnectedNetPoints`: runs over the net
points `np` of the segment; each one on the same via as `p` that is not yet in
`points` is appended and visited recursively (`visit` is the recursive call).
-/
def findViaNeighbours (visit : BI_NetPoint → List BI_NetPoint → Option (List BI_NetPoint))
    (p : BI_NetPoint) : List BI_NetPoint → List BI_NetPoint → Option (List BI_NetPoint)
  | [], points => some points
  | np :: rest, points =>
    if np.getVia = p.getVia ∧ ¬ np ∈ points then
      (visit np (points ++ [np])).bind (findViaNeighbours visit p rest)
    else
      findViaNeighbours visit p rest points

/-- The second `foreach` of `findAllConnectedNetPoints`: runs over the net
lines of the segment; the other end `p2` of each line at `p`, when not yet in
`points`, is appended and visited recursively. -/
def findLineNeighbours (visit : BI_NetPoint → List BI_NetPoint → Option (List BI_NetPoint))
    (p : BI_NetPoint) : List BI_NetLine → List BI_NetPoint → Option (List BI_NetPoint)
  | [], points => some points
  | line :: rest, points =>
    match line.getOtherPoint p with
    | some p2 =>
      if ¬ p2 ∈ points then
        (visit p2 (points ++ [p2])).bind (findLineNeighbours visit p rest)
      else
        findLineNeighbours visit p rest points
    | none => findLineNeighbours visit p rest points

/-- `BI_NetSegment::findAllConnectedNetPoints`. The C++ function is recursive
and updates `points` in place; here `points` is passed in and the updated list
is returned. The first argument bounds the depth of the recursion: the
function returns `none` when the bound is used up. -/
def findAllConnectedNetPoints (s : BI_NetSegment) :
    Nat → BI_NetPoint → List BI_NetPoint → Option (List BI_NetPoint)
  | 0, _, _ => none
  | depth + 1, p, points =>
    (if p.isAttachedToVia then
      findViaNeighbours (findAllConnectedNetPoints s depth) p s.mNetPoints points
    else some points).bind
      (findLineNeighbours (findAllConnectedNetPoints s depth) p s.mNetLines)

/-- A recursion depth that `findAllConnectedNetPoints` never exceeds on the
segment: every nested call is made for a point not visited before, and every
visited point is a net point of the segment or an end of one of its lines. -/
def maxDepth (s : BI_NetSegment) : Nat :=
  s.mNetPoints.length + 2 * s.mNetLines.length + 1

/-- `BI_NetSegment::areAllNetPointsConnectedTogether`. -/
def areAllNetPointsConnectedTogether (s : BI_NetSegment) : Bool :=
  if s.mNetPoints.length > 1 then
    match s.mNetPoints.head? with
    | some firstPoint =>
      match findAllConnectedNetPoints s s.maxDepth firstPoint [firstPoint] with
      | some points => points.length == s.mNetPoints.length
      | none => false
    | none => false
  else
    true

/-- `BI_NetSegment::checkAttributesValidity`. The net signal of the record is
never null (a segment whose signal lookup fails is not constructed, see
`load`), which leaves the cohesion check. -/
def checkAttributesValidity (s : BI_NetSegment) : Bool :=
  s.areAllNetPointsConnectedTogether

end BI_NetSegment

/-! ## Element operations and scope guards -/

/-- The element-level `addToBoard()` / `removeFromBoard()` of `BI_Via`,
`BI_NetPoint` and `BI_NetLine` ("can throw" in bi_netsegment.cpp) and the
`isAddedToBoard()` getter of the three classes. Their bodies are not among the
sources, so they are parameters: `W` is the state of all board items, an
operation either returns the new state or throws and leaves `W` as it was. -/
structure BoardItems (W : Type) where
  viaAddToBoard : BI_Via → W → Except Exception W
  viaRemoveFromBoard : BI_Via → W → Except Exception W
  netPointAddToBoard : BI_NetPoint → W → Except Exception W
  netPointRemoveFromBoard : BI_NetPoint → W → Except Exception W
  netLineAddToBoard : BI_NetLine → W → Except Exception W
  netLineRemoveFromBoard : BI_NetLine → W → Except Exception W
  viaIsAddedToBoard : BI_Via → W → Bool
  netPointIsAddedToBoard : BI_NetPoint → W → Bool
  netLineIsAddedToBoard : BI_NetLine → W → Bool

/-- The element operations undo each other: removing an element that was just
added, or adding one that was just removed, succeeds and gives back the state
before. -/
structure BoardItems.Reversible {W : Type} (ops : BoardItems W) : Prop where
  via_add_undone : ∀ v w w1, ops.viaAddToBoard v w = .ok w1 → ops.viaRemoveFromBoard v w1 = .ok w
  via_remove_undone : ∀ v w w1, ops.viaRemoveFromBoard v w = .ok w1 → ops.viaAddToBoard v w1 = .ok w
  netPoint_add_undone : ∀ p w w1,
    ops.netPointAddToBoard p w = .ok w1 → ops.netPointRemoveFromBoard p w1 = .ok w
  netPoint_remove_undone : ∀ p w w1,
    ops.netPointRemoveFromBoard p w = .ok w1 → ops.netPointAddToBoard p w1 = .ok w
  netLine_add_undone : ∀ l w w1,
    ops.netLineAddToBoard l w = .ok w1 → ops.netLineRemoveFromBoard l w1 = .ok w
  netLine_remove_undone : ∀ l w w1,
    ops.netLineRemoveFromBoard l w = .ok w1 → ops.netLineAddToBoard l w1 = .ok w

/-- The state `addElements` and `removeElements` work on: the segment and the
state of the board items. -/
structure SegmentState (W : Type) where
  seg : BI_NetSegment
  items : W

/-- Modelled from the spec: `ScopeGuardList` (scopeguardlist.h is not among
the sources). Each completed step pushes a compensating action; if a later
step throws, the compensations run in reverse order before the exception
propagates; on success the list is dismissed. The head of the list is the
action added last. -/
abbrev ScopeGuardList (σ : Type) := List (σ → σ)

/-- Modelled from the spec: what the destructor of a `ScopeGuardList` that was
not dismissed does: it runs the compensations, the one added last first. -/
def ScopeGuardList.unwind {σ : Type} (sgl : ScopeGuardList σ) (st : σ) : σ :=
  sgl.foldl (fun s f => f s) st

/-- A compensating lambda `[..](){ item->op(); list update; }`: when `op`
returns, the list update follows; when `op` throws, the lambda is left at that
point and the state stays as it is. -/
def compensate {W : Type} (op : W → Except Exception W)
    (update : BI_NetSegment → BI_NetSegment) (st : SegmentState W) : SegmentState W :=
  match op st.items with
  | .ok w => { seg := update st.seg, items := w }
  | .error _ => st

namespace BI_NetSegment

/-- The `foreach (BI_Via* via, vias)` loop of `addElements`. -/
def addElementsVias {W : Type} (ops : BoardItems W) :
    List BI_Via → SegmentState W → ScopeGuardList (SegmentState W) →
      Except (Exception × SegmentState W) (SegmentState W × ScopeGuardList (SegmentState W))
  | [], st, sgl => .ok (st, sgl)
  | via :: rest, st, sgl =>
    if via ∈ st.seg.mVias ∨ via.mNetSegment ≠ st.seg.ptr then
      .error (.LogicError, sgl.unwind st)
    else if (st.seg.getViaByUuid via.mUuid).isSome then
      .error (.RuntimeError, sgl.unwind st)
    else
      match ops.viaAddToBoard via st.items with
      | .error e => .error (e, sgl.unwind st)
      | .ok w =>
        addElementsVias ops rest
          { seg := { st.seg with mVias := st.seg.mVias ++ [via] }, items := w }
          (compensate (ops.viaRemoveFromBoard via)
            (fun seg => { seg with mVias := seg.mVias.erase via }) :: sgl)

/-- The `foreach (BI_NetPoint* netpoint, netpoints)` loop of `addElements`. -/
def addElementsNetPoints {W : Type} (ops : BoardItems W) :
    List BI_NetPoint → SegmentState W → ScopeGuardList (SegmentState W) →
      Except (Exception × SegmentState W) (SegmentState W × ScopeGuardList (SegmentState W))
  | [], st, sgl => .ok (st, sgl)
  | netpoint :: rest, st, sgl =>
    if netpoint ∈ st.seg.mNetPoints ∨ netpoint.mNetSegment ≠ st.seg.ptr then
      .error (.LogicError, sgl.unwind st)
    else if (st.seg.getNetPointByUuid netpoint.mUuid).isSome then
      .error (.RuntimeError, sgl.unwind st)
    else
      match ops.netPointAddToBoard netpoint st.items with
      | .error e => .error (e, sgl.unwind st)
      | .ok w =>
        addElementsNetPoints ops rest
          { seg := { st.seg with mNetPoints := st.seg.mNetPoints ++ [netpoint] }, items := w }
          (compensate (ops.netPointRemoveFromBoard netpoint)
            (fun seg => { seg with mNetPoints := seg.mNetPoints.erase netpoint }) :: sgl)

/-- The `foreach (BI_NetLine* netline, netlines)` loop of `addElements`. -/
def addElementsNetLines {W : Type} (ops : BoardItems W) :
    List BI_NetLine → SegmentState W → ScopeGuardList (SegmentState W) →
      Except (Exception × SegmentState W) (SegmentState W × ScopeGuardList (SegmentState W))
  | [], st, sgl => .ok (st, sgl)
  | netline :: rest, st, sgl =>
    if netline ∈ st.seg.mNetLines ∨ netline.getNetSegment ≠ st.seg.ptr then
      .error (.LogicError, sgl.unwind st)
    else if (st.seg.getNetLineByUuid netline.mUuid).isSome then
      .error (.RuntimeError, sgl.unwind st)
    else
      match ops.netLineAddToBoard netline st.items with
      | .error e => .error (e, sgl.unwind st)
      | .ok w =>
        addElementsNetLines ops rest
          { seg := { st.seg with mNetLines := st.seg.mNetLines ++ [netline] }, items := w }
          (compensate (ops.netLineRemoveFromBoard netline)
            (fun seg => { seg with mNetLines := seg.mNetLines.erase netline }) :: sgl)

/-- `BI_NetSegment::addElements`. -/
def addElements {W : Type} (ops : BoardItems W) (vias : List BI_Via)
    (netpoints : List BI_NetPoint) (netlines : List BI_NetLine)
    (st : SegmentState W) : Outcome (SegmentState W) :=
  if ¬ st.seg.mIsAddedToBoard then .error (.LogicError, st)
  else
    match addElementsVias ops vias st [] with
    | .error e => .error e
    | .ok (st1, sgl1) =>
      match addElementsNetPoints ops netpoints st1 sgl1 with
      | .error e => .error e
      | .ok (st2, sgl2) =>
        match addElementsNetLines ops netlines st2 sgl2 with
        | .error e => .error e
        | .ok (st3, sgl3) =>
          if ¬ st3.seg.areAllNetPointsConnectedTogether then
            .error (.LogicError, sgl3.unwind st3)
          else .ok st3

/-- The `foreach (BI_NetLine* netline, netlines)` loop of `removeElements`. -/
def removeElementsNetLines {W : Type} (ops : BoardItems W) :
    List BI_NetLine → SegmentState W → ScopeGuardList (SegmentState W) →
      Except (Exception × SegmentState W) (SegmentState W × ScopeGuardList (SegmentState W))
  | [], st, sgl => .ok (st, sgl)
  | netline :: rest, st, sgl =>
    if ¬ netline ∈ st.seg.mNetLines then
      .error (.LogicError, sgl.unwind st)
    else
      match ops.netLineRemoveFromBoard netline st.items with
      | .error e => .error (e, sgl.unwind st)
      | .ok w =>
        removeElementsNetLines ops rest
          { seg := { st.seg with mNetLines := st.seg.mNetLines.erase netline }, items := w }
          (compensate (ops.netLineAddToBoard netline)
            (fun seg => { seg with mNetLines := seg.mNetLines ++ [netline] }) :: sgl)

/-- The `foreach (BI_NetPoint* netpoint, netpoints)` loop of `removeElements`. -/
def removeElementsNetPoints {W : Type} (ops : BoardItems W) :
    List BI_NetPoint → SegmentState W → ScopeGuardList (SegmentState W) →
      Except (Exception × SegmentState W) (SegmentState W × ScopeGuardList (SegmentState W))
  | [], st, sgl => .ok (st, sgl)
  | netpoint :: rest, st, sgl =>
    if ¬ netpoint ∈ st.seg.mNetPoints then
      .error (.LogicError, sgl.unwind st)
    else
      match ops.netPointRemoveFromBoard netpoint st.items with
      | .error e => .error (e, sgl.unwind st)
      | .ok w =>
        removeElementsNetPoints ops rest
          { seg := { st.seg with mNetPoints := st.seg.mNetPoints.erase netpoint }, items := w }
          (compensate (ops.netPointAddToBoard netpoint)
            (fun seg => { seg with mNetPoints := seg.mNetPoints ++ [netpoint] }) :: sgl)

/-- The `foreach (BI_Via* via, vias)` loop of `removeElements`. -/
def removeElementsVias {W : Type} (ops : BoardItems W) :
    List BI_Via → SegmentState W → ScopeGuardList (SegmentState W) →
      Except (Exception × SegmentState W) (SegmentState W × ScopeGuardList (SegmentState W))
  | [], st, sgl => .ok (st, sgl)
  | via :: rest, st, sgl =>
    if ¬ via ∈ st.seg.mVias then
      .error (.LogicError, sgl.unwind st)
    else
      match ops.viaRemoveFromBoard via st.items with
      | .error e => .error (e, sgl.unwind st)
      | .ok w =>
        removeElementsVias ops rest
          { seg := { st.seg with mVias := st.seg.mVias.erase via }, items := w }
          (compensate (ops.viaAddToBoard via)
            (fun seg => { seg with mVias := seg.mVias ++ [via] }) :: sgl)

/-- `BI_NetSegment::removeElements`. -/
def removeElements {W : Type} (ops : BoardItems W) (vias : List BI_Via)
    (netpoints : List BI_NetPoint) (netlines : List BI_NetLine)
    (st : SegmentState W) : Outcome (SegmentState W) :=
  if ¬ st.seg.mIsAddedToBoard then .error (.LogicError, st)
  else
    match removeElementsNetLines ops netlines st [] with
    | .error e => .error e
    | .ok (st1, sgl1) =>
      match removeElementsNetPoints ops netpoints st1 sgl1 with
      | .error e => .error e
      | .ok (st2, sgl2) =>
        match removeElementsVias ops vias st2 sgl2 with
        | .error e => .error e
        | .ok (st3, sgl3) =>
          if ¬ st3.seg.areAllNetPointsConnectedTogether then
            .error (.LogicError, sgl3.unwind st3)
          else .ok st3

/-- The "Load all vias" loop of the constructor
`BI_NetSegment(Board&, const SExpression&)`; the elements are given as
constructed from their nodes. -/
def loadVias : List BI_Via → BI_NetSegment → Except Exception BI_NetSegment
  | [], s => .ok s
  | via :: rest, s =>
    if (s.getViaByUuid via.mUuid).isSome then .error .RuntimeError
    else loadVias rest { s with mVias := s.mVias ++ [via] }

/-- The "Load all netpoints" loop of the loading constructor. -/
def loadNetPoints : List BI_NetPoint → BI_NetSegment → Except Exception BI_NetSegment
  | [], s => .ok s
  | netpoint :: rest, s =>
    if (s.getNetPointByUuid netpoint.mUuid).isSome then .error .RuntimeError
    else loadNetPoints rest { s with mNetPoints := s.mNetPoints ++ [netpoint] }

/-- The "Load all netlines" loop of the loading constructor. -/
def loadNetLines : List BI_NetLine → BI_NetSegment → Except Exception BI_NetSegment
  | [], s => .ok s
  | netline :: rest, s =>
    if (s.getNetLineByUuid netline.mUuid).isSome then .error .RuntimeError
    else loadNetLines rest { s with mNetLines := s.mNetLines ++ [netline] }

/-- The loading constructor `BI_NetSegment(Board&, const SExpression&)`.
`netSignal` is the result of `getNetSignalByUuid` (null when the signal does
not exist); `vias`, `netpoints`, `netlines` are the elements constructed from
the child nodes, in node order. A constructor that throws constructs nothing:
the result is the exception alone. -/
def load (ptr : Nat) (uuid : Uuid) (circuit : Nat) (netSignal : Option Nat)
    (vias : List BI_Via) (netpoints : List BI_NetPoint) (netlines : List BI_NetLine) :
    Except Exception BI_NetSegment :=
  match netSignal with
  | none => .error .RuntimeError
  | some sig =>
    match loadVias vias ⟨ptr, uuid, circuit, sig, false, [], [], []⟩ with
    | .error e => .error e
    | .ok s1 =>
      match loadNetPoints netpoints s1 with
      | .error e => .error e
      | .ok s2 =>
        match loadNetLines netlines s2 with
        | .error e => .error e
        | .ok s3 =>
          if ¬ s3.areAllNetPointsConnectedTogether then .error .RuntimeError
          else if ¬ s3.checkAttributesValidity then .error .LogicError
          else .ok s3

/-- The constructor `BI_NetSegment(Board&, NetSignal&)`: an empty segment, not
added to the board. -/
def new (ptr : Nat) (uuid : Uuid) (circuit : Nat) (signal : Nat) : BI_NetSegment :=
  ⟨ptr, uuid, circuit, signal, false, [], [], []⟩

end BI_NetSegment

/-! ## NetSignal -/

/-- A `ComponentSignalInstance*`: its address and its circuit. -/
structure ComponentSignalInstance where
  ptr : Nat
  circuit : Nat
  deriving DecidableEq, Repr

/-- An `SI_NetSegment*`: its address and its circuit. -/
structure SI_NetSegment where
  ptr : Nat
  circuit : Nat
  deriving DecidableEq, Repr

/-- A `BI_NetSegment*` as a net signal holds it: the address of the segment
and its circuit. -/
structure BI_NetSegmentPtr where
  ptr : Nat
  circuit : Nat
  deriving DecidableEq, Repr

/-- A `BI_Plane*`: its address and its circuit. -/
structure BI_Plane where
  ptr : Nat
  circuit : Nat
  deriving DecidableEq, Repr

/-- The pointer `this` of a board net segment. -/
def BI_NetSegment.this (s : BI_NetSegment) : BI_NetSegmentPtr := ⟨s.ptr, s.circuit⟩

/-- An ERC message object: its text and its visibility. -/
structure ErcMsg where
  msg : String
  visible : Bool
  deriving DecidableEq, Repr

/-- State of a `NetSignal` object (the members of netsignal.cpp). `mNetClass`
is a pointer that may be null. -/
structure NetSignal where
  ptr : Nat
  mCircuit : Nat
  mIsAddedToCircuit : Bool
  mIsHighlighted : Bool
  mUuid : Uuid
  mName : String
  mHasAutoName : Bool
  mNetClass : Option Nat
  mRegisteredComponentSignals : List ComponentSignalInstance
  mRegisteredSchematicNetSegments : List SI_NetSegment
  mRegisteredBoardNetSegments : List BI_NetSegmentPtr
  mRegisteredBoardPlanes : List BI_Plane
  mErcMsgUnusedNetSignal : Option ErcMsg
  mErcMsgConnectedToLessThanTwoPins : Option ErcMsg
  deriving DecidableEq, Repr

/-- `NetClass::registerNetSignal` / `NetClass::unregisterNetSignal` ("can
throw" in netsignal.cpp). The bodies are not among the sources, so they are
parameters acting on the state `C` of the net classes; they receive the
pointer `mNetClass` and the signal. -/
structure NetClasses (C : Type) where
  registerNetSignal : Option Nat → NetSignal → C → Except Exception C
  unregisterNetSignal : Option Nat → NetSignal → C → Except Exception C

namespace NetSignal

/-- `NetSignal::getRegisteredElementsCount`. -/
def getRegisteredElementsCount (s : NetSignal) : Nat :=
  s.mRegisteredComponentSignals.length + s.mRegisteredSchematicNetSegments.length
    + s.mRegisteredBoardNetSegments.length + s.mRegisteredBoardPlanes.length

/-- `NetSignal::isUsed`. -/
def isUsed (s : NetSignal) : Bool := decide (s.getRegisteredElementsCount > 0)

/-- `NetSignal::checkAttributesValidity`. -/
def checkAttributesValidity (s : NetSignal) : Bool :=
  if s.mName.isEmpty then false
  else if s.mNetClass.isNone then false
  else true

/-- `NetSignal::updateErcMessages`. -/
def updateErcMessages (s : NetSignal) : NetSignal :=
  let unused : ErcMsg := ErcMsg.mk ("Unused net signal: \"" ++ s.mName ++ "\"") true
  let fewPins : ErcMsg :=
    ErcMsg.mk ("Net signal connected to less than two pins: \"" ++ s.mName ++ "\"") true
  let s1 : NetSignal :=
    if s.mIsAddedToCircuit ∧ ¬ s.isUsed then { s with mErcMsgUnusedNetSignal := some unused }
    else if s.mErcMsgUnusedNetSignal.isSome then { s with mErcMsgUnusedNetSignal := none }
    else s
  if s1.mIsAddedToCircuit ∧ s1.mRegisteredComponentSignals.length < 2 then
    { s1 with mErcMsgConnectedToLessThanTwoPins := some fewPins }
  else if s1.mErcMsgConnectedToLessThanTwoPins.isSome then
    { s1 with mErcMsgConnectedToLessThanTwoPins := none }
  else s1

/-- `NetSignal::addToCircuit`. -/
def addToCircuit {C : Type} (nc : NetClasses C) (st : NetSignal × C) : Outcome (NetSignal × C) :=
  if st.1.mIsAddedToCircuit ∨ st.1.isUsed then .error (.LogicError, st)
  else
    match nc.registerNetSignal st.1.mNetClass st.1 st.2 with
    | .error e => .error (e, st)
    | .ok c => .ok (updateErcMessages { st.1 with mIsAddedToCircuit := true }, c)

/-- `NetSignal::removeFromCircuit`. -/
def removeFromCircuit {C : Type} (nc : NetClasses C) (st : NetSignal × C) :
    Outcome (NetSignal × C) :=
  if ¬ st.1.mIsAddedToCircuit then .error (.LogicError, st)
  else if st.1.isUsed then .error (.RuntimeError, st)
  else
    match nc.unregisterNetSignal st.1.mNetClass st.1 st.2 with
    | .error e => .error (e, st)
    | .ok c => .ok (updateErcMessages { st.1 with mIsAddedToCircuit := false }, c)

/-- `NetSignal::registerComponentSignal`. -/
def registerComponentSignal (s : NetSignal) (signal : ComponentSignalInstance) :
    Outcome NetSignal :=
  if (¬ s.mIsAddedToCircuit) ∨ signal ∈ s.mRegisteredComponentSignals
      ∨ signal.circuit ≠ s.mCircuit then
    .error (.LogicError, s)
  else
    .ok (updateErcMessages
      { s with mRegisteredComponentSignals := s.mRegisteredComponentSignals ++ [signal] })

/-- `NetSignal::unregisterComponentSignal`. -/
def unregisterComponentSignal (s : NetSignal) (signal : ComponentSignalInstance) :
    Outcome NetSignal :=
  if (¬ s.mIsAddedToCircuit) ∨ ¬ signal ∈ s.mRegisteredComponentSignals then
    .error (.LogicError, s)
  else
    .ok (updateErcMessages
      { s with mRegisteredComponentSignals := s.mRegisteredComponentSignals.erase signal })

/-- `NetSignal::registerSchematicNetSegment`. -/
def registerSchematicNetSegment (s : NetSignal) (netsegment : SI_NetSegment) :
    Outcome NetSignal :=
  if (¬ s.mIsAddedToCircuit) ∨ netsegment ∈ s.mRegisteredSchematicNetSegments
      ∨ netsegment.circuit ≠ s.mCircuit then
    .error (.LogicError, s)
  else
    .ok (updateErcMessages
      { s with mRegisteredSchematicNetSegments :=
          s.mRegisteredSchematicNetSegments ++ [netsegment] })

/-- `NetSignal::unregisterSchematicNetSegment`. -/
def unregisterSchematicNetSegment (s : NetSignal) (netsegment : SI_NetSegment) :
    Outcome NetSignal :=
  if (¬ s.mIsAddedToCircuit) ∨ ¬ netsegment ∈ s.mRegisteredSchematicNetSegments then
    .error (.LogicError, s)
  else
    .ok (updateErcMessages
      { s with mRegisteredSchematicNetSegments :=
          s.mRegisteredSchematicNetSegments.erase netsegment })

/-- `NetSignal::registerBoardNetSegment`. -/
def registerBoardNetSegment (s : NetSignal) (netsegment : BI_NetSegmentPtr) :
    Outcome NetSignal :=
  if (¬ s.mIsAddedToCircuit) ∨ netsegment ∈ s.mRegisteredBoardNetSegments
      ∨ netsegment.circuit ≠ s.mCircuit then
    .error (.LogicError, s)
  else
    .ok (updateErcMessages
      { s with mRegisteredBoardNetSegments := s.mRegisteredBoardNetSegments ++ [netsegment] })

/-- `NetSignal::unregisterBoardNetSegment`. -/
def unregisterBoardNetSegment (s : NetSignal) (netsegment : BI_NetSegmentPtr) :
    Outcome NetSignal :=
  if (¬ s.mIsAddedToCircuit) ∨ ¬ netsegment ∈ s.mRegisteredBoardNetSegments then
    .error (.LogicError, s)
  else
    .ok (updateErcMessages
      { s with mRegisteredBoardNetSegments := s.mRegisteredBoardNetSegments.erase netsegment })

/-- `NetSignal::registerBoardPlane`. -/
def registerBoardPlane (s : NetSignal) (plane : BI_Plane) : Outcome NetSignal :=
  if (¬ s.mIsAddedToCircuit) ∨ plane ∈ s.mRegisteredBoardPlanes
      ∨ plane.circuit ≠ s.mCircuit then
    .error (.LogicError, s)
  else
    .ok (updateErcMessages
      { s with mRegisteredBoardPlanes := s.mRegisteredBoardPlanes ++ [plane] })

/-- `NetSignal::unregisterBoardPlane`. -/
def unregisterBoardPlane (s : NetSignal) (plane : BI_Plane) : Outcome NetSignal :=
  if (¬ s.mIsAddedToCircuit) ∨ ¬ plane ∈ s.mRegisteredBoardPlanes then
    .error (.LogicError, s)
  else
    .ok (updateErcMessages
      { s with mRegisteredBoardPlanes := s.mRegisteredBoardPlanes.erase plane })

end NetSignal

/-! ## Reassigning the net signal of a segment -/

/-- The objects `BI_NetSegment::setNetSignal` touches: the segment, the signal
`*mNetSignal` it refers to when the call starts, and the argument `netsignal`.
When the argument is the current signal itself, both signal fields stand for
the same object. -/
structure SetNetSignalState where
  seg : BI_NetSegment
  current : NetSignal
  netsignal : NetSignal
  deriving DecidableEq, Repr

/-- `BI_NetSegment::setNetSignal`. The scope guard registers the segment with
the old signal again when registering with the new one throws. -/
def BI_NetSegment.setNetSignal (st : SetNetSignalState) : Outcome SetNetSignalState :=
  if st.netsignal.ptr ≠ st.seg.mNetSignal then
    if (st.seg.isUsed ∧ st.seg.mIsAddedToBoard) ∨ st.netsignal.mCircuit ≠ st.seg.circuit then
      .error (.LogicError, st)
    else if st.seg.mIsAddedToBoard then
      match st.current.unregisterBoardNetSegment st.seg.this with
      | .error (e, _) => .error (e, st)
      | .ok current1 =>
        match st.netsignal.registerBoardNetSegment st.seg.this with
        | .error (e, _) =>
          .error (e, { st with
            current := (current1.registerBoardNetSegment st.seg.this).state })
        | .ok netsignal1 =>
          .ok { seg := { st.seg with mNetSignal := st.netsignal.ptr },
                current := current1, netsignal := netsignal1 }
    else
      .ok { st with seg := { st.seg with mNetSignal := st.netsignal.ptr } }
  else .ok st

/-! ## A simple board for examples -/

/-- A board on which an item has no state but its added-to-board flag. -/
structure Flags where
  vias : BI_Via → Bool
  netpoints : BI_NetPoint → Bool
  netlines : BI_NetLine → Bool

/-- Element operations on `Flags`: adding an item that is added, or removing
one that is not, throws a logic error (the guard of every `addToBoard` and
`removeFromBoard` in the sources); otherwise the flag is switched. -/
def flagItems : BoardItems Flags where
  viaAddToBoard v w :=
    if w.vias v then .error .LogicError else .ok { w with vias := Function.update w.vias v true }
  viaRemoveFromBoard v w :=
    if w.vias v then .ok { w with vias := Function.update w.vias v false } else .error .LogicError
  netPointAddToBoard p w :=
    if w.netpoints p then .error .LogicError
    else .ok { w with netpoints := Function.update w.netpoints p true }
  netPointRemoveFromBoard p w :=
    if w.netpoints p then .ok { w with netpoints := Function.update w.netpoints p false }
    else .error .LogicError
  netLineAddToBoard l w :=
    if w.netlines l then .error .LogicError
    else .ok { w with netlines := Function.update w.netlines l true }
  netLineRemoveFromBoard l w :=
    if w.netlines l then .ok { w with netlines := Function.update w.netlines l false }
    else .error .LogicError
  viaIsAddedToBoard v w := w.vias v
  netPointIsAddedToBoard p w := w.netpoints p
  netLineIsAddedToBoard l w := w.netlines l

/-! ## Sequences of batch calls -/

/-- A call of one of the two batch operations, with its arguments. -/
inductive BatchCall where
  | addElements (vias : List BI_Via) (netpoints : List BI_NetPoint) (netlines : List BI_NetLine)
  | removeElements (vias : List BI_Via) (netpoints : List BI_NetPoint)
      (netlines : List BI_NetLine)

/-- Performs the call. -/
def BatchCall.run {W : Type} (ops : BoardItems W) :
    BatchCall → SegmentState W → Outcome (SegmentState W)
  | .addElements vias netpoints netlines, st =>
    BI_NetSegment.addElements ops vias netpoints netlines st
  | .removeElements vias netpoints netlines, st =>
    BI_NetSegment.removeElements ops vias netpoints netlines st

/-- The outcomes of a sequence of calls made one after the other, each on the
state the previous one left behind (whether it returned or threw). -/
def BatchCall.trace {W : Type} (ops : BoardItems W) :
    List BatchCall → SegmentState W → List (Outcome (SegmentState W))
  | [], _ => []
  | c :: rest, st => c.run ops st :: BatchCall.trace ops rest (c.run ops st).state

/-! ## Scenario A of the specification -/

namespace ScenarioA

/-- A free net point of segment 100 with address and UUID `n`. -/
def point (n : Nat) : BI_NetPoint := ⟨n, 100, n, (0, 0), 0, none, none⟩

def P1 : BI_NetPoint := point 1
def P2 : BI_NetPoint := point 2
def P3 : BI_NetPoint := point 3
def L1 : BI_NetLine := ⟨11, 11, P1, P2, 1⟩
def L2 : BI_NetLine := ⟨12, 12, P2, P3, 1⟩

/-- The segment of scenario A: P1 - P2 - P3 joined by L1 and L2, added to the
board. -/
def segment : BI_NetSegment := ⟨100, 5, 0, 7, true, [], [P1, P2, P3], [L1, L2]⟩

/-- Segment 100 without elements, added to the board. -/
def empty : BI_NetSegment := ⟨100, 5, 0, 7, true, [], [], []⟩

/-- A board on which nothing is added yet. -/
def noFlags : Flags := ⟨fun _ => false, fun _ => false, fun _ => false⟩

/-- A board on which exactly the elements of `segment` are added. -/
def flags : Flags :=
  ⟨fun _ => false, fun p => decide (p ∈ [P1, P2, P3]), fun l => decide (l ∈ [L1, L2])⟩

end ScenarioA

/-! ## Notions used in the proofs -/

section Traversal
variable {α : Type} [DecidableEq α]

/-- The shape shared by the two loops of `findAllConnectedNetPoints`: run
over the candidates `q`; each one not yet in `points` is appended and visited.
Used to reason about the loops, see `findViaNeighbours_eq`. -/
def visitAll (visit : α → List α → Option (List α)) : List α → List α → Option (List α)
  | [], points => some points
  | q :: rest, points =>
    if q ∈ points then visitAll visit rest points
    else (visit q (points ++ [q])).bind (visitAll visit rest)

/-- The traversal `findAllConnectedNetPoints` performs, over an arbitrary
successor function; see `findAllConnectedNetPoints_eq`. -/
def traverse (succs : α → List α) : Nat → α → List α → Option (List α)
  | 0, _, _ => none
  | depth + 1, p, points => visitAll (traverse succs depth) (succs p) points

/-- Reachability along the successor function. -/
def Reach (succs : α → List α) : α → α → Prop :=
  Relation.ReflTransGen (fun a b => b ∈ succs a)

/-- What a visit guarantees: it only adds points, keeps the list free of
duplicates, adds only points reachable from `p`, and the successors of `p` and
of every added point are in the result. -/
def VisitSound (succs : α → List α) (visit : α → List α → Option (List α)) : Prop :=
  ∀ p points r, visit p points = some r →
    points ⊆ r ∧ (points.Nodup → r.Nodup) ∧
    (∀ x ∈ r, x ∈ points ∨ Reach succs p x) ∧
    (∀ x, (x = p ∨ (x ∈ r ∧ x ∉ points)) → ∀ y ∈ succs x, y ∈ r)

/-- Number of entries of `U` not yet in `points`. -/
def unvisited (U points : List α) : Nat := U.countP (fun x => decide (x ∉ points))

end Traversal

namespace BI_NetSegment

/-- The points `findAllConnectedNetPoints` steps to from `p`, in the order of
its two loops. -/
def neighbours (s : BI_NetSegment) (p : BI_NetPoint) : List BI_NetPoint :=
  (if p.isAttachedToVia then s.mNetPoints.filter (fun np => decide (np.getVia = p.getVia))
    else [])
  ++ s.mNetLines.filterMap (fun line => line.getOtherPoint p)

/-- Every point the traversal can ever visit: the net points of the segment
and the ends of its lines. -/
def visitable (s : BI_NetSegment) : List BI_NetPoint :=
  s.mNetPoints ++ (s.mNetLines.map (fun l => l.mStartPoint)
    ++ s.mNetLines.map (fun l => l.mEndPoint))

/-- A net line of the segment joins `a` and `b`, or both are attached to the
same via; `a` and `b` are net points of the segment. -/
def Adjacent (s : BI_NetSegment) (a b : BI_NetPoint) : Prop :=
  a ∈ s.mNetPoints ∧ b ∈ s.mNetPoints ∧
    ((∃ l ∈ s.mNetLines, (l.mStartPoint = a ∧ l.mEndPoint = b) ∨
        (l.mStartPoint = b ∧ l.mEndPoint = a)) ∨
      (∃ via, a.getVia = some via ∧ b.getVia = some via))

end BI_NetSegment

namespace BI_NetSegment

/-- A property of the state and the scope guard list that every completed step
of the loops of `addElements` keeps. -/
structure AddStep {W : Type} (ops : BoardItems W)
    (Inv : SegmentState W → ScopeGuardList (SegmentState W) → Prop) : Prop where
  via : ∀ (x : BI_Via) (st : SegmentState W) (sgl : ScopeGuardList (SegmentState W))
    (w : W),
    Inv st sgl → x ∉ st.seg.mVias → x.mNetSegment = st.seg.ptr →
    st.seg.getViaByUuid x.mUuid = none → ops.viaAddToBoard x st.items = .ok w →
    Inv { seg := { st.seg with mVias := st.seg.mVias ++ [x] }, items := w }
      (compensate (ops.viaRemoveFromBoard x)
        (fun seg => { seg with mVias := seg.mVias.erase x }) :: sgl)
  netPoint : ∀ (x : BI_NetPoint) (st : SegmentState W) (sgl : ScopeGuardList (SegmentState W))
    (w : W),
    Inv st sgl → x ∉ st.seg.mNetPoints → x.mNetSegment = st.seg.ptr →
    st.seg.getNetPointByUuid x.mUuid = none → ops.netPointAddToBoard x st.items = .ok w →
    Inv { seg := { st.seg with mNetPoints := st.seg.mNetPoints ++ [x] }, items := w }
      (compensate (ops.netPointRemoveFromBoard x)
        (fun seg => { seg with mNetPoints := seg.mNetPoints.erase x }) :: sgl)
  netLine : ∀ (x : BI_NetLine) (st : SegmentState W) (sgl : ScopeGuardList (SegmentState W))
    (w : W),
    Inv st sgl → x ∉ st.seg.mNetLines → x.getNetSegment = st.seg.ptr →
    st.seg.getNetLineByUuid x.mUuid = none → ops.netLineAddToBoard x st.items = .ok w →
    Inv { seg := { st.seg with mNetLines := st.seg.mNetLines ++ [x] }, items := w }
      (compensate (ops.netLineRemoveFromBoard x)
        (fun seg => { seg with mNetLines := seg.mNetLines.erase x }) :: sgl)

/-- A property of the state and the scope guard list that every completed step
of the loops of `removeElements` keeps. -/
structure RemoveStep {W : Type} (ops : BoardItems W)
    (Inv : SegmentState W → ScopeGuardList (SegmentState W) → Prop) : Prop where
  via : ∀ (x : BI_Via) (st : SegmentState W) (sgl : ScopeGuardList (SegmentState W))
    (w : W),
    Inv st sgl → x ∈ st.seg.mVias → ops.viaRemoveFromBoard x st.items = .ok w →
    Inv { seg := { st.seg with mVias := st.seg.mVias.erase x }, items := w }
      (compensate (ops.viaAddToBoard x)
        (fun seg => { seg with mVias := seg.mVias ++ [x] }) :: sgl)
  netPoint : ∀ (x : BI_NetPoint) (st : SegmentState W) (sgl : ScopeGuardList (SegmentState W))
    (w : W),
    Inv st sgl → x ∈ st.seg.mNetPoints → ops.netPointRemoveFromBoard x st.items = .ok w →
    Inv { seg := { st.seg with mNetPoints := st.seg.mNetPoints.erase x }, items := w }
      (compensate (ops.netPointAddToBoard x)
        (fun seg => { seg with mNetPoints := seg.mNetPoints ++ [x] }) :: sgl)
  netLine : ∀ (x : BI_NetLine) (st : SegmentState W) (sgl : ScopeGuardList (SegmentState W))
    (w : W),
    Inv st sgl → x ∈ st.seg.mNetLines → ops.netLineRemoveFromBoard x st.items = .ok w →
    Inv { seg := { st.seg with mNetLines := st.seg.mNetLines.erase x }, items := w }
      (compensate (ops.netLineAddToBoard x)
        (fun seg => { seg with mNetLines := seg.mNetLines ++ [x] }) :: sgl)

/-- What a loop of a batch operation guarantees for a property `Inv` kept by
its steps: when it throws, the state left behind is the unwinding of a state
and scope guard list with `Inv`; when it completes, `Inv` holds. -/
def LoopResult {W : Type} (Inv : SegmentState W → ScopeGuardList (SegmentState W) → Prop) :
    Except (Exception × SegmentState W) (SegmentState W × ScopeGuardList (SegmentState W)) → Prop
  | .error (_, s) => ∃ st1 sgl1, Inv st1 sgl1 ∧ s = ScopeGuardList.unwind sgl1 st1
  | .ok (s1, sgl1) => Inv s1 sgl1

/-- What a batch operation guarantees for a property `Inv` kept by its steps:
when it throws, the state left behind is the unwinding of a state and scope
guard list with `Inv`; when it returns, `Inv` holds for the final state and
the final scope guard list, and the segment passed the cohesion check. -/
def BatchResult {W : Type} (Inv : SegmentState W → ScopeGuardList (SegmentState W) → Prop) :
    Outcome (SegmentState W) → Prop
  | .error (_, s) => ∃ st1 sgl1, Inv st1 sgl1 ∧ s = ScopeGuardList.unwind sgl1 st1
  | .ok s1 => ∃ sgl1, Inv s1 sgl1 ∧ s1.seg.areAllNetPointsConnectedTogether = true

end BI_NetSegment

namespace BI_NetSegment

/-- The two segments agree in everything but the order of the elements in the
three element lists. -/
def SameElements (a b : BI_NetSegment) : Prop :=
  a.ptr = b.ptr ∧ a.mUuid = b.mUuid ∧ a.circuit = b.circuit ∧ a.mNetSignal = b.mNetSignal ∧
  a.mIsAddedToBoard = b.mIsAddedToBoard ∧ a.mVias.Perm b.mVias ∧
  a.mNetPoints.Perm b.mNetPoints ∧ a.mNetLines.Perm b.mNetLines

end BI_NetSegment

/-- The two states have the same board item state and the same segment up to
the order of the element lists. -/
def SegmentState.Restored {W : Type} (a b : SegmentState W) : Prop :=
  a.items = b.items ∧ a.seg.SameElements b.seg

namespace BI_NetSegment

/-- No two vias, no two net points and no two net lines of the segment have
the same UUID. -/
def UuidsUnique (s : BI_NetSegment) : Prop :=
  (s.mVias.map (fun x => x.mUuid)).Nodup ∧ (s.mNetPoints.map (fun x => x.mUuid)).Nodup ∧
  (s.mNetLines.map (fun x => x.mUuid)).Nodup

/-- Each element list of `a` is contained in the corresponding list of `b`,
counting repetitions and up to order. -/
def ElementsWithin (a b : BI_NetSegment) : Prop :=
  a.mVias.Subperm b.mVias ∧ a.mNetPoints.Subperm b.mNetPoints ∧
  a.mNetLines.Subperm b.mNetLines

end BI_NetSegment

/-! ## Elements of different kinds with one UUID -/

namespace SharedUuid

/-- A via of segment 100 with the UUID of `ScenarioA.P1`. -/
def V : BI_Via := ⟨21, 100, 1⟩

/-- Segment 100 holding the via `V` only, added to the board. -/
def segment : BI_NetSegment := ⟨100, 5, 0, 7, true, [V], [], []⟩

/-- A board on which exactly `V` is added. -/
def flags : Flags := ⟨fun v => decide (v = V), fun _ => false, fun _ => false⟩

/-- A net point of segment 100, other than `ScenarioA.P1`, with the UUID of
`ScenarioA.P1`. -/
def P : BI_NetPoint := ⟨31, 100, 1, (5, 5), 0, none, none⟩

end SharedUuid

namespace BI_NetSegment

/-- The batch holds an element whose UUID is the UUID of an element of its
kind in the segment. -/
def UuidCollision (s : BI_NetSegment) (vias : List BI_Via) (netpoints : List BI_NetPoint)
    (netlines : List BI_NetLine) : Prop :=
  (∃ x ∈ vias, ∃ y ∈ s.mVias, y.mUuid = x.mUuid) ∨
  (∃ x ∈ netpoints, ∃ y ∈ s.mNetPoints, y.mUuid = x.mUuid) ∨
  (∃ x ∈ netlines, ∃ y ∈ s.mNetLines, y.mUuid = x.mUuid)

end BI_NetSegment

namespace BI_NetSegment

/-- The batch holds an element that is already in the segment, that belongs to
another segment, or whose UUID is the UUID of an element of its kind in the
segment. -/
def Offending (s : BI_NetSegment) (vias : List BI_Via) (netpoints : List BI_NetPoint)
    (netlines : List BI_NetLine) : Prop :=
  (∃ x ∈ vias, x ∈ s.mVias ∨ x.mNetSegment ≠ s.ptr ∨ ∃ y ∈ s.mVias, y.mUuid = x.mUuid) ∨
  (∃ x ∈ netpoints, x ∈ s.mNetPoints ∨ x.mNetSegment ≠ s.ptr ∨
    ∃ y ∈ s.mNetPoints, y.mUuid = x.mUuid) ∨
  (∃ x ∈ netlines, x ∈ s.mNetLines ∨ x.getNetSegment ≠ s.ptr ∨
    ∃ y ∈ s.mNetLines, y.mUuid = x.mUuid)

end BI_NetSegment

/-! ## Scenario D of the specification -/

namespace ScenarioD

/-- A component signal instance of circuit 0. -/
def pin : ComponentSignalInstance := ⟨41, 0⟩

/-- A second component signal instance of circuit 0. -/
def pin2 : ComponentSignalInstance := ⟨42, 0⟩

/-- A net signal of circuit 0, added to the circuit, with `pin` registered. -/
def signal : NetSignal :=
  { ptr := 7, mCircuit := 0, mIsAddedToCircuit := true, mIsHighlighted := false, mUuid := 70,
    mName := "N1", mHasAutoName := false, mNetClass := some 1,
    mRegisteredComponentSignals := [pin], mRegisteredSchematicNetSegments := [],
    mRegisteredBoardNetSegments := [], mRegisteredBoardPlanes := [],
    mErcMsgUnusedNetSignal := none, mErcMsgConnectedToLessThanTwoPins := none }

/-- A second net signal of circuit 0, added to the circuit, without
registrants. -/
def other : NetSignal :=
  { ptr := 8, mCircuit := 0, mIsAddedToCircuit := true, mIsHighlighted := false, mUuid := 80,
    mName := "N2", mHasAutoName := false, mNetClass := some 1,
    mRegisteredComponentSignals := [], mRegisteredSchematicNetSegments := [],
    mRegisteredBoardNetSegments := [], mRegisteredBoardPlanes := [],
    mErcMsgUnusedNetSignal := none, mErcMsgConnectedToLessThanTwoPins := none }

/-- Net classes that accept every registration. -/
def netClasses : NetClasses Unit := ⟨fun _ _ c => .ok c, fun _ _ c => .ok c⟩

end ScenarioD

namespace ScenarioD

/-- The net signal (address 7) of the segment of scenario A, with the segment
registered. -/
def current : NetSignal :=
  { ptr := 7, mCircuit := 0, mIsAddedToCircuit := true, mIsHighlighted := false, mUuid := 70,
    mName := "N1", mHasAutoName := false, mNetClass := some 1,
    mRegisteredComponentSignals := [pin], mRegisteredSchematicNetSegments := [],
    mRegisteredBoardNetSegments := [ScenarioA.segment.this], mRegisteredBoardPlanes := [],
    mErcMsgUnusedNetSignal := none, mErcMsgConnectedToLessThanTwoPins := none }

/-- The segment of scenario A, its net signal, and the signal `other` it is to
be given. -/
def reassign : SetNetSignalState := ⟨ScenarioA.segment, current, other⟩

/-- An empty segment not added to the board, its net signal, and the signal
`other` it is to be given. -/
def reassignEmpty : SetNetSignalState := ⟨BI_NetSegment.new 100 5 0 7, signal, other⟩

end ScenarioD

namespace ScenarioD

/-- The empty segment 100 added to the board, its net signal holding its
registration, and the signal `other` it is to be given. -/
def reassignAdded : SetNetSignalState := ⟨ScenarioA.empty, current, other⟩

/-- Segment 100 added to the board and holding one via, its net signal holding
its registration, and the signal `other` it is to be given. -/
def reassignUsed : SetNetSignalState := ⟨SharedUuid.segment, current, other⟩

end ScenarioD

/-! ## S-expressions -/

/-- Modelled from the spec: the S-expression tree of the file format
(sexpression.h is not among the sources): a node is a value (here a UUID, a
boolean or a string) or a named list of child nodes. -/
inductive SExpression where
  | uuid (value : Uuid)
  | bool (value : Bool)
  | string (value : String)
  | list (name : String) (children : List SExpression)

namespace SExpression

/-- Modelled from the spec: `SExpression::getChildren()`, the child nodes. -/
def getChildren : SExpression → List SExpression
  | .list _ children => children
  | _ => []

/-- Modelled from the spec: the name of a list node. -/
def isList (name : String) : SExpression → Bool
  | .list n _ => n == name
  | _ => false

/-- Modelled from the spec: `SExpression::getChildren(name)`, the child lists
with the given name, in their order. -/
def getChildrenNamed (node : SExpression) (name : String) : List SExpression :=
  node.getChildren.filter (isList name)

/-- Modelled from the spec: `SExpression::getChildByIndex`; a missing child
is a format error. -/
def getChildByIndex (node : SExpression) (index : Nat) : Except Exception SExpression :=
  match node.getChildren.get? index with
  | some child => .ok child
  | none => .error .RuntimeError

/-- Modelled from the spec: `SExpression::getChildByPath` for a path of one
name: the first child list with that name; a missing child is a format error.
-/
def getChildByPath (node : SExpression) (name : String) : Except Exception SExpression :=
  match node.getChildren.find? (isList name) with
  | some child => .ok child
  | none => .error .RuntimeError

/-- `deserializeFromSExpression<Uuid>` (uuid.h): a node that is not a UUID is
a format error. -/
def getUuid : SExpression → Except Exception Uuid
  | .uuid value => .ok value
  | _ => .error .RuntimeError

/-- Modelled from the spec: `getValue<bool>()`. -/
def getBool : SExpression → Except Exception Bool
  | .bool value => .ok value
  | _ => .error .RuntimeError

/-- Modelled from the spec: `getValue<QString>(throwIfEmpty)`: with
`throwIfEmpty` an empty string is a format error. -/
def getString (throwIfEmpty : Bool) : SExpression → Except Exception String
  | .string value => if throwIfEmpty ∧ value.isEmpty then .error .RuntimeError else .ok value
  | _ => .error .RuntimeError

/-- Modelled from the spec: `getValueByPath<T>(name)`: the value of the first
child of the child list `name`. -/
def getValueByPath {α : Type} (node : SExpression) (name : String)
    (getValue : SExpression → Except Exception α) : Except Exception α :=
  match node.getChildByPath name with
  | .error e => .error e
  | .ok child =>
    match child.getChildByIndex 0 with
    | .error e => .error e
    | .ok value => getValue value

/-- Modelled from the spec: `SExpression::appendChild(child)`. -/
def appendChild : SExpression → SExpression → SExpression
  | .list name children, child => .list name (children ++ [child])
  | node, _ => node

/-- Modelled from the spec: `SExpression::appendChild(name, value, linebreak)`:
appends the list `name` holding the value (the line break is layout only). -/
def appendNamed (node : SExpression) (name : String) (value : SExpression) : SExpression :=
  node.appendChild (.list name [value])

end SExpression

/-! ## More of NetSignal: name, construction, persistence -/

/-- A Qt signal emitted by a net signal, with its argument. -/
inductive Emitted where
  | nameChanged (name : String)
  | highlightedChanged (highlighted : Bool)
  deriving DecidableEq, Repr

/-- `Circuit::getNetClassByUuid` and `NetClass::getUuid`, whose bodies are not
among the sources, as parameters: the address of the net class of the circuit
with a UUID (null when there is none), and the UUID of the net class at an
address. -/
structure CircuitNetClasses where
  getNetClassByUuid : Uuid → Option Nat
  getUuid : Nat → Uuid

namespace NetSignal

/-- `NetSignal::setName`. Returns the new state together with the Qt signals
emitted during the call, in order. -/
def setName (s : NetSignal) (name : String) (isAutoName : Bool) :
    Except (Exception × NetSignal) (NetSignal × List Emitted) :=
  if name = s.mName ∧ isAutoName = s.mHasAutoName then .ok (s, [])
  else if name.isEmpty then .error (.RuntimeError, s)
  else
    .ok (updateErcMessages { s with mName := name, mHasAutoName := isAutoName },
      [Emitted.nameChanged name])

/-- The constructor `NetSignal(Circuit&, NetClass&, const QString&, bool)`;
`ptr` is the address of the new object and `uuid` the value of
`Uuid::createRandom()`. -/
def new (ptr : Nat) (circuit : Nat) (uuid : Uuid) (netclass : Nat) (name : String)
    (autoName : Bool) : Except Exception NetSignal :=
  let s : NetSignal :=
    { ptr := ptr, mCircuit := circuit, mIsAddedToCircuit := false, mIsHighlighted := false,
      mUuid := uuid, mName := name, mHasAutoName := autoName, mNetClass := some netclass,
      mRegisteredComponentSignals := [], mRegisteredSchematicNetSegments := [],
      mRegisteredBoardNetSegments := [], mRegisteredBoardPlanes := [],
      mErcMsgUnusedNetSignal := none, mErcMsgConnectedToLessThanTwoPins := none }
  if ¬ s.checkAttributesValidity then .error .LogicError else .ok s

/-- The constructor `NetSignal(Circuit&, const SExpression&)`; `ptr` is the
address of the new object. -/
def load (ptr : Nat) (circuit : Nat) (classes : CircuitNetClasses) (node : SExpression) :
    Except Exception NetSignal :=
  match (node.getChildByIndex 0).bind SExpression.getUuid with
  | .error e => .error e
  | .ok uuid =>
    match node.getValueByPath "name" (SExpression.getString true) with
    | .error e => .error e
    | .ok name =>
      match node.getValueByPath "auto" SExpression.getBool with
      | .error e => .error e
      | .ok autoName =>
        match node.getValueByPath "netclass" SExpression.getUuid with
        | .error e => .error e
        | .ok netclassUuid =>
          let s : NetSignal :=
            { ptr := ptr, mCircuit := circuit, mIsAddedToCircuit := false,
              mIsHighlighted := false, mUuid := uuid, mName := name,
              mHasAutoName := autoName,
              mNetClass := classes.getNetClassByUuid netclassUuid,
              mRegisteredComponentSignals := [], mRegisteredSchematicNetSegments := [],
              mRegisteredBoardNetSegments := [], mRegisteredBoardPlanes := [],
              mErcMsgUnusedNetSignal := none, mErcMsgConnectedToLessThanTwoPins := none }
          if s.mNetClass.isNone then .error .RuntimeError
          else if ¬ s.checkAttributesValidity then .error .LogicError
          else .ok s

/-- `NetSignal::serialize`: appends the children to `root`. -/
def serialize (classes : CircuitNetClasses) (s : NetSignal) (root : SExpression) :
    Except Exception SExpression :=
  if ¬ s.checkAttributesValidity then .error .LogicError
  else
    match s.mNetClass with
    | none => .error .LogicError
    | some netclass =>
      .ok ((((root.appendChild (.uuid s.mUuid)).appendNamed "auto" (.bool s.mHasAutoName)
        ).appendNamed "name" (.string s.mName)
        ).appendNamed "netclass" (.uuid (classes.getUuid netclass)))

end NetSignal

/-- A call of a public operation of a net signal, with its arguments. -/
inductive NetSignalCall where
  | setName (name : String) (isAutoName : Bool)
  | addToCircuit
  | removeFromCircuit
  | registerComponentSignal (signal : ComponentSignalInstance)
  | unregisterComponentSignal (signal : ComponentSignalInstance)
  | registerSchematicNetSegment (netsegment : SI_NetSegment)
  | unregisterSchematicNetSegment (netsegment : SI_NetSegment)
  | registerBoardNetSegment (netsegment : BI_NetSegmentPtr)
  | unregisterBoardNetSegment (netsegment : BI_NetSegmentPtr)
  | registerBoardPlane (plane : BI_Plane)
  | unregisterBoardPlane (plane : BI_Plane)

/-- Runs an operation of the net signal alone on the pair of the signal and
the net classes. -/
def NetSignalCall.lift {C : Type} (o : Outcome NetSignal) (c : C) : Outcome (NetSignal × C) :=
  match o with
  | .ok s => .ok (s, c)
  | .error (e, s) => .error (e, (s, c))

/-- Performs the call on the signal and the net classes. -/
def NetSignalCall.run {C : Type} (nc : NetClasses C) :
    NetSignalCall → NetSignal × C → Outcome (NetSignal × C)
  | .setName name isAutoName, st =>
    match st.1.setName name isAutoName with
    | .ok (s, _) => .ok (s, st.2)
    | .error (e, s) => .error (e, (s, st.2))
  | .addToCircuit, st => NetSignal.addToCircuit nc st
  | .removeFromCircuit, st => NetSignal.removeFromCircuit nc st
  | .registerComponentSignal e, st => NetSignalCall.lift (st.1.registerComponentSignal e) st.2
  | .unregisterComponentSignal e, st =>
    NetSignalCall.lift (st.1.unregisterComponentSignal e) st.2
  | .registerSchematicNetSegment e, st =>
    NetSignalCall.lift (st.1.registerSchematicNetSegment e) st.2
  | .unregisterSchematicNetSegment e, st =>
    NetSignalCall.lift (st.1.unregisterSchematicNetSegment e) st.2
  | .registerBoardNetSegment e, st => NetSignalCall.lift (st.1.registerBoardNetSegment e) st.2
  | .unregisterBoardNetSegment e, st =>
    NetSignalCall.lift (st.1.unregisterBoardNetSegment e) st.2
  | .registerBoardPlane e, st => NetSignalCall.lift (st.1.registerBoardPlane e) st.2
  | .unregisterBoardPlane e, st => NetSignalCall.lift (st.1.unregisterBoardPlane e) st.2

/-- The outcomes of a sequence of calls on a net signal made one after the
other, each on the state the previous one left behind. -/
def NetSignalCall.trace {C : Type} (nc : NetClasses C) :
    List NetSignalCall → NetSignal × C → List (Outcome (NetSignal × C))
  | [], _ => []
  | c :: rest, st => c.run nc st :: NetSignalCall.trace nc rest (c.run nc st).state

/-- An ERC message is present: the object exists and is visible. -/
def ErcMsg.isPresent : Option ErcMsg → Bool
  | some msg => msg.visible
  | none => false

namespace NetSignal

/-- The two diagnostics agree with the registrations: "unused net signal" is
present exactly when the signal is added to the circuit and has no registrant,
"connected to less than two pins" exactly when the signal is added to the
circuit and has fewer than two component signals. -/
def ErcUpToDate (s : NetSignal) : Prop :=
  (ErcMsg.isPresent s.mErcMsgUnusedNetSignal = true ↔
    s.mIsAddedToCircuit = true ∧ s.getRegisteredElementsCount = 0) ∧
  (ErcMsg.isPresent s.mErcMsgConnectedToLessThanTwoPins = true ↔
    s.mIsAddedToCircuit = true ∧ s.mRegisteredComponentSignals.length < 2)

/-- The name is not empty and the net class pointer is not null. -/
def Valid (s : NetSignal) : Prop :=
  s.mName.isEmpty = false ∧ s.mNetClass.isSome = true

end NetSignal

/-! ## Adding a segment to the board and removing it -/

/-- The objects `BI_NetSegment::addToBoard` and `removeFromBoard` touch: the
segment, the state of the board items, and the net signal `*mNetSignal` of the
segment. -/
structure BoardState (W : Type) where
  seg : BI_NetSegment
  items : W
  signal : NetSignal

/-- A compensating lambda `[item](){ item->op(); }`: when `op` throws, the
state stays as it is. -/
def compensateItem {W : Type} (op : W → Except Exception W) (st : BoardState W) :
    BoardState W :=
  match op st.items with
  | .ok w => { st with items := w }
  | .error _ => st

namespace BI_NetSegment

/-- A `foreach` loop of `addToBoard` or `removeFromBoard`: runs `op` on every
element of the list and adds the compensation `undo` for it to the scope
guard list. -/
def forEachElement {W α : Type} (op undo : α → W → Except Exception W) :
    List α → BoardState W → ScopeGuardList (BoardState W) →
      Except (Exception × BoardState W) (BoardState W × ScopeGuardList (BoardState W))
  | [], st, sgl => .ok (st, sgl)
  | x :: rest, st, sgl =>
    match op x st.items with
    | .error e => .error (e, sgl.unwind st)
    | .ok w => forEachElement op undo rest { st with items := w } (compensateItem (undo x) :: sgl)

/-- `BI_NetSegment::addToBoard`. -/
def addToBoard {W : Type} (ops : BoardItems W) (st : BoardState W) : Outcome (BoardState W) :=
  if st.seg.mIsAddedToBoard then .error (.LogicError, st)
  else
    match st.signal.registerBoardNetSegment st.seg.this with
    | .error (e, _) => .error (e, st)
    | .ok signal1 =>
      match forEachElement ops.viaAddToBoard ops.viaRemoveFromBoard st.seg.mVias
          { st with signal := signal1 }
          [fun s => { s with signal := (s.signal.unregisterBoardNetSegment s.seg.this).state }]
        with
      | .error e => .error e
      | .ok (st1, sgl1) =>
        match forEachElement ops.netPointAddToBoard ops.netPointRemoveFromBoard
            st.seg.mNetPoints st1 sgl1 with
        | .error e => .error e
        | .ok (st2, sgl2) =>
          match forEachElement ops.netLineAddToBoard ops.netLineRemoveFromBoard
              st.seg.mNetLines st2 sgl2 with
          | .error e => .error e
          | .ok (st3, _) => .ok { st3 with seg := { st3.seg with mIsAddedToBoard := true } }

/-- `BI_NetSegment::removeFromBoard`. -/
def removeFromBoard {W : Type} (ops : BoardItems W) (st : BoardState W) :
    Outcome (BoardState W) :=
  if ¬ st.seg.mIsAddedToBoard then .error (.LogicError, st)
  else
    match forEachElement ops.netLineRemoveFromBoard ops.netLineAddToBoard st.seg.mNetLines
        st [] with
    | .error e => .error e
    | .ok (st1, sgl1) =>
      match forEachElement ops.netPointRemoveFromBoard ops.netPointAddToBoard
          st.seg.mNetPoints st1 sgl1 with
      | .error e => .error e
      | .ok (st2, sgl2) =>
        match forEachElement ops.viaRemoveFromBoard ops.viaAddToBoard st.seg.mVias st2 sgl2 with
        | .error e => .error e
        | .ok (st3, sgl3) =>
          match st3.signal.unregisterBoardNetSegment st3.seg.this with
          | .error (e, _) => .error (e, sgl3.unwind st3)
          | .ok signal1 =>
            .ok { st3 with signal := signal1,
                           seg := { st3.seg with mIsAddedToBoard := false } }

end BI_NetSegment

namespace ScenarioA

/-- The segment of scenario A before it is added to the board. -/
def loaded : BI_NetSegment := ⟨100, 5, 0, 7, false, [], [P1, P2, P3], [L1, L2]⟩

/-- A board on which L2 alone is added: adding L2 again is refused. -/
def flagsL2 : Flags := ⟨fun _ => false, fun _ => false, fun l => decide (l = L2)⟩

/-- A board on which the elements of the segment are added except L1:
removing L1 is refused. -/
def flagsNoL1 : Flags :=
  ⟨fun _ => false, fun p => decide (p ∈ [P1, P2, P3]), fun l => decide (l = L2)⟩

end ScenarioA

namespace ScenarioD

/-- A circuit whose only net class, at address 1, has the UUID 90. -/
def classes : CircuitNetClasses :=
  ⟨fun uuid => if uuid = 90 then some 1 else none, fun _ => 90⟩

end ScenarioD

/-! ## Persistence of a net segment -/

/-- The node constructors `BI_Via(BI_NetSegment&, const SExpression&)`,
`BI_NetPoint(BI_NetSegment&, const SExpression&)`,
`BI_NetLine(BI_NetSegment&, const SExpression&)` and the `serialize` functions
of the three classes, whose bodies are not among the sources, as parameters. A
constructor receives the segment as it is when the element is loaded, and the
node; a `serialize` function gives the children it appends to its node. -/
structure ElementFormat where
  viaFromNode : BI_NetSegment → SExpression → Except Exception BI_Via
  netPointFromNode : BI_NetSegment → SExpression → Except Exception BI_NetPoint
  netLineFromNode : BI_NetSegment → SExpression → Except Exception BI_NetLine
  serializeVia : BI_Via → Except Exception (List SExpression)
  serializeNetPoint : BI_NetPoint → Except Exception (List SExpression)
  serializeNetLine : BI_NetLine → Except Exception (List SExpression)

/-- Modelled from the spec: `serializePointerContainer` (serializableobject.h
is not among the sources): every object is serialized into a list node named
`itemName`, which is appended to `root`. -/
def serializePointerContainer {α : Type} (serialize : α → Except Exception (List SExpression))
    (itemName : String) : SExpression → List α → Except Exception SExpression
  | root, [] => .ok root
  | root, obj :: rest =>
    match serialize obj with
    | .error e => .error e
    | .ok children =>
      serializePointerContainer serialize itemName (root.appendChild (.list itemName children))
        rest

/-- Modelled from the spec: `serializePointerContainerUuidSorted`
(serializableobject.h is not among the sources): "child ordering within each
list is sorted by UUID". -/
def serializePointerContainerUuidSorted {α : Type} (getUuid : α → Uuid)
    (serialize : α → Except Exception (List SExpression)) (root : SExpression)
    (container : List α) (itemName : String) : Except Exception SExpression :=
  serializePointerContainer serialize itemName root
    (container.insertionSort (fun a b => getUuid a ≤ getUuid b))

/-- The three element lists of a segment under construction. -/
structure ElementLists where
  mVias : List BI_Via
  mNetPoints : List BI_NetPoint
  mNetLines : List BI_NetLine
  deriving DecidableEq, Repr

namespace BI_NetSegment

/-- `BI_NetSegment::serialize`; `getUuid` is `NetSignal::getUuid` of the net
signal at an address. -/
def serialize (fmt : ElementFormat) (getUuid : Nat → Uuid) (s : BI_NetSegment)
    (root : SExpression) : Except Exception SExpression :=
  if ¬ s.checkAttributesValidity then .error .LogicError
  else
    match serializePointerContainerUuidSorted (fun via : BI_Via => via.mUuid) fmt.serializeVia
        ((root.appendChild (.uuid s.mUuid)).appendNamed "net" (.uuid (getUuid s.mNetSignal)))
        s.mVias "via" with
    | .error e => .error e
    | .ok root1 =>
      match serializePointerContainerUuidSorted (fun p : BI_NetPoint => p.mUuid)
          fmt.serializeNetPoint root1 s.mNetPoints "netpoint" with
      | .error e => .error e
      | .ok root2 =>
        serializePointerContainerUuidSorted (fun l : BI_NetLine => l.mUuid)
          fmt.serializeNetLine root2 s.mNetLines "netline"

/-- The "Load all vias" loop of the loading constructor, with the
construction of each via from its node. The exception comes with the segment
as it is when it is thrown. -/
def deserializeVias (fmt : ElementFormat) :
    List SExpression → BI_NetSegment → Except (Exception × BI_NetSegment) BI_NetSegment
  | [], s => .ok s
  | node :: rest, s =>
    match fmt.viaFromNode s node with
    | .error e => .error (e, s)
    | .ok via =>
      if (s.getViaByUuid via.mUuid).isSome then .error (.RuntimeError, s)
      else deserializeVias fmt rest { s with mVias := s.mVias ++ [via] }

/-- The "Load all netpoints" loop, with the construction of each net point
from its node. -/
def deserializeNetPoints (fmt : ElementFormat) :
    List SExpression → BI_NetSegment → Except (Exception × BI_NetSegment) BI_NetSegment
  | [], s => .ok s
  | node :: rest, s =>
    match fmt.netPointFromNode s node with
    | .error e => .error (e, s)
    | .ok netpoint =>
      if (s.getNetPointByUuid netpoint.mUuid).isSome then .error (.RuntimeError, s)
      else deserializeNetPoints fmt rest { s with mNetPoints := s.mNetPoints ++ [netpoint] }

/-- The "Load all netlines" loop, with the construction of each net line from
its node. -/
def deserializeNetLines (fmt : ElementFormat) :
    List SExpression → BI_NetSegment → Except (Exception × BI_NetSegment) BI_NetSegment
  | [], s => .ok s
  | node :: rest, s =>
    match fmt.netLineFromNode s node with
    | .error e => .error (e, s)
    | .ok netline =>
      if (s.getNetLineByUuid netline.mUuid).isSome then .error (.RuntimeError, s)
      else deserializeNetLines fmt rest { s with mNetLines := s.mNetLines ++ [netline] }

/-- The `try` block of the loading constructor, for a segment with the UUID
`uuid`. The exception comes with the element lists as they are when it is
thrown. -/
def deserializeTry (fmt : ElementFormat) (getNetSignalByUuid : Uuid → Option Nat)
    (ptr : Nat) (circuit : Nat) (uuid : Uuid) (node : SExpression) :
    Except (Exception × ElementLists) BI_NetSegment :=
  match node.getValueByPath "net" SExpression.getUuid with
  | .error e => .error (e, ⟨[], [], []⟩)
  | .ok netSignalUuid =>
    match getNetSignalByUuid netSignalUuid with
    | none => .error (.RuntimeError, ⟨[], [], []⟩)
    | some signal =>
      match deserializeVias fmt (node.getChildrenNamed "via")
          ⟨ptr, uuid, circuit, signal, false, [], [], []⟩ with
      | .error (e, s) => .error (e, ⟨s.mVias, s.mNetPoints, s.mNetLines⟩)
      | .ok s1 =>
        match deserializeNetPoints fmt (node.getChildrenNamed "netpoint") s1 with
        | .error (e, s) => .error (e, ⟨s.mVias, s.mNetPoints, s.mNetLines⟩)
        | .ok s2 =>
          match deserializeNetLines fmt (node.getChildrenNamed "netline") s2 with
          | .error (e, s) => .error (e, ⟨s.mVias, s.mNetPoints, s.mNetLines⟩)
          | .ok s3 =>
            if ¬ s3.areAllNetPointsConnectedTogether then
              .error (.RuntimeError, ⟨s3.mVias, s3.mNetPoints, s3.mNetLines⟩)
            else if ¬ s3.checkAttributesValidity then
              .error (.LogicError, ⟨s3.mVias, s3.mNetPoints, s3.mNetLines⟩)
            else .ok s3

/-- The loading constructor `BI_NetSegment(Board&, const SExpression&)` on the
node itself: `ptr` is the address of the new object, `getNetSignalByUuid` is
`Circuit::getNetSignalByUuid`. The `catch` block deletes and clears the three
lists before it throws the exception again: the exception comes with the
lists as the constructor leaves them. -/
def deserialize (fmt : ElementFormat) (getNetSignalByUuid : Uuid → Option Nat)
    (ptr : Nat) (circuit : Nat) (node : SExpression) :
    Except (Exception × ElementLists) BI_NetSegment :=
  match (node.getChildByIndex 0).bind SExpression.getUuid with
  | .error e => .error (e, ⟨[], [], []⟩)
  | .ok uuid =>
    match deserializeTry fmt getNetSignalByUuid ptr circuit uuid node with
    | .error (e, _) => .error (e, ⟨[], [], []⟩)
    | .ok s => .ok s

end BI_NetSegment

/-! ## A format for examples -/

namespace SimpleFormat

/-- The UUID of the first child of a node. -/
def uuidOf (node : SExpression) : Except Exception Uuid :=
  (node.getChildByIndex 0).bind SExpression.getUuid

/-- Reads a via: its UUID; the object is put at address 1000 + UUID. -/
def viaFromNode (s : BI_NetSegment) (node : SExpression) : Except Exception BI_Via :=
  (uuidOf node).map (fun uuid => ⟨1000 + uuid, s.ptr, uuid⟩)

/-- Reads a net point: its UUID and, when it has a child `via`, the via of the
segment with that UUID; the object is put at address 2000 + UUID. -/
def netPointFromNode (s : BI_NetSegment) (node : SExpression) : Except Exception BI_NetPoint :=
  match uuidOf node with
  | .error e => .error e
  | .ok uuid =>
    match node.getChildrenNamed "via" with
    | [] => .ok ⟨2000 + uuid, s.ptr, uuid, (0, 0), 0, none, none⟩
    | ref :: _ =>
      match uuidOf ref with
      | .error e => .error e
      | .ok viaUuid =>
        match s.getViaByUuid viaUuid with
        | none => .error .RuntimeError
        | some via => .ok ⟨2000 + uuid, s.ptr, uuid, (0, 0), 0, none, some via⟩

/-- Reads a net line: its UUID and the two net points of the segment with the
UUIDs of the children `p1` and `p2`; the object is put at address 3000 + UUID.
-/
def netLineFromNode (s : BI_NetSegment) (node : SExpression) : Except Exception BI_NetLine :=
  match uuidOf node with
  | .error e => .error e
  | .ok uuid =>
    match node.getValueByPath "p1" SExpression.getUuid with
    | .error e => .error e
    | .ok u1 =>
      match node.getValueByPath "p2" SExpression.getUuid with
      | .error e => .error e
      | .ok u2 =>
        match s.getNetPointByUuid u1, s.getNetPointByUuid u2 with
        | some p1, some p2 => .ok ⟨3000 + uuid, uuid, p1, p2, 1⟩
        | _, _ => .error .RuntimeError

/-- Writes the UUID of a net point and the UUID of the via it is attached to.
-/
def serializeNetPoint (p : BI_NetPoint) : Except Exception (List SExpression) :=
  match p.mVia with
  | none => .ok [.uuid p.mUuid]
  | some via => .ok [.uuid p.mUuid, .list "via" [.uuid via.mUuid]]

/-- A format that persists the UUIDs and the connections of the elements and
nothing else. -/
def format : ElementFormat where
  viaFromNode := viaFromNode
  netPointFromNode := netPointFromNode
  netLineFromNode := netLineFromNode
  serializeVia := fun via => .ok [.uuid via.mUuid]
  serializeNetPoint := serializeNetPoint
  serializeNetLine := fun l =>
    .ok [.uuid l.mUuid, .list "p1" [.uuid l.mStartPoint.mUuid],
      .list "p2" [.uuid l.mEndPoint.mUuid]]

/-- The net signals of the circuit: the signal at address 7 has the UUID 70.
-/
def getNetSignalByUuid (uuid : Uuid) : Option Nat := if uuid = 70 then some 7 else none

/-- The UUID of the net signal at an address. -/
def getUuid (_signal : Nat) : Uuid := 70

end SimpleFormat

namespace SimpleFormat

/-- The node of scenario A: the segment 5 of the net signal 70 with the net
points 1, 2, 3 and the net lines 11 (from 1 to 2) and 12 (from 2 to 3). -/
def chain : SExpression :=
  .list "netsegment" [.uuid 5, .list "net" [.uuid 70],
    .list "netpoint" [.uuid 1], .list "netpoint" [.uuid 2], .list "netpoint" [.uuid 3],
    .list "netline" [.uuid 11, .list "p1" [.uuid 1], .list "p2" [.uuid 2]],
    .list "netline" [.uuid 12, .list "p1" [.uuid 2], .list "p2" [.uuid 3]]]

/-- The node of scenario A without the net line 12: the net point 3 is not
connected. -/
def cut : SExpression :=
  .list "netsegment" [.uuid 5, .list "net" [.uuid 70],
    .list "netpoint" [.uuid 1], .list "netpoint" [.uuid 2], .list "netpoint" [.uuid 3],
    .list "netline" [.uuid 11, .list "p1" [.uuid 1], .list "p2" [.uuid 2]]]

/-- A node with a via and a net point that have the same UUID. -/
def shared : SExpression :=
  .list "netsegment" [.uuid 5, .list "net" [.uuid 70], .list "via" [.uuid 1],
    .list "netpoint" [.uuid 1]]

end SimpleFormat

namespace ScenarioA

/-- The segment of scenario A with its elements in another order. -/
def reordered : BI_NetSegment := ⟨100, 5, 0, 7, true, [], [P3, P1, P2], [L2, L1]⟩

end ScenarioA

/-- What the round trip of a segment needs from the element code, which is
not among the sources: an element that is written can be read, in every
segment in which what it refers to is found, and the element read has the same
UUID and is written in the same way. A net point that is read is attached to
the via of the segment that has the UUID of the via of the net point written;
a net line that is read joins the net points of the segment that have the
UUIDs of the ends of the net line written. -/
structure ElementFormat.Faithful (fmt : ElementFormat) : Prop where
  via : ∀ (ctx : BI_NetSegment) (x : BI_Via) (cs : List SExpression),
    fmt.serializeVia x = .ok cs →
    ∃ y, fmt.viaFromNode ctx (.list "via" cs) = .ok y ∧ y.mUuid = x.mUuid ∧
      fmt.serializeVia y = .ok cs
  netPoint : ∀ (ctx : BI_NetSegment) (x : BI_NetPoint) (cs : List SExpression),
    fmt.serializeNetPoint x = .ok cs →
    (∀ via, x.mVia = some via → (ctx.getViaByUuid via.mUuid).isSome = true) →
    ∃ y, fmt.netPointFromNode ctx (.list "netpoint" cs) = .ok y ∧ y.mUuid = x.mUuid ∧
      y.mVia = x.mVia.bind (fun via => ctx.getViaByUuid via.mUuid) ∧
      fmt.serializeNetPoint y = .ok cs
  netLine : ∀ (ctx : BI_NetSegment) (x : BI_NetLine) (cs : List SExpression)
    (p1 p2 : BI_NetPoint), fmt.serializeNetLine x = .ok cs →
    ctx.getNetPointByUuid x.mStartPoint.mUuid = some p1 →
    ctx.getNetPointByUuid x.mEndPoint.mUuid = some p2 →
    ∃ y, fmt.netLineFromNode ctx (.list "netline" cs) = .ok y ∧ y.mUuid = x.mUuid ∧
      y.mStartPoint = p1 ∧ y.mEndPoint = p2 ∧ fmt.serializeNetLine y = .ok cs

/-- What is attached is in the segment: the ends of the net lines are net
points of the segment, and the via of a net point is a via of the segment. -/
def BI_NetSegment.Closed (s : BI_NetSegment) : Prop :=
  (∀ l ∈ s.mNetLines, l.mStartPoint ∈ s.mNetPoints ∧ l.mEndPoint ∈ s.mNetPoints) ∧
  (∀ p ∈ s.mNetPoints, ∀ via, p.mVia = some via → via ∈ s.mVias)

namespace ViaExample

/-- A via of segment 100. -/
def V : BI_Via := ⟨50, 100, 50⟩

/-- A net point of segment 100 attached to `V`, with address and UUID `n`. -/
def point (n : Nat) : BI_NetPoint := ⟨n, 100, n, (0, 0), 0, none, some V⟩

/-- A segment whose net points 4 and 6 are attached to the via `V`, and
whose net line 8 joins the net points 6 and 2; the elements are not in the
order of their UUIDs. -/
def segment : BI_NetSegment :=
  ⟨100, 5, 0, 7, true, [V], [point 6, ScenarioA.P2, point 4], [⟨8, 8, point 6, ScenarioA.P2, 1⟩]⟩

end ViaExample

namespace ViaExample

/-- The node `ViaExample.segment` is serialized to: the via 50, the net points
2, 4 and 6, the net line 8. -/
def node : SExpression :=
  .list "netsegment" [.uuid 5, .list "net" [.uuid 70], .list "via" [.uuid 50],
    .list "netpoint" [.uuid 2], .list "netpoint" [.uuid 4, .list "via" [.uuid 50]],
    .list "netpoint" [.uuid 6, .list "via" [.uuid 50]],
    .list "netline" [.uuid 8, .list "p1" [.uuid 6], .list "p2" [.uuid 2]]]

end ViaExample

/-! ## Footprint pads of the library: board side and shape -/

namespace SExpression

/-- Modelled from the spec: `SExpression::createToken` (sexpression.h is not
among the sources). A token is held like a string: `getStringOrToken` reads
both alike. -/
def createToken (token : String) : SExpression := .string token

/-- Modelled from the spec: `SExpression::getStringOrToken(throwIfEmpty)`: the
text of a token or string node; a node of another kind, and with
`throwIfEmpty` an empty text, is a format error. -/
def getStringOrToken (throwIfEmpty : Bool) : SExpression → Except Exception String
  | .string value => if throwIfEmpty ∧ value.isEmpty then .error .RuntimeError else .ok value
  | _ => .error .RuntimeError

end SExpression

namespace FootprintPad

/-- `FootprintPad::BoardSide` (footprintpad.h). -/
inductive BoardSide where
  | TOP
  | BOTTOM
  | THT
  deriving DecidableEq, Repr

/-- `FootprintPad::Shape` (footprintpad.h). -/
inductive Shape where
  | ROUND
  | RECT
  | OCTAGON
  deriving DecidableEq, Repr

/-- `serializeToSExpression(const FootprintPad::BoardSide&)`. The `default`
branch of the switch is not reached by a value of the enumeration. -/
def serializeBoardSide : BoardSide → SExpression
  | .TOP => SExpression.createToken "top"
  | .BOTTOM => SExpression.createToken "bottom"
  | .THT => SExpression.createToken "tht"

/-- `deserializeFromSExpression<FootprintPad::BoardSide>`. -/
def deserializeBoardSide (sexpr : SExpression) (throwIfEmpty : Bool) :
    Except Exception BoardSide :=
  match sexpr.getStringOrToken throwIfEmpty with
  | .error e => .error e
  | .ok str =>
    if str = "top" then .ok .TOP
    else if str = "bottom" then .ok .BOTTOM
    else if str = "tht" then .ok .THT
    else .error .RuntimeError

/-- `serializeToSExpression(const FootprintPad::Shape&)`. -/
def serializeShape : Shape → SExpression
  | .ROUND => SExpression.createToken "round"
  | .RECT => SExpression.createToken "rect"
  | .OCTAGON => SExpression.createToken "octagon"

/-- `deserializeFromSExpression<FootprintPad::Shape>`. -/
def deserializeShape (sexpr : SExpression) (throwIfEmpty : Bool) : Except Exception Shape :=
  match sexpr.getStringOrToken throwIfEmpty with
  | .error e => .error e
  | .ok str =>
    if str = "round" then .ok .ROUND
    else if str = "rect" then .ok .RECT
    else if str = "octagon" then .ok .OCTAGON
    else .error .RuntimeError

end FootprintPad

/-! ## The width of a net line -/

/-- A `Length`: a whole number of nanometers. -/
abbrev Length := Int

/-- Modelled from the spec: `PositiveLength` (units/length.h is not among the
sources), "a positive length": a length greater than zero. -/
structure PositiveLength where
  value : Length
  positive : 0 < value

/-- Modelled from the spec: the construction `PositiveLength(length)` ("can
throw" where the sources use it): a length that is not positive is rejected.
-/
def PositiveLength.new (length : Length) : Except Exception PositiveLength :=
  if h : 0 < length then .ok ⟨length, h⟩ else .error .RuntimeError

/-- Modelled from the spec: `UnsignedLength` (units/length.h is not among the
sources): a length that is not negative. symbolconverter.cpp constructs
`UnsignedLength(0)`. -/
structure UnsignedLength where
  value : Length
  nonnegative : 0 ≤ value

/-- Modelled from the spec: the construction `UnsignedLength(length)` ("can
throw" where the sources use it): a negative length is rejected. -/
def UnsignedLength.new (length : Length) : Except Exception UnsignedLength :=
  if h : 0 ≤ length then .ok ⟨length, h⟩ else .error .RuntimeError

/-- Modelled from the spec: the constructor
`BI_NetLine(BI_NetPoint&, BI_NetPoint&, const PositiveLength&)` (declared in
bi_netline.h, body not among the sources): construction fails if the two
endpoints are identical or belong to different segments. `ptr` and `uuid` are
the address and the UUID of the new line. -/
def BI_NetLine.new (ptr : Nat) (uuid : Uuid) (startPoint endPoint : BI_NetPoint)
    (width : PositiveLength) : Except Exception BI_NetLine :=
  if startPoint = endPoint ∨ startPoint.mNetSegment ≠ endPoint.mNetSegment then
    .error .LogicError
  else .ok ⟨ptr, uuid, startPoint, endPoint, width.value⟩

/-- Modelled from the spec: `BI_NetLine::setWidth(const PositiveLength&)`
(declared `noexcept` in bi_netline.h, body not among the sources): the width
is stored. -/
def BI_NetLine.setWidth (l : BI_NetLine) (width : PositiveLength) : BI_NetLine :=
  { l with mWidth := width.value }

/-- A `SI_NetLine*` with the attributes of `si_netline.h`: UUID, the addresses
of the two end points and the width. -/
structure SI_NetLine where
  ptr : Nat
  mUuid : Uuid
  mStartPoint : Nat
  mEndPoint : Nat
  mWidth : Length
  deriving DecidableEq, Repr

/-- Modelled from the spec: the constructor
`SI_NetLine(SI_NetPoint&, SI_NetPoint&, const UnsignedLength&)` (declared in
si_netline.h, body not among the sources): construction fails if the two
endpoints are identical. -/
def SI_NetLine.new (ptr : Nat) (uuid : Uuid) (startPoint endPoint : Nat)
    (width : UnsignedLength) : Except Exception SI_NetLine :=
  if startPoint = endPoint then .error .LogicError
  else .ok ⟨ptr, uuid, startPoint, endPoint, width.value⟩

/-- Modelled from the spec: `SI_NetLine::setWidth(const UnsignedLength&)`
(declared `noexcept` in si_netline.h, body not among the sources): the width
is stored. -/
def SI_NetLine.setWidth (l : SI_NetLine) (width : UnsignedLength) : SI_NetLine :=
  { l with mWidth := width.value }

namespace Cyclic

/-- Net lines of scenario A's points that close a cycle and double an edge. -/
def L3 : BI_NetLine := ⟨13, 13, ScenarioA.P3, ScenarioA.P1, 1⟩

/-- A second net line between P1 and P2. -/
def L4 : BI_NetLine := ⟨14, 14, ScenarioA.P2, ScenarioA.P1, 1⟩

/-- The points of scenario A joined in a cycle P1 - P2 - P3 - P1, with two net
lines between P1 and P2. -/
def segment : BI_NetSegment :=
  ⟨100, 5, 0, 7, true, [], [ScenarioA.P1, ScenarioA.P2, ScenarioA.P3],
    [ScenarioA.L1, ScenarioA.L2, L3, L4]⟩

end Cyclic

/-- The registrations of a net signal are in order: a signal that has a
registrant is added to the circuit, and none of the four lists holds an
element twice. -/
def NetSignal.Registered (s : NetSignal) : Prop :=
  (s.isUsed = true → s.mIsAddedToCircuit = true) ∧ s.mRegisteredComponentSignals.Nodup ∧
  s.mRegisteredSchematicNetSegments.Nodup ∧ s.mRegisteredBoardNetSegments.Nodup ∧
  s.mRegisteredBoardPlanes.Nodup

/-! ## Scenario B of the specification -/

namespace ScenarioB

/-- A free net point of segment 100 on layer 1, at the position of the net
points of scenario A. -/
def Q : BI_NetPoint := ⟨4, 100, 4, (0, 0), 1, none, none⟩

/-- A net line from P1 to `Q`. -/
def L : BI_NetLine := ⟨15, 15, ScenarioA.P1, Q, 1⟩

end ScenarioB

/-! ## Qt's QMap with QString keys -/

/-- Qt's `QMap<QString, T>`: the entries in the order of their keys, one entry
for a key. -/
abbrev QMap (β : Type) := List (String × β)

namespace QMap

/-- `QMap::contains`. -/
def contains {β : Type} (m : QMap β) (key : String) : Bool := m.any (fun e => e.1 == key)

/-- `QMap::value(key, defaultValue)` with the null default: the value of the
key, if there is one. -/
def find {β : Type} (m : QMap β) (key : String) : Option β :=
  (List.find? (fun e => e.1 == key) m).map (fun e => e.2)

/-- `QMap::insert`: the value of a key that is in the map is replaced, a new
key is inserted at its place in the order of the keys, which compares strings
character by character. -/
def insert {β : Type} : QMap β → String → β → QMap β
  | [], key, value => [(key, value)]
  | (k, v) :: rest, key, value =>
    if key.toList < k.toList then (key, value) :: (k, v) :: rest
    else if key = k then (key, value) :: rest
    else (k, v) :: insert rest key value

/-- `QMap::remove`. -/
def remove {β : Type} (m : QMap β) (key : String) : QMap β := m.filter (fun e => e.1 != key)

/-- `QMap::keys`, in ascending order. -/
def keys {β : Type} (m : QMap β) : List String := m.map (fun e => e.1)

/-- `QMap::values`, in the order of the keys: what `foreach` over a map runs
through. -/
def values {β : Type} (m : QMap β) : List β := m.map (fun e => e.2)

end QMap

/-! ## Footprint pads of a board -/

/-- A point of the board (`Point`). -/
abbrev Point := Int × Int

/-- State of a `BI_FootprintPad` object: its address, its board (`mBoard` of
`BI_Base`), the `isAddedToBoard()` flag of `BI_Base`, the pointer
`mComponentSignalInstance` (may be null), position and rotation, and the map
`mRegisteredNetPoints` from layer names to addresses of net points. -/
structure BI_FootprintPad where
  ptr : Nat
  mBoard : Nat
  mIsAddedToBoard : Bool
  mComponentSignalInstance : Option Nat
  mPosition : Point
  mRotation : Int
  mRegisteredNetPoints : QMap Nat
  deriving DecidableEq, Repr

/-- What the functions of `BI_FootprintPad` ask of other objects, through
functions whose bodies are not among the sources: the board and the net signal
of a net point (`getBoard`, `getNetSignalOfNetSegment`), name and kind of a
layer (`GraphicsLayer::getName`, `isCopperLayer`, `getMirroredLayerName`), the
net signal of a component signal instance (null if none), and of the footprint
and the library pad of this pad `getIsMirrored`, `mapToScene`, `getRotation`,
`isOnLayer`, `getPosition`. -/
structure PadContext where
  netPointGetBoard : BI_NetPoint → Nat
  netPointGetNetSignalOfNetSegment : BI_NetPoint → Nat
  layerGetName : Nat → String
  layerIsCopperLayer : Nat → Bool
  getMirroredLayerName : String → String
  componentSignalGetNetSignal : Nat → Option Nat
  footprintGetIsMirrored : Bool
  footprintMapToScene : Point → Point
  footprintGetRotation : Int
  libPadIsOnLayer : String → Bool
  libPadGetPosition : Point
  libPadGetRotation : Int

namespace BI_FootprintPad

/-- `BI_FootprintPad::getIsMirrored`. -/
def getIsMirrored (ctx : PadContext) (_pad : BI_FootprintPad) : Bool :=
  ctx.footprintGetIsMirrored

/-- `BI_FootprintPad::isOnLayer`. -/
def isOnLayer (ctx : PadContext) (pad : BI_FootprintPad) (layerName : String) : Bool :=
  if pad.getIsMirrored ctx then ctx.libPadIsOnLayer (ctx.getMirroredLayerName layerName)
  else ctx.libPadIsOnLayer layerName

/-- `BI_FootprintPad::getCompSigInstNetSignal`. -/
def getCompSigInstNetSignal (ctx : PadContext) (pad : BI_FootprintPad) : Option Nat :=
  match pad.mComponentSignalInstance with
  | some instance1 => ctx.componentSignalGetNetSignal instance1
  | none => none

/-- Modelled from the spec: `BI_FootprintPad::getNetPointOfLayer` (declared in
bi_footprintpad.h, which is not among the sources): the net point registered
for the layer, null if there is none. -/
def getNetPointOfLayer (pad : BI_FootprintPad) (layerName : String) : Option Nat :=
  pad.mRegisteredNetPoints.find layerName

/-- `BI_FootprintPad::isUsed` (bi_footprintpad.h): a net point is registered.
-/
def isUsed (pad : BI_FootprintPad) : Bool := !pad.mRegisteredNetPoints.isEmpty

/-- `BI_FootprintPad::registerNetPoint`. The call `netpoint.updateLines()`
that ends it recomputes the cached positions of the net lines at the net point
and touches nothing of the pad. -/
def registerNetPoint (ctx : PadContext) (pad : BI_FootprintPad) (netpoint : BI_NetPoint) :
    Outcome BI_FootprintPad :=
  if (¬ pad.mIsAddedToBoard) ∨ pad.mComponentSignalInstance = none
      ∨ ctx.netPointGetBoard netpoint ≠ pad.mBoard
      ∨ pad.mRegisteredNetPoints.contains (ctx.layerGetName netpoint.mLayer)
      ∨ some (ctx.netPointGetNetSignalOfNetSegment netpoint) ≠ pad.getCompSigInstNetSignal ctx
      ∨ (¬ ctx.layerIsCopperLayer netpoint.mLayer)
      ∨ ¬ pad.isOnLayer ctx (ctx.layerGetName netpoint.mLayer) then
    .error (.LogicError, pad)
  else
    .ok { pad with mRegisteredNetPoints :=
      pad.mRegisteredNetPoints.insert (ctx.layerGetName netpoint.mLayer) netpoint.ptr }

/-- `BI_FootprintPad::unregisterNetPoint`. -/
def unregisterNetPoint (ctx : PadContext) (pad : BI_FootprintPad) (netpoint : BI_NetPoint) :
    Outcome BI_FootprintPad :=
  if (¬ pad.mIsAddedToBoard) ∨ pad.mComponentSignalInstance = none
      ∨ pad.getNetPointOfLayer (ctx.layerGetName netpoint.mLayer) ≠ some netpoint.ptr
      ∨ some (ctx.netPointGetNetSignalOfNetSegment netpoint) ≠
        pad.getCompSigInstNetSignal ctx then
    .error (.LogicError, pad)
  else
    .ok { pad with mRegisteredNetPoints :=
      pad.mRegisteredNetPoints.remove (ctx.layerGetName netpoint.mLayer) }

end BI_FootprintPad

/-- Modelled from the spec: `BI_NetPoint::setPosition` (declared `noexcept` in
bi_netpoint.h, body not among the sources): the position of the net point
becomes the given one. -/
def BI_NetPoint.setPosition (p : BI_NetPoint) (position : Point) : BI_NetPoint :=
  { p with mPosition := position }

/-- The net points of the board by address, for code that reaches them
through pointers. -/
abbrev NetPoints := Nat → BI_NetPoint

/-- The loop `foreach (BI_NetPoint* netpoint, mRegisteredNetPoints)` of
`BI_FootprintPad::updatePosition`. -/
def BI_FootprintPad.setPositions (position : Point) : List Nat → NetPoints → NetPoints
  | [], netpoints => netpoints
  | netpoint :: rest, netpoints =>
    BI_FootprintPad.setPositions position rest
      (Function.update netpoints netpoint ((netpoints netpoint).setPosition position))

/-- `BI_FootprintPad::updatePosition`, without the calls that update the
graphics item. -/
def BI_FootprintPad.updatePosition (ctx : PadContext) (pad : BI_FootprintPad)
    (netpoints : NetPoints) : BI_FootprintPad × NetPoints :=
  let pad1 : BI_FootprintPad :=
    { pad with mPosition := ctx.footprintMapToScene ctx.libPadGetPosition,
               mRotation := ctx.footprintGetRotation + ctx.libPadGetRotation }
  (pad1, BI_FootprintPad.setPositions pad1.mPosition pad1.mRegisteredNetPoints.values netpoints)

/-! ### A pad for examples -/

namespace PadExample

/-- Layers 0 and 1 are the copper layers "top_cu" and "bot_cu", every other
layer is "top_placement"; the pad is on both copper layers; the net point at
address 9 is of another board and every net point belongs to the net signal 7,
which is the signal of the component signal instance 41. The footprint is at
(100, 200). -/
def ctx : PadContext where
  netPointGetBoard p := if p.ptr = 9 then 2 else 1
  netPointGetNetSignalOfNetSegment _ := 7
  layerGetName layer := if layer = 0 then "top_cu" else if layer = 1 then "bot_cu"
    else "top_placement"
  layerIsCopperLayer layer := decide (layer ≤ 1)
  getMirroredLayerName name := name
  componentSignalGetNetSignal instance1 := if instance1 = 41 then some 7 else none
  footprintGetIsMirrored := false
  footprintMapToScene p := (p.1 + 100, p.2 + 200)
  footprintGetRotation := 90
  libPadIsOnLayer name := decide (name = "top_cu" ∨ name = "bot_cu")
  libPadGetPosition := (10, 20)
  libPadGetRotation := 0

/-- A pad of board 1, added to the board, without registered net points. -/
def pad : BI_FootprintPad := ⟨60, 1, true, some 41, (0, 0), 0, []⟩

/-- The pad with the net points at the addresses 1 and 4 registered. -/
def used : BI_FootprintPad := ⟨60, 1, true, some 41, (0, 0), 0, [("bot_cu", 4), ("top_cu", 1)]⟩

/-- The net points of the board: the net point at address 4 is `ScenarioB.Q`,
the others are the points of scenario A. -/
def netpoints : NetPoints := fun address => if address = 4 then ScenarioB.Q
  else ScenarioA.point address

end PadExample

/-! ## SerializableKeyValueMap -/

/-- `QMap<QString, QString>::value(key)`: the value of the key, the empty
string if the key is not in the map. -/
def QMap.value (m : QMap String) (key : String) : String := (m.find key).getD ""

namespace SerializableKeyValueMap

/-- `SerializableKeyValueMap::getDefaultValue` on the map `mValues`. -/
def getDefaultValue (mValues : QMap String) : String := mValues.value ""

/-- `SerializableKeyValueMap::value(const QStringList& keyOrder, QString*
usedKey)` on the map `mValues`: the value returned and the key written to
`usedKey`. -/
def value (mValues : QMap String) : List String → String × String
  | [] => (mValues.value "", "")
  | key :: keyOrder =>
    if mValues.contains key then (mValues.value key, key) else value mValues keyOrder

/-- The key and the value that the loop of `loadFromDomElement` reads from a
child; `keyname` is `T::keyname`. -/
def entry (keyname : String) (child : SExpression) : Except Exception (String × String) :=
  if child.getChildren.length > 1 then
    match child.getValueByPath keyname (SExpression.getString false) with
    | .error e => .error e
    | .ok key =>
      match (child.getChildByIndex 1).bind (SExpression.getString false) with
      | .error e => .error e
      | .ok value => .ok (key, value)
  else
    match (child.getChildByIndex 0).bind (SExpression.getString false) with
    | .error e => .error e
    | .ok value => .ok ("", value)

/-- The loop of `loadFromDomElement` over the children. The exception comes
with the map as it is when it is thrown. -/
def loadEntries (keyname : String) :
    List SExpression → QMap String → Except (Exception × QMap String) (QMap String)
  | [], mValues => .ok mValues
  | child :: rest, mValues =>
    match entry keyname child with
    | .error e => .error (e, mValues)
    | .ok (key, value) =>
      if mValues.contains key then .error (.RuntimeError, mValues)
      else loadEntries keyname rest (mValues.insert key value)

/-- `SerializableKeyValueMap::loadFromDomElement`; `tagname` and `keyname` are
`T::tagname` and `T::keyname`. The map is cleared first, so the result does
not depend on the map before the call. -/
def loadFromDomElement (tagname keyname : String) (node : SExpression) :
    Except (Exception × QMap String) (QMap String) :=
  match loadEntries keyname (node.getChildrenNamed tagname) [] with
  | .error e => .error e
  | .ok mValues =>
    if ¬ mValues.contains "" then .error (.RuntimeError, mValues) else .ok mValues

/-- The child that `serialize` appends for a key: the list `T::tagname` with
the list `T::keyname` of the key, unless the key is empty, and the value. -/
def serializeEntry (tagname keyname : String) (mValues : QMap String) (key : String) :
    SExpression :=
  let child : SExpression := .list tagname []
  let child1 : SExpression :=
    if ¬ key.isEmpty then child.appendNamed keyname (.string key) else child
  child1.appendChild (.string (mValues.value key))

/-- The loop of `serialize` over the keys. -/
def serializeKeys (tagname keyname : String) (mValues : QMap String) :
    List String → SExpression → SExpression
  | [], root => root
  | key :: rest, root =>
    serializeKeys tagname keyname mValues rest
      (root.appendChild (serializeEntry tagname keyname mValues key))

/-- `SerializableKeyValueMap::serialize`. -/
def serialize (tagname keyname : String) (mValues : QMap String) (root : SExpression) :
    SExpression :=
  serializeKeys tagname keyname mValues mValues.keys root

end SerializableKeyValueMap

namespace LocalizedNameMap

/-- A name map with the default name and a German name. -/
def names : QMap String := [("", "Resistor"), ("de_DE", "Widerstand")]

/-- The node `names` is serialized to, after the UUID of the element. -/
def node : SExpression :=
  .list "component" [.uuid 5, .list "name" [.string "Resistor"],
    .list "name" [.list "locale" [.string "de_DE"], .string "Widerstand"]]

/-- A node with two default names. -/
def twice : SExpression :=
  .list "component" [.list "name" [.string "Resistor"], .list "name" [.string "R"]]

/-- A node without a default name. -/
def noDefault : SExpression :=
  .list "component" [.list "name" [.list "locale" [.string "de_DE"], .string "Widerstand"]]

end LocalizedNameMap

/-! ## Net points and net lines on the board -/

/-- Modelled from the spec: the state that `addToBoard()` and
`removeFromBoard()` of the vias, net points and net lines work on (bi_via.cpp,
bi_netpoint.cpp and bi_netline.cpp are not among the sources): the
`isAddedToBoard()` flag of every item and, for every net point, the list
`mRegisteredLines` of bi_netpoint.h, its "back-references to incident
NetLines". -/
structure Incidence where
  vias : BI_Via → Bool
  netpoints : BI_NetPoint → Bool
  netlines : BI_NetLine → Bool
  mRegisteredLines : BI_NetPoint → List BI_NetLine

namespace Incidence

/-- `BI_NetPoint::isUsed` (bi_netpoint.h). -/
def netPointIsUsed (w : Incidence) (p : BI_NetPoint) : Bool :=
  decide ((w.mRegisteredLines p).length > 0)

/-- Modelled from the spec: `BI_NetPoint::registerNetLine` (declared in
bi_netpoint.h, body not among the sources): "maintains the incident-edge list;
fails if the line does not actually reference this point as one of its two
endpoints, or if it's a duplicate registration". The net points of a net line
are "already-registered NetPoints": a net point that is not added to the board
refuses the line. -/
def registerNetLine (w : Incidence) (p : BI_NetPoint) (l : BI_NetLine) :
    Except Exception Incidence :=
  if (¬ w.netpoints p) ∨ l ∈ w.mRegisteredLines p ∨ (l.mStartPoint ≠ p ∧ l.mEndPoint ≠ p) then
    .error .LogicError
  else
    .ok { w with mRegisteredLines :=
      Function.update w.mRegisteredLines p (w.mRegisteredLines p ++ [l]) }

/-- Modelled from the spec: `BI_NetPoint::unregisterNetLine` (declared in
bi_netpoint.h, body not among the sources): removes the line from the
incident-edge list; fails if the line is not registered. -/
def unregisterNetLine (w : Incidence) (p : BI_NetPoint) (l : BI_NetLine) :
    Except Exception Incidence :=
  if (¬ w.netpoints p) ∨ ¬ l ∈ w.mRegisteredLines p then .error .LogicError
  else
    .ok { w with mRegisteredLines :=
      Function.update w.mRegisteredLines p ((w.mRegisteredLines p).erase l) }

/-- Modelled from the spec: `BI_NetPoint::addToBoard` (declared in
bi_netpoint.h, body not among the sources), with the guard of every
`addToBoard()` of the sources (`BI_FootprintPad::addToBoard`): an item that is
added to the board or in use is refused. -/
def netPointAddToBoard (p : BI_NetPoint) (w : Incidence) : Except Exception Incidence :=
  if w.netpoints p ∨ w.netPointIsUsed p then .error .LogicError
  else .ok { w with netpoints := Function.update w.netpoints p true }

/-- Modelled from the spec: `BI_NetPoint::removeFromBoard` (declared in
bi_netpoint.h, body not among the sources), with the guard of every
`removeFromBoard()` of the sources (`BI_FootprintPad::removeFromBoard`): an
item that is not added to the board or still in use is refused. A net point is
in use while net lines are registered with it. -/
def netPointRemoveFromBoard (p : BI_NetPoint) (w : Incidence) : Except Exception Incidence :=
  if (¬ w.netpoints p) ∨ w.netPointIsUsed p then .error .LogicError
  else .ok { w with netpoints := Function.update w.netpoints p false }

/-- Modelled from the spec: `BI_NetLine::addToBoard` (declared in
bi_netline.h, body not among the sources): a net line is an edge between two
net points that "must belong to the same NetSegment"; it is registered with
its start point and with its end point. When one of the steps fails nothing is
changed. -/
def netLineAddToBoard (l : BI_NetLine) (w : Incidence) : Except Exception Incidence :=
  if w.netlines l ∨ l.mStartPoint.mNetSegment ≠ l.mEndPoint.mNetSegment then .error .LogicError
  else
    match w.registerNetLine l.mStartPoint l with
    | .error e => .error e
    | .ok w1 =>
      match w1.registerNetLine l.mEndPoint l with
      | .error e => .error e
      | .ok w2 => .ok { w2 with netlines := Function.update w2.netlines l true }

/-- Modelled from the spec: `BI_NetLine::removeFromBoard` (declared in
bi_netline.h, body not among the sources): the net line is unregistered from
its start point and from its end point. When one of the steps fails nothing is
changed. -/
def netLineRemoveFromBoard (l : BI_NetLine) (w : Incidence) : Except Exception Incidence :=
  if ¬ w.netlines l then .error .LogicError
  else
    match w.unregisterNetLine l.mStartPoint l with
    | .error e => .error e
    | .ok w1 =>
      match w1.unregisterNetLine l.mEndPoint l with
      | .error e => .error e
      | .ok w2 => .ok { w2 with netlines := Function.update w2.netlines l false }

/-- Modelled from the spec: `BI_Via::addToBoard` (body not among the sources):
a via that is added to the board is refused. -/
def viaAddToBoard (v : BI_Via) (w : Incidence) : Except Exception Incidence :=
  if w.vias v then .error .LogicError
  else .ok { w with vias := Function.update w.vias v true }

/-- Modelled from the spec: `BI_Via::removeFromBoard` (body not among the
sources): a via that is not added to the board is refused. -/
def viaRemoveFromBoard (v : BI_Via) (w : Incidence) : Except Exception Incidence :=
  if ¬ w.vias v then .error .LogicError
  else .ok { w with vias := Function.update w.vias v false }

end Incidence

namespace ScenarioA

end ScenarioA

/-! # Theorems -/

/-! ## The traversal -/

section Traversal
variable {α : Type} [DecidableEq α]

theorem visitAll_append (visit : α → List α → Option (List α)) (l1 l2 points : List α) :
    visitAll visit (l1 ++ l2) points = (visitAll visit l1 points).bind (visitAll visit l2) := by
  induction l1 generalizing points with
  | nil => simp [visitAll]
  | cons q rest ih =>
    simp only [List.cons_append, visitAll]
    split
    · exact ih points
    · cases h : visit q (points ++ [q]) with
      | none => simp
      | some r1 => simp [ih r1]

theorem visitAll_sound {succs : α → List α} {visit : α → List α → Option (List α)}
    (hv : VisitSound succs visit) :
    ∀ (qs points r : List α), visitAll visit qs points = some r →
      points ⊆ r ∧ (points.Nodup → r.Nodup) ∧
      (∀ x ∈ r, x ∈ points ∨ ∃ q ∈ qs, Reach succs q x) ∧
      (∀ q ∈ qs, q ∈ r) ∧
      (∀ x ∈ r, x ∉ points → ∀ y ∈ succs x, y ∈ r) := by
  intro qs
  induction qs with
  | nil =>
    intro points r h
    simp only [visitAll, Option.some.injEq] at h
    subst h
    refine ⟨List.Subset.refl _, id, fun x hx => Or.inl hx, ?_, ?_⟩
    · intro q hq; cases hq
    · intro x hx hnx; exact absurd hx hnx
  | cons q rest ih =>
    intro points r h
    simp only [visitAll] at h
    by_cases hq : q ∈ points
    · rw [if_pos hq] at h
      obtain ⟨h1, h2, h3, h4, h5⟩ := ih points r h
      refine ⟨h1, h2, ?_, ?_, h5⟩
      · intro x hx
        rcases h3 x hx with hp | ⟨q1, hq1, hr⟩
        · exact Or.inl hp
        · exact Or.inr ⟨q1, List.mem_cons_of_mem _ hq1, hr⟩
      · intro q1 hq1
        rcases List.mem_cons.mp hq1 with rfl | hq1
        · exact h1 hq
        · exact h4 q1 hq1
    · rw [if_neg hq] at h
      obtain ⟨r1, hr1, hr⟩ := Option.bind_eq_some.mp h
      obtain ⟨a1, a2, a3, a4⟩ := hv q (points ++ [q]) r1 hr1
      obtain ⟨b1, b2, b3, b4, b5⟩ := ih r1 r hr
      have hsub : points ⊆ r1 := fun x hx => a1 (List.mem_append_left _ hx)
      have hqr1 : q ∈ r1 := a1 (List.mem_append_right _ (List.mem_singleton_self q))
      refine ⟨fun x hx => b1 (hsub hx), ?_, ?_, ?_, ?_⟩
      · intro hnd
        apply b2
        apply a2
        exact List.Nodup.append hnd (List.nodup_singleton q)
          (by
            intro x hx hx1
            rw [List.mem_singleton] at hx1
            subst hx1
            exact hq hx)
      · intro x hx
        rcases b3 x hx with hx1 | ⟨q1, hq1, hr⟩
        · rcases a3 x hx1 with hp | hr
          · rcases List.mem_append.mp hp with hp | hp
            · exact Or.inl hp
            · rw [List.mem_singleton] at hp
              subst hp
              exact Or.inr ⟨x, List.mem_cons_self _ _, Relation.ReflTransGen.refl⟩
          · exact Or.inr ⟨q, List.mem_cons_self _ _, hr⟩
        · exact Or.inr ⟨q1, List.mem_cons_of_mem _ hq1, hr⟩
      · intro q1 hq1
        rcases List.mem_cons.mp hq1 with heq | hq1
        · rw [heq]; exact b1 hqr1
        · exact b4 q1 hq1
      · intro x hx hnx y hy
        by_cases hx1 : x ∈ r1
        · apply b1
          refine a4 x ?_ y hy
          by_cases hxq : x = q
          · exact Or.inl hxq
          · refine Or.inr ⟨hx1, ?_⟩
            intro hmem
            rcases List.mem_append.mp hmem with hp | hp
            · exact hnx hp
            · exact hxq (List.mem_singleton.mp hp)
        · exact b5 x hx hx1 y hy

theorem traverse_sound (succs : α → List α) :
    ∀ depth, VisitSound succs (traverse succs depth) := by
  intro depth
  induction depth with
  | zero => intro p points r h; simp [traverse] at h
  | succ d ih =>
    intro p points r h
    simp only [traverse] at h
    obtain ⟨h1, h2, h3, h4, h5⟩ := visitAll_sound ih (succs p) points r h
    refine ⟨h1, h2, ?_, ?_⟩
    · intro x hx
      rcases h3 x hx with hp | ⟨q, hq, hr⟩
      · exact Or.inl hp
      · exact Or.inr (Relation.ReflTransGen.head hq hr)
    · intro x hx y hy
      rcases hx with rfl | ⟨hx, hnx⟩
      · exact h4 y hy
      · exact h5 x hx hnx y hy

theorem unvisited_le_length (U points : List α) : unvisited U points ≤ U.length :=
  List.countP_le_length _

theorem unvisited_mono (U : List α) {points r : List α} (h : points ⊆ r) :
    unvisited U r ≤ unvisited U points := by
  unfold unvisited
  apply List.countP_mono_left
  intro x _ hx
  simp only [decide_eq_true_eq] at hx ⊢
  exact fun hp => hx (h hp)

theorem unvisited_lt (U : List α) {points : List α} {q : α} (hq : q ∈ U) (hn : q ∉ points) :
    unvisited U (points ++ [q]) < unvisited U points := by
  unfold unvisited
  induction U with
  | nil => cases hq
  | cons u rest ih =>
    have hmono : List.countP (fun x => decide (x ∉ points ++ [q])) rest
        ≤ List.countP (fun x => decide (x ∉ points)) rest := by
      apply List.countP_mono_left
      intro x _ hx
      simp only [decide_eq_true_eq] at hx ⊢
      exact fun hp => hx (List.mem_append_left _ hp)
    by_cases huq : u = q
    · subst huq
      rw [List.countP_cons_of_neg, List.countP_cons_of_pos]
      · omega
      · simpa using hn
      · simp
    · have hq1 : q ∈ rest := by
        rcases List.mem_cons.mp hq with h | h
        · exact absurd h.symm huq
        · exact h
      have := ih hq1
      by_cases hu : u ∈ points
      · rw [List.countP_cons_of_neg, List.countP_cons_of_neg]
        · exact this
        · simpa using hu
        · simp [hu]
      · rw [List.countP_cons_of_pos, List.countP_cons_of_pos]
        · omega
        · simpa using hu
        · simp [hu, huq]

theorem visitAll_total {succs : α → List α} {visit : α → List α → Option (List α)}
    (U : List α) (n : Nat) (hv : VisitSound succs visit)
    (ht : ∀ p points, unvisited U points < n → ∃ r, visit p points = some r) :
    ∀ (qs points : List α), qs ⊆ U → unvisited U points ≤ n →
      ∃ r, visitAll visit qs points = some r := by
  intro qs
  induction qs with
  | nil => intro points _ _; exact ⟨points, rfl⟩
  | cons q rest ih =>
    intro points hsub hn
    have hrest : rest ⊆ U := fun x hx => hsub (List.mem_cons_of_mem _ hx)
    simp only [visitAll]
    by_cases hq : q ∈ points
    · rw [if_pos hq]; exact ih points hrest hn
    · rw [if_neg hq]
      have hlt := unvisited_lt U (hsub (List.mem_cons_self q rest)) hq
      obtain ⟨r1, hr1⟩ := ht q (points ++ [q]) (by omega)
      have hs := (hv q (points ++ [q]) r1 hr1).1
      have hle := unvisited_mono U hs
      obtain ⟨r, hr⟩ := ih r1 hrest (by omega)
      exact ⟨r, by rw [hr1]; simpa using hr⟩

theorem traverse_total (succs : α → List α) (U : List α) (hU : ∀ p, succs p ⊆ U) :
    ∀ depth p points, unvisited U points < depth →
      ∃ r, traverse succs depth p points = some r := by
  intro depth
  induction depth with
  | zero => intro p points h; omega
  | succ d ih =>
    intro p points h
    simp only [traverse]
    exact visitAll_total U d (traverse_sound succs d) ih (succs p) points (hU p) (by omega)

/-- With a sound traversal started at `[p]`, the result lists exactly the
points reachable from `p`, each once. -/
theorem traverse_result {succs : α → List α} {depth : Nat} {p : α} {r : List α}
    (h : traverse succs depth p [p] = some r) :
    r.Nodup ∧ ∀ x, x ∈ r ↔ Reach succs p x := by
  obtain ⟨h1, h2, h3, h4⟩ := traverse_sound succs depth p [p] r h
  refine ⟨h2 (List.nodup_singleton p), fun x => ⟨?_, ?_⟩⟩
  · intro hx
    rcases h3 x hx with hp | hr
    · rw [List.mem_singleton] at hp; subst hp; exact Relation.ReflTransGen.refl
    · exact hr
  · intro hr
    induction hr with
    | refl => exact h1 (List.mem_singleton_self p)
    | @tail b c _ hbc ih =>
      refine h4 b ?_ c hbc
      by_cases hb : b = p
      · exact Or.inl hb
      · exact Or.inr ⟨ih, by simpa using hb⟩

end Traversal

namespace BI_NetSegment

theorem findViaNeighbours_eq (visit : BI_NetPoint → List BI_NetPoint → Option (List BI_NetPoint))
    (p : BI_NetPoint) (l points : List BI_NetPoint) :
    findViaNeighbours visit p l points
      = visitAll visit (l.filter (fun np => decide (np.getVia = p.getVia))) points := by
  induction l generalizing points with
  | nil => simp [findViaNeighbours, visitAll]
  | cons np rest ih =>
    simp only [findViaNeighbours, List.filter_cons]
    by_cases hv : np.getVia = p.getVia
    · by_cases hm : np ∈ points
      · simp [hv, hm, visitAll, ih]
      · simp only [hv, hm, not_false_eq_true, and_self, if_true, decide_True, visitAll, if_false]
        congr 1
        funext r
        exact ih r
    · simp [hv, ih]

theorem findLineNeighbours_eq
    (visit : BI_NetPoint → List BI_NetPoint → Option (List BI_NetPoint))
    (p : BI_NetPoint) (l : List BI_NetLine) (points : List BI_NetPoint) :
    findLineNeighbours visit p l points
      = visitAll visit (l.filterMap (fun line => line.getOtherPoint p)) points := by
  induction l generalizing points with
  | nil => simp [findLineNeighbours, visitAll]
  | cons line rest ih =>
    simp only [findLineNeighbours]
    cases hp : line.getOtherPoint p with
    | none => simp [List.filterMap_cons, hp, ih]
    | some p2 =>
      simp only [List.filterMap_cons, hp, visitAll]
      by_cases hm : p2 ∈ points
      · simp [hm, ih]
      · simp only [hm, not_false_eq_true, if_true, if_false]
        congr 1
        funext r
        exact ih r

theorem findAllConnectedNetPoints_eq (s : BI_NetSegment) (depth : Nat) (p : BI_NetPoint)
    (points : List BI_NetPoint) :
    s.findAllConnectedNetPoints depth p points = traverse s.neighbours depth p points := by
  induction depth generalizing p points with
  | zero => rfl
  | succ d ih =>
    have hfun : s.findAllConnectedNetPoints d = traverse s.neighbours d := by
      funext q pts; exact ih q pts
    simp only [findAllConnectedNetPoints, traverse, neighbours, hfun, visitAll_append]
    congr 1
    · by_cases hv : p.isAttachedToVia
      · simp [hv, findViaNeighbours_eq]
      · simp [hv, visitAll]
    · funext r
      exact findLineNeighbours_eq _ p _ r

theorem neighbours_subset (s : BI_NetSegment) (p : BI_NetPoint) :
    s.neighbours p ⊆ s.visitable := by
  intro x hx
  simp only [neighbours, List.mem_append, List.mem_filterMap] at hx
  simp only [visitable, List.mem_append, List.mem_map]
  rcases hx with hx | ⟨l, hl, hx⟩
  · left
    by_cases hv : p.isAttachedToVia
    · simp only [hv, if_true] at hx
      exact (List.mem_filter.mp hx).1
    · simp [hv] at hx
  · right
    unfold BI_NetLine.getOtherPoint at hx
    split at hx
    · right; exact ⟨l, hl, by simpa using hx⟩
    · split at hx
      · left; exact ⟨l, hl, by simpa using hx⟩
      · cases hx

/-- The traversal started by `areAllNetPointsConnectedTogether` returns. -/
theorem findAllConnectedNetPoints_returns (s : BI_NetSegment) (p : BI_NetPoint)
    (points : List BI_NetPoint) :
    ∃ r, s.findAllConnectedNetPoints s.maxDepth p points = some r := by
  rw [findAllConnectedNetPoints_eq]
  apply traverse_total s.neighbours s.visitable (neighbours_subset s)
  have h := unvisited_le_length s.visitable points
  have hlen : s.visitable.length = s.mNetPoints.length + 2 * s.mNetLines.length := by
    simp [visitable]; omega
  unfold maxDepth
  omega

theorem mem_neighbours_iff (s : BI_NetSegment)
    (hl : ∀ l ∈ s.mNetLines, l.mStartPoint ∈ s.mNetPoints ∧ l.mEndPoint ∈ s.mNetPoints)
    (a b : BI_NetPoint) (ha : a ∈ s.mNetPoints) :
    b ∈ s.neighbours a ↔ s.Adjacent a b := by
  simp only [neighbours, List.mem_append, List.mem_filterMap, Adjacent]
  constructor
  · rintro (h | ⟨l, hlm, h⟩)
    · by_cases hv : a.isAttachedToVia
      · simp only [hv, if_true, List.mem_filter, decide_eq_true_eq] at h
        refine ⟨ha, h.1, Or.inr ?_⟩
        unfold BI_NetPoint.isAttachedToVia at hv
        obtain ⟨via, hvia⟩ := Option.isSome_iff_exists.mp hv
        refine ⟨via, hvia, ?_⟩
        rw [h.2]; exact hvia
      · simp [hv] at h
    · unfold BI_NetLine.getOtherPoint at h
      split at h
      · rename_i h1
        simp only [Option.some.injEq] at h
        exact ⟨ha, h ▸ (hl l hlm).2, Or.inl ⟨l, hlm, Or.inl ⟨h1.symm, h⟩⟩⟩
      · split at h
        · rename_i h1 h2
          simp only [Option.some.injEq] at h
          exact ⟨ha, h ▸ (hl l hlm).1, Or.inl ⟨l, hlm, Or.inr ⟨h, h2.symm⟩⟩⟩
        · cases h
  · rintro ⟨_, hb, (⟨l, hlm, h⟩ | ⟨via, h1, h2⟩)⟩
    · right
      refine ⟨l, hlm, ?_⟩
      unfold BI_NetLine.getOtherPoint
      rcases h with ⟨h1, h2⟩ | ⟨h1, h2⟩
      · simp [h1, h2]
      · by_cases hs : a = l.mStartPoint
        · simp only [hs, if_true, Option.some.injEq]
          rw [h2, hs, h1]
        · simp [hs, h2, h1]
    · left
      have hv : a.isAttachedToVia = true := by
        unfold BI_NetPoint.isAttachedToVia BI_NetPoint.getVia at *
        simp [h1]
      simp only [hv, if_true, List.mem_filter, decide_eq_true_eq]
      exact ⟨hb, by rw [h1, h2]⟩

theorem reach_iff_adjacent (s : BI_NetSegment)
    (hl : ∀ l ∈ s.mNetLines, l.mStartPoint ∈ s.mNetPoints ∧ l.mEndPoint ∈ s.mNetPoints)
    (a x : BI_NetPoint) (ha : a ∈ s.mNetPoints) :
    Reach s.neighbours a x ↔ Relation.ReflTransGen s.Adjacent a x := by
  constructor
  · intro h
    have : x ∈ s.mNetPoints ∧ Relation.ReflTransGen s.Adjacent a x := by
      induction h with
      | refl => exact ⟨ha, Relation.ReflTransGen.refl⟩
      | @tail b c _ hbc ih =>
        have hadj := (mem_neighbours_iff s hl b c ih.1).mp hbc
        exact ⟨hadj.2.1, Relation.ReflTransGen.tail ih.2 hadj⟩
    exact this.2
  · intro h
    induction h with
    | refl => exact Relation.ReflTransGen.refl
    | @tail b c _ hbc ih =>
      exact Relation.ReflTransGen.tail ih ((mem_neighbours_iff s hl b c hbc.1).mpr hbc)

theorem reach_mem (s : BI_NetSegment)
    (hl : ∀ l ∈ s.mNetLines, l.mStartPoint ∈ s.mNetPoints ∧ l.mEndPoint ∈ s.mNetPoints)
    (a x : BI_NetPoint) (ha : a ∈ s.mNetPoints) (h : Reach s.neighbours a x) :
    x ∈ s.mNetPoints := by
  induction h with
  | refl => exact ha
  | @tail b c _ hbc ih => exact ((mem_neighbours_iff s hl b c ih).mp hbc).2.1

/-- The cohesion check in terms of reachability along `neighbours`. -/
theorem areAllNetPointsConnectedTogether_iff_reach (s : BI_NetSegment)
    (hnd : s.mNetPoints.Nodup)
    (hl : ∀ l ∈ s.mNetLines, l.mStartPoint ∈ s.mNetPoints ∧ l.mEndPoint ∈ s.mNetPoints) :
    s.areAllNetPointsConnectedTogether = true ↔
      ∀ first ∈ s.mNetPoints.head?, ∀ p ∈ s.mNetPoints, Reach s.neighbours first p := by
  unfold areAllNetPointsConnectedTogether
  cases hpts : s.mNetPoints with
  | nil => simp
  | cons first rest =>
    have hfirst : first ∈ s.mNetPoints := by rw [hpts]; exact List.mem_cons_self _ _
    by_cases hlen : (first :: rest).length > 1
    · obtain ⟨r, hr⟩ := findAllConnectedNetPoints_returns s first [first]
      simp only [hlen, if_true, List.head?_cons, hr]
      have hr1 := hr
      rw [findAllConnectedNetPoints_eq] at hr1
      obtain ⟨hrnd, hrmem⟩ := traverse_result hr1
      have hsub : r ⊆ s.mNetPoints := fun x hx =>
        reach_mem s hl first x hfirst ((hrmem x).mp hx)
      simp only [beq_iff_eq, Option.mem_def, Option.some.injEq, forall_eq_apply_imp_iff,
        forall_eq]
      rw [← hpts]
      constructor
      · intro hlen1 a ha p hp
        subst ha
        apply (hrmem p).mp
        have hsp : r.Subperm s.mNetPoints := List.subperm_of_subset hrnd hsub
        have hperm : r.Perm s.mNetPoints := hsp.perm_of_length_le (by omega)
        exact hperm.mem_iff.mpr hp
      · intro hall0
        have hall := hall0 first rfl
        have h1 : r.Subperm s.mNetPoints := List.subperm_of_subset hrnd hsub
        have h2 : s.mNetPoints.Subperm r :=
          List.subperm_of_subset hnd (fun x hx => (hrmem x).mpr (hall x hx))
        exact Nat.le_antisymm h1.length_le h2.length_le
    · have hrest : rest = [] := by
        cases rest with
        | nil => rfl
        | cons _ _ => simp at hlen
      subst hrest
      simp [Reach]
      exact Relation.ReflTransGen.refl

end BI_NetSegment

/-! ## Invariants of the batch loops -/

namespace BI_NetSegment

theorem addElementsVias_invariant {W : Type} (ops : BoardItems W)
    (Inv : SegmentState W → ScopeGuardList (SegmentState W) → Prop) (hstep : AddStep ops Inv) :
    ∀ (xs : List BI_Via) (st : SegmentState W) (sgl : ScopeGuardList (SegmentState W)),
      Inv st sgl → LoopResult Inv (addElementsVias ops xs st sgl) := by
  intro xs
  induction xs with
  | nil => intro st sgl h; exact h
  | cons x rest ih =>
    intro st sgl h
    simp only [addElementsVias]
    split
    · exact ⟨st, sgl, h, rfl⟩
    · rename_i h1
      split
      · exact ⟨st, sgl, h, rfl⟩
      · rename_i h2
        split
        · exact ⟨st, sgl, h, rfl⟩
        · rename_i w hw
          apply ih
          refine hstep.via x st sgl w h ?_ ?_ ?_ hw
          · exact fun hm => h1 (Or.inl hm)
          · by_contra hne; exact h1 (Or.inr hne)
          · simpa using h2

theorem removeElementsVias_invariant {W : Type} (ops : BoardItems W)
    (Inv : SegmentState W → ScopeGuardList (SegmentState W) → Prop)
    (hstep : RemoveStep ops Inv) :
    ∀ (xs : List BI_Via) (st : SegmentState W) (sgl : ScopeGuardList (SegmentState W)),
      Inv st sgl → LoopResult Inv (removeElementsVias ops xs st sgl) := by
  intro xs
  induction xs with
  | nil => intro st sgl h; exact h
  | cons x rest ih =>
    intro st sgl h
    simp only [removeElementsVias]
    split
    · exact ⟨st, sgl, h, rfl⟩
    · rename_i h1
      split
      · exact ⟨st, sgl, h, rfl⟩
      · rename_i w hw
        apply ih
        exact hstep.via x st sgl w h (by simpa using h1) hw

theorem addElementsNetPoints_invariant {W : Type} (ops : BoardItems W)
    (Inv : SegmentState W → ScopeGuardList (SegmentState W) → Prop) (hstep : AddStep ops Inv) :
    ∀ (xs : List BI_NetPoint) (st : SegmentState W) (sgl : ScopeGuardList (SegmentState W)),
      Inv st sgl → LoopResult Inv (addElementsNetPoints ops xs st sgl) := by
  intro xs
  induction xs with
  | nil => intro st sgl h; exact h
  | cons x rest ih =>
    intro st sgl h
    simp only [addElementsNetPoints]
    split
    · exact ⟨st, sgl, h, rfl⟩
    · rename_i h1
      split
      · exact ⟨st, sgl, h, rfl⟩
      · rename_i h2
        split
        · exact ⟨st, sgl, h, rfl⟩
        · rename_i w hw
          apply ih
          refine hstep.netPoint x st sgl w h ?_ ?_ ?_ hw
          · exact fun hm => h1 (Or.inl hm)
          · by_contra hne; exact h1 (Or.inr hne)
          · simpa using h2

theorem removeElementsNetPoints_invariant {W : Type} (ops : BoardItems W)
    (Inv : SegmentState W → ScopeGuardList (SegmentState W) → Prop)
    (hstep : RemoveStep ops Inv) :
    ∀ (xs : List BI_NetPoint) (st : SegmentState W) (sgl : ScopeGuardList (SegmentState W)),
      Inv st sgl → LoopResult Inv (removeElementsNetPoints ops xs st sgl) := by
  intro xs
  induction xs with
  | nil => intro st sgl h; exact h
  | cons x rest ih =>
    intro st sgl h
    simp only [removeElementsNetPoints]
    split
    · exact ⟨st, sgl, h, rfl⟩
    · rename_i h1
      split
      · exact ⟨st, sgl, h, rfl⟩
      · rename_i w hw
        apply ih
        exact hstep.netPoint x st sgl w h (by simpa using h1) hw

theorem addElementsNetLines_invariant {W : Type} (ops : BoardItems W)
    (Inv : SegmentState W → ScopeGuardList (SegmentState W) → Prop) (hstep : AddStep ops Inv) :
    ∀ (xs : List BI_NetLine) (st : SegmentState W) (sgl : ScopeGuardList (SegmentState W)),
      Inv st sgl → LoopResult Inv (addElementsNetLines ops xs st sgl) := by
  intro xs
  induction xs with
  | nil => intro st sgl h; exact h
  | cons x rest ih =>
    intro st sgl h
    simp only [addElementsNetLines]
    split
    · exact ⟨st, sgl, h, rfl⟩
    · rename_i h1
      split
      · exact ⟨st, sgl, h, rfl⟩
      · rename_i h2
        split
        · exact ⟨st, sgl, h, rfl⟩
        · rename_i w hw
          apply ih
          refine hstep.netLine x st sgl w h ?_ ?_ ?_ hw
          · exact fun hm => h1 (Or.inl hm)
          · by_contra hne; exact h1 (Or.inr hne)
          · simpa using h2

theorem removeElementsNetLines_invariant {W : Type} (ops : BoardItems W)
    (Inv : SegmentState W → ScopeGuardList (SegmentState W) → Prop)
    (hstep : RemoveStep ops Inv) :
    ∀ (xs : List BI_NetLine) (st : SegmentState W) (sgl : ScopeGuardList (SegmentState W)),
      Inv st sgl → LoopResult Inv (removeElementsNetLines ops xs st sgl) := by
  intro xs
  induction xs with
  | nil => intro st sgl h; exact h
  | cons x rest ih =>
    intro st sgl h
    simp only [removeElementsNetLines]
    split
    · exact ⟨st, sgl, h, rfl⟩
    · rename_i h1
      split
      · exact ⟨st, sgl, h, rfl⟩
      · rename_i w hw
        apply ih
        exact hstep.netLine x st sgl w h (by simpa using h1) hw

theorem addElements_invariant {W : Type} (ops : BoardItems W)
    (Inv : SegmentState W → ScopeGuardList (SegmentState W) → Prop) (hstep : AddStep ops Inv)
    (vias : List BI_Via) (netpoints : List BI_NetPoint) (netlines : List BI_NetLine)
    (st : SegmentState W) (h0 : Inv st []) :
    BatchResult Inv (addElements ops vias netpoints netlines st) := by
  unfold addElements
  split
  · exact ⟨st, [], h0, rfl⟩
  · have h1 := addElementsVias_invariant ops Inv hstep vias st [] h0
    split
    · rename_i e he
      rw [he] at h1
      exact h1
    · rename_i st1 sgl1 he
      rw [he] at h1
      have h2 := addElementsNetPoints_invariant ops Inv hstep netpoints st1 sgl1 h1
      split
      · rename_i e he2
        rw [he2] at h2
        exact h2
      · rename_i st2 sgl2 he2
        rw [he2] at h2
        have h3 := addElementsNetLines_invariant ops Inv hstep netlines st2 sgl2 h2
        split
        · rename_i e he3
          rw [he3] at h3
          exact h3
        · rename_i st3 sgl3 he3
          rw [he3] at h3
          split
          · exact ⟨st3, sgl3, h3, rfl⟩
          · rename_i hc
            exact ⟨sgl3, h3, by simpa using hc⟩

theorem removeElements_invariant {W : Type} (ops : BoardItems W)
    (Inv : SegmentState W → ScopeGuardList (SegmentState W) → Prop) (hstep : RemoveStep ops Inv)
    (vias : List BI_Via) (netpoints : List BI_NetPoint) (netlines : List BI_NetLine)
    (st : SegmentState W) (h0 : Inv st []) :
    BatchResult Inv (removeElements ops vias netpoints netlines st) := by
  unfold removeElements
  split
  · exact ⟨st, [], h0, rfl⟩
  · have h1 := removeElementsNetLines_invariant ops Inv hstep netlines st [] h0
    split
    · rename_i e he
      rw [he] at h1
      exact h1
    · rename_i st1 sgl1 he
      rw [he] at h1
      have h2 := removeElementsNetPoints_invariant ops Inv hstep netpoints st1 sgl1 h1
      split
      · rename_i e he2
        rw [he2] at h2
        exact h2
      · rename_i st2 sgl2 he2
        rw [he2] at h2
        have h3 := removeElementsVias_invariant ops Inv hstep vias st2 sgl2 h2
        split
        · rename_i e he3
          rw [he3] at h3
          exact h3
        · rename_i st3 sgl3 he3
          rw [he3] at h3
          split
          · exact ⟨st3, sgl3, h3, rfl⟩
          · rename_i hc
            exact ⟨sgl3, h3, by simpa using hc⟩

end BI_NetSegment

/-! ## The cohesion check and the batch operations -/

namespace BI_NetSegment

theorem addElements_ok_cohesive {W : Type} (ops : BoardItems W) (vias : List BI_Via)
    (netpoints : List BI_NetPoint) (netlines : List BI_NetLine) (st : SegmentState W)
    (h : (addElements ops vias netpoints netlines st).thrown = none) :
    (addElements ops vias netpoints netlines st).state.seg.areAllNetPointsConnectedTogether
      = true := by
  unfold addElements at h ⊢
  split at h
  · simp [Outcome.thrown] at h
  · split at h
    · simp [Outcome.thrown] at h
    · split at h
      · simp [Outcome.thrown] at h
      · split at h
        · simp [Outcome.thrown] at h
        · split at h
          · simp [Outcome.thrown] at h
          · rename_i hc
            simp_all [Outcome.state]

theorem removeElements_ok_cohesive {W : Type} (ops : BoardItems W) (vias : List BI_Via)
    (netpoints : List BI_NetPoint) (netlines : List BI_NetLine) (st : SegmentState W)
    (h : (removeElements ops vias netpoints netlines st).thrown = none) :
    (removeElements ops vias netpoints netlines st).state.seg.areAllNetPointsConnectedTogether
      = true := by
  unfold removeElements at h ⊢
  split at h
  · simp [Outcome.thrown] at h
  · split at h
    · simp [Outcome.thrown] at h
    · split at h
      · simp [Outcome.thrown] at h
      · split at h
        · simp [Outcome.thrown] at h
        · split at h
          · simp [Outcome.thrown] at h
          · rename_i hc
            simp_all [Outcome.state]

end BI_NetSegment

theorem BatchCall.run_ok_cohesive {W : Type} (ops : BoardItems W) (c : BatchCall)
    (st : SegmentState W) (h : (c.run ops st).thrown = none) :
    (c.run ops st).state.seg.areAllNetPointsConnectedTogether = true := by
  cases c with
  | addElements v p l => exact BI_NetSegment.addElements_ok_cohesive ops v p l st h
  | removeElements v p l => exact BI_NetSegment.removeElements_ok_cohesive ops v p l st h

/-- C1: a call of addElements or removeElements that returns without raising
leaves a segment on which areAllNetPointsConnectedTogether() is true, and so
does every call that returns in a sequence of such calls, whatever state the
sequence starts from (an empty segment in particular). -/
theorem cohesive_after_every_successful_batch {W : Type} (ops : BoardItems W) :
    (∀ (c : BatchCall) (st : SegmentState W), (c.run ops st).thrown = none →
      (c.run ops st).state.seg.areAllNetPointsConnectedTogether = true) ∧
    (∀ (calls : List BatchCall) (st : SegmentState W),
      ∀ o ∈ BatchCall.trace ops calls st, o.thrown = none →
        o.state.seg.areAllNetPointsConnectedTogether = true) := by
  refine ⟨BatchCall.run_ok_cohesive ops, ?_⟩
  intro calls
  induction calls with
  | nil => intro st o ho; cases ho
  | cons c rest ih =>
    intro st o ho hok
    simp only [BatchCall.trace, List.mem_cons] at ho
    rcases ho with rfl | ho
    · exact BatchCall.run_ok_cohesive ops c st hok
    · exact ih _ o ho hok

/-- On an empty segment added to the board, adding P1, P2, P3, L1 and L2 of
scenario A in one call returns, and the segment is cohesive afterwards. -/
theorem cohesive_after_every_successful_batch_witness :
    ((BatchCall.addElements [] [ScenarioA.P1, ScenarioA.P2, ScenarioA.P3]
      [ScenarioA.L1, ScenarioA.L2]).run flagItems ⟨ScenarioA.empty, ScenarioA.noFlags⟩).thrown
      = none ∧
    ((BatchCall.addElements [] [ScenarioA.P1, ScenarioA.P2, ScenarioA.P3]
      [ScenarioA.L1, ScenarioA.L2]).run flagItems
      ⟨ScenarioA.empty, ScenarioA.noFlags⟩).state.seg.areAllNetPointsConnectedTogether = true :=
  ⟨by decide, (cohesive_after_every_successful_batch flagItems).1 _ _ (by decide)⟩

namespace BI_NetSegment

/-- C4: for a segment whose net point list has no duplicates and whose net
lines all have both ends in the net point list,
areAllNetPointsConnectedTogether() returns true if and only if every net point
of the segment is reachable from the first net point along `Adjacent` (a net
line of the segment joins the two points, or both are attached to the same
via); with zero or one net point it returns true. -/
theorem cohesion_check_iff_all_reachable (s : BI_NetSegment)
    (hnd : s.mNetPoints.Nodup)
    (hl : ∀ l ∈ s.mNetLines, l.mStartPoint ∈ s.mNetPoints ∧ l.mEndPoint ∈ s.mNetPoints) :
    (s.areAllNetPointsConnectedTogether = true ↔
      ∀ first ∈ s.mNetPoints.head?, ∀ p ∈ s.mNetPoints,
        Relation.ReflTransGen s.Adjacent first p) ∧
    (s.mNetPoints.length ≤ 1 → s.areAllNetPointsConnectedTogether = true) := by
  constructor
  · rw [areAllNetPointsConnectedTogether_iff_reach s hnd hl]
    constructor
    · intro h first hf p hp
      have hmem : first ∈ s.mNetPoints := List.mem_of_mem_head? hf
      exact (reach_iff_adjacent s hl first p hmem).mp (h first hf p hp)
    · intro h first hf p hp
      have hmem : first ∈ s.mNetPoints := List.mem_of_mem_head? hf
      exact (reach_iff_adjacent s hl first p hmem).mpr (h first hf p hp)
  · intro hlen
    unfold areAllNetPointsConnectedTogether
    simp [Nat.not_lt.mpr hlen]

/-- The equivalence on the segment of scenario A. -/
theorem cohesion_check_iff_all_reachable_witness :
    ScenarioA.segment.areAllNetPointsConnectedTogether = true ↔
      ∀ first ∈ ScenarioA.segment.mNetPoints.head?, ∀ p ∈ ScenarioA.segment.mNetPoints,
        Relation.ReflTransGen ScenarioA.segment.Adjacent first p :=
  (cohesion_check_iff_all_reachable ScenarioA.segment (by decide) (by decide)).1

end BI_NetSegment

/-! ## Rollback -/


theorem update_true_false {α : Type} [DecidableEq α] (f : α → Bool) (x : α)
    (h : f x = false) : Function.update (Function.update f x true) x false = f := by
  rw [Function.update_idem, ← h, Function.update_eq_self]

theorem update_false_true {α : Type} [DecidableEq α] (f : α → Bool) (x : α)
    (h : f x = true) : Function.update (Function.update f x false) x true = f := by
  rw [Function.update_idem, ← h, Function.update_eq_self]

theorem flagItems_reversible : flagItems.Reversible := by
  constructor
  all_goals
    intro x w w1 h
    simp only [flagItems] at h ⊢
    split at h
    all_goals
      first
      | (cases h; done)
      | (rename_i hx
         cases h
         try simp only [Bool.not_eq_true] at hx
         first
         | simp [update_true_false _ x hx]
         | simp [update_false_true _ x hx])

theorem ScopeGuardList.unwind_cons {σ : Type} (f : σ → σ) (sgl : ScopeGuardList σ) (st : σ) :
    ScopeGuardList.unwind (f :: sgl) st = ScopeGuardList.unwind sgl (f st) := rfl

theorem erase_append_singleton {α : Type} [DecidableEq α] (l : List α) (x : α) (h : x ∉ l) :
    (l ++ [x]).erase x = l := by
  rw [List.erase_append_right _ h]
  simp

theorem erase_append_perm {α : Type} [DecidableEq α] {k l : List α} {x : α} (hx : x ∈ l)
    (h : k.Perm (l.erase x)) : (k ++ [x]).Perm l := by
  have h1 : (k ++ [x]).Perm (x :: k) := List.perm_append_singleton x k
  exact h1.trans ((List.Perm.cons x h).trans (List.perm_cons_erase hx).symm)

namespace BI_NetSegment

theorem sameElements_refl (a : BI_NetSegment) : a.SameElements a :=
  ⟨rfl, rfl, rfl, rfl, rfl, List.Perm.refl _, List.Perm.refl _, List.Perm.refl _⟩

/-- With reversible element operations every step of `addElements` keeps:
unwinding the scope guard list gives back the state `st0`. -/
theorem addStep_unwind {W : Type} (ops : BoardItems W) (hrev : ops.Reversible)
    (st0 : SegmentState W) :
    AddStep ops (fun st sgl => ScopeGuardList.unwind sgl st = st0) := by
  constructor
  · intro x st sgl w h hx _ _ hw
    rw [ScopeGuardList.unwind_cons]
    simp only [compensate, hrev.via_add_undone x st.items w hw, erase_append_singleton _ x hx]
    exact h
  · intro x st sgl w h hx _ _ hw
    rw [ScopeGuardList.unwind_cons]
    simp only [compensate, hrev.netPoint_add_undone x st.items w hw,
      erase_append_singleton _ x hx]
    exact h
  · intro x st sgl w h hx _ _ hw
    rw [ScopeGuardList.unwind_cons]
    simp only [compensate, hrev.netLine_add_undone x st.items w hw,
      erase_append_singleton _ x hx]
    exact h

/-- With reversible element operations every step of `removeElements` keeps:
unwinding the scope guard list, from the state or from one that differs from
it in the order of the lists, gives back `st0` up to the order of the lists. -/
theorem removeStep_unwind {W : Type} (ops : BoardItems W) (hrev : ops.Reversible)
    (st0 : SegmentState W) :
    RemoveStep ops (fun st sgl => ∀ s : SegmentState W, s.Restored st →
      (ScopeGuardList.unwind sgl s).Restored st0) := by
  constructor
  · intro x st sgl w h hx hw s hs
    rw [ScopeGuardList.unwind_cons]
    apply h
    obtain ⟨hi, h1, h2, h3, h4, h5, h6, h7, h8⟩ := hs
    simp only at hi h1 h2 h3 h4 h5 h6 h7 h8
    simp only [compensate, hi, hrev.via_remove_undone x st.items w hw]
    exact ⟨rfl, h1, h2, h3, h4, h5, erase_append_perm hx h6, h7, h8⟩
  · intro x st sgl w h hx hw s hs
    rw [ScopeGuardList.unwind_cons]
    apply h
    obtain ⟨hi, h1, h2, h3, h4, h5, h6, h7, h8⟩ := hs
    simp only at hi h1 h2 h3 h4 h5 h6 h7 h8
    simp only [compensate, hi, hrev.netPoint_remove_undone x st.items w hw]
    exact ⟨rfl, h1, h2, h3, h4, h5, h6, erase_append_perm hx h7, h8⟩
  · intro x st sgl w h hx hw s hs
    rw [ScopeGuardList.unwind_cons]
    apply h
    obtain ⟨hi, h1, h2, h3, h4, h5, h6, h7, h8⟩ := hs
    simp only at hi h1 h2 h3 h4 h5 h6 h7 h8
    simp only [compensate, hi, hrev.netLine_remove_undone x st.items w hw]
    exact ⟨rfl, h1, h2, h3, h4, h5, h6, h7, erase_append_perm hx h8⟩

theorem addElements_thrown_state {W : Type} (ops : BoardItems W) (hrev : ops.Reversible)
    (vias : List BI_Via) (netpoints : List BI_NetPoint) (netlines : List BI_NetLine)
    (st : SegmentState W) (h : (addElements ops vias netpoints netlines st).thrown ≠ none) :
    (addElements ops vias netpoints netlines st).state = st := by
  have hinv := addElements_invariant ops _ (addStep_unwind ops hrev st) vias netpoints netlines
    st rfl
  cases hres : addElements ops vias netpoints netlines st with
  | ok s1 => rw [hres] at h; simp [Outcome.thrown] at h
  | error e =>
    obtain ⟨e1, s⟩ := e
    rw [hres] at hinv
    obtain ⟨st1, sgl1, h1, h2⟩ := hinv
    simp only [Outcome.state]
    rw [h2, h1]

theorem removeElements_thrown_state {W : Type} (ops : BoardItems W) (hrev : ops.Reversible)
    (vias : List BI_Via) (netpoints : List BI_NetPoint) (netlines : List BI_NetLine)
    (st : SegmentState W) (h : (removeElements ops vias netpoints netlines st).thrown ≠ none) :
    (removeElements ops vias netpoints netlines st).state.Restored st := by
  have hinv := removeElements_invariant ops _ (removeStep_unwind ops hrev st) vias netpoints
    netlines st (fun s hs => hs)
  cases hres : removeElements ops vias netpoints netlines st with
  | ok s1 => rw [hres] at h; simp [Outcome.thrown] at h
  | error e =>
    obtain ⟨e1, s⟩ := e
    rw [hres] at hinv
    obtain ⟨st1, sgl1, h1, h2⟩ := hinv
    simp only [Outcome.state]
    rw [h2]
    exact h1 st1 ⟨rfl, sameElements_refl _⟩

/-- C2 (as amended): with element operations that undo each other, a call of
addElements that fails leaves the whole state (the three element lists in
their order, and the state of every board item, so every added-to-board flag)
exactly as it was before the call; a call of removeElements that fails leaves
the state of every board item as it was and the three element lists with the
same elements as before, up to their order. -/
theorem failed_batch_restores_state {W : Type} (ops : BoardItems W) (hrev : ops.Reversible)
    (vias : List BI_Via) (netpoints : List BI_NetPoint) (netlines : List BI_NetLine)
    (st : SegmentState W) :
    ((addElements ops vias netpoints netlines st).thrown ≠ none →
      (addElements ops vias netpoints netlines st).state = st) ∧
    ((removeElements ops vias netpoints netlines st).thrown ≠ none →
      (removeElements ops vias netpoints netlines st).state.items = st.items ∧
      (removeElements ops vias netpoints netlines st).state.seg.SameElements st.seg) :=
  ⟨addElements_thrown_state ops hrev vias netpoints netlines st,
   removeElements_thrown_state ops hrev vias netpoints netlines st⟩

/-- In scenario A, removeElements([], [], [L1]) throws and leaves the board
items as they were and the segment with the same elements. -/
theorem failed_batch_restores_state_witness :
    (removeElements flagItems [] [] [ScenarioA.L1] ⟨ScenarioA.segment, ScenarioA.flags⟩).thrown
      ≠ none ∧
    (removeElements flagItems [] [] [ScenarioA.L1]
      ⟨ScenarioA.segment, ScenarioA.flags⟩).state.items = ScenarioA.flags ∧
    (removeElements flagItems [] [] [ScenarioA.L1]
      ⟨ScenarioA.segment, ScenarioA.flags⟩).state.seg.SameElements ScenarioA.segment :=
  ⟨by decide,
   (failed_batch_restores_state flagItems flagItems_reversible [] [] [ScenarioA.L1]
      ⟨ScenarioA.segment, ScenarioA.flags⟩).2 (by decide)⟩

/-- C2 fails as stated: in scenario A, removeElements([], [], [L1]) throws (P1
would be cut off) and leaves the net lines as [L2, L1], not [L1, L2]: the
rollback appends L1 at the end. -/
theorem failed_removeElements_reorders :
    (removeElements flagItems [] [] [ScenarioA.L1] ⟨ScenarioA.segment, ScenarioA.flags⟩).thrown
      = some Exception.LogicError ∧
    (removeElements flagItems [] [] [ScenarioA.L1]
      ⟨ScenarioA.segment, ScenarioA.flags⟩).state.seg.mNetLines = [ScenarioA.L2, ScenarioA.L1] ∧
    ScenarioA.segment.mNetLines = [ScenarioA.L1, ScenarioA.L2] ∧
    (removeElements flagItems [] [] [ScenarioA.L1]
      ⟨ScenarioA.segment, ScenarioA.flags⟩).state.seg.mNetLines ≠ ScenarioA.segment.mNetLines := by
  decide

end BI_NetSegment

/-! ## What a batch operation that returns has done -/

namespace BI_NetSegment

/-- A completed `Vias` loop of `addElements` has appended the batch, and every
element of the batch passed the three checks against the list at the start. -/
theorem addElementsVias_ok {W : Type} (ops : BoardItems W) :
    ∀ (xs : List BI_Via) (st : SegmentState W) (sgl : ScopeGuardList (SegmentState W))
      (s1 : SegmentState W) (sgl1 : ScopeGuardList (SegmentState W)),
      addElementsVias ops xs st sgl = .ok (s1, sgl1) →
      s1.seg = { st.seg with mVias := st.seg.mVias ++ xs } ∧
      ∀ x ∈ xs, x ∉ st.seg.mVias ∧ x.mNetSegment = st.seg.ptr ∧
        ∀ y ∈ st.seg.mVias, y.mUuid ≠ x.mUuid := by
  intro xs
  induction xs with
  | nil =>
    intro st sgl s1 sgl1 h
    simp only [addElementsVias, Except.ok.injEq, Prod.mk.injEq] at h
    obtain ⟨h1, _⟩ := h
    subst h1
    simp
  | cons x rest ih =>
    intro st sgl s1 sgl1 h
    simp only [addElementsVias] at h
    split at h
    · cases h
    · rename_i h1
      split at h
      · cases h
      · rename_i h2
        split at h
        · cases h
        · obtain ⟨e1, e2⟩ := ih _ _ _ _ h
          simp only [List.append_assoc, List.singleton_append] at e1
          have hx1 : x ∉ st.seg.mVias := fun hm => h1 (Or.inl hm)
          have hx2 : x.mNetSegment = st.seg.ptr := by
            by_contra hne; exact h1 (Or.inr hne)
          have hx3 : ∀ y ∈ st.seg.mVias, y.mUuid ≠ x.mUuid := by
            simp only [getViaByUuid, Option.isSome_iff_ne_none, ne_eq, not_not,
              List.find?_eq_none, decide_eq_true_eq] at h2
            exact h2
          refine ⟨e1, ?_⟩
          intro y hy
          rcases List.mem_cons.mp hy with hyx | hy
          · subst hyx; exact ⟨hx1, hx2, hx3⟩
          · obtain ⟨a1, a2, a3⟩ := e2 y hy
            simp only [List.mem_append, not_or] at a1
            exact ⟨a1.1, a2, fun z hz => a3 z (List.mem_append_left _ hz)⟩

/-- A completed `Vias` loop of `removeElements` has erased the batch, element
by element, and every element of the batch was in the list at the start. -/
theorem removeElementsVias_ok {W : Type} (ops : BoardItems W) :
    ∀ (xs : List BI_Via) (st : SegmentState W) (sgl : ScopeGuardList (SegmentState W))
      (s1 : SegmentState W) (sgl1 : ScopeGuardList (SegmentState W)),
      removeElementsVias ops xs st sgl = .ok (s1, sgl1) →
      s1.seg = { st.seg with mVias := st.seg.mVias.diff xs } ∧
      ∀ x ∈ xs, x ∈ st.seg.mVias := by
  intro xs
  induction xs with
  | nil =>
    intro st sgl s1 sgl1 h
    simp only [removeElementsVias, Except.ok.injEq, Prod.mk.injEq] at h
    obtain ⟨h1, _⟩ := h
    subst h1
    simp
  | cons x rest ih =>
    intro st sgl s1 sgl1 h
    simp only [removeElementsVias] at h
    split at h
    · cases h
    · rename_i h1
      split at h
      · cases h
      · obtain ⟨e1, e2⟩ := ih _ _ _ _ h
        simp only at e1 e2
        refine ⟨by rw [e1, List.diff_cons], ?_⟩
        intro y hy
        rcases List.mem_cons.mp hy with hyx | hy
        · subst hyx; simpa using h1
        · exact List.mem_of_mem_erase (e2 y hy)

/-- A completed `NetPoints` loop of `addElements` has appended the batch, and every
element of the batch passed the three checks against the list at the start. -/
theorem addElementsNetPoints_ok {W : Type} (ops : BoardItems W) :
    ∀ (xs : List BI_NetPoint) (st : SegmentState W) (sgl : ScopeGuardList (SegmentState W))
      (s1 : SegmentState W) (sgl1 : ScopeGuardList (SegmentState W)),
      addElementsNetPoints ops xs st sgl = .ok (s1, sgl1) →
      s1.seg = { st.seg with mNetPoints := st.seg.mNetPoints ++ xs } ∧
      ∀ x ∈ xs, x ∉ st.seg.mNetPoints ∧ x.mNetSegment = st.seg.ptr ∧
        ∀ y ∈ st.seg.mNetPoints, y.mUuid ≠ x.mUuid := by
  intro xs
  induction xs with
  | nil =>
    intro st sgl s1 sgl1 h
    simp only [addElementsNetPoints, Except.ok.injEq, Prod.mk.injEq] at h
    obtain ⟨h1, _⟩ := h
    subst h1
    simp
  | cons x rest ih =>
    intro st sgl s1 sgl1 h
    simp only [addElementsNetPoints] at h
    split at h
    · cases h
    · rename_i h1
      split at h
      · cases h
      · rename_i h2
        split at h
        · cases h
        · obtain ⟨e1, e2⟩ := ih _ _ _ _ h
          simp only [List.append_assoc, List.singleton_append] at e1
          have hx1 : x ∉ st.seg.mNetPoints := fun hm => h1 (Or.inl hm)
          have hx2 : x.mNetSegment = st.seg.ptr := by
            by_contra hne; exact h1 (Or.inr hne)
          have hx3 : ∀ y ∈ st.seg.mNetPoints, y.mUuid ≠ x.mUuid := by
            simp only [getNetPointByUuid, Option.isSome_iff_ne_none, ne_eq, not_not,
              List.find?_eq_none, decide_eq_true_eq] at h2
            exact h2
          refine ⟨e1, ?_⟩
          intro y hy
          rcases List.mem_cons.mp hy with hyx | hy
          · subst hyx; exact ⟨hx1, hx2, hx3⟩
          · obtain ⟨a1, a2, a3⟩ := e2 y hy
            simp only [List.mem_append, not_or] at a1
            exact ⟨a1.1, a2, fun z hz => a3 z (List.mem_append_left _ hz)⟩

/-- A completed `NetPoints` loop of `removeElements` has erased the batch, element
by element, and every element of the batch was in the list at the start. -/
theorem removeElementsNetPoints_ok {W : Type} (ops : BoardItems W) :
    ∀ (xs : List BI_NetPoint) (st : SegmentState W) (sgl : ScopeGuardList (SegmentState W))
      (s1 : SegmentState W) (sgl1 : ScopeGuardList (SegmentState W)),
      removeElementsNetPoints ops xs st sgl = .ok (s1, sgl1) →
      s1.seg = { st.seg with mNetPoints := st.seg.mNetPoints.diff xs } ∧
      ∀ x ∈ xs, x ∈ st.seg.mNetPoints := by
  intro xs
  induction xs with
  | nil =>
    intro st sgl s1 sgl1 h
    simp only [removeElementsNetPoints, Except.ok.injEq, Prod.mk.injEq] at h
    obtain ⟨h1, _⟩ := h
    subst h1
    simp
  | cons x rest ih =>
    intro st sgl s1 sgl1 h
    simp only [removeElementsNetPoints] at h
    split at h
    · cases h
    · rename_i h1
      split at h
      · cases h
      · obtain ⟨e1, e2⟩ := ih _ _ _ _ h
        simp only at e1 e2
        refine ⟨by rw [e1, List.diff_cons], ?_⟩
        intro y hy
        rcases List.mem_cons.mp hy with hyx | hy
        · subst hyx; simpa using h1
        · exact List.mem_of_mem_erase (e2 y hy)

/-- A completed `NetLines` loop of `addElements` has appended the batch, and every
element of the batch passed the three checks against the list at the start. -/
theorem addElementsNetLines_ok {W : Type} (ops : BoardItems W) :
    ∀ (xs : List BI_NetLine) (st : SegmentState W) (sgl : ScopeGuardList (SegmentState W))
      (s1 : SegmentState W) (sgl1 : ScopeGuardList (SegmentState W)),
      addElementsNetLines ops xs st sgl = .ok (s1, sgl1) →
      s1.seg = { st.seg with mNetLines := st.seg.mNetLines ++ xs } ∧
      ∀ x ∈ xs, x ∉ st.seg.mNetLines ∧ x.getNetSegment = st.seg.ptr ∧
        ∀ y ∈ st.seg.mNetLines, y.mUuid ≠ x.mUuid := by
  intro xs
  induction xs with
  | nil =>
    intro st sgl s1 sgl1 h
    simp only [addElementsNetLines, Except.ok.injEq, Prod.mk.injEq] at h
    obtain ⟨h1, _⟩ := h
    subst h1
    simp
  | cons x rest ih =>
    intro st sgl s1 sgl1 h
    simp only [addElementsNetLines] at h
    split at h
    · cases h
    · rename_i h1
      split at h
      · cases h
      · rename_i h2
        split at h
        · cases h
        · obtain ⟨e1, e2⟩ := ih _ _ _ _ h
          simp only [List.append_assoc, List.singleton_append] at e1
          have hx1 : x ∉ st.seg.mNetLines := fun hm => h1 (Or.inl hm)
          have hx2 : x.getNetSegment = st.seg.ptr := by
            by_contra hne; exact h1 (Or.inr hne)
          have hx3 : ∀ y ∈ st.seg.mNetLines, y.mUuid ≠ x.mUuid := by
            simp only [getNetLineByUuid, Option.isSome_iff_ne_none, ne_eq, not_not,
              List.find?_eq_none, decide_eq_true_eq] at h2
            exact h2
          refine ⟨e1, ?_⟩
          intro y hy
          rcases List.mem_cons.mp hy with hyx | hy
          · subst hyx; exact ⟨hx1, hx2, hx3⟩
          · obtain ⟨a1, a2, a3⟩ := e2 y hy
            simp only [List.mem_append, not_or] at a1
            exact ⟨a1.1, a2, fun z hz => a3 z (List.mem_append_left _ hz)⟩

/-- A completed `NetLines` loop of `removeElements` has erased the batch, element
by element, and every element of the batch was in the list at the start. -/
theorem removeElementsNetLines_ok {W : Type} (ops : BoardItems W) :
    ∀ (xs : List BI_NetLine) (st : SegmentState W) (sgl : ScopeGuardList (SegmentState W))
      (s1 : SegmentState W) (sgl1 : ScopeGuardList (SegmentState W)),
      removeElementsNetLines ops xs st sgl = .ok (s1, sgl1) →
      s1.seg = { st.seg with mNetLines := st.seg.mNetLines.diff xs } ∧
      ∀ x ∈ xs, x ∈ st.seg.mNetLines := by
  intro xs
  induction xs with
  | nil =>
    intro st sgl s1 sgl1 h
    simp only [removeElementsNetLines, Except.ok.injEq, Prod.mk.injEq] at h
    obtain ⟨h1, _⟩ := h
    subst h1
    simp
  | cons x rest ih =>
    intro st sgl s1 sgl1 h
    simp only [removeElementsNetLines] at h
    split at h
    · cases h
    · rename_i h1
      split at h
      · cases h
      · obtain ⟨e1, e2⟩ := ih _ _ _ _ h
        simp only at e1 e2
        refine ⟨by rw [e1, List.diff_cons], ?_⟩
        intro y hy
        rcases List.mem_cons.mp hy with hyx | hy
        · subst hyx; simpa using h1
        · exact List.mem_of_mem_erase (e2 y hy)

/-- A call of `addElements` that returns was made on a segment added to the
board, has appended the three batches, and every element of the batches passed
its three checks against the lists at the start. -/
theorem addElements_ok {W : Type} (ops : BoardItems W) (vias : List BI_Via)
    (netpoints : List BI_NetPoint) (netlines : List BI_NetLine) (st : SegmentState W)
    (h : (addElements ops vias netpoints netlines st).thrown = none) :
    st.seg.mIsAddedToBoard = true ∧
    (addElements ops vias netpoints netlines st).state.seg =
      { st.seg with mVias := st.seg.mVias ++ vias,
                    mNetPoints := st.seg.mNetPoints ++ netpoints,
                    mNetLines := st.seg.mNetLines ++ netlines } ∧
    (∀ x ∈ vias, x ∉ st.seg.mVias ∧ x.mNetSegment = st.seg.ptr ∧
      ∀ y ∈ st.seg.mVias, y.mUuid ≠ x.mUuid) ∧
    (∀ x ∈ netpoints, x ∉ st.seg.mNetPoints ∧ x.mNetSegment = st.seg.ptr ∧
      ∀ y ∈ st.seg.mNetPoints, y.mUuid ≠ x.mUuid) ∧
    (∀ x ∈ netlines, x ∉ st.seg.mNetLines ∧ x.getNetSegment = st.seg.ptr ∧
      ∀ y ∈ st.seg.mNetLines, y.mUuid ≠ x.mUuid) := by
  unfold addElements at h ⊢
  split at h
  · simp [Outcome.thrown] at h
  · rename_i hadd
    rw [if_neg hadd]
    split at h
    · simp [Outcome.thrown] at h
    · rename_i st1 sgl1 he1
      split at h
      · simp [Outcome.thrown] at h
      · rename_i st2 sgl2 he2
        split at h
        · simp [Outcome.thrown] at h
        · rename_i st3 sgl3 he3
          split at h
          · simp [Outcome.thrown] at h
          · rename_i hc
            rw [if_neg hc]
            obtain ⟨a1, a2⟩ := addElementsVias_ok ops _ _ _ _ _ he1
            obtain ⟨b1, b2⟩ := addElementsNetPoints_ok ops _ _ _ _ _ he2
            obtain ⟨c1, c2⟩ := addElementsNetLines_ok ops _ _ _ _ _ he3
            simp only [Outcome.state]
            rw [b1, a1] at c1
            rw [b1, a1] at c2
            rw [a1] at b2
            simp only at b2 c2 c1
            exact ⟨by simpa using hadd, c1, a2, b2, c2⟩

/-- A call of `removeElements` that returns was made on a segment added to the
board, has erased the three batches, and every element of the batches was in
its list at the start. -/
theorem removeElements_ok {W : Type} (ops : BoardItems W) (vias : List BI_Via)
    (netpoints : List BI_NetPoint) (netlines : List BI_NetLine) (st : SegmentState W)
    (h : (removeElements ops vias netpoints netlines st).thrown = none) :
    st.seg.mIsAddedToBoard = true ∧
    (removeElements ops vias netpoints netlines st).state.seg =
      { st.seg with mVias := st.seg.mVias.diff vias,
                    mNetPoints := st.seg.mNetPoints.diff netpoints,
                    mNetLines := st.seg.mNetLines.diff netlines } ∧
    (∀ x ∈ vias, x ∈ st.seg.mVias) ∧
    (∀ x ∈ netpoints, x ∈ st.seg.mNetPoints) ∧
    (∀ x ∈ netlines, x ∈ st.seg.mNetLines) := by
  unfold removeElements at h ⊢
  split at h
  · simp [Outcome.thrown] at h
  · rename_i hadd
    rw [if_neg hadd]
    split at h
    · simp [Outcome.thrown] at h
    · rename_i st1 sgl1 he1
      split at h
      · simp [Outcome.thrown] at h
      · rename_i st2 sgl2 he2
        split at h
        · simp [Outcome.thrown] at h
        · rename_i st3 sgl3 he3
          split at h
          · simp [Outcome.thrown] at h
          · rename_i hc
            rw [if_neg hc]
            obtain ⟨a1, a2⟩ := removeElementsNetLines_ok ops _ _ _ _ _ he1
            obtain ⟨b1, b2⟩ := removeElementsNetPoints_ok ops _ _ _ _ _ he2
            obtain ⟨c1, c2⟩ := removeElementsVias_ok ops _ _ _ _ _ he3
            simp only [Outcome.state]
            rw [b1, a1] at c1
            rw [b1, a1] at c2
            rw [a1] at b2
            simp only at b2 c2 c1
            exact ⟨by simpa using hadd, c1, c2, b2, a2⟩

end BI_NetSegment

/-! ## UUIDs -/


theorem nodup_map_append_singleton {α β : Type} (f : α → β) (l : List α) (x : α)
    (hl : (l.map f).Nodup) (hx : ∀ y ∈ l, f y ≠ f x) : ((l ++ [x]).map f).Nodup := by
  rw [List.map_append, List.map_singleton]
  refine List.Nodup.append hl (List.nodup_singleton _) ?_
  intro b hb hb1
  rw [List.mem_singleton] at hb1
  obtain ⟨y, hy, hyb⟩ := List.mem_map.mp hb
  exact hx y hy (hyb.trans hb1)

theorem nodup_map_of_subperm {α β : Type} (f : α → β) {k l : List α} (h : k.Subperm l)
    (hl : (l.map f).Nodup) : (k.map f).Nodup := by
  obtain ⟨m, hm, hs⟩ := h
  have h1 : (m.map f).Nodup := hl.sublist (hs.map f)
  exact (hm.map f).nodup_iff.mp h1

theorem append_singleton_subperm {α : Type} [DecidableEq α] {k l : List α} {x : α}
    (hx : x ∈ l) (h : k.Subperm (l.erase x)) : (k ++ [x]).Subperm l := by
  have h1 : (k ++ [x]).Perm (x :: k) := List.perm_append_singleton x k
  have h2 : (x :: k).Subperm (x :: l.erase x) := List.subperm_cons x |>.mpr h
  exact h1.subperm.trans (h2.trans (List.perm_cons_erase hx).symm.subperm)

theorem subperm_of_erase {α : Type} [DecidableEq α] {k l : List α} {x : α}
    (h : k.Subperm (l.erase x)) : k.Subperm l :=
  h.trans (List.erase_sublist x l).subperm

namespace BI_NetSegment

theorem elementsWithin_refl (a : BI_NetSegment) : a.ElementsWithin a :=
  ⟨List.Subperm.refl _, List.Subperm.refl _, List.Subperm.refl _⟩

theorem uuidsUnique_of_elementsWithin {a b : BI_NetSegment} (h : a.ElementsWithin b)
    (hb : b.UuidsUnique) : a.UuidsUnique :=
  ⟨nodup_map_of_subperm _ h.1 hb.1, nodup_map_of_subperm _ h.2.1 hb.2.1,
   nodup_map_of_subperm _ h.2.2 hb.2.2⟩

/-- Unwinding a scope guard list whose compensations all keep `P` keeps `P`. -/
theorem unwind_keeps {σ : Type} (P : σ → Prop) :
    ∀ (sgl : ScopeGuardList σ) (st : σ), (∀ f ∈ sgl, ∀ s, P s → P (f s)) → P st →
      P (ScopeGuardList.unwind sgl st) := by
  intro sgl
  induction sgl with
  | nil => intro st _ h; exact h
  | cons f rest ih =>
    intro st hf h
    exact ih (f st) (fun g hg => hf g (List.mem_cons_of_mem _ hg))
      (hf f (List.mem_cons_self _ _) st h)

/-- Every step of `addElements` keeps the UUIDs unique, in the state and in
whatever the compensations leave. -/
theorem addStep_uuidsUnique {W : Type} (ops : BoardItems W) :
    AddStep ops (fun st sgl => st.seg.UuidsUnique ∧
      ∀ f ∈ sgl, ∀ s : SegmentState W, s.seg.UuidsUnique → (f s).seg.UuidsUnique) := by
  constructor
  · intro x st sgl w h _ _ hu _
    simp only [getViaByUuid, List.find?_eq_none, decide_eq_true_eq, not_not] at hu
    refine ⟨⟨nodup_map_append_singleton _ _ x h.1.1 (fun y hy => by simpa using hu y hy),
      h.1.2.1, h.1.2.2⟩, ?_⟩
    intro f hf s hs
    rcases List.mem_cons.mp hf with hf | hf
    · subst hf
      unfold compensate
      split
      · exact ⟨nodup_map_of_subperm _ (List.erase_sublist x _).subperm hs.1, hs.2.1, hs.2.2⟩
      · exact hs
    · exact h.2 f hf s hs
  · intro x st sgl w h _ _ hu _
    simp only [getNetPointByUuid, List.find?_eq_none, decide_eq_true_eq, not_not] at hu
    refine ⟨⟨h.1.1, nodup_map_append_singleton _ _ x h.1.2.1
      (fun y hy => by simpa using hu y hy), h.1.2.2⟩, ?_⟩
    intro f hf s hs
    rcases List.mem_cons.mp hf with hf | hf
    · subst hf
      unfold compensate
      split
      · exact ⟨hs.1, nodup_map_of_subperm _ (List.erase_sublist x _).subperm hs.2.1, hs.2.2⟩
      · exact hs
    · exact h.2 f hf s hs
  · intro x st sgl w h _ _ hu _
    simp only [getNetLineByUuid, List.find?_eq_none, decide_eq_true_eq, not_not] at hu
    refine ⟨⟨h.1.1, h.1.2.1, nodup_map_append_singleton _ _ x h.1.2.2
      (fun y hy => by simpa using hu y hy)⟩, ?_⟩
    intro f hf s hs
    rcases List.mem_cons.mp hf with hf | hf
    · subst hf
      unfold compensate
      split
      · exact ⟨hs.1, hs.2.1, nodup_map_of_subperm _ (List.erase_sublist x _).subperm hs.2.2⟩
      · exact hs
    · exact h.2 f hf s hs

/-- Every step of `removeElements` keeps: the lists are within those of `st0`,
and so is whatever the compensations leave, run on the state or on one within
it. -/
theorem removeStep_within {W : Type} (ops : BoardItems W) (st0 : SegmentState W) :
    RemoveStep ops (fun st sgl => st.seg.ElementsWithin st0.seg ∧
      ∀ s : SegmentState W, s.seg.ElementsWithin st.seg →
        (ScopeGuardList.unwind sgl s).seg.ElementsWithin st0.seg) := by
  constructor
  · intro x st sgl w h hx _
    refine ⟨⟨(List.erase_sublist x _).subperm.trans h.1.1, h.1.2.1, h.1.2.2⟩, ?_⟩
    intro s hs
    rw [ScopeGuardList.unwind_cons]
    apply h.2
    unfold compensate
    split
    · exact ⟨append_singleton_subperm hx hs.1, hs.2.1, hs.2.2⟩
    · exact ⟨subperm_of_erase hs.1, hs.2.1, hs.2.2⟩
  · intro x st sgl w h hx _
    refine ⟨⟨h.1.1, (List.erase_sublist x _).subperm.trans h.1.2.1, h.1.2.2⟩, ?_⟩
    intro s hs
    rw [ScopeGuardList.unwind_cons]
    apply h.2
    unfold compensate
    split
    · exact ⟨hs.1, append_singleton_subperm hx hs.2.1, hs.2.2⟩
    · exact ⟨hs.1, subperm_of_erase hs.2.1, hs.2.2⟩
  · intro x st sgl w h hx _
    refine ⟨⟨h.1.1, h.1.2.1, (List.erase_sublist x _).subperm.trans h.1.2.2⟩, ?_⟩
    intro s hs
    rw [ScopeGuardList.unwind_cons]
    apply h.2
    unfold compensate
    split
    · exact ⟨hs.1, hs.2.1, append_singleton_subperm hx hs.2.2⟩
    · exact ⟨hs.1, hs.2.1, subperm_of_erase hs.2.2⟩

theorem addElements_uuidsUnique {W : Type} (ops : BoardItems W) (vias : List BI_Via)
    (netpoints : List BI_NetPoint) (netlines : List BI_NetLine) (st : SegmentState W)
    (h : st.seg.UuidsUnique) :
    (addElements ops vias netpoints netlines st).state.seg.UuidsUnique := by
  have hinv := addElements_invariant ops _ (addStep_uuidsUnique ops) vias netpoints netlines st
    ⟨h, fun f hf => by cases hf⟩
  cases hres : addElements ops vias netpoints netlines st with
  | ok s1 =>
    rw [hres] at hinv
    obtain ⟨sgl1, h1, _⟩ := hinv
    exact h1.1
  | error e =>
    obtain ⟨e1, s⟩ := e
    rw [hres] at hinv
    obtain ⟨st1, sgl1, h1, h2⟩ := hinv
    simp only [Outcome.state]
    rw [h2]
    exact unwind_keeps (fun s : SegmentState W => s.seg.UuidsUnique) sgl1 st1 h1.2 h1.1

theorem removeElements_uuidsUnique {W : Type} (ops : BoardItems W) (vias : List BI_Via)
    (netpoints : List BI_NetPoint) (netlines : List BI_NetLine) (st : SegmentState W)
    (h : st.seg.UuidsUnique) :
    (removeElements ops vias netpoints netlines st).state.seg.UuidsUnique := by
  have hinv := removeElements_invariant ops _ (removeStep_within ops st) vias netpoints
    netlines st ⟨elementsWithin_refl _, fun s hs => hs⟩
  cases hres : removeElements ops vias netpoints netlines st with
  | ok s1 =>
    rw [hres] at hinv
    obtain ⟨sgl1, h1, _⟩ := hinv
    exact uuidsUnique_of_elementsWithin h1.1 h
  | error e =>
    obtain ⟨e1, s⟩ := e
    rw [hres] at hinv
    obtain ⟨st1, sgl1, h1, h2⟩ := hinv
    simp only [Outcome.state]
    rw [h2]
    exact uuidsUnique_of_elementsWithin (h1.2 st1 (elementsWithin_refl _)) h

end BI_NetSegment

namespace BI_NetSegment

theorem loadVias_uuidsUnique : ∀ (xs : List BI_Via) (s s1 : BI_NetSegment),
    loadVias xs s = .ok s1 → s.UuidsUnique → s1.UuidsUnique := by
  intro xs
  induction xs with
  | nil => intro s s1 h hs; simp only [loadVias, Except.ok.injEq] at h; exact h ▸ hs
  | cons x rest ih =>
    intro s s1 h hs
    simp only [loadVias] at h
    split at h
    · cases h
    · rename_i hu
      simp only [getViaByUuid, Option.isSome_iff_ne_none, ne_eq, not_not, List.find?_eq_none,
        decide_eq_true_eq] at hu
      exact ih _ _ h ⟨nodup_map_append_singleton _ _ x hs.1 hu, hs.2.1, hs.2.2⟩

theorem loadNetPoints_uuidsUnique : ∀ (xs : List BI_NetPoint) (s s1 : BI_NetSegment),
    loadNetPoints xs s = .ok s1 → s.UuidsUnique → s1.UuidsUnique := by
  intro xs
  induction xs with
  | nil => intro s s1 h hs; simp only [loadNetPoints, Except.ok.injEq] at h; exact h ▸ hs
  | cons x rest ih =>
    intro s s1 h hs
    simp only [loadNetPoints] at h
    split at h
    · cases h
    · rename_i hu
      simp only [getNetPointByUuid, Option.isSome_iff_ne_none, ne_eq, not_not,
        List.find?_eq_none, decide_eq_true_eq] at hu
      exact ih _ _ h ⟨hs.1, nodup_map_append_singleton _ _ x hs.2.1 hu, hs.2.2⟩

theorem loadNetLines_uuidsUnique : ∀ (xs : List BI_NetLine) (s s1 : BI_NetSegment),
    loadNetLines xs s = .ok s1 → s.UuidsUnique → s1.UuidsUnique := by
  intro xs
  induction xs with
  | nil => intro s s1 h hs; simp only [loadNetLines, Except.ok.injEq] at h; exact h ▸ hs
  | cons x rest ih =>
    intro s s1 h hs
    simp only [loadNetLines] at h
    split at h
    · cases h
    · rename_i hu
      simp only [getNetLineByUuid, Option.isSome_iff_ne_none, ne_eq, not_not,
        List.find?_eq_none, decide_eq_true_eq] at hu
      exact ih _ _ h ⟨hs.1, hs.2.1, nodup_map_append_singleton _ _ x hs.2.2 hu⟩

theorem load_uuidsUnique (ptr : Nat) (uuid : Uuid) (circuit : Nat) (netSignal : Option Nat)
    (vias : List BI_Via) (netpoints : List BI_NetPoint) (netlines : List BI_NetLine)
    (s : BI_NetSegment) (h : load ptr uuid circuit netSignal vias netpoints netlines = .ok s) :
    s.UuidsUnique := by
  unfold load at h
  split at h
  · cases h
  · split at h
    · cases h
    · rename_i s1 h1
      split at h
      · cases h
      · rename_i s2 h2
        split at h
        · cases h
        · rename_i s3 h3
          split at h
          · cases h
          · split at h
            · cases h
            · simp only [Except.ok.injEq] at h
              subst h
              apply loadNetLines_uuidsUnique _ _ _ h3
              apply loadNetPoints_uuidsUnique _ _ _ h2
              apply loadVias_uuidsUnique _ _ _ h1
              exact ⟨List.nodup_nil, List.nodup_nil, List.nodup_nil⟩

theorem run_uuidsUnique {W : Type} (ops : BoardItems W) (c : BatchCall) (st : SegmentState W)
    (h : st.seg.UuidsUnique) : (c.run ops st).state.seg.UuidsUnique := by
  cases c with
  | addElements v p l => exact addElements_uuidsUnique ops v p l st h
  | removeElements v p l => exact removeElements_uuidsUnique ops v p l st h

theorem addElements_uuidCollision_thrown {W : Type} (ops : BoardItems W) (vias : List BI_Via)
    (netpoints : List BI_NetPoint) (netlines : List BI_NetLine) (st : SegmentState W)
    (h : UuidCollision st.seg vias netpoints netlines) :
    (addElements ops vias netpoints netlines st).thrown ≠ none := by
  intro hok
  obtain ⟨_, _, hv, hp, hl⟩ := addElements_ok ops vias netpoints netlines st hok
  rcases h with ⟨x, hx, y, hy, hxy⟩ | ⟨x, hx, y, hy, hxy⟩ | ⟨x, hx, y, hy, hxy⟩
  · exact (hv x hx).2.2 y hy hxy
  · exact (hp x hx).2.2 y hy hxy
  · exact (hl x hx).2.2 y hy hxy

/-- C3 (as amended): in every state of a net segment reached by loading it,
by constructing it empty, or by any sequence of addElements/removeElements
calls (whether they return or throw, and whatever the element operations do),
no two vias, no two net points and no two net lines of the segment share a
UUID; an addElements call whose batch holds an element with the UUID of an
element of the same kind of the segment fails, and leaves the state unchanged
when the element operations undo each other. -/
theorem uuids_unique_within_each_kind {W : Type} (ops : BoardItems W) :
    (∀ ptr uuid circuit netSignal vias netpoints netlines s,
      load ptr uuid circuit netSignal vias netpoints netlines = .ok s → s.UuidsUnique) ∧
    (∀ ptr uuid circuit signal, (BI_NetSegment.new ptr uuid circuit signal).UuidsUnique) ∧
    (∀ (calls : List BatchCall) (st : SegmentState W), st.seg.UuidsUnique →
      ∀ o ∈ BatchCall.trace ops calls st, o.state.seg.UuidsUnique) ∧
    (∀ vias netpoints netlines (st : SegmentState W),
      UuidCollision st.seg vias netpoints netlines →
      (addElements ops vias netpoints netlines st).thrown ≠ none ∧
      (ops.Reversible → (addElements ops vias netpoints netlines st).state = st)) := by
  refine ⟨load_uuidsUnique, ?_, ?_, ?_⟩
  · intro ptr uuid circuit signal
    exact ⟨List.nodup_nil, List.nodup_nil, List.nodup_nil⟩
  · intro calls
    induction calls with
    | nil => intro st _ o ho; cases ho
    | cons c rest ih =>
      intro st hst o ho
      simp only [BatchCall.trace, List.mem_cons] at ho
      rcases ho with rfl | ho
      · exact run_uuidsUnique ops c st hst
      · exact ih _ (run_uuidsUnique ops c st hst) o ho
  · intro vias netpoints netlines st h
    have ht := addElements_uuidCollision_thrown ops vias netpoints netlines st h
    exact ⟨ht, fun hrev => addElements_thrown_state ops hrev vias netpoints netlines st ht⟩

/-- In scenario A, adding a net point with the UUID of P1 throws and leaves
the segment as it was. -/
theorem uuids_unique_within_each_kind_witness :
    UuidCollision ScenarioA.segment [] [SharedUuid.P] [] ∧
    (addElements flagItems [] [SharedUuid.P] [] ⟨ScenarioA.segment, ScenarioA.flags⟩).thrown
      ≠ none ∧
    (addElements flagItems [] [SharedUuid.P] []
      ⟨ScenarioA.segment, ScenarioA.flags⟩).state.seg = ScenarioA.segment :=
  have h : UuidCollision ScenarioA.segment [] [SharedUuid.P] [] :=
    Or.inr (Or.inl ⟨SharedUuid.P, by decide, ScenarioA.P1, by decide, by decide⟩)
  have r := (uuids_unique_within_each_kind flagItems).2.2.2 [] [SharedUuid.P] []
    ⟨ScenarioA.segment, ScenarioA.flags⟩ h
  ⟨h, r.1, congrArg SegmentState.seg (r.2 flagItems_reversible)⟩

/-- C3 fails as stated: on a segment holding the via V with UUID 1,
addElements([], [P1], []) with the net point P1 of UUID 1 returns normally,
and the segment then holds two elements, V and P1, with the same UUID. -/
theorem via_and_netpoint_share_uuid :
    (addElements flagItems [] [ScenarioA.P1] [] ⟨SharedUuid.segment, SharedUuid.flags⟩).thrown
      = none ∧
    (addElements flagItems [] [ScenarioA.P1] []
      ⟨SharedUuid.segment, SharedUuid.flags⟩).state.seg.mVias = [SharedUuid.V] ∧
    (addElements flagItems [] [ScenarioA.P1] []
      ⟨SharedUuid.segment, SharedUuid.flags⟩).state.seg.mNetPoints = [ScenarioA.P1] ∧
    SharedUuid.V.mUuid = ScenarioA.P1.mUuid := by
  decide

end BI_NetSegment

/-! ## Elements that addElements refuses -/

namespace BI_NetSegment

theorem addElements_offending_thrown {W : Type} (ops : BoardItems W) (vias : List BI_Via)
    (netpoints : List BI_NetPoint) (netlines : List BI_NetLine) (st : SegmentState W)
    (h : Offending st.seg vias netpoints netlines) :
    (addElements ops vias netpoints netlines st).thrown ≠ none := by
  intro hok
  obtain ⟨_, _, hv, hp, hl⟩ := addElements_ok ops vias netpoints netlines st hok
  rcases h with ⟨x, hx, h⟩ | ⟨x, hx, h⟩ | ⟨x, hx, h⟩
  · rcases h with h | h | ⟨y, hy, hxy⟩
    · exact (hv x hx).1 h
    · exact h (hv x hx).2.1
    · exact (hv x hx).2.2 y hy hxy
  · rcases h with h | h | ⟨y, hy, hxy⟩
    · exact (hp x hx).1 h
    · exact h (hp x hx).2.1
    · exact (hp x hx).2.2 y hy hxy
  · rcases h with h | h | ⟨y, hy, hxy⟩
    · exact (hl x hx).1 h
    · exact h (hl x hx).2.1
    · exact (hl x hx).2.2 y hy hxy

theorem find?_isSome_of_mem {α : Type} (p : α → Bool) (l : List α) (y : α) (hy : y ∈ l)
    (hp : p y = true) : (l.find? p).isSome = true := by
  rw [List.find?_isSome]
  exact ⟨y, hy, hp⟩

/-- The `Vias` loop of `addElements` at an element that is already in the
segment or belongs to another segment, and at one that is neither but whose
UUID is taken: the exception and the unwinding. -/
theorem addElementsVias_refuses {W : Type} (ops : BoardItems W) (x : BI_Via)
    (rest : List BI_Via) (st : SegmentState W) (sgl : ScopeGuardList (SegmentState W)) :
    (x ∈ st.seg.mVias ∨ x.mNetSegment ≠ st.seg.ptr →
      addElementsVias ops (x :: rest) st sgl
        = .error (Exception.LogicError, ScopeGuardList.unwind sgl st)) ∧
    (x ∉ st.seg.mVias → x.mNetSegment = st.seg.ptr → (∃ y ∈ st.seg.mVias, y.mUuid = x.mUuid) →
      addElementsVias ops (x :: rest) st sgl
        = .error (Exception.RuntimeError, ScopeGuardList.unwind sgl st)) := by
  constructor
  · intro h
    simp [addElementsVias, h]
  · intro h1 h2 ⟨y, hy, hxy⟩
    have hf := find?_isSome_of_mem (fun e : BI_Via => decide (e.mUuid = x.mUuid))
      st.seg.mVias y hy (by simpa using hxy)
    simp [addElementsVias, h1, h2, getViaByUuid, hf]

/-- The `NetPoints` loop of `addElements` at an element that is already in the
segment or belongs to another segment, and at one that is neither but whose
UUID is taken: the exception and the unwinding. -/
theorem addElementsNetPoints_refuses {W : Type} (ops : BoardItems W) (x : BI_NetPoint)
    (rest : List BI_NetPoint) (st : SegmentState W) (sgl : ScopeGuardList (SegmentState W)) :
    (x ∈ st.seg.mNetPoints ∨ x.mNetSegment ≠ st.seg.ptr →
      addElementsNetPoints ops (x :: rest) st sgl
        = .error (Exception.LogicError, ScopeGuardList.unwind sgl st)) ∧
    (x ∉ st.seg.mNetPoints → x.mNetSegment = st.seg.ptr → (∃ y ∈ st.seg.mNetPoints, y.mUuid = x.mUuid) →
      addElementsNetPoints ops (x :: rest) st sgl
        = .error (Exception.RuntimeError, ScopeGuardList.unwind sgl st)) := by
  constructor
  · intro h
    simp [addElementsNetPoints, h]
  · intro h1 h2 ⟨y, hy, hxy⟩
    have hf := find?_isSome_of_mem (fun e : BI_NetPoint => decide (e.mUuid = x.mUuid))
      st.seg.mNetPoints y hy (by simpa using hxy)
    simp [addElementsNetPoints, h1, h2, getNetPointByUuid, hf]

/-- The `NetLines` loop of `addElements` at an element that is already in the
segment or belongs to another segment, and at one that is neither but whose
UUID is taken: the exception and the unwinding. -/
theorem addElementsNetLines_refuses {W : Type} (ops : BoardItems W) (x : BI_NetLine)
    (rest : List BI_NetLine) (st : SegmentState W) (sgl : ScopeGuardList (SegmentState W)) :
    (x ∈ st.seg.mNetLines ∨ x.getNetSegment ≠ st.seg.ptr →
      addElementsNetLines ops (x :: rest) st sgl
        = .error (Exception.LogicError, ScopeGuardList.unwind sgl st)) ∧
    (x ∉ st.seg.mNetLines → x.getNetSegment = st.seg.ptr → (∃ y ∈ st.seg.mNetLines, y.mUuid = x.mUuid) →
      addElementsNetLines ops (x :: rest) st sgl
        = .error (Exception.RuntimeError, ScopeGuardList.unwind sgl st)) := by
  constructor
  · intro h
    simp [addElementsNetLines, h]
  · intro h1 h2 ⟨y, hy, hxy⟩
    have hf := find?_isSome_of_mem (fun e : BI_NetLine => decide (e.mUuid = x.mUuid))
      st.seg.mNetLines y hy (by simpa using hxy)
    simp [addElementsNetLines, h1, h2, getNetLineByUuid, hf]

/-- C5 (as amended): addElements fails for every batch holding an element that
is already in the segment, that belongs to another segment, or whose UUID is
the UUID of an element of the same kind already in the segment. Wherever a
loop of addElements comes to an element that is already present or belongs to
another segment, it throws a LogicError; where it comes to one that is neither
but whose UUID is used by an element of its kind, it throws a RuntimeError; in
particular so does a call, on a segment added to the board, whose first
element is such an element. -/
theorem addElements_rejects_offending_elements {W : Type} (ops : BoardItems W) :
    (∀ vias netpoints netlines (st : SegmentState W),
      Offending st.seg vias netpoints netlines →
      (addElements ops vias netpoints netlines st).thrown ≠ none) ∧
    (∀ (x : BI_Via) rest (st : SegmentState W) sgl,
      (x ∈ st.seg.mVias ∨ x.mNetSegment ≠ st.seg.ptr →
        addElementsVias ops (x :: rest) st sgl
          = .error (Exception.LogicError, ScopeGuardList.unwind sgl st)) ∧
      (x ∉ st.seg.mVias → x.mNetSegment = st.seg.ptr →
        (∃ y ∈ st.seg.mVias, y.mUuid = x.mUuid) →
        addElementsVias ops (x :: rest) st sgl
          = .error (Exception.RuntimeError, ScopeGuardList.unwind sgl st))) ∧
    (∀ (x : BI_NetPoint) rest (st : SegmentState W) sgl,
      (x ∈ st.seg.mNetPoints ∨ x.mNetSegment ≠ st.seg.ptr →
        addElementsNetPoints ops (x :: rest) st sgl
          = .error (Exception.LogicError, ScopeGuardList.unwind sgl st)) ∧
      (x ∉ st.seg.mNetPoints → x.mNetSegment = st.seg.ptr →
        (∃ y ∈ st.seg.mNetPoints, y.mUuid = x.mUuid) →
        addElementsNetPoints ops (x :: rest) st sgl
          = .error (Exception.RuntimeError, ScopeGuardList.unwind sgl st))) ∧
    (∀ (x : BI_NetLine) rest (st : SegmentState W) sgl,
      (x ∈ st.seg.mNetLines ∨ x.getNetSegment ≠ st.seg.ptr →
        addElementsNetLines ops (x :: rest) st sgl
          = .error (Exception.LogicError, ScopeGuardList.unwind sgl st)) ∧
      (x ∉ st.seg.mNetLines → x.getNetSegment = st.seg.ptr →
        (∃ y ∈ st.seg.mNetLines, y.mUuid = x.mUuid) →
        addElementsNetLines ops (x :: rest) st sgl
          = .error (Exception.RuntimeError, ScopeGuardList.unwind sgl st))) ∧
    (∀ (x : BI_Via) rest netpoints netlines (st : SegmentState W),
      st.seg.mIsAddedToBoard = true →
      (x ∈ st.seg.mVias ∨ x.mNetSegment ≠ st.seg.ptr →
        (addElements ops (x :: rest) netpoints netlines st).thrown = some Exception.LogicError) ∧
      (x ∉ st.seg.mVias → x.mNetSegment = st.seg.ptr →
        (∃ y ∈ st.seg.mVias, y.mUuid = x.mUuid) →
        (addElements ops (x :: rest) netpoints netlines st).thrown
          = some Exception.RuntimeError)) ∧
    (∀ (x : BI_NetPoint) rest netlines (st : SegmentState W),
      st.seg.mIsAddedToBoard = true →
      (x ∈ st.seg.mNetPoints ∨ x.mNetSegment ≠ st.seg.ptr →
        (addElements ops [] (x :: rest) netlines st).thrown = some Exception.LogicError) ∧
      (x ∉ st.seg.mNetPoints → x.mNetSegment = st.seg.ptr →
        (∃ y ∈ st.seg.mNetPoints, y.mUuid = x.mUuid) →
        (addElements ops [] (x :: rest) netlines st).thrown
          = some Exception.RuntimeError)) ∧
    (∀ (x : BI_NetLine) rest (st : SegmentState W), st.seg.mIsAddedToBoard = true →
      (x ∈ st.seg.mNetLines ∨ x.getNetSegment ≠ st.seg.ptr →
        (addElements ops [] [] (x :: rest) st).thrown = some Exception.LogicError) ∧
      (x ∉ st.seg.mNetLines → x.getNetSegment = st.seg.ptr →
        (∃ y ∈ st.seg.mNetLines, y.mUuid = x.mUuid) →
        (addElements ops [] [] (x :: rest) st).thrown
          = some Exception.RuntimeError)) := by
  refine ⟨fun vias netpoints netlines st h =>
    addElements_offending_thrown ops vias netpoints netlines st h,
    fun x rest st sgl => addElementsVias_refuses ops x rest st sgl,
    fun x rest st sgl => addElementsNetPoints_refuses ops x rest st sgl,
    fun x rest st sgl => addElementsNetLines_refuses ops x rest st sgl, ?_, ?_, ?_⟩
  · intro x rest netpoints netlines st hadd
    have hl := addElementsVias_refuses ops x rest st []
    constructor
    · intro h
      simp [addElements, hadd, addElementsVias, h, Outcome.thrown]
    · intro h1 h2 h3
      have hl2 := hl.2 h1 h2 h3
      simp only [addElements, hadd, not_true_eq_false, if_false]
      rw [hl2]
      rfl
  · intro x rest netlines st hadd
    have hl := addElementsNetPoints_refuses ops x rest st []
    constructor
    · intro h
      simp [addElements, hadd, addElementsVias, addElementsNetPoints, h, Outcome.thrown]
    · intro h1 h2 h3
      have hl2 := hl.2 h1 h2 h3
      simp only [addElements, hadd, not_true_eq_false, if_false, addElementsVias]
      rw [hl2]
      rfl
  · intro x rest  st hadd
    have hl := addElementsNetLines_refuses ops x rest st []
    constructor
    · intro h
      simp [addElements, hadd, addElementsVias, addElementsNetPoints, addElementsNetLines, h, Outcome.thrown]
    · intro h1 h2 h3
      have hl2 := hl.2 h1 h2 h3
      simp only [addElements, hadd, not_true_eq_false, if_false, addElementsVias, addElementsNetPoints]
      rw [hl2]
      rfl

/-- In scenario A, adding P1 again throws, and adding a new net point with the
UUID of P1 throws a RuntimeError. -/
theorem addElements_rejects_offending_elements_witness :
    Offending ScenarioA.segment [] [ScenarioA.P1] [] ∧
    (addElements flagItems [] [ScenarioA.P1] [] ⟨ScenarioA.segment, ScenarioA.flags⟩).thrown
      ≠ none ∧
    (addElements flagItems [] [SharedUuid.P] [ScenarioA.L1]
      ⟨ScenarioA.segment, ScenarioA.flags⟩).thrown = some Exception.RuntimeError :=
  have h : Offending ScenarioA.segment [] [ScenarioA.P1] [] :=
    Or.inr (Or.inl ⟨ScenarioA.P1, by decide, Or.inl (by decide)⟩)
  ⟨h,
   (addElements_rejects_offending_elements flagItems).1 [] [ScenarioA.P1] []
      ⟨ScenarioA.segment, ScenarioA.flags⟩ h,
   ((addElements_rejects_offending_elements flagItems).2.2.2.2.2.1 SharedUuid.P []
      [ScenarioA.L1] ⟨ScenarioA.segment, ScenarioA.flags⟩ rfl).2 (by decide) rfl
      ⟨ScenarioA.P1, by decide, rfl⟩⟩

/-- C5 fails as stated: on the segment of scenario A, whose net point P1 has
UUID 1, addElements([V], [], []) with a via V of UUID 1 returns normally: a
UUID is only compared with the UUIDs of elements of the same kind. -/
theorem addElements_accepts_uuid_of_other_kind :
    (addElements flagItems [SharedUuid.V] [] [] ⟨ScenarioA.segment, ScenarioA.flags⟩).thrown
      = none ∧
    ScenarioA.P1 ∈ ScenarioA.segment.mNetPoints ∧
    SharedUuid.V.mUuid = ScenarioA.P1.mUuid := by
  decide

end BI_NetSegment

/-! ## Scenario A -/

namespace BI_NetSegment

/-- A call of `removeElements` throws when the segment without the batch does
not pass the cohesion check. -/
theorem removeElements_not_cohesive_thrown {W : Type} (ops : BoardItems W) (vias : List BI_Via)
    (netpoints : List BI_NetPoint) (netlines : List BI_NetLine) (st : SegmentState W)
    (h : ({ st.seg with mVias := st.seg.mVias.diff vias,
                        mNetPoints := st.seg.mNetPoints.diff netpoints,
                        mNetLines := st.seg.mNetLines.diff netlines }
            : BI_NetSegment).areAllNetPointsConnectedTogether = false) :
    (removeElements ops vias netpoints netlines st).thrown ≠ none := by
  intro hok
  have h1 := removeElements_ok_cohesive ops vias netpoints netlines st hok
  rw [(removeElements_ok ops vias netpoints netlines st hok).2.1, h] at h1
  cases h1

/-- Three net points in a row: P1 - P2 - P3 joined by L1 and L2 pass the
cohesion check. -/
theorem chain_cohesive (s : BI_NetSegment) (p1 p2 p3 : BI_NetPoint) (l1 l2 : BI_NetLine)
    (hpts : s.mNetPoints = [p1, p2, p3]) (hlines : s.mNetLines = [l1, l2])
    (h12 : p1 ≠ p2) (h23 : p2 ≠ p3) (h13 : p1 ≠ p3)
    (hl1 : l1.mStartPoint = p1 ∧ l1.mEndPoint = p2)
    (hl2 : l2.mStartPoint = p2 ∧ l2.mEndPoint = p3) :
    s.areAllNetPointsConnectedTogether = true := by
  have hnd : s.mNetPoints.Nodup := by
    rw [hpts]; simp [h12, h23, h13]
  have hl : ∀ l ∈ s.mNetLines, l.mStartPoint ∈ s.mNetPoints ∧ l.mEndPoint ∈ s.mNetPoints := by
    intro l hl
    rw [hlines] at hl
    rw [hpts]
    simp only [List.mem_cons, List.mem_singleton, List.not_mem_nil, or_false] at hl
    rcases hl with rfl | rfl
    · simp [hl1.1, hl1.2]
    · simp [hl2.1, hl2.2]
  have m1 : p1 ∈ s.mNetPoints := by rw [hpts]; simp
  have m2 : p2 ∈ s.mNetPoints := by rw [hpts]; simp
  have m3 : p3 ∈ s.mNetPoints := by rw [hpts]; simp
  have a12 : s.Adjacent p1 p2 :=
    ⟨m1, m2, Or.inl ⟨l1, by rw [hlines]; simp, Or.inl hl1⟩⟩
  have a23 : s.Adjacent p2 p3 :=
    ⟨m2, m3, Or.inl ⟨l2, by rw [hlines]; simp, Or.inl hl2⟩⟩
  rw [areAllNetPointsConnectedTogether_iff_reach s hnd hl]
  intro first hf p hp
  rw [hpts] at hf
  simp only [List.head?_cons, Option.mem_def, Option.some.injEq] at hf
  subst hf
  rw [reach_iff_adjacent s hl p1 p m1]
  rw [hpts] at hp
  simp only [List.mem_cons, List.mem_singleton, List.not_mem_nil, or_false] at hp
  rcases hp with rfl | rfl | rfl
  · exact Relation.ReflTransGen.refl
  · exact Relation.ReflTransGen.single a12
  · exact Relation.ReflTransGen.tail (Relation.ReflTransGen.single a12) a23

/-- Without L2 the chain P1 - P2 - P3 is cut: the cohesion check fails. -/
theorem cut_chain_not_cohesive (s : BI_NetSegment) (p1 p2 p3 : BI_NetPoint) (l1 : BI_NetLine)
    (hpts : s.mNetPoints = [p1, p2, p3]) (hlines : s.mNetLines = [l1])
    (h12 : p1 ≠ p2) (h23 : p2 ≠ p3) (h13 : p1 ≠ p3)
    (hfree : p1.mVia = none ∧ p2.mVia = none)
    (hl1 : l1.mStartPoint = p1 ∧ l1.mEndPoint = p2) :
    s.areAllNetPointsConnectedTogether = false := by
  have hnd : s.mNetPoints.Nodup := by
    rw [hpts]; simp [h12, h23, h13]
  have hl : ∀ l ∈ s.mNetLines, l.mStartPoint ∈ s.mNetPoints ∧ l.mEndPoint ∈ s.mNetPoints := by
    intro l hl
    rw [hlines] at hl
    rw [hpts]
    simp only [List.mem_singleton] at hl
    subst hl
    simp [hl1.1, hl1.2]
  have m1 : p1 ∈ s.mNetPoints := by rw [hpts]; simp
  have m3 : p3 ∈ s.mNetPoints := by rw [hpts]; simp
  have hclosed : ∀ x, Relation.ReflTransGen s.Adjacent p1 x → x = p1 ∨ x = p2 := by
    intro x hx
    induction hx with
    | refl => exact Or.inl rfl
    | @tail b c _ hbc ih =>
      obtain ⟨_, _, hj⟩ := hbc
      rcases hj with ⟨l, hlm, hj⟩ | ⟨via, hvb, _⟩
      · rw [hlines] at hlm
        simp only [List.mem_singleton] at hlm
        subst hlm
        rcases hj with ⟨_, hc⟩ | ⟨hc, _⟩
        · right; rw [← hc]; exact hl1.2
        · left; rw [← hc]; exact hl1.1
      · exfalso
        unfold BI_NetPoint.getVia at hvb
        rcases ih with rfl | rfl
        · rw [hfree.1] at hvb; cases hvb
        · rw [hfree.2] at hvb; cases hvb
  cases hc : s.areAllNetPointsConnectedTogether with
  | false => rfl
  | true =>
    exfalso
    rw [areAllNetPointsConnectedTogether_iff_reach s hnd hl] at hc
    have hr := hc p1 (by rw [hpts]; simp) p3 m3
    rw [reach_iff_adjacent s hl p1 p3 m1] at hr
    rcases hclosed p3 hr with h | h
    · exact h13 h.symm
    · exact h23 h.symm

/-- C6: a segment with three net points P1, P2, P3 not attached to a via and
the net lines L1(P1,P2), L2(P2,P3) is cohesive; removeElements([], [], [L2])
fails on it, and (the element operations undoing each other) leaves L2 in the
net line list of the segment and added to the board as before. In general
removeElements fails whenever the segment without the batch does not pass the
cohesion check. The first part holds whether or not the segment is added to
the board. -/
theorem removing_L2_fails_and_restores {W : Type} (ops : BoardItems W)
    (hrev : ops.Reversible) (st : SegmentState W) (p1 p2 p3 : BI_NetPoint)
    (l1 l2 : BI_NetLine)
    (hpts : st.seg.mNetPoints = [p1, p2, p3]) (hlines : st.seg.mNetLines = [l1, l2])
    (h12 : p1 ≠ p2) (h23 : p2 ≠ p3) (h13 : p1 ≠ p3)
    (hfree : p1.mVia = none ∧ p2.mVia = none ∧ p3.mVia = none)
    (hl1 : l1.mStartPoint = p1 ∧ l1.mEndPoint = p2)
    (hl2 : l2.mStartPoint = p2 ∧ l2.mEndPoint = p3)
    (hl2added : ops.netLineIsAddedToBoard l2 st.items = true) :
    st.seg.areAllNetPointsConnectedTogether = true ∧
    (removeElements ops [] [] [l2] st).thrown ≠ none ∧
    l2 ∈ (removeElements ops [] [] [l2] st).state.seg.mNetLines ∧
    ops.netLineIsAddedToBoard l2 (removeElements ops [] [] [l2] st).state.items = true ∧
    (∀ vias netpoints netlines (st1 : SegmentState W),
      ({ st1.seg with mVias := st1.seg.mVias.diff vias,
                      mNetPoints := st1.seg.mNetPoints.diff netpoints,
                      mNetLines := st1.seg.mNetLines.diff netlines }
          : BI_NetSegment).areAllNetPointsConnectedTogether = false →
      (removeElements ops vias netpoints netlines st1).thrown ≠ none) := by
  have hne : l1 ≠ l2 := by
    intro h
    rw [h] at hl1
    exact h23 (hl1.2.symm.trans hl2.2)
  have hthrown : (removeElements ops [] [] [l2] st).thrown ≠ none := by
    apply removeElements_not_cohesive_thrown
    apply cut_chain_not_cohesive _ p1 p2 p3 l1 (by simpa using hpts) _ h12 h23 h13
      ⟨hfree.1, hfree.2.1⟩ hl1
    simp [hlines, List.diff_cons, hne]
  obtain ⟨hitems, hsame⟩ := removeElements_thrown_state ops hrev [] [] [l2] st hthrown
  refine ⟨chain_cohesive st.seg p1 p2 p3 l1 l2 hpts hlines h12 h23 h13 hl1 hl2, hthrown, ?_, ?_,
    fun vias netpoints netlines st1 h =>
      removeElements_not_cohesive_thrown ops vias netpoints netlines st1 h⟩
  · have hperm := hsame.2.2.2.2.2.2.2
    rw [hperm.mem_iff, hlines]
    simp
  · rw [hitems]; exact hl2added

/-- Scenario A with its own points and lines. -/
theorem removing_L2_fails_and_restores_witness :
    ScenarioA.segment.areAllNetPointsConnectedTogether = true ∧
    (removeElements flagItems [] [] [ScenarioA.L2]
      ⟨ScenarioA.segment, ScenarioA.flags⟩).thrown ≠ none ∧
    ScenarioA.L2 ∈ (removeElements flagItems [] [] [ScenarioA.L2]
      ⟨ScenarioA.segment, ScenarioA.flags⟩).state.seg.mNetLines ∧
    flagItems.netLineIsAddedToBoard ScenarioA.L2 (removeElements flagItems [] [] [ScenarioA.L2]
      ⟨ScenarioA.segment, ScenarioA.flags⟩).state.items = true :=
  have h := removing_L2_fails_and_restores flagItems flagItems_reversible
    ⟨ScenarioA.segment, ScenarioA.flags⟩ ScenarioA.P1 ScenarioA.P2 ScenarioA.P3
    ScenarioA.L1 ScenarioA.L2 rfl rfl (by decide) (by decide) (by decide)
    ⟨rfl, rfl, rfl⟩ ⟨rfl, rfl⟩ ⟨rfl, rfl⟩ (by decide)
  ⟨h.1, h.2.1, h.2.2.1, h.2.2.2.1⟩

end BI_NetSegment

/-! ## Registration with a net signal -/

namespace NetSignal

theorem updateErcMessages_fields (s : NetSignal) :
    s.updateErcMessages.mRegisteredComponentSignals = s.mRegisteredComponentSignals ∧
    s.updateErcMessages.mRegisteredSchematicNetSegments = s.mRegisteredSchematicNetSegments ∧
    s.updateErcMessages.mRegisteredBoardNetSegments = s.mRegisteredBoardNetSegments ∧
    s.updateErcMessages.mRegisteredBoardPlanes = s.mRegisteredBoardPlanes ∧
    s.updateErcMessages.mIsAddedToCircuit = s.mIsAddedToCircuit ∧
    s.updateErcMessages.mCircuit = s.mCircuit ∧
    s.updateErcMessages.mName = s.mName ∧
    s.updateErcMessages.mNetClass = s.mNetClass := by
  simp only [updateErcMessages]
  split_ifs <;> simp

/-- When `registerComponentSignal` throws and when it returns. -/
theorem registerComponentSignal_spec (s : NetSignal) (e : ComponentSignalInstance) :
    ((s.mIsAddedToCircuit = false ∨ e ∈ s.mRegisteredComponentSignals ∨ e.circuit ≠ s.mCircuit) →
      s.registerComponentSignal e = .error (Exception.LogicError, s)) ∧
    (s.mIsAddedToCircuit = true → e ∉ s.mRegisteredComponentSignals → e.circuit = s.mCircuit →
      (s.registerComponentSignal e).thrown = none ∧
      (s.registerComponentSignal e).state.mRegisteredComponentSignals = s.mRegisteredComponentSignals ++ [e] ∧
      (s.registerComponentSignal e).state.mRegisteredSchematicNetSegments = s.mRegisteredSchematicNetSegments ∧
      (s.registerComponentSignal e).state.mRegisteredBoardNetSegments = s.mRegisteredBoardNetSegments ∧
      (s.registerComponentSignal e).state.mRegisteredBoardPlanes = s.mRegisteredBoardPlanes ∧
      (s.registerComponentSignal e).state.mIsAddedToCircuit = true ∧
      (s.registerComponentSignal e).state.mCircuit = s.mCircuit) := by
  constructor
  · intro h
    unfold registerComponentSignal
    rw [if_pos]
    rcases h with h | h | h
    · left; simp [h]
    · right; left; exact h
    · right; right; exact h
  · intro h1 h2 h3
    have hc : ¬ ((¬ s.mIsAddedToCircuit = true) ∨ e ∈ s.mRegisteredComponentSignals ∨ e.circuit ≠ s.mCircuit) := by
      simp [h1, h2, h3]
    unfold registerComponentSignal
    rw [if_neg hc]
    simp [Outcome.thrown, Outcome.state, updateErcMessages_fields, h1]

/-- When `unregisterComponentSignal` throws and when it returns. -/
theorem unregisterComponentSignal_spec (s : NetSignal) (e : ComponentSignalInstance) :
    ((s.mIsAddedToCircuit = false ∨ e ∉ s.mRegisteredComponentSignals) →
      s.unregisterComponentSignal e = .error (Exception.LogicError, s)) ∧
    (s.mIsAddedToCircuit = true → e ∈ s.mRegisteredComponentSignals →
      (s.unregisterComponentSignal e).thrown = none ∧
      (s.unregisterComponentSignal e).state.mRegisteredComponentSignals = s.mRegisteredComponentSignals.erase e ∧
      (s.unregisterComponentSignal e).state.mRegisteredSchematicNetSegments = s.mRegisteredSchematicNetSegments ∧
      (s.unregisterComponentSignal e).state.mRegisteredBoardNetSegments = s.mRegisteredBoardNetSegments ∧
      (s.unregisterComponentSignal e).state.mRegisteredBoardPlanes = s.mRegisteredBoardPlanes ∧
      (s.unregisterComponentSignal e).state.mIsAddedToCircuit = true ∧
      (s.unregisterComponentSignal e).state.mCircuit = s.mCircuit) := by
  constructor
  · intro h
    unfold unregisterComponentSignal
    rw [if_pos]
    rcases h with h | h
    · left; simp [h]
    · right; exact h
  · intro h1 h2
    have hc : ¬ ((¬ s.mIsAddedToCircuit = true) ∨ ¬ e ∈ s.mRegisteredComponentSignals) := by
      simp [h1, h2]
    unfold unregisterComponentSignal
    rw [if_neg hc]
    simp [Outcome.thrown, Outcome.state, updateErcMessages_fields, h1]

/-- Registering and then unregistering gives back the four lists; registering
twice throws. -/
theorem registerComponentSignal_unregister (s : NetSignal) (e : ComponentSignalInstance)
    (h : (s.registerComponentSignal e).thrown = none) :
    ((s.registerComponentSignal e).state.unregisterComponentSignal e).thrown = none ∧
    ((s.registerComponentSignal e).state.unregisterComponentSignal e).state.mRegisteredComponentSignals = s.mRegisteredComponentSignals ∧
    ((s.registerComponentSignal e).state.unregisterComponentSignal e).state.mRegisteredSchematicNetSegments = s.mRegisteredSchematicNetSegments ∧
    ((s.registerComponentSignal e).state.unregisterComponentSignal e).state.mRegisteredBoardNetSegments = s.mRegisteredBoardNetSegments ∧
    ((s.registerComponentSignal e).state.unregisterComponentSignal e).state.mRegisteredBoardPlanes = s.mRegisteredBoardPlanes ∧
    ((s.registerComponentSignal e).state.registerComponentSignal e).thrown = some Exception.LogicError := by
  have hpre : s.mIsAddedToCircuit = true ∧ e ∉ s.mRegisteredComponentSignals ∧ e.circuit = s.mCircuit := by
    by_contra hn
    have hfail : s.mIsAddedToCircuit = false ∨ e ∈ s.mRegisteredComponentSignals ∨ e.circuit ≠ s.mCircuit := by
      by_cases a : s.mIsAddedToCircuit = true
      · by_cases b : e ∈ s.mRegisteredComponentSignals
        · exact Or.inr (Or.inl b)
        · by_cases c : e.circuit = s.mCircuit
          · exact absurd ⟨a, b, c⟩ hn
          · exact Or.inr (Or.inr c)
      · exact Or.inl (by simpa using a)
    rw [(registerComponentSignal_spec s e).1 hfail] at h
    simp [Outcome.thrown] at h
  obtain ⟨_, r1, r2, r3, r4, r5, r6⟩ := (registerComponentSignal_spec s e).2 hpre.1 hpre.2.1 hpre.2.2
  have hmem : e ∈ (s.registerComponentSignal e).state.mRegisteredComponentSignals := by rw [r1]; simp
  obtain ⟨u0, u1, u2, u3, u4, _, _⟩ :=
    (unregisterComponentSignal_spec (s.registerComponentSignal e).state e).2 r5 hmem
  refine ⟨u0, ?_, by rw [u2, r2], by rw [u3, r3], by rw [u4, r4], ?_⟩
  · rw [u1, r1, erase_append_singleton _ _ hpre.2.1]
  · rw [(registerComponentSignal_spec (s.registerComponentSignal e).state e).1 (Or.inr (Or.inl hmem))]
    rfl

/-- When `registerSchematicNetSegment` throws and when it returns. -/
theorem registerSchematicNetSegment_spec (s : NetSignal) (e : SI_NetSegment) :
    ((s.mIsAddedToCircuit = false ∨ e ∈ s.mRegisteredSchematicNetSegments ∨ e.circuit ≠ s.mCircuit) →
      s.registerSchematicNetSegment e = .error (Exception.LogicError, s)) ∧
    (s.mIsAddedToCircuit = true → e ∉ s.mRegisteredSchematicNetSegments → e.circuit = s.mCircuit →
      (s.registerSchematicNetSegment e).thrown = none ∧
      (s.registerSchematicNetSegment e).state.mRegisteredSchematicNetSegments = s.mRegisteredSchematicNetSegments ++ [e] ∧
      (s.registerSchematicNetSegment e).state.mRegisteredComponentSignals = s.mRegisteredComponentSignals ∧
      (s.registerSchematicNetSegment e).state.mRegisteredBoardNetSegments = s.mRegisteredBoardNetSegments ∧
      (s.registerSchematicNetSegment e).state.mRegisteredBoardPlanes = s.mRegisteredBoardPlanes ∧
      (s.registerSchematicNetSegment e).state.mIsAddedToCircuit = true ∧
      (s.registerSchematicNetSegment e).state.mCircuit = s.mCircuit) := by
  constructor
  · intro h
    unfold registerSchematicNetSegment
    rw [if_pos]
    rcases h with h | h | h
    · left; simp [h]
    · right; left; exact h
    · right; right; exact h
  · intro h1 h2 h3
    have hc : ¬ ((¬ s.mIsAddedToCircuit = true) ∨ e ∈ s.mRegisteredSchematicNetSegments ∨ e.circuit ≠ s.mCircuit) := by
      simp [h1, h2, h3]
    unfold registerSchematicNetSegment
    rw [if_neg hc]
    simp [Outcome.thrown, Outcome.state, updateErcMessages_fields, h1]

/-- When `unregisterSchematicNetSegment` throws and when it returns. -/
theorem unregisterSchematicNetSegment_spec (s : NetSignal) (e : SI_NetSegment) :
    ((s.mIsAddedToCircuit = false ∨ e ∉ s.mRegisteredSchematicNetSegments) →
      s.unregisterSchematicNetSegment e = .error (Exception.LogicError, s)) ∧
    (s.mIsAddedToCircuit = true → e ∈ s.mRegisteredSchematicNetSegments →
      (s.unregisterSchematicNetSegment e).thrown = none ∧
      (s.unregisterSchematicNetSegment e).state.mRegisteredSchematicNetSegments = s.mRegisteredSchematicNetSegments.erase e ∧
      (s.unregisterSchematicNetSegment e).state.mRegisteredComponentSignals = s.mRegisteredComponentSignals ∧
      (s.unregisterSchematicNetSegment e).state.mRegisteredBoardNetSegments = s.mRegisteredBoardNetSegments ∧
      (s.unregisterSchematicNetSegment e).state.mRegisteredBoardPlanes = s.mRegisteredBoardPlanes ∧
      (s.unregisterSchematicNetSegment e).state.mIsAddedToCircuit = true ∧
      (s.unregisterSchematicNetSegment e).state.mCircuit = s.mCircuit) := by
  constructor
  · intro h
    unfold unregisterSchematicNetSegment
    rw [if_pos]
    rcases h with h | h
    · left; simp [h]
    · right; exact h
  · intro h1 h2
    have hc : ¬ ((¬ s.mIsAddedToCircuit = true) ∨ ¬ e ∈ s.mRegisteredSchematicNetSegments) := by
      simp [h1, h2]
    unfold unregisterSchematicNetSegment
    rw [if_neg hc]
    simp [Outcome.thrown, Outcome.state, updateErcMessages_fields, h1]

/-- Registering and then unregistering gives back the four lists; registering
twice throws. -/
theorem registerSchematicNetSegment_unregister (s : NetSignal) (e : SI_NetSegment)
    (h : (s.registerSchematicNetSegment e).thrown = none) :
    ((s.registerSchematicNetSegment e).state.unregisterSchematicNetSegment e).thrown = none ∧
    ((s.registerSchematicNetSegment e).state.unregisterSchematicNetSegment e).state.mRegisteredSchematicNetSegments = s.mRegisteredSchematicNetSegments ∧
    ((s.registerSchematicNetSegment e).state.unregisterSchematicNetSegment e).state.mRegisteredComponentSignals = s.mRegisteredComponentSignals ∧
    ((s.registerSchematicNetSegment e).state.unregisterSchematicNetSegment e).state.mRegisteredBoardNetSegments = s.mRegisteredBoardNetSegments ∧
    ((s.registerSchematicNetSegment e).state.unregisterSchematicNetSegment e).state.mRegisteredBoardPlanes = s.mRegisteredBoardPlanes ∧
    ((s.registerSchematicNetSegment e).state.registerSchematicNetSegment e).thrown = some Exception.LogicError := by
  have hpre : s.mIsAddedToCircuit = true ∧ e ∉ s.mRegisteredSchematicNetSegments ∧ e.circuit = s.mCircuit := by
    by_contra hn
    have hfail : s.mIsAddedToCircuit = false ∨ e ∈ s.mRegisteredSchematicNetSegments ∨ e.circuit ≠ s.mCircuit := by
      by_cases a : s.mIsAddedToCircuit = true
      · by_cases b : e ∈ s.mRegisteredSchematicNetSegments
        · exact Or.inr (Or.inl b)
        · by_cases c : e.circuit = s.mCircuit
          · exact absurd ⟨a, b, c⟩ hn
          · exact Or.inr (Or.inr c)
      · exact Or.inl (by simpa using a)
    rw [(registerSchematicNetSegment_spec s e).1 hfail] at h
    simp [Outcome.thrown] at h
  obtain ⟨_, r1, r2, r3, r4, r5, r6⟩ := (registerSchematicNetSegment_spec s e).2 hpre.1 hpre.2.1 hpre.2.2
  have hmem : e ∈ (s.registerSchematicNetSegment e).state.mRegisteredSchematicNetSegments := by rw [r1]; simp
  obtain ⟨u0, u1, u2, u3, u4, _, _⟩ :=
    (unregisterSchematicNetSegment_spec (s.registerSchematicNetSegment e).state e).2 r5 hmem
  refine ⟨u0, ?_, by rw [u2, r2], by rw [u3, r3], by rw [u4, r4], ?_⟩
  · rw [u1, r1, erase_append_singleton _ _ hpre.2.1]
  · rw [(registerSchematicNetSegment_spec (s.registerSchematicNetSegment e).state e).1 (Or.inr (Or.inl hmem))]
    rfl

/-- When `registerBoardNetSegment` throws and when it returns. -/
theorem registerBoardNetSegment_spec (s : NetSignal) (e : BI_NetSegmentPtr) :
    ((s.mIsAddedToCircuit = false ∨ e ∈ s.mRegisteredBoardNetSegments ∨ e.circuit ≠ s.mCircuit) →
      s.registerBoardNetSegment e = .error (Exception.LogicError, s)) ∧
    (s.mIsAddedToCircuit = true → e ∉ s.mRegisteredBoardNetSegments → e.circuit = s.mCircuit →
      (s.registerBoardNetSegment e).thrown = none ∧
      (s.registerBoardNetSegment e).state.mRegisteredBoardNetSegments = s.mRegisteredBoardNetSegments ++ [e] ∧
      (s.registerBoardNetSegment e).state.mRegisteredComponentSignals = s.mRegisteredComponentSignals ∧
      (s.registerBoardNetSegment e).state.mRegisteredSchematicNetSegments = s.mRegisteredSchematicNetSegments ∧
      (s.registerBoardNetSegment e).state.mRegisteredBoardPlanes = s.mRegisteredBoardPlanes ∧
      (s.registerBoardNetSegment e).state.mIsAddedToCircuit = true ∧
      (s.registerBoardNetSegment e).state.mCircuit = s.mCircuit) := by
  constructor
  · intro h
    unfold registerBoardNetSegment
    rw [if_pos]
    rcases h with h | h | h
    · left; simp [h]
    · right; left; exact h
    · right; right; exact h
  · intro h1 h2 h3
    have hc : ¬ ((¬ s.mIsAddedToCircuit = true) ∨ e ∈ s.mRegisteredBoardNetSegments ∨ e.circuit ≠ s.mCircuit) := by
      simp [h1, h2, h3]
    unfold registerBoardNetSegment
    rw [if_neg hc]
    simp [Outcome.thrown, Outcome.state, updateErcMessages_fields, h1]

/-- When `unregisterBoardNetSegment` throws and when it returns. -/
theorem unregisterBoardNetSegment_spec (s : NetSignal) (e : BI_NetSegmentPtr) :
    ((s.mIsAddedToCircuit = false ∨ e ∉ s.mRegisteredBoardNetSegments) →
      s.unregisterBoardNetSegment e = .error (Exception.LogicError, s)) ∧
    (s.mIsAddedToCircuit = true → e ∈ s.mRegisteredBoardNetSegments →
      (s.unregisterBoardNetSegment e).thrown = none ∧
      (s.unregisterBoardNetSegment e).state.mRegisteredBoardNetSegments = s.mRegisteredBoardNetSegments.erase e ∧
      (s.unregisterBoardNetSegment e).state.mRegisteredComponentSignals = s.mRegisteredComponentSignals ∧
      (s.unregisterBoardNetSegment e).state.mRegisteredSchematicNetSegments = s.mRegisteredSchematicNetSegments ∧
      (s.unregisterBoardNetSegment e).state.mRegisteredBoardPlanes = s.mRegisteredBoardPlanes ∧
      (s.unregisterBoardNetSegment e).state.mIsAddedToCircuit = true ∧
      (s.unregisterBoardNetSegment e).state.mCircuit = s.mCircuit) := by
  constructor
  · intro h
    unfold unregisterBoardNetSegment
    rw [if_pos]
    rcases h with h | h
    · left; simp [h]
    · right; exact h
  · intro h1 h2
    have hc : ¬ ((¬ s.mIsAddedToCircuit = true) ∨ ¬ e ∈ s.mRegisteredBoardNetSegments) := by
      simp [h1, h2]
    unfold unregisterBoardNetSegment
    rw [if_neg hc]
    simp [Outcome.thrown, Outcome.state, updateErcMessages_fields, h1]

/-- Registering and then unregistering gives back the four lists; registering
twice throws. -/
theorem registerBoardNetSegment_unregister (s : NetSignal) (e : BI_NetSegmentPtr)
    (h : (s.registerBoardNetSegment e).thrown = none) :
    ((s.registerBoardNetSegment e).state.unregisterBoardNetSegment e).thrown = none ∧
    ((s.registerBoardNetSegment e).state.unregisterBoardNetSegment e).state.mRegisteredBoardNetSegments = s.mRegisteredBoardNetSegments ∧
    ((s.registerBoardNetSegment e).state.unregisterBoardNetSegment e).state.mRegisteredComponentSignals = s.mRegisteredComponentSignals ∧
    ((s.registerBoardNetSegment e).state.unregisterBoardNetSegment e).state.mRegisteredSchematicNetSegments = s.mRegisteredSchematicNetSegments ∧
    ((s.registerBoardNetSegment e).state.unregisterBoardNetSegment e).state.mRegisteredBoardPlanes = s.mRegisteredBoardPlanes ∧
    ((s.registerBoardNetSegment e).state.registerBoardNetSegment e).thrown = some Exception.LogicError := by
  have hpre : s.mIsAddedToCircuit = true ∧ e ∉ s.mRegisteredBoardNetSegments ∧ e.circuit = s.mCircuit := by
    by_contra hn
    have hfail : s.mIsAddedToCircuit = false ∨ e ∈ s.mRegisteredBoardNetSegments ∨ e.circuit ≠ s.mCircuit := by
      by_cases a : s.mIsAddedToCircuit = true
      · by_cases b : e ∈ s.mRegisteredBoardNetSegments
        · exact Or.inr (Or.inl b)
        · by_cases c : e.circuit = s.mCircuit
          · exact absurd ⟨a, b, c⟩ hn
          · exact Or.inr (Or.inr c)
      · exact Or.inl (by simpa using a)
    rw [(registerBoardNetSegment_spec s e).1 hfail] at h
    simp [Outcome.thrown] at h
  obtain ⟨_, r1, r2, r3, r4, r5, r6⟩ := (registerBoardNetSegment_spec s e).2 hpre.1 hpre.2.1 hpre.2.2
  have hmem : e ∈ (s.registerBoardNetSegment e).state.mRegisteredBoardNetSegments := by rw [r1]; simp
  obtain ⟨u0, u1, u2, u3, u4, _, _⟩ :=
    (unregisterBoardNetSegment_spec (s.registerBoardNetSegment e).state e).2 r5 hmem
  refine ⟨u0, ?_, by rw [u2, r2], by rw [u3, r3], by rw [u4, r4], ?_⟩
  · rw [u1, r1, erase_append_singleton _ _ hpre.2.1]
  · rw [(registerBoardNetSegment_spec (s.registerBoardNetSegment e).state e).1 (Or.inr (Or.inl hmem))]
    rfl

/-- When `registerBoardPlane` throws and when it returns. -/
theorem registerBoardPlane_spec (s : NetSignal) (e : BI_Plane) :
    ((s.mIsAddedToCircuit = false ∨ e ∈ s.mRegisteredBoardPlanes ∨ e.circuit ≠ s.mCircuit) →
      s.registerBoardPlane e = .error (Exception.LogicError, s)) ∧
    (s.mIsAddedToCircuit = true → e ∉ s.mRegisteredBoardPlanes → e.circuit = s.mCircuit →
      (s.registerBoardPlane e).thrown = none ∧
      (s.registerBoardPlane e).state.mRegisteredBoardPlanes = s.mRegisteredBoardPlanes ++ [e] ∧
      (s.registerBoardPlane e).state.mRegisteredComponentSignals = s.mRegisteredComponentSignals ∧
      (s.registerBoardPlane e).state.mRegisteredSchematicNetSegments = s.mRegisteredSchematicNetSegments ∧
      (s.registerBoardPlane e).state.mRegisteredBoardNetSegments = s.mRegisteredBoardNetSegments ∧
      (s.registerBoardPlane e).state.mIsAddedToCircuit = true ∧
      (s.registerBoardPlane e).state.mCircuit = s.mCircuit) := by
  constructor
  · intro h
    unfold registerBoardPlane
    rw [if_pos]
    rcases h with h | h | h
    · left; simp [h]
    · right; left; exact h
    · right; right; exact h
  · intro h1 h2 h3
    have hc : ¬ ((¬ s.mIsAddedToCircuit = true) ∨ e ∈ s.mRegisteredBoardPlanes ∨ e.circuit ≠ s.mCircuit) := by
      simp [h1, h2, h3]
    unfold registerBoardPlane
    rw [if_neg hc]
    simp [Outcome.thrown, Outcome.state, updateErcMessages_fields, h1]

/-- When `unregisterBoardPlane` throws and when it returns. -/
theorem unregisterBoardPlane_spec (s : NetSignal) (e : BI_Plane) :
    ((s.mIsAddedToCircuit = false ∨ e ∉ s.mRegisteredBoardPlanes) →
      s.unregisterBoardPlane e = .error (Exception.LogicError, s)) ∧
    (s.mIsAddedToCircuit = true → e ∈ s.mRegisteredBoardPlanes →
      (s.unregisterBoardPlane e).thrown = none ∧
      (s.unregisterBoardPlane e).state.mRegisteredBoardPlanes = s.mRegisteredBoardPlanes.erase e ∧
      (s.unregisterBoardPlane e).state.mRegisteredComponentSignals = s.mRegisteredComponentSignals ∧
      (s.unregisterBoardPlane e).state.mRegisteredSchematicNetSegments = s.mRegisteredSchematicNetSegments ∧
      (s.unregisterBoardPlane e).state.mRegisteredBoardNetSegments = s.mRegisteredBoardNetSegments ∧
      (s.unregisterBoardPlane e).state.mIsAddedToCircuit = true ∧
      (s.unregisterBoardPlane e).state.mCircuit = s.mCircuit) := by
  constructor
  · intro h
    unfold unregisterBoardPlane
    rw [if_pos]
    rcases h with h | h
    · left; simp [h]
    · right; exact h
  · intro h1 h2
    have hc : ¬ ((¬ s.mIsAddedToCircuit = true) ∨ ¬ e ∈ s.mRegisteredBoardPlanes) := by
      simp [h1, h2]
    unfold unregisterBoardPlane
    rw [if_neg hc]
    simp [Outcome.thrown, Outcome.state, updateErcMessages_fields, h1]

/-- Registering and then unregistering gives back the four lists; registering
twice throws. -/
theorem registerBoardPlane_unregister (s : NetSignal) (e : BI_Plane)
    (h : (s.registerBoardPlane e).thrown = none) :
    ((s.registerBoardPlane e).state.unregisterBoardPlane e).thrown = none ∧
    ((s.registerBoardPlane e).state.unregisterBoardPlane e).state.mRegisteredBoardPlanes = s.mRegisteredBoardPlanes ∧
    ((s.registerBoardPlane e).state.unregisterBoardPlane e).state.mRegisteredComponentSignals = s.mRegisteredComponentSignals ∧
    ((s.registerBoardPlane e).state.unregisterBoardPlane e).state.mRegisteredSchematicNetSegments = s.mRegisteredSchematicNetSegments ∧
    ((s.registerBoardPlane e).state.unregisterBoardPlane e).state.mRegisteredBoardNetSegments = s.mRegisteredBoardNetSegments ∧
    ((s.registerBoardPlane e).state.registerBoardPlane e).thrown = some Exception.LogicError := by
  have hpre : s.mIsAddedToCircuit = true ∧ e ∉ s.mRegisteredBoardPlanes ∧ e.circuit = s.mCircuit := by
    by_contra hn
    have hfail : s.mIsAddedToCircuit = false ∨ e ∈ s.mRegisteredBoardPlanes ∨ e.circuit ≠ s.mCircuit := by
      by_cases a : s.mIsAddedToCircuit = true
      · by_cases b : e ∈ s.mRegisteredBoardPlanes
        · exact Or.inr (Or.inl b)
        · by_cases c : e.circuit = s.mCircuit
          · exact absurd ⟨a, b, c⟩ hn
          · exact Or.inr (Or.inr c)
      · exact Or.inl (by simpa using a)
    rw [(registerBoardPlane_spec s e).1 hfail] at h
    simp [Outcome.thrown] at h
  obtain ⟨_, r1, r2, r3, r4, r5, r6⟩ := (registerBoardPlane_spec s e).2 hpre.1 hpre.2.1 hpre.2.2
  have hmem : e ∈ (s.registerBoardPlane e).state.mRegisteredBoardPlanes := by rw [r1]; simp
  obtain ⟨u0, u1, u2, u3, u4, _, _⟩ :=
    (unregisterBoardPlane_spec (s.registerBoardPlane e).state e).2 r5 hmem
  refine ⟨u0, ?_, by rw [u2, r2], by rw [u3, r3], by rw [u4, r4], ?_⟩
  · rw [u1, r1, erase_append_singleton _ _ hpre.2.1]
  · rw [(registerBoardPlane_spec (s.registerBoardPlane e).state e).1 (Or.inr (Or.inl hmem))]
    rfl

end NetSignal

/-! ## Removal from the circuit and registration -/

namespace NetSignal

/-- C7: removeFromCircuit() throws a LogicError if the signal is not added to
the circuit; if it is added and at least one component signal, schematic net
segment, board net segment or plane is registered, it throws a RuntimeError.
In both cases the signal (its added-to-circuit flag and its registrant lists
included) and the net classes are left as they were, so a signal in use stays
added. -/
theorem removeFromCircuit_refused {C : Type} (nc : NetClasses C) (s : NetSignal) (c : C) :
    (s.mIsAddedToCircuit = false →
      removeFromCircuit nc (s, c) = .error (Exception.LogicError, (s, c))) ∧
    (s.mIsAddedToCircuit = true →
      (s.mRegisteredComponentSignals ≠ [] ∨ s.mRegisteredSchematicNetSegments ≠ [] ∨
        s.mRegisteredBoardNetSegments ≠ [] ∨ s.mRegisteredBoardPlanes ≠ []) →
      removeFromCircuit nc (s, c) = .error (Exception.RuntimeError, (s, c)) ∧
      (removeFromCircuit nc (s, c)).state.1.mIsAddedToCircuit = true) := by
  constructor
  · intro h
    simp [removeFromCircuit, h]
  · intro h hreg
    have hused : s.isUsed = true := by
      simp only [isUsed, getRegisteredElementsCount, decide_eq_true_eq]
      rcases hreg with h1 | h1 | h1 | h1
      all_goals
        have := List.length_pos.mpr h1
        omega
    simp [removeFromCircuit, h, hused, Outcome.state]

/-- Scenario D: a signal with one registered pin is not removed. -/
theorem removeFromCircuit_refused_witness :
    removeFromCircuit ScenarioD.netClasses (ScenarioD.signal, ())
      = .error (Exception.RuntimeError, (ScenarioD.signal, ())) ∧
    (removeFromCircuit ScenarioD.netClasses (ScenarioD.signal, ())).state.1.mIsAddedToCircuit
      = true :=
  (removeFromCircuit_refused ScenarioD.netClasses ScenarioD.signal ()).2 rfl
    (Or.inl (by decide))

/-- C8: for each of the four registrant kinds of a net signal, register throws
a LogicError and leaves the signal as it was if the signal is not added to the
circuit, if the element is already registered, or if the element belongs to a
different circuit; unregister throws a LogicError and leaves the signal as it
was if the signal is not added to the circuit or the element is not
registered; otherwise the call returns, the list of that kind has gained the
element at its end (register) or lost it (unregister), and the other three
lists are unchanged. -/
theorem register_unregister_contract (s : NetSignal) :
    (∀ e : ComponentSignalInstance,
      ((s.mIsAddedToCircuit = false ∨ e ∈ s.mRegisteredComponentSignals ∨ e.circuit ≠ s.mCircuit) →
        s.registerComponentSignal e = .error (Exception.LogicError, s)) ∧
      (s.mIsAddedToCircuit = true → e ∉ s.mRegisteredComponentSignals → e.circuit = s.mCircuit →
        (s.registerComponentSignal e).thrown = none ∧
        (s.registerComponentSignal e).state.mRegisteredComponentSignals = s.mRegisteredComponentSignals ++ [e] ∧
        (s.registerComponentSignal e).state.mRegisteredSchematicNetSegments = s.mRegisteredSchematicNetSegments ∧
        (s.registerComponentSignal e).state.mRegisteredBoardNetSegments = s.mRegisteredBoardNetSegments ∧
        (s.registerComponentSignal e).state.mRegisteredBoardPlanes = s.mRegisteredBoardPlanes) ∧
      ((s.mIsAddedToCircuit = false ∨ e ∉ s.mRegisteredComponentSignals) →
        s.unregisterComponentSignal e = .error (Exception.LogicError, s)) ∧
      (s.mIsAddedToCircuit = true → e ∈ s.mRegisteredComponentSignals →
        (s.unregisterComponentSignal e).thrown = none ∧
        (s.unregisterComponentSignal e).state.mRegisteredComponentSignals = s.mRegisteredComponentSignals.erase e ∧
        (s.unregisterComponentSignal e).state.mRegisteredSchematicNetSegments = s.mRegisteredSchematicNetSegments ∧
        (s.unregisterComponentSignal e).state.mRegisteredBoardNetSegments = s.mRegisteredBoardNetSegments ∧
        (s.unregisterComponentSignal e).state.mRegisteredBoardPlanes = s.mRegisteredBoardPlanes)) ∧
    (∀ e : SI_NetSegment,
      ((s.mIsAddedToCircuit = false ∨ e ∈ s.mRegisteredSchematicNetSegments ∨ e.circuit ≠ s.mCircuit) →
        s.registerSchematicNetSegment e = .error (Exception.LogicError, s)) ∧
      (s.mIsAddedToCircuit = true → e ∉ s.mRegisteredSchematicNetSegments → e.circuit = s.mCircuit →
        (s.registerSchematicNetSegment e).thrown = none ∧
        (s.registerSchematicNetSegment e).state.mRegisteredSchematicNetSegments = s.mRegisteredSchematicNetSegments ++ [e] ∧
        (s.registerSchematicNetSegment e).state.mRegisteredComponentSignals = s.mRegisteredComponentSignals ∧
        (s.registerSchematicNetSegment e).state.mRegisteredBoardNetSegments = s.mRegisteredBoardNetSegments ∧
        (s.registerSchematicNetSegment e).state.mRegisteredBoardPlanes = s.mRegisteredBoardPlanes) ∧
      ((s.mIsAddedToCircuit = false ∨ e ∉ s.mRegisteredSchematicNetSegments) →
        s.unregisterSchematicNetSegment e = .error (Exception.LogicError, s)) ∧
      (s.mIsAddedToCircuit = true → e ∈ s.mRegisteredSchematicNetSegments →
        (s.unregisterSchematicNetSegment e).thrown = none ∧
        (s.unregisterSchematicNetSegment e).state.mRegisteredSchematicNetSegments = s.mRegisteredSchematicNetSegments.erase e ∧
        (s.unregisterSchematicNetSegment e).state.mRegisteredComponentSignals = s.mRegisteredComponentSignals ∧
        (s.unregisterSchematicNetSegment e).state.mRegisteredBoardNetSegments = s.mRegisteredBoardNetSegments ∧
        (s.unregisterSchematicNetSegment e).state.mRegisteredBoardPlanes = s.mRegisteredBoardPlanes)) ∧
    (∀ e : BI_NetSegmentPtr,
      ((s.mIsAddedToCircuit = false ∨ e ∈ s.mRegisteredBoardNetSegments ∨ e.circuit ≠ s.mCircuit) →
        s.registerBoardNetSegment e = .error (Exception.LogicError, s)) ∧
      (s.mIsAddedToCircuit = true → e ∉ s.mRegisteredBoardNetSegments → e.circuit = s.mCircuit →
        (s.registerBoardNetSegment e).thrown = none ∧
        (s.registerBoardNetSegment e).state.mRegisteredBoardNetSegments = s.mRegisteredBoardNetSegments ++ [e] ∧
        (s.registerBoardNetSegment e).state.mRegisteredComponentSignals = s.mRegisteredComponentSignals ∧
        (s.registerBoardNetSegment e).state.mRegisteredSchematicNetSegments = s.mRegisteredSchematicNetSegments ∧
        (s.registerBoardNetSegment e).state.mRegisteredBoardPlanes = s.mRegisteredBoardPlanes) ∧
      ((s.mIsAddedToCircuit = false ∨ e ∉ s.mRegisteredBoardNetSegments) →
        s.unregisterBoardNetSegment e = .error (Exception.LogicError, s)) ∧
      (s.mIsAddedToCircuit = true → e ∈ s.mRegisteredBoardNetSegments →
        (s.unregisterBoardNetSegment e).thrown = none ∧
        (s.unregisterBoardNetSegment e).state.mRegisteredBoardNetSegments = s.mRegisteredBoardNetSegments.erase e ∧
        (s.unregisterBoardNetSegment e).state.mRegisteredComponentSignals = s.mRegisteredComponentSignals ∧
        (s.unregisterBoardNetSegment e).state.mRegisteredSchematicNetSegments = s.mRegisteredSchematicNetSegments ∧
        (s.unregisterBoardNetSegment e).state.mRegisteredBoardPlanes = s.mRegisteredBoardPlanes)) ∧
    (∀ e : BI_Plane,
      ((s.mIsAddedToCircuit = false ∨ e ∈ s.mRegisteredBoardPlanes ∨ e.circuit ≠ s.mCircuit) →
        s.registerBoardPlane e = .error (Exception.LogicError, s)) ∧
      (s.mIsAddedToCircuit = true → e ∉ s.mRegisteredBoardPlanes → e.circuit = s.mCircuit →
        (s.registerBoardPlane e).thrown = none ∧
        (s.registerBoardPlane e).state.mRegisteredBoardPlanes = s.mRegisteredBoardPlanes ++ [e] ∧
        (s.registerBoardPlane e).state.mRegisteredComponentSignals = s.mRegisteredComponentSignals ∧
        (s.registerBoardPlane e).state.mRegisteredSchematicNetSegments = s.mRegisteredSchematicNetSegments ∧
        (s.registerBoardPlane e).state.mRegisteredBoardNetSegments = s.mRegisteredBoardNetSegments) ∧
      ((s.mIsAddedToCircuit = false ∨ e ∉ s.mRegisteredBoardPlanes) →
        s.unregisterBoardPlane e = .error (Exception.LogicError, s)) ∧
      (s.mIsAddedToCircuit = true → e ∈ s.mRegisteredBoardPlanes →
        (s.unregisterBoardPlane e).thrown = none ∧
        (s.unregisterBoardPlane e).state.mRegisteredBoardPlanes = s.mRegisteredBoardPlanes.erase e ∧
        (s.unregisterBoardPlane e).state.mRegisteredComponentSignals = s.mRegisteredComponentSignals ∧
        (s.unregisterBoardPlane e).state.mRegisteredSchematicNetSegments = s.mRegisteredSchematicNetSegments ∧
        (s.unregisterBoardPlane e).state.mRegisteredBoardNetSegments = s.mRegisteredBoardNetSegments)) := by
  refine ⟨?_, ?_, ?_, ?_⟩
  · intro e
    have hr := registerComponentSignal_spec s e
    have hu := unregisterComponentSignal_spec s e
    refine ⟨hr.1, ?_, hu.1, ?_⟩
    · intro h1 h2 h3
      obtain ⟨a, b, c, d, f, _⟩ := hr.2 h1 h2 h3
      exact ⟨a, b, c, d, f⟩
    · intro h1 h2
      obtain ⟨a, b, c, d, f, _⟩ := hu.2 h1 h2
      exact ⟨a, b, c, d, f⟩
  · intro e
    have hr := registerSchematicNetSegment_spec s e
    have hu := unregisterSchematicNetSegment_spec s e
    refine ⟨hr.1, ?_, hu.1, ?_⟩
    · intro h1 h2 h3
      obtain ⟨a, b, c, d, f, _⟩ := hr.2 h1 h2 h3
      exact ⟨a, b, c, d, f⟩
    · intro h1 h2
      obtain ⟨a, b, c, d, f, _⟩ := hu.2 h1 h2
      exact ⟨a, b, c, d, f⟩
  · intro e
    have hr := registerBoardNetSegment_spec s e
    have hu := unregisterBoardNetSegment_spec s e
    refine ⟨hr.1, ?_, hu.1, ?_⟩
    · intro h1 h2 h3
      obtain ⟨a, b, c, d, f, _⟩ := hr.2 h1 h2 h3
      exact ⟨a, b, c, d, f⟩
    · intro h1 h2
      obtain ⟨a, b, c, d, f, _⟩ := hu.2 h1 h2
      exact ⟨a, b, c, d, f⟩
  · intro e
    have hr := registerBoardPlane_spec s e
    have hu := unregisterBoardPlane_spec s e
    refine ⟨hr.1, ?_, hu.1, ?_⟩
    · intro h1 h2 h3
      obtain ⟨a, b, c, d, f, _⟩ := hr.2 h1 h2 h3
      exact ⟨a, b, c, d, f⟩
    · intro h1 h2
      obtain ⟨a, b, c, d, f, _⟩ := hu.2 h1 h2
      exact ⟨a, b, c, d, f⟩

/-- On the signal of scenario D, registering its pin again throws, and
registering a second pin appends it. -/
theorem register_unregister_contract_witness :
    ScenarioD.signal.registerComponentSignal ScenarioD.pin
      = .error (Exception.LogicError, ScenarioD.signal) ∧
    (ScenarioD.signal.registerComponentSignal ScenarioD.pin2).thrown = none ∧
    (ScenarioD.signal.registerComponentSignal ScenarioD.pin2).state.mRegisteredComponentSignals
      = [ScenarioD.pin, ScenarioD.pin2] :=
  have h := (register_unregister_contract ScenarioD.signal).1 ScenarioD.pin
  have h2 := ((register_unregister_contract ScenarioD.signal).1 ScenarioD.pin2).2.1
    rfl (by decide) rfl
  ⟨h.1 (Or.inr (Or.inl (by decide))), h2.1, h2.2.1⟩

/-- C9: for each of the four registrant kinds, after a register that returns
(the signal is added to the circuit and the element was not registered),
unregister of the same element returns too and brings the registrant list, and
getRegisteredElementsCount(), back to their values before the register; a
second register of the element without unregistering throws. -/
theorem unregister_after_register (s : NetSignal) :
    (∀ e : ComponentSignalInstance, (s.registerComponentSignal e).thrown = none →
      ((s.registerComponentSignal e).state.unregisterComponentSignal e).thrown = none ∧
      ((s.registerComponentSignal e).state.unregisterComponentSignal e).state.mRegisteredComponentSignals = s.mRegisteredComponentSignals ∧
      ((s.registerComponentSignal e).state.unregisterComponentSignal e).state.getRegisteredElementsCount
        = s.getRegisteredElementsCount ∧
      ((s.registerComponentSignal e).state.registerComponentSignal e).thrown = some Exception.LogicError) ∧
    (∀ e : SI_NetSegment, (s.registerSchematicNetSegment e).thrown = none →
      ((s.registerSchematicNetSegment e).state.unregisterSchematicNetSegment e).thrown = none ∧
      ((s.registerSchematicNetSegment e).state.unregisterSchematicNetSegment e).state.mRegisteredSchematicNetSegments = s.mRegisteredSchematicNetSegments ∧
      ((s.registerSchematicNetSegment e).state.unregisterSchematicNetSegment e).state.getRegisteredElementsCount
        = s.getRegisteredElementsCount ∧
      ((s.registerSchematicNetSegment e).state.registerSchematicNetSegment e).thrown = some Exception.LogicError) ∧
    (∀ e : BI_NetSegmentPtr, (s.registerBoardNetSegment e).thrown = none →
      ((s.registerBoardNetSegment e).state.unregisterBoardNetSegment e).thrown = none ∧
      ((s.registerBoardNetSegment e).state.unregisterBoardNetSegment e).state.mRegisteredBoardNetSegments = s.mRegisteredBoardNetSegments ∧
      ((s.registerBoardNetSegment e).state.unregisterBoardNetSegment e).state.getRegisteredElementsCount
        = s.getRegisteredElementsCount ∧
      ((s.registerBoardNetSegment e).state.registerBoardNetSegment e).thrown = some Exception.LogicError) ∧
    (∀ e : BI_Plane, (s.registerBoardPlane e).thrown = none →
      ((s.registerBoardPlane e).state.unregisterBoardPlane e).thrown = none ∧
      ((s.registerBoardPlane e).state.unregisterBoardPlane e).state.mRegisteredBoardPlanes = s.mRegisteredBoardPlanes ∧
      ((s.registerBoardPlane e).state.unregisterBoardPlane e).state.getRegisteredElementsCount
        = s.getRegisteredElementsCount ∧
      ((s.registerBoardPlane e).state.registerBoardPlane e).thrown = some Exception.LogicError) := by
  refine ⟨?_, ?_, ?_, ?_⟩
  · intro e h
    obtain ⟨a, b, c, d, f, g⟩ := registerComponentSignal_unregister s e h
    refine ⟨a, b, ?_, g⟩
    simp only [getRegisteredElementsCount, b, c, d, f]
  · intro e h
    obtain ⟨a, b, c, d, f, g⟩ := registerSchematicNetSegment_unregister s e h
    refine ⟨a, b, ?_, g⟩
    simp only [getRegisteredElementsCount, b, c, d, f]
  · intro e h
    obtain ⟨a, b, c, d, f, g⟩ := registerBoardNetSegment_unregister s e h
    refine ⟨a, b, ?_, g⟩
    simp only [getRegisteredElementsCount, b, c, d, f]
  · intro e h
    obtain ⟨a, b, c, d, f, g⟩ := registerBoardPlane_unregister s e h
    refine ⟨a, b, ?_, g⟩
    simp only [getRegisteredElementsCount, b, c, d, f]

/-- On the signal of scenario D, registering and unregistering a second pin
gives back a count of one; registering it twice throws. -/
theorem unregister_after_register_witness :
    (ScenarioD.signal.registerComponentSignal ScenarioD.pin2).thrown = none ∧
    ((ScenarioD.signal.registerComponentSignal ScenarioD.pin2).state.unregisterComponentSignal
      ScenarioD.pin2).state.getRegisteredElementsCount = 1 ∧
    ((ScenarioD.signal.registerComponentSignal ScenarioD.pin2).state.registerComponentSignal
      ScenarioD.pin2).thrown = some Exception.LogicError :=
  have h := (unregister_after_register ScenarioD.signal).1 ScenarioD.pin2 (by decide)
  ⟨by decide, h.2.2.1, h.2.2.2⟩

end NetSignal

/-! ## Reassigning the net signal -/

namespace BI_NetSegment

theorem isUsed_of_nonempty (s : BI_NetSegment)
    (h : s.mVias ≠ [] ∨ s.mNetPoints ≠ [] ∨ s.mNetLines ≠ []) : s.isUsed = true := by
  unfold isUsed
  rcases h with h | h | h
  · cases hv : s.mVias with
    | nil => exact absurd hv h
    | cons _ _ => simp
  · cases hv : s.mNetPoints with
    | nil => exact absurd hv h
    | cons _ _ => simp
  · cases hv : s.mNetLines with
    | nil => exact absurd hv h
    | cons _ _ => simp

theorem isUsed_eq_false (s : BI_NetSegment) (h : s.isUsed = false) :
    s.mVias = [] ∧ s.mNetPoints = [] ∧ s.mNetLines = [] := by
  refine ⟨?_, ?_, ?_⟩
  · by_contra hn
    rw [isUsed_of_nonempty s (Or.inl hn)] at h
    cases h
  · by_contra hn
    rw [isUsed_of_nonempty s (Or.inr (Or.inl hn))] at h
    cases h
  · by_contra hn
    rw [isUsed_of_nonempty s (Or.inr (Or.inr hn))] at h
    cases h

/-- C10: setNetSignal(signal) with a signal other than the current one returns
normally only if the segment holds no element or is not added to the board,
and the new signal belongs to the circuit of the segment; if the segment is
added to the board and holds at least one via, net point or net line, the call
throws a LogicError and leaves the segment, its reference to the old signal
and the registrations of both signals as they were. -/
theorem setNetSignal_needs_empty_or_not_added (st : SetNetSignalState)
    (hdiff : st.netsignal.ptr ≠ st.seg.mNetSignal) :
    ((setNetSignal st).thrown = none →
      ((st.seg.mVias = [] ∧ st.seg.mNetPoints = [] ∧ st.seg.mNetLines = []) ∨
        st.seg.mIsAddedToBoard = false) ∧
      st.netsignal.mCircuit = st.seg.circuit) ∧
    (st.seg.mIsAddedToBoard = true →
      (st.seg.mVias ≠ [] ∨ st.seg.mNetPoints ≠ [] ∨ st.seg.mNetLines ≠ []) →
      setNetSignal st = .error (Exception.LogicError, st)) := by
  constructor
  · intro h
    unfold setNetSignal at h
    rw [if_pos hdiff] at h
    split at h
    · simp [Outcome.thrown] at h
    · rename_i hc
      simp only [not_or, not_and, ne_eq, not_not] at hc
      refine ⟨?_, hc.2⟩
      cases hu : st.seg.isUsed with
      | false => exact Or.inl (isUsed_eq_false st.seg hu)
      | true => right; simpa using hc.1 hu
  · intro hadd hne
    unfold setNetSignal
    rw [if_pos hdiff, if_pos (Or.inl ⟨isUsed_of_nonempty st.seg hne, hadd⟩)]

/-- The segment of scenario A keeps its signal; an empty segment not added to
the board takes the new one. -/
theorem setNetSignal_needs_empty_or_not_added_witness :
    setNetSignal ScenarioD.reassign = .error (Exception.LogicError, ScenarioD.reassign) ∧
    (setNetSignal ScenarioD.reassignEmpty).thrown = none ∧
    (setNetSignal ScenarioD.reassignEmpty).state.seg.mNetSignal = ScenarioD.other.ptr :=
  ⟨(setNetSignal_needs_empty_or_not_added ScenarioD.reassign (by decide)).2 rfl
      (Or.inr (Or.inl (by decide))),
   by decide, by decide⟩

end BI_NetSegment

/-! ## Reassigning the net signal of a segment on the board -/

namespace BI_NetSegment

theorem outcome_thrown_none {σ : Type} (o : Outcome σ) (h : o.thrown = none) :
    o = .ok o.state := by
  cases o with
  | ok s => rfl
  | error e => obtain ⟨e1, s⟩ := e; simp [Outcome.thrown] at h

theorem outcome_thrown_some {σ : Type} (o : Outcome σ) (h : o.thrown ≠ none) :
    ∃ e, o = .error (e, o.state) := by
  cases o with
  | ok s => simp [Outcome.thrown] at h
  | error e => obtain ⟨e1, s⟩ := e; exact ⟨e1, rfl⟩

/-- C11 (as amended): when the segment is added to the board and holds no
element, setNetSignal(signal) with another signal of the same circuit
unregisters the segment from the old signal and registers it with the new one.
If the old signal refuses the unregistration nothing changes. On success the
segment refers to the new signal, the new signal has gained the registration
and the old signal has lost it. If the new registration fails the call fails,
the segment still refers to the old signal, the new signal is unchanged and
(the old signal being of the circuit of the segment) the segment is registered
with the old signal. -/
theorem setNetSignal_reassigns_empty_segment (st : SetNetSignalState)
    (hdiff : st.netsignal.ptr ≠ st.seg.mNetSignal)
    (hadd : st.seg.mIsAddedToBoard = true) (hempty : st.seg.isUsed = false)
    (hcirc : st.netsignal.mCircuit = st.seg.circuit) :
    ((st.current.unregisterBoardNetSegment st.seg.this).thrown ≠ none →
      setNetSignal st = .error (Exception.LogicError, st)) ∧
    ((st.current.unregisterBoardNetSegment st.seg.this).thrown = none →
      (st.netsignal.registerBoardNetSegment st.seg.this).thrown = none →
      (setNetSignal st).thrown = none ∧
      (setNetSignal st).state.seg.mNetSignal = st.netsignal.ptr ∧
      (setNetSignal st).state.netsignal.mRegisteredBoardNetSegments
        = st.netsignal.mRegisteredBoardNetSegments ++ [st.seg.this] ∧
      (setNetSignal st).state.current.mRegisteredBoardNetSegments
        = st.current.mRegisteredBoardNetSegments.erase st.seg.this) ∧
    ((st.current.unregisterBoardNetSegment st.seg.this).thrown = none →
      (st.netsignal.registerBoardNetSegment st.seg.this).thrown ≠ none →
      st.current.mCircuit = st.seg.circuit →
      (setNetSignal st).thrown ≠ none ∧
      (setNetSignal st).state.seg = st.seg ∧
      (setNetSignal st).state.netsignal = st.netsignal ∧
      st.seg.this ∈ (setNetSignal st).state.current.mRegisteredBoardNetSegments) := by
  have hguard : ¬ ((st.seg.isUsed = true ∧ st.seg.mIsAddedToBoard = true) ∨
      st.netsignal.mCircuit ≠ st.seg.circuit) := by
    simp [hempty, hcirc]
  have hpre : ∀ (s : NetSignal) (e : BI_NetSegmentPtr),
      (s.unregisterBoardNetSegment e).thrown = none →
      s.mIsAddedToCircuit = true ∧ e ∈ s.mRegisteredBoardNetSegments := by
    intro s e h
    by_contra hn
    have hfail : s.mIsAddedToCircuit = false ∨ e ∉ s.mRegisteredBoardNetSegments := by
      by_cases a : s.mIsAddedToCircuit = true
      · by_cases b : e ∈ s.mRegisteredBoardNetSegments
        · exact absurd ⟨a, b⟩ hn
        · exact Or.inr b
      · exact Or.inl (by simpa using a)
    rw [(NetSignal.unregisterBoardNetSegment_spec s e).1 hfail] at h
    simp [Outcome.thrown] at h
  refine ⟨?_, ?_, ?_⟩
  · intro hu
    have hfail : st.current.mIsAddedToCircuit = false ∨
        st.seg.this ∉ st.current.mRegisteredBoardNetSegments := by
      by_contra hn
      simp only [not_or, Bool.not_eq_false, not_not] at hn
      exact hu ((NetSignal.unregisterBoardNetSegment_spec st.current st.seg.this).2 hn.1 hn.2).1
    have he := (NetSignal.unregisterBoardNetSegment_spec st.current st.seg.this).1 hfail
    unfold setNetSignal
    rw [if_pos hdiff, if_neg hguard, if_pos hadd, he]
  · intro hu hr
    obtain ⟨ha, hm⟩ := hpre _ _ hu
    obtain ⟨_, u1, _⟩ := (NetSignal.unregisterBoardNetSegment_spec st.current st.seg.this).2 ha hm
    have hrpre : st.netsignal.mIsAddedToCircuit = true ∧
        st.seg.this ∉ st.netsignal.mRegisteredBoardNetSegments := by
      by_contra hn
      have hfail : st.netsignal.mIsAddedToCircuit = false ∨
          st.seg.this ∈ st.netsignal.mRegisteredBoardNetSegments ∨
          st.seg.this.circuit ≠ st.netsignal.mCircuit := by
        by_cases a : st.netsignal.mIsAddedToCircuit = true
        · by_cases b : st.seg.this ∈ st.netsignal.mRegisteredBoardNetSegments
          · exact Or.inr (Or.inl b)
          · exact absurd ⟨a, b⟩ hn
        · exact Or.inl (by simpa using a)
      rw [(NetSignal.registerBoardNetSegment_spec st.netsignal st.seg.this).1 hfail] at hr
      simp [Outcome.thrown] at hr
    obtain ⟨_, r1, _⟩ := (NetSignal.registerBoardNetSegment_spec st.netsignal st.seg.this).2
      hrpre.1 hrpre.2 (by simp [BI_NetSegment.this, hcirc])
    have eu := outcome_thrown_none _ hu
    have er := outcome_thrown_none _ hr
    unfold setNetSignal
    rw [if_pos hdiff, if_neg hguard, if_pos hadd, eu, er]
    exact ⟨rfl, rfl, r1, u1⟩
  · intro hu hr hc
    obtain ⟨ha, hm⟩ := hpre _ _ hu
    obtain ⟨_, u1, _, _, _, u5, u6⟩ :=
      (NetSignal.unregisterBoardNetSegment_spec st.current st.seg.this).2 ha hm
    have eu := outcome_thrown_none _ hu
    obtain ⟨e, er⟩ := outcome_thrown_some _ hr
    have hst : (st.netsignal.registerBoardNetSegment st.seg.this).state = st.netsignal := by
      unfold NetSignal.registerBoardNetSegment at er ⊢
      split
      · rfl
      · rename_i hn
        rw [if_neg hn] at er
        cases er
    unfold setNetSignal
    rw [if_pos hdiff, if_neg hguard, if_pos hadd, eu, er]
    refine ⟨by simp [Outcome.thrown], rfl, rfl, ?_⟩
    show st.seg.this ∈ ((st.current.unregisterBoardNetSegment st.seg.this).state.registerBoardNetSegment
      st.seg.this).state.mRegisteredBoardNetSegments
    by_cases hdup : st.seg.this ∈
        (st.current.unregisterBoardNetSegment st.seg.this).state.mRegisteredBoardNetSegments
    · rw [(NetSignal.registerBoardNetSegment_spec _ st.seg.this).1 (Or.inr (Or.inl hdup))]
      exact hdup
    · obtain ⟨_, r1, _⟩ := (NetSignal.registerBoardNetSegment_spec
        (st.current.unregisterBoardNetSegment st.seg.this).state st.seg.this).2 u5 hdup
        (by rw [u6]; simp [BI_NetSegment.this, hc])
      rw [r1]
      simp

/-- On the empty segment of the board the reassignment goes through: the
segment refers to `other`, which holds its registration, and the old signal
has lost it. -/
theorem setNetSignal_reassigns_empty_segment_witness :
    (setNetSignal ScenarioD.reassignAdded).thrown = none ∧
    (setNetSignal ScenarioD.reassignAdded).state.seg.mNetSignal = ScenarioD.other.ptr ∧
    (setNetSignal ScenarioD.reassignAdded).state.netsignal.mRegisteredBoardNetSegments
      = [ScenarioA.empty.this] ∧
    (setNetSignal ScenarioD.reassignAdded).state.current.mRegisteredBoardNetSegments = [] :=
  (setNetSignal_reassigns_empty_segment ScenarioD.reassignAdded (by decide) rfl rfl rfl).2.1
    (by decide) (by decide)

/-- C11 fails as stated: segment 100 is added to the board, holds the via V and
is registered with its signal; `other` belongs to the same circuit and would
accept the registration. setNetSignal(other) throws a LogicError: the segment
still refers to the old signal and nothing was registered with `other`. -/
theorem setNetSignal_refuses_nonempty_added_segment :
    ScenarioD.reassignUsed.seg.mIsAddedToBoard = true ∧
    ScenarioD.reassignUsed.seg.mVias = [SharedUuid.V] ∧
    (ScenarioD.other.registerBoardNetSegment ScenarioD.reassignUsed.seg.this).thrown = none ∧
    (setNetSignal ScenarioD.reassignUsed).thrown = some Exception.LogicError ∧
    (setNetSignal ScenarioD.reassignUsed).state = ScenarioD.reassignUsed ∧
    (setNetSignal ScenarioD.reassignUsed).state.seg.mNetSignal ≠ ScenarioD.other.ptr ∧
    (setNetSignal ScenarioD.reassignUsed).state.netsignal.mRegisteredBoardNetSegments = [] := by
  decide

end BI_NetSegment

/-! ## Diagnostics, name and validity of a net signal -/

namespace NetSignal

theorem updateErcMessages_unused (s : NetSignal) :
    ErcMsg.isPresent s.updateErcMessages.mErcMsgUnusedNetSignal
      = (s.mIsAddedToCircuit && !s.isUsed) := by
  simp only [updateErcMessages]
  cases ha : s.mIsAddedToCircuit <;> cases hu : s.isUsed <;>
    cases h3 : s.mErcMsgUnusedNetSignal <;>
    cases h4 : s.mErcMsgConnectedToLessThanTwoPins <;>
    by_cases hl : s.mRegisteredComponentSignals.length < 2 <;>
    simp [ha, hu, h3, h4, hl, ErcMsg.isPresent]

theorem updateErcMessages_fewPins (s : NetSignal) :
    ErcMsg.isPresent s.updateErcMessages.mErcMsgConnectedToLessThanTwoPins
      = (s.mIsAddedToCircuit && decide (s.mRegisteredComponentSignals.length < 2)) := by
  simp only [updateErcMessages]
  cases ha : s.mIsAddedToCircuit <;> cases hu : s.isUsed <;>
    cases h3 : s.mErcMsgUnusedNetSignal <;>
    cases h4 : s.mErcMsgConnectedToLessThanTwoPins <;>
    by_cases hl : s.mRegisteredComponentSignals.length < 2 <;>
    simp [ha, hu, h3, h4, hl, ErcMsg.isPresent]

theorem updateErcMessages_upToDate (s : NetSignal) : s.updateErcMessages.ErcUpToDate := by
  have hcount : s.isUsed = true ↔ ¬ s.getRegisteredElementsCount = 0 := by
    simp only [isUsed, decide_eq_true_eq]; omega
  have hf := updateErcMessages_fields s
  obtain ⟨f1, f2, f3, f4, f5, _⟩ := hf
  unfold ErcUpToDate
  rw [updateErcMessages_unused, updateErcMessages_fewPins]
  have hc : s.updateErcMessages.getRegisteredElementsCount = s.getRegisteredElementsCount := by
    simp only [getRegisteredElementsCount, f1, f2, f3, f4]
  rw [hc, f1, f5]
  constructor
  · cases hu : s.isUsed with
    | true => have := hcount.mp hu; simp [this]
    | false =>
      have : s.getRegisteredElementsCount = 0 := by
        by_contra hn; exact absurd (hcount.mpr hn) (by simp [hu])
      simp [this]
  · simp

/-- What `registerComponentSignal` leaves untouched, and the diagnostics after a call that
returned. -/
theorem registerComponentSignal_keeps (s : NetSignal) (e : ComponentSignalInstance) :
    (s.registerComponentSignal e).state.mName = s.mName ∧
    (s.registerComponentSignal e).state.mNetClass = s.mNetClass ∧
    ((s.registerComponentSignal e).thrown = none → (s.registerComponentSignal e).state.ErcUpToDate) := by
  unfold registerComponentSignal
  split
  · simp [Outcome.state, Outcome.thrown]
  · exact ⟨by simp [Outcome.state, updateErcMessages_fields],
      by simp [Outcome.state, updateErcMessages_fields],
      fun _ => updateErcMessages_upToDate _⟩

/-- What `unregisterComponentSignal` leaves untouched, and the diagnostics after a call that
returned. -/
theorem unregisterComponentSignal_keeps (s : NetSignal) (e : ComponentSignalInstance) :
    (s.unregisterComponentSignal e).state.mName = s.mName ∧
    (s.unregisterComponentSignal e).state.mNetClass = s.mNetClass ∧
    ((s.unregisterComponentSignal e).thrown = none → (s.unregisterComponentSignal e).state.ErcUpToDate) := by
  unfold unregisterComponentSignal
  split
  · simp [Outcome.state, Outcome.thrown]
  · exact ⟨by simp [Outcome.state, updateErcMessages_fields],
      by simp [Outcome.state, updateErcMessages_fields],
      fun _ => updateErcMessages_upToDate _⟩

/-- What `registerSchematicNetSegment` leaves untouched, and the diagnostics after a call that
returned. -/
theorem registerSchematicNetSegment_keeps (s : NetSignal) (e : SI_NetSegment) :
    (s.registerSchematicNetSegment e).state.mName = s.mName ∧
    (s.registerSchematicNetSegment e).state.mNetClass = s.mNetClass ∧
    ((s.registerSchematicNetSegment e).thrown = none → (s.registerSchematicNetSegment e).state.ErcUpToDate) := by
  unfold registerSchematicNetSegment
  split
  · simp [Outcome.state, Outcome.thrown]
  · exact ⟨by simp [Outcome.state, updateErcMessages_fields],
      by simp [Outcome.state, updateErcMessages_fields],
      fun _ => updateErcMessages_upToDate _⟩

/-- What `unregisterSchematicNetSegment` leaves untouched, and the diagnostics after a call that
returned. -/
theorem unregisterSchematicNetSegment_keeps (s : NetSignal) (e : SI_NetSegment) :
    (s.unregisterSchematicNetSegment e).state.mName = s.mName ∧
    (s.unregisterSchematicNetSegment e).state.mNetClass = s.mNetClass ∧
    ((s.unregisterSchematicNetSegment e).thrown = none → (s.unregisterSchematicNetSegment e).state.ErcUpToDate) := by
  unfold unregisterSchematicNetSegment
  split
  · simp [Outcome.state, Outcome.thrown]
  · exact ⟨by simp [Outcome.state, updateErcMessages_fields],
      by simp [Outcome.state, updateErcMessages_fields],
      fun _ => updateErcMessages_upToDate _⟩

/-- What `registerBoardNetSegment` leaves untouched, and the diagnostics after a call that
returned. -/
theorem registerBoardNetSegment_keeps (s : NetSignal) (e : BI_NetSegmentPtr) :
    (s.registerBoardNetSegment e).state.mName = s.mName ∧
    (s.registerBoardNetSegment e).state.mNetClass = s.mNetClass ∧
    ((s.registerBoardNetSegment e).thrown = none → (s.registerBoardNetSegment e).state.ErcUpToDate) := by
  unfold registerBoardNetSegment
  split
  · simp [Outcome.state, Outcome.thrown]
  · exact ⟨by simp [Outcome.state, updateErcMessages_fields],
      by simp [Outcome.state, updateErcMessages_fields],
      fun _ => updateErcMessages_upToDate _⟩

/-- What `unregisterBoardNetSegment` leaves untouched, and the diagnostics after a call that
returned. -/
theorem unregisterBoardNetSegment_keeps (s : NetSignal) (e : BI_NetSegmentPtr) :
    (s.unregisterBoardNetSegment e).state.mName = s.mName ∧
    (s.unregisterBoardNetSegment e).state.mNetClass = s.mNetClass ∧
    ((s.unregisterBoardNetSegment e).thrown = none → (s.unregisterBoardNetSegment e).state.ErcUpToDate) := by
  unfold unregisterBoardNetSegment
  split
  · simp [Outcome.state, Outcome.thrown]
  · exact ⟨by simp [Outcome.state, updateErcMessages_fields],
      by simp [Outcome.state, updateErcMessages_fields],
      fun _ => updateErcMessages_upToDate _⟩

/-- What `registerBoardPlane` leaves untouched, and the diagnostics after a call that
returned. -/
theorem registerBoardPlane_keeps (s : NetSignal) (e : BI_Plane) :
    (s.registerBoardPlane e).state.mName = s.mName ∧
    (s.registerBoardPlane e).state.mNetClass = s.mNetClass ∧
    ((s.registerBoardPlane e).thrown = none → (s.registerBoardPlane e).state.ErcUpToDate) := by
  unfold registerBoardPlane
  split
  · simp [Outcome.state, Outcome.thrown]
  · exact ⟨by simp [Outcome.state, updateErcMessages_fields],
      by simp [Outcome.state, updateErcMessages_fields],
      fun _ => updateErcMessages_upToDate _⟩

/-- What `unregisterBoardPlane` leaves untouched, and the diagnostics after a call that
returned. -/
theorem unregisterBoardPlane_keeps (s : NetSignal) (e : BI_Plane) :
    (s.unregisterBoardPlane e).state.mName = s.mName ∧
    (s.unregisterBoardPlane e).state.mNetClass = s.mNetClass ∧
    ((s.unregisterBoardPlane e).thrown = none → (s.unregisterBoardPlane e).state.ErcUpToDate) := by
  unfold unregisterBoardPlane
  split
  · simp [Outcome.state, Outcome.thrown]
  · exact ⟨by simp [Outcome.state, updateErcMessages_fields],
      by simp [Outcome.state, updateErcMessages_fields],
      fun _ => updateErcMessages_upToDate _⟩

end NetSignal

/-! ## Operations of a net signal, one by one and in sequence -/

theorem NetSignalCall.lift_state {C : Type} (o : Outcome NetSignal) (c : C) :
    (NetSignalCall.lift o c).state.1 = o.state ∧ (NetSignalCall.lift o c).thrown = o.thrown := by
  cases o with
  | ok s => exact ⟨rfl, rfl⟩
  | error e => obtain ⟨e1, s⟩ := e; exact ⟨rfl, rfl⟩

namespace NetSignal

theorem isUsed_of_registered (s : NetSignal)
    (h : s.mRegisteredComponentSignals ≠ [] ∨ s.mRegisteredSchematicNetSegments ≠ [] ∨
      s.mRegisteredBoardNetSegments ≠ [] ∨ s.mRegisteredBoardPlanes ≠ []) :
    s.isUsed = true := by
  simp only [isUsed, getRegisteredElementsCount, decide_eq_true_eq]
  rcases h with h1 | h1 | h1 | h1
  all_goals
    have := List.length_pos.mpr h1
    omega

theorem addToCircuit_keeps {C : Type} (nc : NetClasses C) (st : NetSignal × C) :
    (addToCircuit nc st).state.1.mName = st.1.mName ∧
    (addToCircuit nc st).state.1.mNetClass = st.1.mNetClass ∧
    ((addToCircuit nc st).thrown = none → (addToCircuit nc st).state.1.ErcUpToDate) := by
  unfold addToCircuit
  split
  · simp [Outcome.state, Outcome.thrown]
  · split
    · simp [Outcome.state, Outcome.thrown]
    · exact ⟨by simp [Outcome.state, updateErcMessages_fields],
        by simp [Outcome.state, updateErcMessages_fields],
        fun _ => updateErcMessages_upToDate _⟩

theorem removeFromCircuit_keeps {C : Type} (nc : NetClasses C) (st : NetSignal × C) :
    (removeFromCircuit nc st).state.1.mName = st.1.mName ∧
    (removeFromCircuit nc st).state.1.mNetClass = st.1.mNetClass ∧
    ((removeFromCircuit nc st).thrown = none → (removeFromCircuit nc st).state.1.ErcUpToDate) := by
  unfold removeFromCircuit
  split
  · simp [Outcome.state, Outcome.thrown]
  · split
    · simp [Outcome.state, Outcome.thrown]
    · split
      · simp [Outcome.state, Outcome.thrown]
      · exact ⟨by simp [Outcome.state, updateErcMessages_fields],
          by simp [Outcome.state, updateErcMessages_fields],
          fun _ => updateErcMessages_upToDate _⟩

/-- C15: setName(name, isAutoName) returns without any change and without
emitting a signal when the name and the flag are the current ones; otherwise
it throws (a RuntimeError) and changes nothing when the name is empty;
otherwise it returns with the new name and flag stored, the registrations and
the added-to-circuit flag as before, and exactly one signal emitted:
nameChanged carrying the new name. -/
theorem setName_contract (s : NetSignal) (name : String) (isAutoName : Bool) :
    (name = s.mName ∧ isAutoName = s.mHasAutoName → s.setName name isAutoName = .ok (s, [])) ∧
    (¬ (name = s.mName ∧ isAutoName = s.mHasAutoName) → name.isEmpty = true →
      s.setName name isAutoName = .error (Exception.RuntimeError, s)) ∧
    (¬ (name = s.mName ∧ isAutoName = s.mHasAutoName) → name.isEmpty = false →
      ∃ s1, s.setName name isAutoName = .ok (s1, [Emitted.nameChanged name]) ∧
        s1.mName = name ∧ s1.mHasAutoName = isAutoName ∧
        s1.mIsAddedToCircuit = s.mIsAddedToCircuit ∧ s1.mNetClass = s.mNetClass ∧
        s1.mUuid = s.mUuid ∧
        s1.mRegisteredComponentSignals = s.mRegisteredComponentSignals ∧
        s1.mRegisteredSchematicNetSegments = s.mRegisteredSchematicNetSegments ∧
        s1.mRegisteredBoardNetSegments = s.mRegisteredBoardNetSegments ∧
        s1.mRegisteredBoardPlanes = s.mRegisteredBoardPlanes) := by
  refine ⟨?_, ?_, ?_⟩
  · intro h
    unfold setName
    rw [if_pos h]
  · intro h he
    unfold setName
    rw [if_neg h, if_pos he]
  · intro h he
    unfold setName
    rw [if_neg h, if_neg (by simp [he])]
    refine ⟨_, rfl, ?_⟩
    obtain ⟨f1, f2, f3, f4, f5, _, f7, f8⟩ :=
      updateErcMessages_fields { s with mName := name, mHasAutoName := isAutoName }
    refine ⟨f7, ?_, f5, f8, ?_, f1, f2, f3, f4⟩
    · simp only [updateErcMessages]; split_ifs <;> rfl
    · simp only [updateErcMessages]; split_ifs <;> rfl

/-- Renaming the signal of scenario D to "GND" stores the name and emits
nameChanged("GND") once. -/
theorem setName_contract_witness :
    ∃ s1, ScenarioD.signal.setName "GND" false = .ok (s1, [Emitted.nameChanged "GND"]) ∧
      s1.mName = "GND" :=
  have h := (setName_contract ScenarioD.signal "GND" false).2.2 (by decide) (by decide)
  h.elim fun s1 h1 => ⟨s1, h1.1, h1.2.1⟩

theorem setName_keeps (s : NetSignal) (name : String) (isAutoName : Bool) (h : s.Valid) :
    (match s.setName name isAutoName with
      | .ok (s1, _) => s1.Valid
      | .error (_, s1) => s1.Valid) := by
  unfold setName
  split_ifs with h1 h2
  · exact h
  · exact h
  · obtain ⟨_, _, _, _, _, _, f7, f8⟩ :=
      updateErcMessages_fields { s with mName := name, mHasAutoName := isAutoName }
    exact ⟨by rw [f7]; simpa using h2, by rw [f8]; exact h.2⟩

end NetSignal

/-- Every call keeps the name and the net class of a valid signal valid. -/
theorem NetSignalCall.run_valid {C : Type} (nc : NetClasses C) (call : NetSignalCall)
    (st : NetSignal × C) (h : st.1.Valid) : (call.run nc st).state.1.Valid := by
  have key : ∀ s1 : NetSignal, s1.mName = st.1.mName → s1.mNetClass = st.1.mNetClass →
      s1.Valid := fun s1 h1 h2 => ⟨by rw [h1]; exact h.1, by rw [h2]; exact h.2⟩
  cases call with
  | setName name isAutoName =>
    have hk := NetSignal.setName_keeps st.1 name isAutoName h
    simp only [NetSignalCall.run]
    cases hs : st.1.setName name isAutoName with
    | ok r => obtain ⟨s1, l⟩ := r; rw [hs] at hk; exact hk
    | error r => obtain ⟨e, s1⟩ := r; rw [hs] at hk; exact hk
  | addToCircuit =>
    exact key _ (NetSignal.addToCircuit_keeps nc st).1 (NetSignal.addToCircuit_keeps nc st).2.1
  | removeFromCircuit =>
    exact key _ (NetSignal.removeFromCircuit_keeps nc st).1
      (NetSignal.removeFromCircuit_keeps nc st).2.1
  | registerComponentSignal e =>
    simp only [NetSignalCall.run, (NetSignalCall.lift_state _ st.2).1]
    exact key _ (NetSignal.registerComponentSignal_keeps st.1 e).1
      (NetSignal.registerComponentSignal_keeps st.1 e).2.1
  | unregisterComponentSignal e =>
    simp only [NetSignalCall.run, (NetSignalCall.lift_state _ st.2).1]
    exact key _ (NetSignal.unregisterComponentSignal_keeps st.1 e).1
      (NetSignal.unregisterComponentSignal_keeps st.1 e).2.1
  | registerSchematicNetSegment e =>
    simp only [NetSignalCall.run, (NetSignalCall.lift_state _ st.2).1]
    exact key _ (NetSignal.registerSchematicNetSegment_keeps st.1 e).1
      (NetSignal.registerSchematicNetSegment_keeps st.1 e).2.1
  | unregisterSchematicNetSegment e =>
    simp only [NetSignalCall.run, (NetSignalCall.lift_state _ st.2).1]
    exact key _ (NetSignal.unregisterSchematicNetSegment_keeps st.1 e).1
      (NetSignal.unregisterSchematicNetSegment_keeps st.1 e).2.1
  | registerBoardNetSegment e =>
    simp only [NetSignalCall.run, (NetSignalCall.lift_state _ st.2).1]
    exact key _ (NetSignal.registerBoardNetSegment_keeps st.1 e).1
      (NetSignal.registerBoardNetSegment_keeps st.1 e).2.1
  | unregisterBoardNetSegment e =>
    simp only [NetSignalCall.run, (NetSignalCall.lift_state _ st.2).1]
    exact key _ (NetSignal.unregisterBoardNetSegment_keeps st.1 e).1
      (NetSignal.unregisterBoardNetSegment_keeps st.1 e).2.1
  | registerBoardPlane e =>
    simp only [NetSignalCall.run, (NetSignalCall.lift_state _ st.2).1]
    exact key _ (NetSignal.registerBoardPlane_keeps st.1 e).1
      (NetSignal.registerBoardPlane_keeps st.1 e).2.1
  | unregisterBoardPlane e =>
    simp only [NetSignalCall.run, (NetSignalCall.lift_state _ st.2).1]
    exact key _ (NetSignal.unregisterBoardPlane_keeps st.1 e).1
      (NetSignal.unregisterBoardPlane_keeps st.1 e).2.1

/-- After a call other than setName that returned, the diagnostics are up to
date. -/
theorem NetSignalCall.run_ercUpToDate {C : Type} (nc : NetClasses C) (call : NetSignalCall)
    (st : NetSignal × C) (hcall : ∀ name isAutoName, call ≠ .setName name isAutoName)
    (h : (call.run nc st).thrown = none) : (call.run nc st).state.1.ErcUpToDate := by
  cases call with
  | setName name isAutoName => exact absurd rfl (hcall name isAutoName)
  | addToCircuit => exact (NetSignal.addToCircuit_keeps nc st).2.2 h
  | removeFromCircuit => exact (NetSignal.removeFromCircuit_keeps nc st).2.2 h
  | registerComponentSignal e =>
    simp only [NetSignalCall.run, (NetSignalCall.lift_state _ st.2).1,
      (NetSignalCall.lift_state _ st.2).2] at h ⊢
    exact (NetSignal.registerComponentSignal_keeps st.1 e).2.2 h
  | unregisterComponentSignal e =>
    simp only [NetSignalCall.run, (NetSignalCall.lift_state _ st.2).1,
      (NetSignalCall.lift_state _ st.2).2] at h ⊢
    exact (NetSignal.unregisterComponentSignal_keeps st.1 e).2.2 h
  | registerSchematicNetSegment e =>
    simp only [NetSignalCall.run, (NetSignalCall.lift_state _ st.2).1,
      (NetSignalCall.lift_state _ st.2).2] at h ⊢
    exact (NetSignal.registerSchematicNetSegment_keeps st.1 e).2.2 h
  | unregisterSchematicNetSegment e =>
    simp only [NetSignalCall.run, (NetSignalCall.lift_state _ st.2).1,
      (NetSignalCall.lift_state _ st.2).2] at h ⊢
    exact (NetSignal.unregisterSchematicNetSegment_keeps st.1 e).2.2 h
  | registerBoardNetSegment e =>
    simp only [NetSignalCall.run, (NetSignalCall.lift_state _ st.2).1,
      (NetSignalCall.lift_state _ st.2).2] at h ⊢
    exact (NetSignal.registerBoardNetSegment_keeps st.1 e).2.2 h
  | unregisterBoardNetSegment e =>
    simp only [NetSignalCall.run, (NetSignalCall.lift_state _ st.2).1,
      (NetSignalCall.lift_state _ st.2).2] at h ⊢
    exact (NetSignal.unregisterBoardNetSegment_keeps st.1 e).2.2 h
  | registerBoardPlane e =>
    simp only [NetSignalCall.run, (NetSignalCall.lift_state _ st.2).1,
      (NetSignalCall.lift_state _ st.2).2] at h ⊢
    exact (NetSignal.registerBoardPlane_keeps st.1 e).2.2 h
  | unregisterBoardPlane e =>
    simp only [NetSignalCall.run, (NetSignalCall.lift_state _ st.2).1,
      (NetSignalCall.lift_state _ st.2).2] at h ⊢
    exact (NetSignal.unregisterBoardPlane_keeps st.1 e).2.2 h

namespace NetSignal

theorem valid_iff_checkAttributesValidity (s : NetSignal) :
    s.Valid ↔ s.checkAttributesValidity = true := by
  unfold Valid checkAttributesValidity
  cases hn : s.mName.isEmpty <;> cases hc : s.mNetClass <;> simp

theorem new_valid (ptr circuit : Nat) (uuid : Uuid) (netclass : Nat) (name : String)
    (autoName : Bool) (s : NetSignal)
    (h : NetSignal.new ptr circuit uuid netclass name autoName = .ok s) : s.Valid := by
  unfold NetSignal.new at h
  simp only at h
  split at h
  · cases h
  · rename_i hc
    simp only [Except.ok.injEq] at h
    subst h
    exact (valid_iff_checkAttributesValidity _).mpr (by simpa using hc)

theorem load_valid (ptr circuit : Nat) (classes : CircuitNetClasses) (node : SExpression)
    (s : NetSignal) (h : NetSignal.load ptr circuit classes node = .ok s) : s.Valid := by
  unfold NetSignal.load at h
  split at h
  · cases h
  · split at h
    · cases h
    · split at h
      · cases h
      · split at h
        · cases h
        · simp only at h
          split at h
          · cases h
          · split at h
            · cases h
            · rename_i hc
              simp only [Except.ok.injEq] at h
              subst h
              exact (valid_iff_checkAttributesValidity _).mpr (by simpa using hc)

/-- C14: addToCircuit() throws a LogicError and leaves the signal and the net
classes unchanged if the signal is already added to the circuit or has a
registrant of any kind. Otherwise it registers the signal with its net class:
if that registration throws, the call throws the same exception and nothing
has changed, the added-to-circuit flag being still false; if it returns, the
call returns, the net classes are those the registration left, the flag is
true and the registrant lists are as before. -/
theorem addToCircuit_contract {C : Type} (nc : NetClasses C) (s : NetSignal) (c : C) :
    (s.mIsAddedToCircuit = true ∨ s.mRegisteredComponentSignals ≠ [] ∨
        s.mRegisteredSchematicNetSegments ≠ [] ∨ s.mRegisteredBoardNetSegments ≠ [] ∨
        s.mRegisteredBoardPlanes ≠ [] →
      addToCircuit nc (s, c) = .error (Exception.LogicError, (s, c))) ∧
    (s.mIsAddedToCircuit = false → s.isUsed = false →
      (∀ e, nc.registerNetSignal s.mNetClass s c = .error e →
        addToCircuit nc (s, c) = .error (e, (s, c)) ∧
        (addToCircuit nc (s, c)).state.1.mIsAddedToCircuit = false) ∧
      (∀ c1, nc.registerNetSignal s.mNetClass s c = .ok c1 →
        (addToCircuit nc (s, c)).thrown = none ∧
        (addToCircuit nc (s, c)).state.2 = c1 ∧
        (addToCircuit nc (s, c)).state.1.mIsAddedToCircuit = true ∧
        (addToCircuit nc (s, c)).state.1.mRegisteredComponentSignals
          = s.mRegisteredComponentSignals ∧
        (addToCircuit nc (s, c)).state.1.mRegisteredSchematicNetSegments
          = s.mRegisteredSchematicNetSegments ∧
        (addToCircuit nc (s, c)).state.1.mRegisteredBoardNetSegments
          = s.mRegisteredBoardNetSegments ∧
        (addToCircuit nc (s, c)).state.1.mRegisteredBoardPlanes
          = s.mRegisteredBoardPlanes)) := by
  constructor
  · intro h
    unfold addToCircuit
    rw [if_pos]
    rcases h with h | h
    · exact Or.inl h
    · exact Or.inr (isUsed_of_registered s h)
  · intro ha hu
    have hg : ¬ (s.mIsAddedToCircuit = true ∨ s.isUsed = true) := by simp [ha, hu]
    constructor
    · intro e he
      have h1 : addToCircuit nc (s, c) = .error (e, (s, c)) := by
        unfold addToCircuit
        simp only [if_neg hg, he]
      exact ⟨h1, by rw [h1]; exact ha⟩
    · intro c1 hc
      unfold addToCircuit
      simp only [if_neg hg, hc]
      simp [Outcome.thrown, Outcome.state, updateErcMessages_fields]

/-- On the second signal of scenario D, which is added to the circuit,
addToCircuit() throws a LogicError and changes nothing. -/
theorem addToCircuit_contract_witness :
    addToCircuit ScenarioD.netClasses (ScenarioD.other, ())
      = .error (Exception.LogicError, (ScenarioD.other, ())) :=
  (addToCircuit_contract ScenarioD.netClasses ScenarioD.other ()).1 (Or.inl rfl)

end NetSignal

/-- C16: a net signal that one of its two constructors has constructed has a
name that is not empty and a net class pointer that is not null, and so it has
in every state reached from there by any sequence of calls of setName,
addToCircuit, removeFromCircuit and the register and unregister functions,
whether the calls return or throw. -/
theorem name_and_netclass_stay_valid {C : Type} (nc : NetClasses C) :
    (∀ ptr circuit uuid netclass name autoName s,
      NetSignal.new ptr circuit uuid netclass name autoName = .ok s → s.Valid) ∧
    (∀ ptr circuit classes node s, NetSignal.load ptr circuit classes node = .ok s → s.Valid) ∧
    (∀ (calls : List NetSignalCall) (st : NetSignal × C), st.1.Valid →
      ∀ o ∈ NetSignalCall.trace nc calls st, o.state.1.Valid) := by
  refine ⟨NetSignal.new_valid, NetSignal.load_valid, ?_⟩
  intro calls
  induction calls with
  | nil => intro st _ o ho; cases ho
  | cons c rest ih =>
    intro st hst o ho
    simp only [NetSignalCall.trace, List.mem_cons] at ho
    rcases ho with rfl | ho
    · exact NetSignalCall.run_valid nc c st hst
    · exact ih _ (NetSignalCall.run_valid nc c st hst) o ho

/-- The signal of scenario D keeps a name after an attempt to give it the
empty name followed by a removal from the circuit. -/
theorem name_and_netclass_stay_valid_witness :
    ∀ o ∈ NetSignalCall.trace ScenarioD.netClasses
        [NetSignalCall.setName "" true, NetSignalCall.removeFromCircuit]
        (ScenarioD.signal, ()),
      o.state.1.Valid :=
  (name_and_netclass_stay_valid ScenarioD.netClasses).2.2 _ (ScenarioD.signal, ())
    ⟨by decide, by decide⟩

namespace NetSignal

theorem not_present_of_not {m : Option ErcMsg} {P : Prop}
    (h : ErcMsg.isPresent m = true ↔ P) (hn : ¬ P) : ErcMsg.isPresent m = false := by
  cases hm : ErcMsg.isPresent m with
  | false => rfl
  | true => exact absurd (h.mp hm) hn

/-- C13 (as amended): after every call of addToCircuit, removeFromCircuit, a
register or an unregister function that returned, the "unused net signal"
diagnostic is present exactly when the signal is added to the circuit and has
no registrant of any kind, and the "connected to less than two pins"
diagnostic is present exactly when the signal is added to the circuit and has
fewer than two component signals registered. In particular addToCircuit() on
a signal without registrants raises both, registering one component signal
then clears the first and only the first, and registering a second one clears
the second. -/
theorem diagnostics_follow_registrations {C : Type} (nc : NetClasses C) :
    (∀ (call : NetSignalCall) (st : NetSignal × C),
      (∀ name isAutoName, call ≠ .setName name isAutoName) →
      (call.run nc st).thrown = none → (call.run nc st).state.1.ErcUpToDate) ∧
    (∀ (s : NetSignal) (c c1 : C) (e1 e2 : ComponentSignalInstance),
      s.mIsAddedToCircuit = false → s.isUsed = false →
      nc.registerNetSignal s.mNetClass s c = .ok c1 →
      e1.circuit = s.mCircuit → e2.circuit = s.mCircuit → e1 ≠ e2 →
      ∃ s1 s2 s3, addToCircuit nc (s, c) = .ok (s1, c1) ∧
        s1.registerComponentSignal e1 = .ok s2 ∧ s2.registerComponentSignal e2 = .ok s3 ∧
        ErcMsg.isPresent s1.mErcMsgUnusedNetSignal = true ∧
        ErcMsg.isPresent s1.mErcMsgConnectedToLessThanTwoPins = true ∧
        ErcMsg.isPresent s2.mErcMsgUnusedNetSignal = false ∧
        ErcMsg.isPresent s2.mErcMsgConnectedToLessThanTwoPins = true ∧
        ErcMsg.isPresent s3.mErcMsgUnusedNetSignal = false ∧
        ErcMsg.isPresent s3.mErcMsgConnectedToLessThanTwoPins = false) := by
  refine ⟨NetSignalCall.run_ercUpToDate nc, ?_⟩
  intro s c c1 e1 e2 ha hu hc h1 h2 hne
  have hzero : s.getRegisteredElementsCount = 0 := by
    simpa [isUsed] using hu
  have hl : s.mRegisteredComponentSignals = [] ∧ s.mRegisteredSchematicNetSegments = [] ∧
      s.mRegisteredBoardNetSegments = [] ∧ s.mRegisteredBoardPlanes = [] := by
    simp only [getRegisteredElementsCount] at hzero
    refine ⟨?_, ?_, ?_, ?_⟩ <;> apply List.eq_nil_of_length_eq_zero <;> omega
  obtain ⟨a0, _, a1, a2, a3, a4, a5⟩ := ((addToCircuit_contract nc s c).2 ha hu).2 c1 hc
  have ea := BI_NetSegment.outcome_thrown_none _ a0
  have e1u := (addToCircuit_keeps nc (s, c)).2.2 a0
  have hcirc1 : (addToCircuit nc (s, c)).state.1.mCircuit = s.mCircuit := by
    unfold addToCircuit
    simp [ha, hu, hc, Outcome.state, updateErcMessages_fields]
  obtain ⟨b0, b1, b2, b3, b4, b5, b6⟩ :=
    (registerComponentSignal_spec (addToCircuit nc (s, c)).state.1 e1).2 a1
      (by rw [a2, hl.1]; simp) (by rw [hcirc1]; exact h1)
  have eb := BI_NetSegment.outcome_thrown_none _ b0
  have e2u := (registerComponentSignal_keeps (addToCircuit nc (s, c)).state.1 e1).2.2 b0
  obtain ⟨d0, d1, d2, d3, d4, d5, _⟩ :=
    (registerComponentSignal_spec
      ((addToCircuit nc (s, c)).state.1.registerComponentSignal e1).state e2).2 b5
      (by rw [b1, a2, hl.1]; simpa using hne.symm) (by rw [b6, hcirc1]; exact h2)
  have ed := BI_NetSegment.outcome_thrown_none _ d0
  have e3u := (registerComponentSignal_keeps
    ((addToCircuit nc (s, c)).state.1.registerComponentSignal e1).state e2).2.2 d0
  refine ⟨(addToCircuit nc (s, c)).state.1,
    ((addToCircuit nc (s, c)).state.1.registerComponentSignal e1).state,
    (((addToCircuit nc (s, c)).state.1.registerComponentSignal e1).state.registerComponentSignal
      e2).state, ?_, eb, ed, ?_, ?_, ?_, ?_, ?_, ?_⟩
  · unfold addToCircuit
    simp [ha, hu, hc, Outcome.state]
  · exact e1u.1.mpr ⟨a1, by simp [getRegisteredElementsCount, a2, a3, a4, a5, hl]⟩
  · exact e1u.2.mpr ⟨a1, by rw [a2, hl.1]; simp⟩
  · exact not_present_of_not e2u.1 (by simp [getRegisteredElementsCount, b1])
  · exact e2u.2.mpr ⟨b5, by rw [b1, a2, hl.1]; simp⟩
  · exact not_present_of_not e3u.1 (by simp [getRegisteredElementsCount, d1])
  · exact not_present_of_not e3u.2 (by rw [d1, b1, a2, hl.1]; simp)

/-- After registering a second pin with the signal of scenario D, none of the
two diagnostics is present. -/
theorem diagnostics_follow_registrations_witness :
    ((NetSignalCall.registerComponentSignal ScenarioD.pin2).run ScenarioD.netClasses
      (ScenarioD.signal, ())).thrown = none ∧
    ((NetSignalCall.registerComponentSignal ScenarioD.pin2).run ScenarioD.netClasses
      (ScenarioD.signal, ())).state.1.ErcUpToDate :=
  ⟨by decide,
   (diagnostics_follow_registrations ScenarioD.netClasses).1
     (NetSignalCall.registerComponentSignal ScenarioD.pin2) (ScenarioD.signal, ())
     (fun _ _ h => by cases h) (by decide)⟩

/-- C13 fails as stated: removeFromCircuit() on the second signal of scenario
D, which is added and has no registrant, returns; afterwards fewer than two
component signals are registered, yet the "connected to less than two pins"
diagnostic is absent, because the signal is no longer added to the circuit. -/
theorem removed_signal_has_no_pin_warning :
    (removeFromCircuit ScenarioD.netClasses (ScenarioD.other, ())).thrown = none ∧
    (removeFromCircuit ScenarioD.netClasses
      (ScenarioD.other, ())).state.1.mRegisteredComponentSignals.length < 2 ∧
    (removeFromCircuit ScenarioD.netClasses
      (ScenarioD.other, ())).state.1.mErcMsgConnectedToLessThanTwoPins = none := by
  decide

end NetSignal

/-! ## Adding a segment to the board and removing it -/

namespace BI_NetSegment

/-- A loop of `addToBoard` or `removeFromBoard` keeps a property `Inv` of the
state and the scope guard list that each of its steps keeps. -/
theorem forEachElement_invariant {W α : Type} (op undo : α → W → Except Exception W)
    (Inv : BoardState W → ScopeGuardList (BoardState W) → Prop)
    (hstep : ∀ x (st : BoardState W) sgl w, Inv st sgl → op x st.items = .ok w →
      Inv { st with items := w } (compensateItem (undo x) :: sgl)) :
    ∀ (xs : List α) (st : BoardState W) (sgl : ScopeGuardList (BoardState W)), Inv st sgl →
      match forEachElement op undo xs st sgl with
      | .error (_, s) => ∃ st1 sgl1, Inv st1 sgl1 ∧ s = ScopeGuardList.unwind sgl1 st1
      | .ok (s1, sgl1) => Inv s1 sgl1 := by
  intro xs
  induction xs with
  | nil => intro st sgl h; exact h
  | cons x rest ih =>
    intro st sgl h
    cases hw : op x st.items with
    | error e =>
      simp only [forEachElement, hw]
      exact ⟨st, sgl, h, rfl⟩
    | ok w =>
      simp only [forEachElement, hw]
      exact ih _ _ (hstep x st sgl w h hw)

/-- With an `undo` that undoes `op`, every step keeps: unwinding gives `t`. -/
theorem forEachElement_unwind {W α : Type} (op undo : α → W → Except Exception W)
    (hundo : ∀ x w w1, op x w = .ok w1 → undo x w1 = .ok w) (t : BoardState W) :
    ∀ x (st : BoardState W) sgl w, ScopeGuardList.unwind sgl st = t → op x st.items = .ok w →
      ScopeGuardList.unwind (compensateItem (undo x) :: sgl) { st with items := w } = t := by
  intro x st sgl w h hw
  rw [ScopeGuardList.unwind_cons]
  simp only [compensateItem, hundo x st.items w hw]
  exact h

/-- Every step keeps the net signal, in the state and in what the
compensations leave. -/
theorem forEachElement_signal {W α : Type} (op undo : α → W → Except Exception W)
    (sig : NetSignal) :
    ∀ x (st : BoardState W) sgl w,
      (st.signal = sig ∧ ∀ f ∈ sgl, ∀ s : BoardState W, s.signal = sig → (f s).signal = sig) →
      op x st.items = .ok w →
      (({ st with items := w } : BoardState W).signal = sig ∧
        ∀ f ∈ compensateItem (undo x) :: sgl, ∀ s : BoardState W, s.signal = sig →
          (f s).signal = sig) := by
  intro x st sgl w h _
  refine ⟨h.1, ?_⟩
  intro f hf s hs
  rcases List.mem_cons.mp hf with hf | hf
  · subst hf
    unfold compensateItem
    split
    · exact hs
    · exact hs
  · exact h.2 f hf s hs

theorem addToBoard_thrown_state {W : Type} (ops : BoardItems W) (hrev : ops.Reversible)
    (st : BoardState W) (h : (addToBoard ops st).thrown ≠ none) :
    (addToBoard ops st).state.seg = st.seg ∧ (addToBoard ops st).state.items = st.items ∧
    (addToBoard ops st).state.signal.mRegisteredBoardNetSegments
      = st.signal.mRegisteredBoardNetSegments := by
  unfold addToBoard at h ⊢
  split
  · exact ⟨rfl, rfl, rfl⟩
  · rename_i hadd
    rw [if_neg hadd] at h
    split
    · exact ⟨rfl, rfl, rfl⟩
    · rename_i signal1 hreg
      rw [hreg] at h
      simp only at h
      -- the state the compensations lead back to
      have hpre : st.signal.mIsAddedToCircuit = true ∧
          st.seg.this ∉ st.signal.mRegisteredBoardNetSegments ∧
          st.seg.this.circuit = st.signal.mCircuit := by
        by_contra hn
        have hfail : st.signal.mIsAddedToCircuit = false ∨
            st.seg.this ∈ st.signal.mRegisteredBoardNetSegments ∨
            st.seg.this.circuit ≠ st.signal.mCircuit := by
          by_cases a : st.signal.mIsAddedToCircuit = true
          · by_cases b : st.seg.this ∈ st.signal.mRegisteredBoardNetSegments
            · exact Or.inr (Or.inl b)
            · by_cases c : st.seg.this.circuit = st.signal.mCircuit
              · exact absurd ⟨a, b, c⟩ hn
              · exact Or.inr (Or.inr c)
          · exact Or.inl (by simpa using a)
        rw [(NetSignal.registerBoardNetSegment_spec st.signal st.seg.this).1 hfail] at hreg
        cases hreg
      have hthrown : (st.signal.registerBoardNetSegment st.seg.this).thrown = none := by
        rw [hreg]; rfl
      obtain ⟨_, u1, _⟩ :=
        NetSignal.registerBoardNetSegment_unregister st.signal st.seg.this hthrown
      have hs1 : (st.signal.registerBoardNetSegment st.seg.this).state = signal1 := by
        rw [hreg]; rfl
      rw [hs1] at u1
      have hT : ∀ s : BoardState W,
          ScopeGuardList.unwind
            [fun s : BoardState W =>
              { s with signal := (s.signal.unregisterBoardNetSegment s.seg.this).state }]
            ({ st with signal := signal1 } : BoardState W) = s →
          s.seg = st.seg ∧ s.items = st.items ∧
          s.signal.mRegisteredBoardNetSegments = st.signal.mRegisteredBoardNetSegments := by
        intro s hs
        subst hs
        exact ⟨rfl, rfl, u1⟩
      have inv1 := forEachElement_invariant ops.viaAddToBoard ops.viaRemoveFromBoard
        (fun s sgl => ScopeGuardList.unwind sgl s = ScopeGuardList.unwind
          [fun s : BoardState W =>
            { s with signal := (s.signal.unregisterBoardNetSegment s.seg.this).state }]
          ({ st with signal := signal1 } : BoardState W))
        (forEachElement_unwind _ _ hrev.via_add_undone _) st.seg.mVias
        { st with signal := signal1 } _ rfl
      split
      · rename_i e he
        rw [he] at inv1
        obtain ⟨st1, sgl1, i1, i2⟩ := inv1
        simp only [Outcome.state]
        exact hT _ (by rw [i2, i1])
      · rename_i st1 sgl1 he
        rw [he] at inv1 h
        simp only at h inv1
        have inv2 := forEachElement_invariant ops.netPointAddToBoard
          ops.netPointRemoveFromBoard
          (fun s sgl => ScopeGuardList.unwind sgl s = ScopeGuardList.unwind
            [fun s : BoardState W =>
              { s with signal := (s.signal.unregisterBoardNetSegment s.seg.this).state }]
            ({ st with signal := signal1 } : BoardState W))
          (forEachElement_unwind _ _ hrev.netPoint_add_undone _) st.seg.mNetPoints st1 sgl1 inv1
        split
        · rename_i e he2
          rw [he2] at inv2
          obtain ⟨st2, sgl2, i1, i2⟩ := inv2
          simp only [Outcome.state]
          exact hT _ (by rw [i2, i1])
        · rename_i st2 sgl2 he2
          rw [he2] at inv2 h
          simp only at h inv2
          have inv3 := forEachElement_invariant ops.netLineAddToBoard
            ops.netLineRemoveFromBoard
            (fun s sgl => ScopeGuardList.unwind sgl s = ScopeGuardList.unwind
              [fun s : BoardState W =>
                { s with signal := (s.signal.unregisterBoardNetSegment s.seg.this).state }]
              ({ st with signal := signal1 } : BoardState W))
            (forEachElement_unwind _ _ hrev.netLine_add_undone _) st.seg.mNetLines st2 sgl2
            inv2
          split
          · rename_i e he3
            rw [he3] at inv3
            obtain ⟨st3, sgl3, i1, i2⟩ := inv3
            simp only [Outcome.state]
            exact hT _ (by rw [i2, i1])
          · rename_i st3 sgl3 he3
            rw [he3] at h
            simp [Outcome.thrown] at h

end BI_NetSegment

namespace BI_NetSegment

theorem removeFromBoard_thrown_signal {W : Type} (ops : BoardItems W) (st : BoardState W)
    (h : (removeFromBoard ops st).thrown ≠ none) :
    (removeFromBoard ops st).state.signal = st.signal := by
  have hfin : ∀ (st1 : BoardState W) (sgl1 : ScopeGuardList (BoardState W)),
      (st1.signal = st.signal ∧
        ∀ f ∈ sgl1, ∀ s : BoardState W, s.signal = st.signal → (f s).signal = st.signal) →
      (ScopeGuardList.unwind sgl1 st1).signal = st.signal := by
    intro st1 sgl1 hi
    exact unwind_keeps (fun s : BoardState W => s.signal = st.signal) sgl1 st1 hi.2 hi.1
  unfold removeFromBoard at h ⊢
  split
  · rfl
  · rename_i hadd
    rw [if_neg hadd] at h
    have inv1 := forEachElement_invariant ops.netLineRemoveFromBoard ops.netLineAddToBoard
      (fun s sgl => s.signal = st.signal ∧
        ∀ f ∈ sgl, ∀ s : BoardState W, s.signal = st.signal → (f s).signal = st.signal)
      (forEachElement_signal _ _ st.signal) st.seg.mNetLines st []
      ⟨rfl, fun f hf => by cases hf⟩
    split
    · rename_i e he
      rw [he] at inv1
      obtain ⟨st1, sgl1, i1, i2⟩ := inv1
      simp only [Outcome.state]
      rw [i2]; exact hfin _ _ i1
    · rename_i st1 sgl1 he
      rw [he] at inv1 h
      simp only at h inv1
      have inv2 := forEachElement_invariant ops.netPointRemoveFromBoard
        ops.netPointAddToBoard
        (fun s sgl => s.signal = st.signal ∧
          ∀ f ∈ sgl, ∀ s : BoardState W, s.signal = st.signal → (f s).signal = st.signal)
        (forEachElement_signal _ _ st.signal) st.seg.mNetPoints st1 sgl1 inv1
      split
      · rename_i e he2
        rw [he2] at inv2
        obtain ⟨st2, sgl2, i1, i2⟩ := inv2
        simp only [Outcome.state]
        rw [i2]; exact hfin _ _ i1
      · rename_i st2 sgl2 he2
        rw [he2] at inv2 h
        simp only at h inv2
        have inv3 := forEachElement_invariant ops.viaRemoveFromBoard ops.viaAddToBoard
          (fun s sgl => s.signal = st.signal ∧
            ∀ f ∈ sgl, ∀ s : BoardState W, s.signal = st.signal → (f s).signal = st.signal)
          (forEachElement_signal _ _ st.signal) st.seg.mVias st2 sgl2 inv2
        split
        · rename_i e he3
          rw [he3] at inv3
          obtain ⟨st3, sgl3, i1, i2⟩ := inv3
          simp only [Outcome.state]
          rw [i2]; exact hfin _ _ i1
        · rename_i st3 sgl3 he3
          rw [he3] at inv3 h
          simp only at h inv3
          split
          · simp only [Outcome.state]
            exact hfin _ _ inv3
          · rename_i signal1 hs
            rw [hs] at h
            simp [Outcome.thrown] at h

theorem removeFromBoard_thrown_state {W : Type} (ops : BoardItems W) (hrev : ops.Reversible)
    (st : BoardState W) (h : (removeFromBoard ops st).thrown ≠ none) :
    (removeFromBoard ops st).state = st := by
  unfold removeFromBoard at h ⊢
  split
  · rfl
  · rename_i hadd
    rw [if_neg hadd] at h
    have inv1 := forEachElement_invariant ops.netLineRemoveFromBoard ops.netLineAddToBoard
      (fun s sgl => ScopeGuardList.unwind sgl s = st)
      (forEachElement_unwind _ _ hrev.netLine_remove_undone _) st.seg.mNetLines st [] rfl
    split
    · rename_i e he
      rw [he] at inv1
      obtain ⟨st1, sgl1, i1, i2⟩ := inv1
      simp only [Outcome.state]
      rw [i2, i1]
    · rename_i st1 sgl1 he
      rw [he] at inv1 h
      simp only at h inv1
      have inv2 := forEachElement_invariant ops.netPointRemoveFromBoard
        ops.netPointAddToBoard (fun s sgl => ScopeGuardList.unwind sgl s = st)
        (forEachElement_unwind _ _ hrev.netPoint_remove_undone _) st.seg.mNetPoints st1 sgl1
        inv1
      split
      · rename_i e he2
        rw [he2] at inv2
        obtain ⟨st2, sgl2, i1, i2⟩ := inv2
        simp only [Outcome.state]
        rw [i2, i1]
      · rename_i st2 sgl2 he2
        rw [he2] at inv2 h
        simp only at h inv2
        have inv3 := forEachElement_invariant ops.viaRemoveFromBoard ops.viaAddToBoard
          (fun s sgl => ScopeGuardList.unwind sgl s = st)
          (forEachElement_unwind _ _ hrev.via_remove_undone _) st.seg.mVias st2 sgl2 inv2
        split
        · rename_i e he3
          rw [he3] at inv3
          obtain ⟨st3, sgl3, i1, i2⟩ := inv3
          simp only [Outcome.state]
          rw [i2, i1]
        · rename_i st3 sgl3 he3
          rw [he3] at inv3 h
          simp only at h inv3
          split
          · simp only [Outcome.state]
            exact inv3
          · rename_i signal1 hs
            rw [hs] at h
            simp [Outcome.thrown] at h

/-- A loop of `addToBoard` or `removeFromBoard` whose element operations all
return, one after the other, returns with the board items they leave. -/
theorem forEachElement_ok {W α : Type} (op undo : α → W → Except Exception W) :
    ∀ (xs : List α) (st : BoardState W) (sgl : ScopeGuardList (BoardState W)) (w : W),
      xs.foldlM (fun w x => op x w) st.items = .ok w →
      ∃ sgl1, forEachElement op undo xs st sgl = .ok ({ st with items := w }, sgl1) := by
  intro xs
  induction xs with
  | nil =>
    intro st sgl w h
    simp only [List.foldlM, pure, Except.pure, Except.ok.injEq] at h
    subst h
    exact ⟨sgl, rfl⟩
  | cons x rest ih =>
    intro st sgl w h
    cases hw : op x st.items with
    | error e =>
      simp only [List.foldlM, hw, bind, Except.bind] at h
      cases h
    | ok w1 =>
      simp only [List.foldlM, hw, bind, Except.bind] at h
      obtain ⟨sgl1, h1⟩ := ih { st with items := w1 } (compensateItem (undo x) :: sgl) w h
      exact ⟨sgl1, by simp only [forEachElement, hw]; exact h1⟩

/-- A loop of `addToBoard` or `removeFromBoard` that returns has run the
element operation on every element of the list, in the order of the list, and
has touched nothing but the board items. -/
theorem forEachElement_returned {W α : Type} (op undo : α → W → Except Exception W) :
    ∀ (xs : List α) (st s1 : BoardState W) (sgl sgl1 : ScopeGuardList (BoardState W)),
      forEachElement op undo xs st sgl = .ok (s1, sgl1) →
      xs.foldlM (fun w x => op x w) st.items = .ok s1.items ∧ s1.seg = st.seg ∧
        s1.signal = st.signal := by
  intro xs
  induction xs with
  | nil =>
    intro st s1 sgl sgl1 h
    simp only [forEachElement, Except.ok.injEq, Prod.mk.injEq] at h
    rw [← h.1]
    exact ⟨rfl, rfl, rfl⟩
  | cons x rest ih =>
    intro st s1 sgl sgl1 h
    cases hw : op x st.items with
    | error e =>
      simp only [forEachElement, hw] at h
      cases h
    | ok w1 =>
      simp only [forEachElement, hw] at h
      obtain ⟨h1, h2, h3⟩ := ih _ _ _ _ h
      refine ⟨?_, h2, h3⟩
      simp only [List.foldlM, hw, bind, Except.bind]
      exact h1

/-- Every step of a loop keeps the segment, in the state and in what the
compensations leave. -/
theorem forEachElement_seg {W α : Type} (op undo : α → W → Except Exception W)
    (seg : BI_NetSegment) :
    ∀ x (st : BoardState W) sgl w,
      (st.seg = seg ∧ ∀ f ∈ sgl, ∀ s : BoardState W, s.seg = seg → (f s).seg = seg) →
      op x st.items = .ok w →
      (({ st with items := w } : BoardState W).seg = seg ∧
        ∀ f ∈ compensateItem (undo x) :: sgl, ∀ s : BoardState W, s.seg = seg →
          (f s).seg = seg) := by
  intro x st sgl w h _
  refine ⟨h.1, ?_⟩
  intro f hf s hs
  rcases List.mem_cons.mp hf with hf | hf
  · subst hf
    unfold compensateItem
    split
    · exact hs
    · exact hs
  · exact h.2 f hf s hs

/-- In a call of `addToBoard` every step keeps: the segment and the net signal
are those after the registration, and unwinding leads back to the segment and
the registered board net segments `regs` of before the call, whatever the
element operations do. -/
theorem forEachElement_registration {W α : Type} (op undo : α → W → Except Exception W)
    (seg : BI_NetSegment) (signal1 : NetSignal) (regs : List BI_NetSegmentPtr) :
    ∀ x (st : BoardState W) sgl w,
      (st.seg = seg ∧ st.signal = signal1 ∧
        ∀ s : BoardState W, s.seg = seg → s.signal = signal1 →
          (ScopeGuardList.unwind sgl s).seg = seg ∧
          (ScopeGuardList.unwind sgl s).signal.mRegisteredBoardNetSegments = regs) →
      op x st.items = .ok w →
      (({ st with items := w } : BoardState W).seg = seg ∧
        ({ st with items := w } : BoardState W).signal = signal1 ∧
        ∀ s : BoardState W, s.seg = seg → s.signal = signal1 →
          (ScopeGuardList.unwind (compensateItem (undo x) :: sgl) s).seg = seg ∧
          (ScopeGuardList.unwind (compensateItem (undo x) :: sgl) s
            ).signal.mRegisteredBoardNetSegments = regs) := by
  intro x st sgl w h _
  refine ⟨h.1, h.2.1, ?_⟩
  intro s hs1 hs2
  rw [ScopeGuardList.unwind_cons]
  have hk : (compensateItem (undo x) s).seg = seg ∧
      (compensateItem (undo x) s).signal = signal1 := by
    unfold compensateItem
    split
    · exact ⟨hs1, hs2⟩
    · exact ⟨hs1, hs2⟩
  exact h.2.2 _ hk.1 hk.2

/-- A call of `addToBoard` that throws leaves the segment and the registered
board net segments of the signal as they were, whatever the element operations
do. -/
theorem addToBoard_thrown_registration {W : Type} (ops : BoardItems W) (st : BoardState W)
    (h : (addToBoard ops st).thrown ≠ none) :
    (addToBoard ops st).state.seg = st.seg ∧
    (addToBoard ops st).state.signal.mRegisteredBoardNetSegments
      = st.signal.mRegisteredBoardNetSegments := by
  unfold addToBoard at h ⊢
  split
  · exact ⟨rfl, rfl⟩
  · rename_i hadd
    rw [if_neg hadd] at h
    split
    · exact ⟨rfl, rfl⟩
    · rename_i signal1 hreg
      rw [hreg] at h
      simp only at h
      have hthrown : (st.signal.registerBoardNetSegment st.seg.this).thrown = none := by
        rw [hreg]; rfl
      obtain ⟨_, u1, _⟩ :=
        NetSignal.registerBoardNetSegment_unregister st.signal st.seg.this hthrown
      have hs1 : (st.signal.registerBoardNetSegment st.seg.this).state = signal1 := by
        rw [hreg]; rfl
      rw [hs1] at u1
      have h0 : ({ st with signal := signal1 } : BoardState W).seg = st.seg ∧
          ({ st with signal := signal1 } : BoardState W).signal = signal1 ∧
          ∀ s : BoardState W, s.seg = st.seg → s.signal = signal1 →
            (ScopeGuardList.unwind
              [fun s : BoardState W =>
                { s with signal := (s.signal.unregisterBoardNetSegment s.seg.this).state }] s
              ).seg = st.seg ∧
            (ScopeGuardList.unwind
              [fun s : BoardState W =>
                { s with signal := (s.signal.unregisterBoardNetSegment s.seg.this).state }] s
              ).signal.mRegisteredBoardNetSegments = st.signal.mRegisteredBoardNetSegments := by
        refine ⟨rfl, rfl, ?_⟩
        intro s hs1 hs2
        refine ⟨hs1, ?_⟩
        show (s.signal.unregisterBoardNetSegment s.seg.this).state.mRegisteredBoardNetSegments = _
        rw [hs1, hs2]
        exact u1
      have hfin : ∀ (st1 : BoardState W) (sgl1 : ScopeGuardList (BoardState W)),
          (st1.seg = st.seg ∧ st1.signal = signal1 ∧
            ∀ s : BoardState W, s.seg = st.seg → s.signal = signal1 →
              (ScopeGuardList.unwind sgl1 s).seg = st.seg ∧
              (ScopeGuardList.unwind sgl1 s).signal.mRegisteredBoardNetSegments =
                st.signal.mRegisteredBoardNetSegments) →
          (ScopeGuardList.unwind sgl1 st1).seg = st.seg ∧
          (ScopeGuardList.unwind sgl1 st1).signal.mRegisteredBoardNetSegments =
            st.signal.mRegisteredBoardNetSegments :=
        fun st1 sgl1 hi => hi.2.2 st1 hi.1 hi.2.1
      have inv1 := forEachElement_invariant ops.viaAddToBoard ops.viaRemoveFromBoard
        (fun s sgl => s.seg = st.seg ∧ s.signal = signal1 ∧
          ∀ s : BoardState W, s.seg = st.seg → s.signal = signal1 →
            (ScopeGuardList.unwind sgl s).seg = st.seg ∧
            (ScopeGuardList.unwind sgl s).signal.mRegisteredBoardNetSegments =
              st.signal.mRegisteredBoardNetSegments)
        (forEachElement_registration _ _ st.seg signal1 _) st.seg.mVias
        { st with signal := signal1 } _ h0
      split
      · rename_i e he
        rw [he] at inv1
        obtain ⟨st1, sgl1, i1, i2⟩ := inv1
        simp only [Outcome.state]
        rw [i2]; exact hfin _ _ i1
      · rename_i st1 sgl1 he
        rw [he] at inv1 h
        simp only at h inv1
        have inv2 := forEachElement_invariant ops.netPointAddToBoard
          ops.netPointRemoveFromBoard
          (fun s sgl => s.seg = st.seg ∧ s.signal = signal1 ∧
            ∀ s : BoardState W, s.seg = st.seg → s.signal = signal1 →
              (ScopeGuardList.unwind sgl s).seg = st.seg ∧
              (ScopeGuardList.unwind sgl s).signal.mRegisteredBoardNetSegments =
                st.signal.mRegisteredBoardNetSegments)
          (forEachElement_registration _ _ st.seg signal1 _) st.seg.mNetPoints st1 sgl1 inv1
        split
        · rename_i e he2
          rw [he2] at inv2
          obtain ⟨st2, sgl2, i1, i2⟩ := inv2
          simp only [Outcome.state]
          rw [i2]; exact hfin _ _ i1
        · rename_i st2 sgl2 he2
          rw [he2] at inv2 h
          simp only at h inv2
          have inv3 := forEachElement_invariant ops.netLineAddToBoard
            ops.netLineRemoveFromBoard
            (fun s sgl => s.seg = st.seg ∧ s.signal = signal1 ∧
              ∀ s : BoardState W, s.seg = st.seg → s.signal = signal1 →
                (ScopeGuardList.unwind sgl s).seg = st.seg ∧
                (ScopeGuardList.unwind sgl s).signal.mRegisteredBoardNetSegments =
                  st.signal.mRegisteredBoardNetSegments)
            (forEachElement_registration _ _ st.seg signal1 _) st.seg.mNetLines st2 sgl2 inv2
          split
          · rename_i e he3
            rw [he3] at inv3
            obtain ⟨st3, sgl3, i1, i2⟩ := inv3
            simp only [Outcome.state]
            rw [i2]; exact hfin _ _ i1
          · rename_i st3 sgl3 he3
            rw [he3] at h
            simp [Outcome.thrown] at h

/-- A call of `removeFromBoard` that throws leaves the segment as it was,
whatever the element operations do. -/
theorem removeFromBoard_thrown_seg {W : Type} (ops : BoardItems W) (st : BoardState W)
    (h : (removeFromBoard ops st).thrown ≠ none) :
    (removeFromBoard ops st).state.seg = st.seg := by
  have hfin : ∀ (st1 : BoardState W) (sgl1 : ScopeGuardList (BoardState W)),
      (st1.seg = st.seg ∧
        ∀ f ∈ sgl1, ∀ s : BoardState W, s.seg = st.seg → (f s).seg = st.seg) →
      (ScopeGuardList.unwind sgl1 st1).seg = st.seg := by
    intro st1 sgl1 hi
    exact unwind_keeps (fun s : BoardState W => s.seg = st.seg) sgl1 st1 hi.2 hi.1
  unfold removeFromBoard at h ⊢
  split
  · rfl
  · rename_i hadd
    rw [if_neg hadd] at h
    have inv1 := forEachElement_invariant ops.netLineRemoveFromBoard ops.netLineAddToBoard
      (fun s sgl => s.seg = st.seg ∧
        ∀ f ∈ sgl, ∀ s : BoardState W, s.seg = st.seg → (f s).seg = st.seg)
      (forEachElement_seg _ _ st.seg) st.seg.mNetLines st []
      ⟨rfl, fun f hf => by cases hf⟩
    split
    · rename_i e he
      rw [he] at inv1
      obtain ⟨st1, sgl1, i1, i2⟩ := inv1
      simp only [Outcome.state]
      rw [i2]; exact hfin _ _ i1
    · rename_i st1 sgl1 he
      rw [he] at inv1 h
      simp only at h inv1
      have inv2 := forEachElement_invariant ops.netPointRemoveFromBoard
        ops.netPointAddToBoard
        (fun s sgl => s.seg = st.seg ∧
          ∀ f ∈ sgl, ∀ s : BoardState W, s.seg = st.seg → (f s).seg = st.seg)
        (forEachElement_seg _ _ st.seg) st.seg.mNetPoints st1 sgl1 inv1
      split
      · rename_i e he2
        rw [he2] at inv2
        obtain ⟨st2, sgl2, i1, i2⟩ := inv2
        simp only [Outcome.state]
        rw [i2]; exact hfin _ _ i1
      · rename_i st2 sgl2 he2
        rw [he2] at inv2 h
        simp only at h inv2
        have inv3 := forEachElement_invariant ops.viaRemoveFromBoard ops.viaAddToBoard
          (fun s sgl => s.seg = st.seg ∧
            ∀ f ∈ sgl, ∀ s : BoardState W, s.seg = st.seg → (f s).seg = st.seg)
          (forEachElement_seg _ _ st.seg) st.seg.mVias st2 sgl2 inv2
        split
        · rename_i e he3
          rw [he3] at inv3
          obtain ⟨st3, sgl3, i1, i2⟩ := inv3
          simp only [Outcome.state]
          rw [i2]; exact hfin _ _ i1
        · rename_i st3 sgl3 he3
          rw [he3] at inv3 h
          simp only at h inv3
          split
          · simp only [Outcome.state]
            exact hfin _ _ inv3
          · rename_i signal1 hs
            rw [hs] at h
            simp [Outcome.thrown] at h

/-- A call of `addToBoard` returns when the segment is not added, the signal
accepts the registration and the element operations return, with the signal
the registration left, the board items the element operations left, and the
flag set. -/
theorem addToBoard_ok {W : Type} (ops : BoardItems W) (st : BoardState W)
    (signal1 : NetSignal) (w1 w2 w3 : W) (hadd : st.seg.mIsAddedToBoard = false)
    (hreg : st.signal.registerBoardNetSegment st.seg.this = .ok signal1)
    (h1 : st.seg.mVias.foldlM (fun w x => ops.viaAddToBoard x w) st.items = .ok w1)
    (h2 : st.seg.mNetPoints.foldlM (fun w x => ops.netPointAddToBoard x w) w1 = .ok w2)
    (h3 : st.seg.mNetLines.foldlM (fun w x => ops.netLineAddToBoard x w) w2 = .ok w3) :
    addToBoard ops st = .ok ⟨{ st.seg with mIsAddedToBoard := true }, w3, signal1⟩ := by
  obtain ⟨sgl1, e1⟩ := forEachElement_ok ops.viaAddToBoard ops.viaRemoveFromBoard st.seg.mVias
    { st with signal := signal1 }
    [fun s => { s with signal := (s.signal.unregisterBoardNetSegment s.seg.this).state }] w1 h1
  obtain ⟨sgl2, e2⟩ := forEachElement_ok ops.netPointAddToBoard ops.netPointRemoveFromBoard
    st.seg.mNetPoints ({ st with signal := signal1, items := w1 } : BoardState W) sgl1 w2 h2
  obtain ⟨sgl3, e3⟩ := forEachElement_ok ops.netLineAddToBoard ops.netLineRemoveFromBoard
    st.seg.mNetLines ({ st with signal := signal1, items := w2 } : BoardState W) sgl2 w3 h3
  unfold addToBoard
  rw [if_neg (by simp [hadd]), hreg]
  simp only
  rw [e1]
  simp only
  rw [e2]
  simp only
  rw [e3]

/-- A call of `addToBoard` that returns has registered the segment with the
signal, has run the element operations on the vias, the net points and the net
lines, in this order, and has set the flag. -/
theorem addToBoard_returned {W : Type} (ops : BoardItems W) (st : BoardState W)
    (h : (addToBoard ops st).thrown = none) :
    st.seg.mIsAddedToBoard = false ∧
    st.signal.registerBoardNetSegment st.seg.this = .ok (addToBoard ops st).state.signal ∧
    (addToBoard ops st).state.seg = { st.seg with mIsAddedToBoard := true } ∧
    ∃ w1 w2, st.seg.mVias.foldlM (fun w x => ops.viaAddToBoard x w) st.items = .ok w1 ∧
      st.seg.mNetPoints.foldlM (fun w x => ops.netPointAddToBoard x w) w1 = .ok w2 ∧
      st.seg.mNetLines.foldlM (fun w x => ops.netLineAddToBoard x w) w2 =
        .ok (addToBoard ops st).state.items := by
  unfold addToBoard at h ⊢
  split
  · rename_i hadd
    rw [if_pos hadd] at h
    simp [Outcome.thrown] at h
  · rename_i hadd
    rw [if_neg hadd] at h
    have hf : st.seg.mIsAddedToBoard = false := by simpa using hadd
    split
    · rename_i e s hreg
      rw [hreg] at h
      simp [Outcome.thrown] at h
    · rename_i signal1 hreg
      rw [hreg] at h
      simp only at h
      split
      · rename_i e he
        rw [he] at h
        obtain ⟨e1, s⟩ := e
        simp [Outcome.thrown] at h
      · rename_i st1 sgl1 he
        rw [he] at h
        simp only at h
        obtain ⟨a1, a2, a3⟩ := forEachElement_returned _ _ _ _ _ _ _ he
        split
        · rename_i e he2
          rw [he2] at h
          obtain ⟨e1, s⟩ := e
          simp [Outcome.thrown] at h
        · rename_i st2 sgl2 he2
          rw [he2] at h
          simp only at h
          obtain ⟨b1, b2, b3⟩ := forEachElement_returned _ _ _ _ _ _ _ he2
          split
          · rename_i e he3
            rw [he3] at h
            obtain ⟨e1, s⟩ := e
            simp [Outcome.thrown] at h
          · rename_i st3 sgl3 he3
            obtain ⟨c1, c2, c3⟩ := forEachElement_returned _ _ _ _ _ _ _ he3
            simp only [Outcome.state]
            refine ⟨hf, ?_, ?_, st1.items, st2.items, a1, b1, c1⟩
            · rw [c3, b3, a3]; exact hreg
            · rw [c2, b2, a2]

/-- A call of `removeFromBoard` returns when the segment is added, the element
operations return and the signal lets the segment go, with the board items
the element operations left, the signal the unregistration left, and the flag
cleared. -/
theorem removeFromBoard_ok {W : Type} (ops : BoardItems W) (st : BoardState W)
    (signal1 : NetSignal) (w1 w2 w3 : W) (hadd : st.seg.mIsAddedToBoard = true)
    (h1 : st.seg.mNetLines.foldlM (fun w x => ops.netLineRemoveFromBoard x w) st.items = .ok w1)
    (h2 : st.seg.mNetPoints.foldlM (fun w x => ops.netPointRemoveFromBoard x w) w1 = .ok w2)
    (h3 : st.seg.mVias.foldlM (fun w x => ops.viaRemoveFromBoard x w) w2 = .ok w3)
    (hreg : st.signal.unregisterBoardNetSegment st.seg.this = .ok signal1) :
    removeFromBoard ops st = .ok ⟨{ st.seg with mIsAddedToBoard := false }, w3, signal1⟩ := by
  obtain ⟨sgl1, e1⟩ := forEachElement_ok ops.netLineRemoveFromBoard ops.netLineAddToBoard
    st.seg.mNetLines st [] w1 h1
  obtain ⟨sgl2, e2⟩ := forEachElement_ok ops.netPointRemoveFromBoard ops.netPointAddToBoard
    st.seg.mNetPoints ({ st with items := w1 } : BoardState W) sgl1 w2 h2
  obtain ⟨sgl3, e3⟩ := forEachElement_ok ops.viaRemoveFromBoard ops.viaAddToBoard
    st.seg.mVias ({ st with items := w2 } : BoardState W) sgl2 w3 h3
  unfold removeFromBoard
  rw [if_neg (by simp [hadd]), e1]
  simp only
  rw [e2]
  simp only
  rw [e3]
  simp only
  rw [hreg]

/-- A call of `removeFromBoard` that returns has run the element operations
on the net lines, the net points and the vias, in this order, has then
unregistered the segment from the signal, and has cleared the flag. -/
theorem removeFromBoard_returned {W : Type} (ops : BoardItems W) (st : BoardState W)
    (h : (removeFromBoard ops st).thrown = none) :
    st.seg.mIsAddedToBoard = true ∧
    st.signal.unregisterBoardNetSegment st.seg.this =
      .ok (removeFromBoard ops st).state.signal ∧
    (removeFromBoard ops st).state.seg = { st.seg with mIsAddedToBoard := false } ∧
    ∃ w1 w2,
      st.seg.mNetLines.foldlM (fun w x => ops.netLineRemoveFromBoard x w) st.items = .ok w1 ∧
      st.seg.mNetPoints.foldlM (fun w x => ops.netPointRemoveFromBoard x w) w1 = .ok w2 ∧
      st.seg.mVias.foldlM (fun w x => ops.viaRemoveFromBoard x w) w2 =
        .ok (removeFromBoard ops st).state.items := by
  unfold removeFromBoard at h ⊢
  split
  · rename_i hadd
    rw [if_pos hadd] at h
    simp [Outcome.thrown] at h
  · rename_i hadd
    rw [if_neg hadd] at h
    have hf : st.seg.mIsAddedToBoard = true := by simpa using hadd
    split
    · rename_i e he
      rw [he] at h
      obtain ⟨e1, s⟩ := e
      simp [Outcome.thrown] at h
    · rename_i st1 sgl1 he
      rw [he] at h
      simp only at h
      obtain ⟨a1, a2, a3⟩ := forEachElement_returned _ _ _ _ _ _ _ he
      split
      · rename_i e he2
        rw [he2] at h
        obtain ⟨e1, s⟩ := e
        simp [Outcome.thrown] at h
      · rename_i st2 sgl2 he2
        rw [he2] at h
        simp only at h
        obtain ⟨b1, b2, b3⟩ := forEachElement_returned _ _ _ _ _ _ _ he2
        split
        · rename_i e he3
          rw [he3] at h
          obtain ⟨e1, s⟩ := e
          simp [Outcome.thrown] at h
        · rename_i st3 sgl3 he3
          rw [he3] at h
          simp only at h
          obtain ⟨c1, c2, c3⟩ := forEachElement_returned _ _ _ _ _ _ _ he3
          split
          · rename_i e s hs
            rw [hs] at h
            simp [Outcome.thrown] at h
          · rename_i signal1 hs
            simp only [Outcome.state]
            refine ⟨hf, ?_, ?_, st1.items, st2.items, a1, b1, c1⟩
            · rw [← hs, c3, b3, a3, c2, b2, a2]
            · rw [c2, b2, a2]

/-- A registration that returns has appended the segment to the registered
board net segments of the signal. -/
theorem registerBoardNetSegment_ok_list (s s1 : NetSignal) (e : BI_NetSegmentPtr)
    (h : s.registerBoardNetSegment e = .ok s1) :
    e ∉ s.mRegisteredBoardNetSegments ∧
    s1.mRegisteredBoardNetSegments = s.mRegisteredBoardNetSegments ++ [e] := by
  have hpre : s.mIsAddedToCircuit = true ∧ e ∉ s.mRegisteredBoardNetSegments ∧
      e.circuit = s.mCircuit := by
    by_contra hn
    have hfail : s.mIsAddedToCircuit = false ∨ e ∈ s.mRegisteredBoardNetSegments ∨
        e.circuit ≠ s.mCircuit := by
      by_cases a : s.mIsAddedToCircuit = true
      · by_cases b : e ∈ s.mRegisteredBoardNetSegments
        · exact Or.inr (Or.inl b)
        · by_cases c : e.circuit = s.mCircuit
          · exact absurd ⟨a, b, c⟩ hn
          · exact Or.inr (Or.inr c)
      · exact Or.inl (by simpa using a)
    rw [(NetSignal.registerBoardNetSegment_spec s e).1 hfail] at h
    cases h
  obtain ⟨-, r1, -⟩ := (NetSignal.registerBoardNetSegment_spec s e).2 hpre.1 hpre.2.1 hpre.2.2
  rw [h] at r1
  exact ⟨hpre.2.1, r1⟩

/-- An unregistration that returns has removed the segment, which was
registered, from the registered board net segments of the signal. -/
theorem unregisterBoardNetSegment_ok_list (s s1 : NetSignal) (e : BI_NetSegmentPtr)
    (h : s.unregisterBoardNetSegment e = .ok s1) :
    e ∈ s.mRegisteredBoardNetSegments ∧
    s1.mRegisteredBoardNetSegments = s.mRegisteredBoardNetSegments.erase e := by
  have hpre : s.mIsAddedToCircuit = true ∧ e ∈ s.mRegisteredBoardNetSegments := by
    by_contra hn
    have hfail : s.mIsAddedToCircuit = false ∨ e ∉ s.mRegisteredBoardNetSegments := by
      by_cases a : s.mIsAddedToCircuit = true
      · by_cases b : e ∈ s.mRegisteredBoardNetSegments
        · exact absurd ⟨a, b⟩ hn
        · exact Or.inr b
      · exact Or.inl (by simpa using a)
    rw [(NetSignal.unregisterBoardNetSegment_spec s e).1 hfail] at h
    cases h
  obtain ⟨-, r1, -⟩ := (NetSignal.unregisterBoardNetSegment_spec s e).2 hpre.1 hpre.2
  rw [h] at r1
  exact ⟨hpre.2, r1⟩

/-- C12: addToBoard() throws a LogicError and changes nothing when the segment
is already added, removeFromBoard() when it is not added. addToBoard()
registers the segment with its net signal before anything else: when the
signal refuses, nothing has changed. removeFromBoard() unregisters it last: a
call that throws leaves the net signal as it was, whatever the element
operations do. When the element operations undo each other, a call of
addToBoard() that throws leaves the segment (its added-to-board flag included),
the state of every board item and the registered board net segments of the
signal as they were, and a call of removeFromBoard() that throws leaves the
whole state as it was. Whatever the element operations do, a call of
addToBoard() that throws leaves the segment, its flag included, and the
registered board net segments of the signal as they were, and a call of
removeFromBoard() that throws leaves the segment as it was. A call of
addToBoard() returns exactly when the segment is not added, the signal accepts
the registration and the addToBoard() of every via, then of every net point,
then of every net line returns, one after the other from the board items of
before the call; then the segment is what the signal appended to its
registered board net segments, the board items are those that the last element
operation left, and the flag is set. A call of removeFromBoard() returns
exactly when the segment is added, the removeFromBoard() of every net line,
then of every net point, then of every via returns and the signal, which is
asked after them, lets the segment go; then the segment is removed from the
registered board net segments of the signal, the board items are those that
the last element operation left, and the flag is cleared. -/
theorem addToBoard_removeFromBoard_all_or_nothing {W : Type} (ops : BoardItems W)
    (st : BoardState W) :
    (st.seg.mIsAddedToBoard = true →
      addToBoard ops st = .error (Exception.LogicError, st)) ∧
    (st.seg.mIsAddedToBoard = false →
      removeFromBoard ops st = .error (Exception.LogicError, st)) ∧
    (st.seg.mIsAddedToBoard = false →
      (st.signal.registerBoardNetSegment st.seg.this).thrown ≠ none →
      addToBoard ops st = .error (Exception.LogicError, st)) ∧
    ((removeFromBoard ops st).thrown ≠ none →
      (removeFromBoard ops st).state.signal = st.signal) ∧
    (ops.Reversible → (addToBoard ops st).thrown ≠ none →
      (addToBoard ops st).state.seg = st.seg ∧ (addToBoard ops st).state.items = st.items ∧
      (addToBoard ops st).state.signal.mRegisteredBoardNetSegments
        = st.signal.mRegisteredBoardNetSegments) ∧
    (ops.Reversible → (removeFromBoard ops st).thrown ≠ none →
      (removeFromBoard ops st).state = st) ∧
    ((addToBoard ops st).thrown ≠ none →
      (addToBoard ops st).state.seg = st.seg ∧
      (addToBoard ops st).state.signal.mRegisteredBoardNetSegments
        = st.signal.mRegisteredBoardNetSegments) ∧
    ((removeFromBoard ops st).thrown ≠ none → (removeFromBoard ops st).state.seg = st.seg) ∧
    (∀ (signal1 : NetSignal) (w1 w2 w3 : W), st.seg.mIsAddedToBoard = false →
      st.signal.registerBoardNetSegment st.seg.this = .ok signal1 →
      st.seg.mVias.foldlM (fun w x => ops.viaAddToBoard x w) st.items = .ok w1 →
      st.seg.mNetPoints.foldlM (fun w x => ops.netPointAddToBoard x w) w1 = .ok w2 →
      st.seg.mNetLines.foldlM (fun w x => ops.netLineAddToBoard x w) w2 = .ok w3 →
      addToBoard ops st = .ok ⟨{ st.seg with mIsAddedToBoard := true }, w3, signal1⟩) ∧
    ((addToBoard ops st).thrown = none →
      st.seg.mIsAddedToBoard = false ∧
      st.signal.registerBoardNetSegment st.seg.this = .ok (addToBoard ops st).state.signal ∧
      st.seg.this ∉ st.signal.mRegisteredBoardNetSegments ∧
      (addToBoard ops st).state.signal.mRegisteredBoardNetSegments =
        st.signal.mRegisteredBoardNetSegments ++ [st.seg.this] ∧
      (addToBoard ops st).state.seg = { st.seg with mIsAddedToBoard := true } ∧
      ∃ w1 w2, st.seg.mVias.foldlM (fun w x => ops.viaAddToBoard x w) st.items = .ok w1 ∧
        st.seg.mNetPoints.foldlM (fun w x => ops.netPointAddToBoard x w) w1 = .ok w2 ∧
        st.seg.mNetLines.foldlM (fun w x => ops.netLineAddToBoard x w) w2 =
          .ok (addToBoard ops st).state.items) ∧
    (∀ (signal1 : NetSignal) (w1 w2 w3 : W), st.seg.mIsAddedToBoard = true →
      st.seg.mNetLines.foldlM (fun w x => ops.netLineRemoveFromBoard x w) st.items = .ok w1 →
      st.seg.mNetPoints.foldlM (fun w x => ops.netPointRemoveFromBoard x w) w1 = .ok w2 →
      st.seg.mVias.foldlM (fun w x => ops.viaRemoveFromBoard x w) w2 = .ok w3 →
      st.signal.unregisterBoardNetSegment st.seg.this = .ok signal1 →
      removeFromBoard ops st = .ok ⟨{ st.seg with mIsAddedToBoard := false }, w3, signal1⟩) ∧
    ((removeFromBoard ops st).thrown = none →
      st.seg.mIsAddedToBoard = true ∧
      st.signal.unregisterBoardNetSegment st.seg.this =
        .ok (removeFromBoard ops st).state.signal ∧
      st.seg.this ∈ st.signal.mRegisteredBoardNetSegments ∧
      (removeFromBoard ops st).state.signal.mRegisteredBoardNetSegments =
        st.signal.mRegisteredBoardNetSegments.erase st.seg.this ∧
      (removeFromBoard ops st).state.seg = { st.seg with mIsAddedToBoard := false } ∧
      ∃ w1 w2,
        st.seg.mNetLines.foldlM (fun w x => ops.netLineRemoveFromBoard x w) st.items = .ok w1 ∧
        st.seg.mNetPoints.foldlM (fun w x => ops.netPointRemoveFromBoard x w) w1 = .ok w2 ∧
        st.seg.mVias.foldlM (fun w x => ops.viaRemoveFromBoard x w) w2 =
          .ok (removeFromBoard ops st).state.items) := by
  refine ⟨?_, ?_, ?_, removeFromBoard_thrown_signal ops st,
    fun hrev => addToBoard_thrown_state ops hrev st,
    fun hrev => removeFromBoard_thrown_state ops hrev st,
    addToBoard_thrown_registration ops st, removeFromBoard_thrown_seg ops st,
    fun signal1 w1 w2 w3 => addToBoard_ok ops st signal1 w1 w2 w3, ?_,
    fun signal1 w1 w2 w3 => removeFromBoard_ok ops st signal1 w1 w2 w3, ?_⟩
  · intro h
    unfold addToBoard
    rw [if_pos h]
  · intro h
    unfold removeFromBoard
    rw [if_pos (by simp [h])]
  · intro h hr
    obtain ⟨e, he⟩ := outcome_thrown_some _ hr
    have hst : (st.signal.registerBoardNetSegment st.seg.this).state = st.signal ∧
        e = Exception.LogicError := by
      unfold NetSignal.registerBoardNetSegment at he ⊢
      split
      · rename_i hc
        rw [if_pos hc] at he
        simp only [Except.error.injEq, Prod.mk.injEq] at he
        exact ⟨rfl, he.1.symm⟩
      · rename_i hc
        rw [if_neg hc] at he
        cases he
    unfold addToBoard
    rw [if_neg (by simp [h]), he, hst.2]
  · intro h
    obtain ⟨a, b, c, d⟩ := addToBoard_returned ops st h
    obtain ⟨r1, r2⟩ := registerBoardNetSegment_ok_list _ _ _ b
    exact ⟨a, b, r1, r2, c, d⟩
  · intro h
    obtain ⟨a, b, c, d⟩ := removeFromBoard_returned ops st h
    obtain ⟨r1, r2⟩ := unregisterBoardNetSegment_ok_list _ _ _ b
    exact ⟨a, b, r1, r2, c, d⟩

/-- Scenario A before the segment is on the board, with L2 wrongly marked as
added: addToBoard() throws at L2 and leaves everything as it was. With nothing
marked as added addToBoard() returns: the segment is registered with the
signal, its flag is set and its net points and net lines are added to the
board; removeFromBoard() then returns, and the segment is registered no
more. -/
theorem addToBoard_removeFromBoard_all_or_nothing_witness :
    (addToBoard flagItems ⟨ScenarioA.loaded, ScenarioA.flagsL2, ScenarioD.signal⟩).thrown
      ≠ none ∧
    ((addToBoard flagItems
        ⟨ScenarioA.loaded, ScenarioA.flagsL2, ScenarioD.signal⟩).state.seg = ScenarioA.loaded ∧
      (addToBoard flagItems
        ⟨ScenarioA.loaded, ScenarioA.flagsL2, ScenarioD.signal⟩).state.items =
          ScenarioA.flagsL2 ∧
      (addToBoard flagItems ⟨ScenarioA.loaded, ScenarioA.flagsL2,
        ScenarioD.signal⟩).state.signal.mRegisteredBoardNetSegments = []) ∧
    (addToBoard flagItems ⟨ScenarioA.loaded, ScenarioA.noFlags, ScenarioD.signal⟩).thrown
      = none ∧
    (addToBoard flagItems ⟨ScenarioA.loaded, ScenarioA.noFlags,
      ScenarioD.signal⟩).state.signal.mRegisteredBoardNetSegments = [ScenarioA.loaded.this] ∧
    (addToBoard flagItems
      ⟨ScenarioA.loaded, ScenarioA.noFlags, ScenarioD.signal⟩).state.seg = ScenarioA.segment ∧
    (removeFromBoard flagItems (addToBoard flagItems
      ⟨ScenarioA.loaded, ScenarioA.noFlags, ScenarioD.signal⟩).state).thrown = none ∧
    (removeFromBoard flagItems (addToBoard flagItems ⟨ScenarioA.loaded, ScenarioA.noFlags,
      ScenarioD.signal⟩).state).state.signal.mRegisteredBoardNetSegments = [] ∧
    (removeFromBoard flagItems (addToBoard flagItems
      ⟨ScenarioA.loaded, ScenarioA.noFlags, ScenarioD.signal⟩).state).state.seg =
        ScenarioA.loaded :=
  ⟨by decide,
   (addToBoard_removeFromBoard_all_or_nothing flagItems
      ⟨ScenarioA.loaded, ScenarioA.flagsL2, ScenarioD.signal⟩).2.2.2.2.1 flagItems_reversible
      (by decide),
   by decide,
   ((addToBoard_removeFromBoard_all_or_nothing flagItems
      ⟨ScenarioA.loaded, ScenarioA.noFlags, ScenarioD.signal⟩).2.2.2.2.2.2.2.2.2.1
      (by decide)).2.2.2.1,
   ((addToBoard_removeFromBoard_all_or_nothing flagItems
      ⟨ScenarioA.loaded, ScenarioA.noFlags, ScenarioD.signal⟩).2.2.2.2.2.2.2.2.2.1
      (by decide)).2.2.2.2.1,
   by decide,
   ((addToBoard_removeFromBoard_all_or_nothing flagItems (addToBoard flagItems
      ⟨ScenarioA.loaded, ScenarioA.noFlags, ScenarioD.signal⟩).state).2.2.2.2.2.2.2.2.2.2.2
      (by decide)).2.2.2.1,
   ((addToBoard_removeFromBoard_all_or_nothing flagItems (addToBoard flagItems
      ⟨ScenarioA.loaded, ScenarioA.noFlags, ScenarioD.signal⟩).state).2.2.2.2.2.2.2.2.2.2.2
      (by decide)).2.2.2.2.1⟩

end BI_NetSegment

/-! ## Persistence of a net signal -/

namespace SExpression

theorem getChildByIndex_error (node : SExpression) (i : Nat) (e : Exception)
    (h : node.getChildByIndex i = .error e) : e = Exception.RuntimeError := by
  unfold getChildByIndex at h
  split at h
  · cases h
  · cases h; rfl

theorem getUuid_error (node : SExpression) (e : Exception) (h : node.getUuid = .error e) :
    e = Exception.RuntimeError := by
  cases node <;> simp [getUuid] at h <;> exact h.symm

theorem getBool_error (node : SExpression) (e : Exception) (h : node.getBool = .error e) :
    e = Exception.RuntimeError := by
  cases node <;> simp [getBool] at h <;> exact h.symm

theorem getString_error (b : Bool) (node : SExpression) (e : Exception)
    (h : node.getString b = .error e) : e = Exception.RuntimeError := by
  cases node with
  | string v =>
    simp only [getString] at h
    split at h
    · cases h; rfl
    · cases h
  | uuid v => cases h; rfl
  | bool v => cases h; rfl
  | list n c => cases h; rfl

theorem getValueByPath_error {α : Type} (node : SExpression) (name : String)
    (getValue : SExpression → Except Exception α)
    (hv : ∀ n e, getValue n = .error e → e = Exception.RuntimeError) (e : Exception)
    (h : node.getValueByPath name getValue = .error e) : e = Exception.RuntimeError := by
  unfold getValueByPath at h
  split at h
  · rename_i e1 h1
    cases h
    unfold getChildByPath at h1
    split at h1
    · cases h1
    · cases h1; rfl
  · split at h
    · rename_i e1 h1
      cases h
      exact getChildByIndex_error _ _ _ h1
    · exact hv _ _ h

end SExpression

namespace NetSignal

theorem load_unknown_netclass (ptr circuit : Nat) (classes : CircuitNetClasses)
    (node : SExpression) (u : Uuid)
    (hu : node.getValueByPath "netclass" SExpression.getUuid = .ok u)
    (hn : classes.getNetClassByUuid u = none) :
    NetSignal.load ptr circuit classes node = .error Exception.RuntimeError := by
  unfold NetSignal.load
  split
  · rename_i e h1
    cases hc : node.getChildByIndex 0 with
    | error e1 =>
      rw [hc] at h1
      cases h1
      rw [SExpression.getChildByIndex_error _ _ _ hc]
    | ok c =>
      rw [hc] at h1
      rw [SExpression.getUuid_error c e h1]
  · split
    · rename_i e h2
      rw [SExpression.getValueByPath_error _ _ _ (SExpression.getString_error true) e h2]
    · split
      · rename_i e h3
        rw [SExpression.getValueByPath_error _ _ _ SExpression.getBool_error e h3]
      · rw [hu]
        simp [hn]

/-- C20: a valid net signal is persisted as exactly its UUID, its auto-name
flag, its name and the UUID of its net class, in this order. Loading what
serialize() wrote, in a circuit in which that UUID is the UUID of the net
class, gives a net signal with the same UUID, name, auto-name flag and net
class that is not added to the circuit and has no registrants. Loading throws
a RuntimeError when no net class of the circuit has the UUID of the node, and
serialize() throws (a LogicError) when the name is empty. -/
theorem netsignal_persistence (classes : CircuitNetClasses) (s : NetSignal)
    (ptr circuit : Nat) (tag : String) :
    (∀ netclass, s.mName.isEmpty = false → s.mNetClass = some netclass →
      s.serialize classes (.list tag []) = .ok (.list tag
        [.uuid s.mUuid, .list "auto" [.bool s.mHasAutoName], .list "name" [.string s.mName],
         .list "netclass" [.uuid (classes.getUuid netclass)]])) ∧
    (∀ netclass node, s.mName.isEmpty = false → s.mNetClass = some netclass →
      classes.getNetClassByUuid (classes.getUuid netclass) = some netclass →
      s.serialize classes (.list tag []) = .ok node →
      ∃ s1, NetSignal.load ptr circuit classes node = .ok s1 ∧
        s1.mUuid = s.mUuid ∧ s1.mName = s.mName ∧ s1.mHasAutoName = s.mHasAutoName ∧
        s1.mNetClass = s.mNetClass ∧ s1.mIsAddedToCircuit = false ∧
        s1.getRegisteredElementsCount = 0) ∧
    (∀ node u, node.getValueByPath "netclass" SExpression.getUuid = .ok u →
      classes.getNetClassByUuid u = none →
      NetSignal.load ptr circuit classes node = .error Exception.RuntimeError) ∧
    (s.mName.isEmpty = true →
      s.serialize classes (.list tag []) = .error Exception.LogicError) := by
  have hser : ∀ netclass, s.mName.isEmpty = false → s.mNetClass = some netclass →
      s.serialize classes (.list tag []) = .ok (.list tag
        [.uuid s.mUuid, .list "auto" [.bool s.mHasAutoName], .list "name" [.string s.mName],
         .list "netclass" [.uuid (classes.getUuid netclass)]]) := by
    intro netclass hn hc
    simp [serialize, checkAttributesValidity, hn, hc, SExpression.appendChild,
      SExpression.appendNamed]
  refine ⟨hser, ?_, fun node u => load_unknown_netclass ptr circuit classes node u, ?_⟩
  · intro netclass node hn hc hk hnode
    rw [hser netclass hn hc] at hnode
    simp only [Except.ok.injEq] at hnode
    subst hnode
    refine ⟨NetSignal.mk ptr circuit false false s.mUuid s.mName s.mHasAutoName (some netclass)
      [] [] [] [] none none, ?_, rfl, rfl, rfl, hc.symm, rfl, rfl⟩
    simp [NetSignal.load, SExpression.getChildByIndex, SExpression.getChildren,
      SExpression.getUuid, SExpression.getValueByPath, SExpression.getChildByPath,
      SExpression.isList, SExpression.getString, SExpression.getBool, hn, hk,
      checkAttributesValidity, Except.bind, hc]
  · intro hn
    simp [serialize, checkAttributesValidity, hn]

/-- The signal of scenario D is written as (70, auto false, name "N1",
netclass 90) and read back with the same values. -/
theorem netsignal_persistence_witness :
    ∃ s1, NetSignal.load 9 0 ScenarioD.classes (.list "netsignal"
        [.uuid 70, .list "auto" [.bool false], .list "name" [.string "N1"],
         .list "netclass" [.uuid 90]]) = .ok s1 ∧
      s1.mUuid = 70 ∧ s1.mName = "N1" ∧ s1.mNetClass = some 1 :=
  have h := (netsignal_persistence ScenarioD.classes ScenarioD.signal 9 0 "netsignal").2.1 1 _
    (by decide) rfl rfl
    ((netsignal_persistence ScenarioD.classes ScenarioD.signal 9 0 "netsignal").1 1
      (by decide) rfl)
  h.elim fun s1 h1 => ⟨s1, h1.1, h1.2.1, h1.2.2.1, h1.2.2.2.2.1⟩

end NetSignal

/-! ## Loading a net segment from its node -/

namespace BI_NetSegment

theorem deserializeVias_fields (fmt : ElementFormat) : ∀ (nodes : List SExpression)
    (s s1 : BI_NetSegment), deserializeVias fmt nodes s = .ok s1 →
    s1.ptr = s.ptr ∧ s1.mUuid = s.mUuid ∧ s1.circuit = s.circuit ∧
    s1.mNetSignal = s.mNetSignal ∧ s1.mIsAddedToBoard = s.mIsAddedToBoard ∧
    s1.mNetPoints = s.mNetPoints ∧ s1.mNetLines = s.mNetLines := by
  intro nodes
  induction nodes with
  | nil =>
    intro s s1 h
    simp only [deserializeVias, Except.ok.injEq] at h
    subst h
    exact ⟨rfl, rfl, rfl, rfl, rfl, rfl, rfl⟩
  | cons node rest ih =>
    intro s s1 h
    simp only [deserializeVias] at h
    cases hx : fmt.viaFromNode s node with
    | error e => simp only [hx] at h; cases h
    | ok x =>
      simp only [hx] at h
      split at h
      · cases h
      · have hh := ih _ _ h
        exact hh

theorem deserializeVias_uuidsUnique (fmt : ElementFormat) : ∀ (nodes : List SExpression)
    (s s1 : BI_NetSegment), deserializeVias fmt nodes s = .ok s1 → s.UuidsUnique →
    s1.UuidsUnique := by
  intro nodes
  induction nodes with
  | nil => intro s s1 h hs; simp only [deserializeVias, Except.ok.injEq] at h; exact h ▸ hs
  | cons node rest ih =>
    intro s s1 h hs
    simp only [deserializeVias] at h
    cases hx : fmt.viaFromNode s node with
    | error e => simp only [hx] at h; cases h
    | ok x =>
      simp only [hx] at h
      split at h
      · cases h
      · rename_i hu
        simp only [getViaByUuid, Option.isSome_iff_ne_none, ne_eq, not_not, List.find?_eq_none,
          decide_eq_true_eq] at hu
        exact ih _ _ h ⟨nodup_map_append_singleton _ _ x hs.1 hu, hs.2.1, hs.2.2⟩

theorem deserializeVias_append (fmt : ElementFormat) : ∀ (pre post : List SExpression)
    (s : BI_NetSegment), deserializeVias fmt (pre ++ post) s =
      match deserializeVias fmt pre s with
      | .error e => .error e
      | .ok s1 => deserializeVias fmt post s1 := by
  intro pre
  induction pre with
  | nil => intro post s; simp only [List.nil_append, deserializeVias]
  | cons node rest ih =>
    intro post s
    simp only [List.cons_append, deserializeVias]
    cases hx : fmt.viaFromNode s node with
    | error e => rfl
    | ok x =>
      simp only []
      split
      · rfl
      · exact ih _ _

theorem deserializeVias_duplicate (fmt : ElementFormat) (pre : List SExpression)
    (node : SExpression) (rest : List SExpression) (s0 s : BI_NetSegment) (x : BI_Via)
    (hpre : deserializeVias fmt pre s0 = .ok s) (hx : fmt.viaFromNode s node = .ok x)
    (hdup : ∃ y ∈ s.mVias, y.mUuid = x.mUuid) :
    deserializeVias fmt (pre ++ node :: rest) s0 = .error (.RuntimeError, s) := by
  rw [deserializeVias_append, hpre]
  simp only [deserializeVias, hx]
  obtain ⟨y, hy, hyx⟩ := hdup
  have hsome : (s.getViaByUuid x.mUuid).isSome = true :=
    find?_isSome_of_mem _ _ y hy (by simpa using hyx)
  simp only [hsome, if_true]

theorem deserializeNetPoints_fields (fmt : ElementFormat) : ∀ (nodes : List SExpression)
    (s s1 : BI_NetSegment), deserializeNetPoints fmt nodes s = .ok s1 →
    s1.ptr = s.ptr ∧ s1.mUuid = s.mUuid ∧ s1.circuit = s.circuit ∧
    s1.mNetSignal = s.mNetSignal ∧ s1.mIsAddedToBoard = s.mIsAddedToBoard ∧
    s1.mVias = s.mVias ∧ s1.mNetLines = s.mNetLines := by
  intro nodes
  induction nodes with
  | nil =>
    intro s s1 h
    simp only [deserializeNetPoints, Except.ok.injEq] at h
    subst h
    exact ⟨rfl, rfl, rfl, rfl, rfl, rfl, rfl⟩
  | cons node rest ih =>
    intro s s1 h
    simp only [deserializeNetPoints] at h
    cases hx : fmt.netPointFromNode s node with
    | error e => simp only [hx] at h; cases h
    | ok x =>
      simp only [hx] at h
      split at h
      · cases h
      · have hh := ih _ _ h
        exact hh

theorem deserializeNetPoints_uuidsUnique (fmt : ElementFormat) : ∀ (nodes : List SExpression)
    (s s1 : BI_NetSegment), deserializeNetPoints fmt nodes s = .ok s1 → s.UuidsUnique →
    s1.UuidsUnique := by
  intro nodes
  induction nodes with
  | nil => intro s s1 h hs; simp only [deserializeNetPoints, Except.ok.injEq] at h; exact h ▸ hs
  | cons node rest ih =>
    intro s s1 h hs
    simp only [deserializeNetPoints] at h
    cases hx : fmt.netPointFromNode s node with
    | error e => simp only [hx] at h; cases h
    | ok x =>
      simp only [hx] at h
      split at h
      · cases h
      · rename_i hu
        simp only [getNetPointByUuid, Option.isSome_iff_ne_none, ne_eq, not_not, List.find?_eq_none,
          decide_eq_true_eq] at hu
        exact ih _ _ h ⟨hs.1, nodup_map_append_singleton _ _ x hs.2.1 hu, hs.2.2⟩

theorem deserializeNetPoints_append (fmt : ElementFormat) : ∀ (pre post : List SExpression)
    (s : BI_NetSegment), deserializeNetPoints fmt (pre ++ post) s =
      match deserializeNetPoints fmt pre s with
      | .error e => .error e
      | .ok s1 => deserializeNetPoints fmt post s1 := by
  intro pre
  induction pre with
  | nil => intro post s; simp only [List.nil_append, deserializeNetPoints]
  | cons node rest ih =>
    intro post s
    simp only [List.cons_append, deserializeNetPoints]
    cases hx : fmt.netPointFromNode s node with
    | error e => rfl
    | ok x =>
      simp only []
      split
      · rfl
      · exact ih _ _

theorem deserializeNetPoints_duplicate (fmt : ElementFormat) (pre : List SExpression)
    (node : SExpression) (rest : List SExpression) (s0 s : BI_NetSegment) (x : BI_NetPoint)
    (hpre : deserializeNetPoints fmt pre s0 = .ok s) (hx : fmt.netPointFromNode s node = .ok x)
    (hdup : ∃ y ∈ s.mNetPoints, y.mUuid = x.mUuid) :
    deserializeNetPoints fmt (pre ++ node :: rest) s0 = .error (.RuntimeError, s) := by
  rw [deserializeNetPoints_append, hpre]
  simp only [deserializeNetPoints, hx]
  obtain ⟨y, hy, hyx⟩ := hdup
  have hsome : (s.getNetPointByUuid x.mUuid).isSome = true :=
    find?_isSome_of_mem _ _ y hy (by simpa using hyx)
  simp only [hsome, if_true]

theorem deserializeNetLines_fields (fmt : ElementFormat) : ∀ (nodes : List SExpression)
    (s s1 : BI_NetSegment), deserializeNetLines fmt nodes s = .ok s1 →
    s1.ptr = s.ptr ∧ s1.mUuid = s.mUuid ∧ s1.circuit = s.circuit ∧
    s1.mNetSignal = s.mNetSignal ∧ s1.mIsAddedToBoard = s.mIsAddedToBoard ∧
    s1.mVias = s.mVias ∧ s1.mNetPoints = s.mNetPoints := by
  intro nodes
  induction nodes with
  | nil =>
    intro s s1 h
    simp only [deserializeNetLines, Except.ok.injEq] at h
    subst h
    exact ⟨rfl, rfl, rfl, rfl, rfl, rfl, rfl⟩
  | cons node rest ih =>
    intro s s1 h
    simp only [deserializeNetLines] at h
    cases hx : fmt.netLineFromNode s node with
    | error e => simp only [hx] at h; cases h
    | ok x =>
      simp only [hx] at h
      split at h
      · cases h
      · have hh := ih _ _ h
        exact hh

theorem deserializeNetLines_uuidsUnique (fmt : ElementFormat) : ∀ (nodes : List SExpression)
    (s s1 : BI_NetSegment), deserializeNetLines fmt nodes s = .ok s1 → s.UuidsUnique →
    s1.UuidsUnique := by
  intro nodes
  induction nodes with
  | nil => intro s s1 h hs; simp only [deserializeNetLines, Except.ok.injEq] at h; exact h ▸ hs
  | cons node rest ih =>
    intro s s1 h hs
    simp only [deserializeNetLines] at h
    cases hx : fmt.netLineFromNode s node with
    | error e => simp only [hx] at h; cases h
    | ok x =>
      simp only [hx] at h
      split at h
      · cases h
      · rename_i hu
        simp only [getNetLineByUuid, Option.isSome_iff_ne_none, ne_eq, not_not, List.find?_eq_none,
          decide_eq_true_eq] at hu
        exact ih _ _ h ⟨hs.1, hs.2.1, nodup_map_append_singleton _ _ x hs.2.2 hu⟩

theorem deserializeNetLines_append (fmt : ElementFormat) : ∀ (pre post : List SExpression)
    (s : BI_NetSegment), deserializeNetLines fmt (pre ++ post) s =
      match deserializeNetLines fmt pre s with
      | .error e => .error e
      | .ok s1 => deserializeNetLines fmt post s1 := by
  intro pre
  induction pre with
  | nil => intro post s; simp only [List.nil_append, deserializeNetLines]
  | cons node rest ih =>
    intro post s
    simp only [List.cons_append, deserializeNetLines]
    cases hx : fmt.netLineFromNode s node with
    | error e => rfl
    | ok x =>
      simp only []
      split
      · rfl
      · exact ih _ _

theorem deserializeNetLines_duplicate (fmt : ElementFormat) (pre : List SExpression)
    (node : SExpression) (rest : List SExpression) (s0 s : BI_NetSegment) (x : BI_NetLine)
    (hpre : deserializeNetLines fmt pre s0 = .ok s) (hx : fmt.netLineFromNode s node = .ok x)
    (hdup : ∃ y ∈ s.mNetLines, y.mUuid = x.mUuid) :
    deserializeNetLines fmt (pre ++ node :: rest) s0 = .error (.RuntimeError, s) := by
  rw [deserializeNetLines_append, hpre]
  simp only [deserializeNetLines, hx]
  obtain ⟨y, hy, hyx⟩ := hdup
  have hsome : (s.getNetLineByUuid x.mUuid).isSome = true :=
    find?_isSome_of_mem _ _ y hy (by simpa using hyx)
  simp only [hsome, if_true]

end BI_NetSegment

namespace BI_NetSegment

/-- A load that succeeds went through the three loops, one after the other.
-/
theorem deserialize_ok (fmt : ElementFormat) (getNetSignalByUuid : Uuid → Option Nat)
    (ptr circuit : Nat) (node : SExpression) (s : BI_NetSegment)
    (h : deserialize fmt getNetSignalByUuid ptr circuit node = .ok s) :
    ∃ uuid netSignalUuid signal s1 s2,
      (node.getChildByIndex 0).bind SExpression.getUuid = .ok uuid ∧
      node.getValueByPath "net" SExpression.getUuid = .ok netSignalUuid ∧
      getNetSignalByUuid netSignalUuid = some signal ∧
      deserializeVias fmt (node.getChildrenNamed "via") (new ptr uuid circuit signal) = .ok s1 ∧
      deserializeNetPoints fmt (node.getChildrenNamed "netpoint") s1 = .ok s2 ∧
      deserializeNetLines fmt (node.getChildrenNamed "netline") s2 = .ok s ∧
      s.areAllNetPointsConnectedTogether = true := by
  unfold deserialize at h
  cases hu : (node.getChildByIndex 0).bind SExpression.getUuid with
  | error e => simp only [hu] at h; cases h
  | ok uuid =>
    simp only [hu] at h
    unfold deserializeTry at h
    cases hn : node.getValueByPath "net" SExpression.getUuid with
    | error e => simp only [hn] at h; cases h
    | ok netSignalUuid =>
      simp only [hn] at h
      cases hg : getNetSignalByUuid netSignalUuid with
      | none => simp only [hg] at h; cases h
      | some signal =>
        simp only [hg] at h
        cases h1 : deserializeVias fmt (node.getChildrenNamed "via")
            ⟨ptr, uuid, circuit, signal, false, [], [], []⟩ with
        | error e => simp only [h1] at h; cases h
        | ok s1 =>
          simp only [h1] at h
          cases h2 : deserializeNetPoints fmt (node.getChildrenNamed "netpoint") s1 with
          | error e => simp only [h2] at h; cases h
          | ok s2 =>
            simp only [h2] at h
            cases h3 : deserializeNetLines fmt (node.getChildrenNamed "netline") s2 with
            | error e => simp only [h3] at h; cases h
            | ok s3 =>
              simp only [h3] at h
              by_cases hc : s3.areAllNetPointsConnectedTogether = true
              · have hv : s3.checkAttributesValidity = true := hc
                simp only [hc, hv, not_true_eq_false, if_false, Except.ok.injEq] at h
                subst h
                exact ⟨uuid, netSignalUuid, signal, s1, s2, rfl, rfl, hg, h1, h2, h3, hc⟩
              · simp only [hc, if_true] at h
                cases h

/-- A load that fails leaves the three lists empty. -/
theorem deserialize_error (fmt : ElementFormat) (getNetSignalByUuid : Uuid → Option Nat)
    (ptr circuit : Nat) (node : SExpression) (e : Exception) (lists : ElementLists)
    (h : deserialize fmt getNetSignalByUuid ptr circuit node = .error (e, lists)) :
    lists = ⟨[], [], []⟩ := by
  unfold deserialize at h
  split at h
  · simp only [Except.error.injEq, Prod.mk.injEq] at h
    exact h.2.symm
  · split at h
    · simp only [Except.error.injEq, Prod.mk.injEq] at h
      exact h.2.symm
    · cases h

/-- The result of the load in terms of the result of its `try` block. -/
theorem deserialize_of_try (fmt : ElementFormat) (getNetSignalByUuid : Uuid → Option Nat)
    (ptr circuit : Nat) (node : SExpression) (uuid : Uuid)
    (hu : (node.getChildByIndex 0).bind SExpression.getUuid = .ok uuid) :
    (∀ e lists, deserializeTry fmt getNetSignalByUuid ptr circuit uuid node = .error (e, lists) →
      deserialize fmt getNetSignalByUuid ptr circuit node = .error (e, ⟨[], [], []⟩)) ∧
    (∀ s, deserializeTry fmt getNetSignalByUuid ptr circuit uuid node = .ok s →
      deserialize fmt getNetSignalByUuid ptr circuit node = .ok s) := by
  constructor
  · intro e lists h
    simp only [deserialize, hu, h]
  · intro s h
    simp only [deserialize, hu, h]

/-- C17 (amended): loading a net segment from its node. The vias are loaded
first, the net points next, into the segment that holds all the vias, the net
lines last, into the segment that holds all the vias and net points. The load
fails with a runtime error when the net signal of the node does not exist,
when an element has the UUID of an element of the same kind loaded before it,
and when the loaded net points are not all connected; an exception of one of
the loops is the exception of the load. After every failure the three lists
of the segment are empty. A load that succeeds gives a segment that passes the
cohesion check, in which no two elements of one kind share a UUID. -/
theorem deserialize_all_or_nothing (fmt : ElementFormat)
    (getNetSignalByUuid : Uuid → Option Nat) (ptr circuit : Nat) (node : SExpression) :
    (∀ e lists, deserialize fmt getNetSignalByUuid ptr circuit node = .error (e, lists) →
      lists = ⟨[], [], []⟩) ∧
    (∀ s, deserialize fmt getNetSignalByUuid ptr circuit node = .ok s →
      s.areAllNetPointsConnectedTogether = true ∧ s.UuidsUnique ∧
      s.mIsAddedToBoard = false) ∧
    (∀ uuid netSignalUuid, (node.getChildByIndex 0).bind SExpression.getUuid = .ok uuid →
      node.getValueByPath "net" SExpression.getUuid = .ok netSignalUuid →
      (getNetSignalByUuid netSignalUuid = none →
        deserialize fmt getNetSignalByUuid ptr circuit node =
          .error (.RuntimeError, ⟨[], [], []⟩)) ∧
      (∀ signal, getNetSignalByUuid netSignalUuid = some signal →
        (∀ e s, deserializeVias fmt (node.getChildrenNamed "via")
            (new ptr uuid circuit signal) = .error (e, s) →
          deserialize fmt getNetSignalByUuid ptr circuit node = .error (e, ⟨[], [], []⟩)) ∧
        (∀ s1, deserializeVias fmt (node.getChildrenNamed "via")
            (new ptr uuid circuit signal) = .ok s1 →
          s1.mNetPoints = [] ∧ s1.mNetLines = [] ∧
          (∀ e s, deserializeNetPoints fmt (node.getChildrenNamed "netpoint") s1 =
              .error (e, s) →
            deserialize fmt getNetSignalByUuid ptr circuit node =
              .error (e, ⟨[], [], []⟩)) ∧
          (∀ s2, deserializeNetPoints fmt (node.getChildrenNamed "netpoint") s1 = .ok s2 →
            s2.mVias = s1.mVias ∧ s2.mNetLines = [] ∧
            (∀ e s, deserializeNetLines fmt (node.getChildrenNamed "netline") s2 =
                .error (e, s) →
              deserialize fmt getNetSignalByUuid ptr circuit node =
                .error (e, ⟨[], [], []⟩)) ∧
            (∀ s3, deserializeNetLines fmt (node.getChildrenNamed "netline") s2 = .ok s3 →
              s3.mVias = s1.mVias ∧ s3.mNetPoints = s2.mNetPoints ∧
              (s3.areAllNetPointsConnectedTogether = false →
                deserialize fmt getNetSignalByUuid ptr circuit node =
                  .error (.RuntimeError, ⟨[], [], []⟩)) ∧
              (s3.areAllNetPointsConnectedTogether = true →
                deserialize fmt getNetSignalByUuid ptr circuit node = .ok s3)))))) ∧
    (∀ pre n rest s0 s x, deserializeVias fmt pre s0 = .ok s → fmt.viaFromNode s n = .ok x →
      (∃ y ∈ s.mVias, y.mUuid = x.mUuid) →
      deserializeVias fmt (pre ++ n :: rest) s0 = .error (.RuntimeError, s)) ∧
    (∀ pre n rest s0 s x, deserializeNetPoints fmt pre s0 = .ok s →
      fmt.netPointFromNode s n = .ok x → (∃ y ∈ s.mNetPoints, y.mUuid = x.mUuid) →
      deserializeNetPoints fmt (pre ++ n :: rest) s0 = .error (.RuntimeError, s)) ∧
    (∀ pre n rest s0 s x, deserializeNetLines fmt pre s0 = .ok s →
      fmt.netLineFromNode s n = .ok x → (∃ y ∈ s.mNetLines, y.mUuid = x.mUuid) →
      deserializeNetLines fmt (pre ++ n :: rest) s0 = .error (.RuntimeError, s)) := by
  refine ⟨deserialize_error fmt getNetSignalByUuid ptr circuit node, ?_, ?_,
    fun pre n rest s0 s x => deserializeVias_duplicate fmt pre n rest s0 s x,
    fun pre n rest s0 s x => deserializeNetPoints_duplicate fmt pre n rest s0 s x,
    fun pre n rest s0 s x => deserializeNetLines_duplicate fmt pre n rest s0 s x⟩
  · intro s h
    obtain ⟨uuid, netSignalUuid, signal, s1, s2, -, -, -, h1, h2, h3, hc⟩ :=
      deserialize_ok fmt getNetSignalByUuid ptr circuit node s h
    have hu0 : (new ptr uuid circuit signal).UuidsUnique :=
      ⟨List.nodup_nil, List.nodup_nil, List.nodup_nil⟩
    have hu1 := deserializeVias_uuidsUnique fmt _ _ _ h1 hu0
    have hu2 := deserializeNetPoints_uuidsUnique fmt _ _ _ h2 hu1
    have hu3 := deserializeNetLines_uuidsUnique fmt _ _ _ h3 hu2
    have f1 := deserializeVias_fields fmt _ _ _ h1
    have f2 := deserializeNetPoints_fields fmt _ _ _ h2
    have f3 := deserializeNetLines_fields fmt _ _ _ h3
    refine ⟨hc, hu3, ?_⟩
    rw [f3.2.2.2.2.1, f2.2.2.2.2.1, f1.2.2.2.2.1]
    rfl
  · intro uuid netSignalUuid hu hn
    obtain ⟨herr, hok⟩ := deserialize_of_try fmt getNetSignalByUuid ptr circuit node uuid hu
    constructor
    · intro hg
      exact herr _ ⟨[], [], []⟩ (by simp only [deserializeTry, hn, hg])
    · intro signal hg
      constructor
      · intro e s h1
        have h1a : deserializeVias fmt (node.getChildrenNamed "via")
            ⟨ptr, uuid, circuit, signal, false, [], [], []⟩ = .error (e, s) := h1
        exact herr _ ⟨s.mVias, s.mNetPoints, s.mNetLines⟩
          (by simp only [deserializeTry, hn, hg, h1a])
      · intro s1 h1
        have h1a : deserializeVias fmt (node.getChildrenNamed "via")
            ⟨ptr, uuid, circuit, signal, false, [], [], []⟩ = .ok s1 := h1
        have f1 := deserializeVias_fields fmt _ _ _ h1
        refine ⟨f1.2.2.2.2.2.1, f1.2.2.2.2.2.2, ?_, ?_⟩
        · intro e s h2
          exact herr _ ⟨s.mVias, s.mNetPoints, s.mNetLines⟩
            (by simp only [deserializeTry, hn, hg, h1a, h2])
        · intro s2 h2
          have f2 := deserializeNetPoints_fields fmt _ _ _ h2
          refine ⟨f2.2.2.2.2.2.1, f2.2.2.2.2.2.2.trans f1.2.2.2.2.2.2, ?_, ?_⟩
          · intro e s h3
            exact herr _ ⟨s.mVias, s.mNetPoints, s.mNetLines⟩
              (by simp only [deserializeTry, hn, hg, h1a, h2, h3])
          · intro s3 h3
            have f3 := deserializeNetLines_fields fmt _ _ _ h3
            refine ⟨f3.2.2.2.2.2.1.trans f2.2.2.2.2.2.1, f3.2.2.2.2.2.2, ?_, ?_⟩
            · intro hc
              exact herr _ ⟨s3.mVias, s3.mNetPoints, s3.mNetLines⟩
                (by simp [deserializeTry, hn, hg, h1a, h2, h3, hc])
            · intro hc
              have hv : s3.checkAttributesValidity = true := hc
              exact hok _ (by simp [deserializeTry, hn, hg, h1a, h2, h3, hc, hv])

/-- The node of scenario A is loaded: the three net points, then the two net
lines, and the result passes the cohesion check; the same node without the
net line 12 is refused with a runtime error. -/
theorem deserialize_all_or_nothing_witness :
    (∃ s, deserialize SimpleFormat.format SimpleFormat.getNetSignalByUuid 200 0
        SimpleFormat.chain = .ok s ∧ s.mVias = [] ∧ s.mNetPoints.length = 3 ∧
        s.mNetLines.length = 2) ∧
    deserialize SimpleFormat.format SimpleFormat.getNetSignalByUuid 200 0 SimpleFormat.cut =
      .error (.RuntimeError, ⟨[], [], []⟩) :=
  ⟨⟨_, (((((((deserialize_all_or_nothing SimpleFormat.format SimpleFormat.getNetSignalByUuid 200
      0 SimpleFormat.chain).2.2.1 5 70 rfl rfl).2 7 rfl).2 _ rfl).2.2.2 _ rfl).2.2.2 _
      rfl).2.2.2 (by decide)), rfl, rfl, rfl⟩,
   ((((((deserialize_all_or_nothing SimpleFormat.format SimpleFormat.getNetSignalByUuid 200
      0 SimpleFormat.cut).2.2.1 5 70 rfl rfl).2 7 rfl).2 _ rfl).2.2.2 _ rfl).2.2.2 _
      rfl).2.2.1 (by decide)⟩

/-- A via and a net point with the same UUID are loaded into one segment. -/
theorem deserialize_accepts_uuid_of_other_kind :
    deserialize SimpleFormat.format SimpleFormat.getNetSignalByUuid 200 0 SimpleFormat.shared =
      .ok ⟨200, 5, 0, 7, false, [⟨1001, 200, 1⟩], [⟨2001, 200, 1, (0, 0), 0, none, none⟩], []⟩ :=
  rfl

end BI_NetSegment

/-! ## The serialized form of a net segment -/

/-- Two lists with the same image under a function that is injective on their
elements are equal. -/
theorem eq_of_map_eq_map {α β : Type} (f : α → β) : ∀ (a b : List α),
    a.map f = b.map f → (∀ x ∈ a, ∀ y ∈ b, f x = f y → x = y) → a = b := by
  intro a
  induction a with
  | nil => intro b h _; cases b with
    | nil => rfl
    | cons _ _ => simp at h
  | cons x rest ih =>
    intro b h hinj
    cases b with
    | nil => simp at h
    | cons y rest1 =>
      simp only [List.map_cons, List.cons.injEq] at h
      have hxy := hinj x (List.mem_cons_self _ _) y (List.mem_cons_self _ _) h.1
      rw [hxy, ih rest1 h.2 (fun u hu v hv =>
        hinj u (List.mem_cons_of_mem _ hu) v (List.mem_cons_of_mem _ hv))]

/-- Sorting by UUID maps to sorting the UUIDs. -/
theorem map_insertionSort_uuid {α : Type} (f : α → Uuid) (l : List α) :
    (l.insertionSort (fun a b => f a ≤ f b)).map f =
      (l.map f).insertionSort (fun a b : Uuid => a ≤ b) :=
  List.map_insertionSort (fun a b => f a ≤ f b) (fun a b : Uuid => a ≤ b) f l
    (fun _ _ _ _ => Iff.rfl)

/-- A list sorted by UUID. -/
theorem sorted_insertionSort_uuid {α : Type} (f : α → Uuid) (l : List α) :
    (l.insertionSort (fun a b => f a ≤ f b)).Sorted (fun a b => f a ≤ f b) := by
  haveI : IsTotal α (fun a b => f a ≤ f b) := ⟨fun a b => Nat.le_total (f a) (f b)⟩
  haveI : IsTrans α (fun a b => f a ≤ f b) := ⟨fun _ _ _ h1 h2 => Nat.le_trans h1 h2⟩
  exact List.sorted_insertionSort _ l

/-- Sorting by UUID forgets the order of a list in which no two elements have
the same UUID. -/
theorem insertionSort_uuid_eq_of_perm {α : Type} (f : α → Uuid) (l1 l2 : List α)
    (hp : l1.Perm l2) (hnd : (l1.map f).Nodup) :
    l1.insertionSort (fun a b => f a ≤ f b) = l2.insertionSort (fun a b => f a ≤ f b) := by
  have hmap : (l1.insertionSort (fun a b => f a ≤ f b)).map f =
      (l2.insertionSort (fun a b => f a ≤ f b)).map f := by
    rw [map_insertionSort_uuid, map_insertionSort_uuid]
    refine List.eq_of_perm_of_sorted ?_ (List.sorted_insertionSort _ _)
      (List.sorted_insertionSort _ _)
    exact ((List.perm_insertionSort _ _).trans (hp.map f)).trans
      (List.perm_insertionSort _ _).symm
  refine eq_of_map_eq_map f _ _ hmap ?_
  intro x hx y hy hxy
  have hx1 : x ∈ l1 := (List.perm_insertionSort _ l1).mem_iff.mp hx
  have hy1 : y ∈ l1 := hp.mem_iff.mpr ((List.perm_insertionSort _ l2).mem_iff.mp hy)
  exact List.inj_on_of_nodup_map hnd hx1 hy1 hxy

/-- What `serializePointerContainer` appends to a list node: one node for each
object, in the order of the container. -/
theorem serializePointerContainer_ok {α : Type}
    (serialize : α → Except Exception (List SExpression)) (itemName tag : String) :
    ∀ (xs : List α) (children : List SExpression) (out : SExpression),
    serializePointerContainer serialize itemName (.list tag children) xs = .ok out ↔
      ∃ css, List.Forall₂ (fun x cs => serialize x = .ok cs) xs css ∧
        out = .list tag (children ++ css.map (SExpression.list itemName)) := by
  intro xs
  induction xs with
  | nil =>
    intro children out
    simp only [serializePointerContainer, Except.ok.injEq, List.forall₂_nil_left_iff,
      exists_eq_left, List.map_nil, List.append_nil]
    exact eq_comm
  | cons x rest ih =>
    intro children out
    simp only [serializePointerContainer]
    cases hx : serialize x with
    | error e =>
      constructor
      · intro h; cases h
      · rintro ⟨css, h, _⟩
        cases h with
        | cons h1 _ => rw [hx] at h1; cases h1
    | ok cs =>
      simp only [SExpression.appendChild]
      rw [ih]
      constructor
      · rintro ⟨css, h1, h2⟩
        refine ⟨cs :: css, List.Forall₂.cons hx h1, ?_⟩
        rw [h2]
        simp
      · rintro ⟨css, h1, h2⟩
        cases h1 with
        | @cons _ cs1 _ css1 h3 h4 =>
          rw [hx] at h3
          simp only [Except.ok.injEq] at h3
          subst h3
          refine ⟨css1, h4, ?_⟩
          rw [h2]
          simp

namespace BI_NetSegment

theorem adjacent_symm (s : BI_NetSegment) (a b : BI_NetPoint) (h : s.Adjacent a b) :
    s.Adjacent b a := by
  obtain ⟨ha, hb, h1⟩ := h
  refine ⟨hb, ha, ?_⟩
  rcases h1 with ⟨l, hl, h2⟩ | ⟨via, h2, h3⟩
  · exact Or.inl ⟨l, hl, h2.symm⟩
  · exact Or.inr ⟨via, h3, h2⟩

/-- The cohesion check in terms of the net points alone: every two net points
of the segment are joined by a chain of adjacent net points. -/
theorem cohesive_iff_connected (s : BI_NetSegment) (hnd : s.mNetPoints.Nodup)
    (hl : ∀ l ∈ s.mNetLines, l.mStartPoint ∈ s.mNetPoints ∧ l.mEndPoint ∈ s.mNetPoints) :
    s.areAllNetPointsConnectedTogether = true ↔
      ∀ a ∈ s.mNetPoints, ∀ b ∈ s.mNetPoints, Relation.ReflTransGen s.Adjacent a b := by
  rw [areAllNetPointsConnectedTogether_iff_reach s hnd hl]
  constructor
  · intro h a ha b hb
    cases hpts : s.mNetPoints with
    | nil => rw [hpts] at ha; cases ha
    | cons first rest =>
      have hf : first ∈ s.mNetPoints := by rw [hpts]; exact List.mem_cons_self _ _
      have hh : first ∈ s.mNetPoints.head? := by rw [hpts]; rfl
      have h1 := (reach_iff_adjacent s hl first a hf).mp (h first hh a ha)
      have h2 := (reach_iff_adjacent s hl first b hf).mp (h first hh b hb)
      have hsymm : Symmetric s.Adjacent := fun x y hxy => adjacent_symm s x y hxy
      exact (Relation.ReflTransGen.symmetric hsymm h1).trans h2
  · intro h first hfirst p hp
    have hf : first ∈ s.mNetPoints := List.mem_of_mem_head? hfirst
    exact (reach_iff_adjacent s hl first p hf).mpr (h first hf p hp)

/-- The cohesion check does not depend on the order of the lists. -/
theorem cohesive_of_perm (s1 s2 : BI_NetSegment) (hp : s2.mNetPoints.Perm s1.mNetPoints)
    (hq : s2.mNetLines.Perm s1.mNetLines) (hnd : s1.mNetPoints.Nodup)
    (hl : ∀ l ∈ s1.mNetLines, l.mStartPoint ∈ s1.mNetPoints ∧ l.mEndPoint ∈ s1.mNetPoints) :
    s2.areAllNetPointsConnectedTogether = s1.areAllNetPointsConnectedTogether := by
  have hnd2 : s2.mNetPoints.Nodup := hp.nodup_iff.mpr hnd
  have hl2 : ∀ l ∈ s2.mNetLines, l.mStartPoint ∈ s2.mNetPoints ∧ l.mEndPoint ∈ s2.mNetPoints :=
    fun l hlm => ⟨hp.mem_iff.mpr (hl l (hq.mem_iff.mp hlm)).1,
      hp.mem_iff.mpr (hl l (hq.mem_iff.mp hlm)).2⟩
  have hadj : s2.Adjacent = s1.Adjacent := by
    funext a b
    apply propext
    unfold Adjacent
    constructor
    · rintro ⟨ha, hb, h⟩
      refine ⟨hp.mem_iff.mp ha, hp.mem_iff.mp hb, ?_⟩
      rcases h with ⟨l, hlm, h2⟩ | h2
      · exact Or.inl ⟨l, hq.mem_iff.mp hlm, h2⟩
      · exact Or.inr h2
    · rintro ⟨ha, hb, h⟩
      refine ⟨hp.mem_iff.mpr ha, hp.mem_iff.mpr hb, ?_⟩
      rcases h with ⟨l, hlm, h2⟩ | h2
      · exact Or.inl ⟨l, hq.mem_iff.mpr hlm, h2⟩
      · exact Or.inr h2
  rw [Bool.eq_iff_iff, cohesive_iff_connected s1 hnd hl, cohesive_iff_connected s2 hnd2 hl2, hadj]
  constructor
  · intro h a ha b hb
    exact h a (hp.mem_iff.mpr ha) b (hp.mem_iff.mpr hb)
  · intro h a ha b hb
    exact h a (hp.mem_iff.mp ha) b (hp.mem_iff.mp hb)

end BI_NetSegment

namespace BI_NetSegment

/-- The output of `serialize` on a new list node. -/
theorem serialize_ok (fmt : ElementFormat) (getUuid : Nat → Uuid) (s : BI_NetSegment)
    (tag : String) (out : SExpression) :
    serialize fmt getUuid s (.list tag []) = .ok out ↔
      s.areAllNetPointsConnectedTogether = true ∧
      ∃ cvs cps cls,
        List.Forall₂ (fun x cs => fmt.serializeVia x = .ok cs)
          (s.mVias.insertionSort (fun a b => a.mUuid ≤ b.mUuid)) cvs ∧
        List.Forall₂ (fun x cs => fmt.serializeNetPoint x = .ok cs)
          (s.mNetPoints.insertionSort (fun a b => a.mUuid ≤ b.mUuid)) cps ∧
        List.Forall₂ (fun x cs => fmt.serializeNetLine x = .ok cs)
          (s.mNetLines.insertionSort (fun a b => a.mUuid ≤ b.mUuid)) cls ∧
        out = .list tag ([.uuid s.mUuid, .list "net" [.uuid (getUuid s.mNetSignal)]] ++
          cvs.map (SExpression.list "via") ++ cps.map (SExpression.list "netpoint") ++
          cls.map (SExpression.list "netline")) := by
  unfold serialize
  by_cases hc : s.areAllNetPointsConnectedTogether = true
  · have hv : s.checkAttributesValidity = true := hc
    simp only [hv, hc, not_true_eq_false, if_false, true_and, SExpression.appendNamed,
      SExpression.appendChild, List.nil_append, List.singleton_append,
      serializePointerContainerUuidSorted]
    constructor
    · intro h
      split at h
      · cases h
      · rename_i root1 h1
        split at h
        · cases h
        · rename_i root2 h2
          obtain ⟨cvs, hvs, rfl⟩ := (serializePointerContainer_ok _ _ _ _ _ _).mp h1
          obtain ⟨cps, hps, rfl⟩ := (serializePointerContainer_ok _ _ _ _ _ _).mp h2
          obtain ⟨cls, hls, rfl⟩ := (serializePointerContainer_ok _ _ _ _ _ _).mp h
          exact ⟨cvs, cps, cls, hvs, hps, hls, rfl⟩
    · rintro ⟨cvs, cps, cls, hvs, hps, hls, rfl⟩
      have h1 := (serializePointerContainer_ok fmt.serializeVia "via" tag
        (s.mVias.insertionSort (fun a b => a.mUuid ≤ b.mUuid))
        [.uuid s.mUuid, .list "net" [.uuid (getUuid s.mNetSignal)]] _).mpr ⟨cvs, hvs, rfl⟩
      have h2 := (serializePointerContainer_ok fmt.serializeNetPoint "netpoint" tag
        (s.mNetPoints.insertionSort (fun a b => a.mUuid ≤ b.mUuid))
        ([.uuid s.mUuid, .list "net" [.uuid (getUuid s.mNetSignal)]] ++
          cvs.map (SExpression.list "via")) _).mpr ⟨cps, hps, rfl⟩
      have h3 := (serializePointerContainer_ok fmt.serializeNetLine "netline" tag
        (s.mNetLines.insertionSort (fun a b => a.mUuid ≤ b.mUuid))
        ([.uuid s.mUuid, .list "net" [.uuid (getUuid s.mNetSignal)]] ++
          cvs.map (SExpression.list "via") ++ cps.map (SExpression.list "netpoint")) _).mpr
        ⟨cls, hls, rfl⟩
      simp only [h1, h2, h3]
  · have hf : s.areAllNetPointsConnectedTogether = false := Bool.eq_false_iff.mpr hc
    have hv : s.checkAttributesValidity = false := hf
    simp [hv, hf]

/-- C18: the serialized form of a net segment on a new list node is the UUID
of the segment, the list `net` with the UUID of its net signal, then one node
for each via, each net point and each net line, each kind in a rearrangement
of the list of the segment that is sorted by UUID. For a segment in which no
two elements of one kind share a UUID and the ends of the net lines are net
points of the segment, a segment with the same UUID, net signal and elements
in any other order is serialized to the same result. -/
theorem serialize_sorted_by_uuid (fmt : ElementFormat) (getUuid : Nat → Uuid)
    (s : BI_NetSegment) :
    (∀ tag out, serialize fmt getUuid s (.list tag []) = .ok out →
      ∃ vias points lines cvs cps cls,
        vias.Perm s.mVias ∧ vias.Sorted (fun a b => a.mUuid ≤ b.mUuid) ∧
        points.Perm s.mNetPoints ∧ points.Sorted (fun a b => a.mUuid ≤ b.mUuid) ∧
        lines.Perm s.mNetLines ∧ lines.Sorted (fun a b => a.mUuid ≤ b.mUuid) ∧
        List.Forall₂ (fun x cs => fmt.serializeVia x = .ok cs) vias cvs ∧
        List.Forall₂ (fun x cs => fmt.serializeNetPoint x = .ok cs) points cps ∧
        List.Forall₂ (fun x cs => fmt.serializeNetLine x = .ok cs) lines cls ∧
        out = .list tag ([.uuid s.mUuid, .list "net" [.uuid (getUuid s.mNetSignal)]] ++
          cvs.map (SExpression.list "via") ++ cps.map (SExpression.list "netpoint") ++
          cls.map (SExpression.list "netline"))) ∧
    (∀ (s2 : BI_NetSegment) (root : SExpression), s.UuidsUnique →
      (∀ l ∈ s.mNetLines, l.mStartPoint ∈ s.mNetPoints ∧ l.mEndPoint ∈ s.mNetPoints) →
      s2.mUuid = s.mUuid → s2.mNetSignal = s.mNetSignal → s2.mVias.Perm s.mVias →
      s2.mNetPoints.Perm s.mNetPoints → s2.mNetLines.Perm s.mNetLines →
      serialize fmt getUuid s2 root = serialize fmt getUuid s root) := by
  constructor
  · intro tag out h
    obtain ⟨-, cvs, cps, cls, hvs, hps, hls, hout⟩ := (serialize_ok fmt getUuid s tag out).mp h
    exact ⟨_, _, _, cvs, cps, cls, List.perm_insertionSort _ _,
      sorted_insertionSort_uuid (fun x : BI_Via => x.mUuid) _, List.perm_insertionSort _ _,
      sorted_insertionSort_uuid (fun x : BI_NetPoint => x.mUuid) _, List.perm_insertionSort _ _,
      sorted_insertionSort_uuid (fun x : BI_NetLine => x.mUuid) _, hvs, hps, hls, hout⟩
  · intro s2 root hu hl h1 h2 hv hp hq
    have hc : s2.checkAttributesValidity = s.checkAttributesValidity :=
      cohesive_of_perm s s2 hp hq (List.Nodup.of_map _ hu.2.1) hl
    have e1 := insertionSort_uuid_eq_of_perm (fun x : BI_Via => x.mUuid) _ _ hv.symm hu.1
    have e2 := insertionSort_uuid_eq_of_perm (fun x : BI_NetPoint => x.mUuid) _ _ hp.symm
      hu.2.1
    have e3 := insertionSort_uuid_eq_of_perm (fun x : BI_NetLine => x.mUuid) _ _ hq.symm
      hu.2.2
    simp only [serialize, serializePointerContainerUuidSorted, hc, h1, h2, e1, e2, e3]

/-- The segment of scenario A and the same segment with its net points and net
lines in another order are serialized to the same node: the net points 1, 2,
3, then the net lines 11, 12. -/
theorem serialize_sorted_by_uuid_witness :
    serialize SimpleFormat.format SimpleFormat.getUuid ScenarioA.reordered
        (.list "netsegment" []) =
      serialize SimpleFormat.format SimpleFormat.getUuid ScenarioA.segment
        (.list "netsegment" []) ∧
    ∃ out, serialize SimpleFormat.format SimpleFormat.getUuid ScenarioA.segment
        (.list "netsegment" []) = .ok out ∧
      out.getChildren.length = 7 :=
  ⟨(serialize_sorted_by_uuid SimpleFormat.format SimpleFormat.getUuid ScenarioA.segment).2
      ScenarioA.reordered (.list "netsegment" []) ⟨by decide, by decide, by decide⟩
      (by decide) rfl rfl (by decide)
      (by decide) (by decide),
    (((serialize_sorted_by_uuid SimpleFormat.format SimpleFormat.getUuid
      ScenarioA.segment).1 "netsegment" SimpleFormat.chain (by rfl)).elim
        fun _ _ => ⟨SimpleFormat.chain, by rfl, rfl⟩)⟩

end BI_NetSegment

/-! ## The round trip of a net segment -/

theorem forall₂_mem_left {α β : Type} {R : α → β → Prop} : ∀ {xs : List α} {ys : List β},
    List.Forall₂ R xs ys → ∀ x ∈ xs, ∃ y ∈ ys, R x y := by
  intro xs ys h
  induction h with
  | nil => intro x hx; cases hx
  | cons h1 _ ih =>
    intro x hx
    rcases List.mem_cons.mp hx with rfl | hx1
    · exact ⟨_, List.mem_cons_self _ _, h1⟩
    · obtain ⟨y, hy, hr⟩ := ih x hx1
      exact ⟨y, List.mem_cons_of_mem _ hy, hr⟩

theorem forall₂_mem_right {α β : Type} {R : α → β → Prop} : ∀ {xs : List α} {ys : List β},
    List.Forall₂ R xs ys → ∀ y ∈ ys, ∃ x ∈ xs, R x y := by
  intro xs ys h
  induction h with
  | nil => intro y hy; cases hy
  | cons h1 _ ih =>
    intro y hy
    rcases List.mem_cons.mp hy with rfl | hy1
    · exact ⟨_, List.mem_cons_self _ _, h1⟩
    · obtain ⟨x, hx, hr⟩ := ih y hy1
      exact ⟨x, List.mem_cons_of_mem _ hx, hr⟩

theorem forall₂_map_eq {α γ : Type} (f : α → γ) {R : α → α → Prop}
    (hR : ∀ x y, R x y → f y = f x) : ∀ {xs ys : List α},
    List.Forall₂ R xs ys → ys.map f = xs.map f := by
  intro xs ys h
  induction h with
  | nil => rfl
  | cons h1 _ ih => simp only [List.map_cons, hR _ _ h1, ih]

/-- The child lists with a given name among nodes that all have this name,
and among nodes that all have another name. -/
theorem filter_isList_map (name itemName : String) (css : List (List SExpression)) :
    (css.map (SExpression.list itemName)).filter (SExpression.isList name) =
      if itemName = name then css.map (SExpression.list itemName) else [] := by
  induction css with
  | nil => simp
  | cons cs rest ih =>
    by_cases h : itemName = name
    · simp only [h, if_true] at ih ⊢
      simp only [List.map_cons, List.filter_cons, SExpression.isList, beq_self_eq_true, if_true,
        ih]
    · have hb : (itemName == name) = false := by simpa using h
      simp only [h, if_false] at ih ⊢
      simp only [List.map_cons, List.filter_cons, SExpression.isList, hb, ih]
      rfl

namespace BI_NetSegment

/-- The vias loop reads the vias written by `serializePointerContainer`. -/
theorem deserializeVias_faithful (fmt : ElementFormat) (hf : fmt.Faithful) :
    ∀ (xs : List BI_Via) (css : List (List SExpression)) (ctx : BI_NetSegment),
    List.Forall₂ (fun x cs => fmt.serializeVia x = .ok cs) xs css →
    (xs.map (fun x => x.mUuid)).Nodup → (∀ x ∈ xs, ∀ y ∈ ctx.mVias, y.mUuid ≠ x.mUuid) →
    ∃ ys, deserializeVias fmt (css.map (SExpression.list "via")) ctx =
        .ok ⟨ctx.ptr, ctx.mUuid, ctx.circuit, ctx.mNetSignal, ctx.mIsAddedToBoard,
          ctx.mVias ++ ys, ctx.mNetPoints, ctx.mNetLines⟩ ∧
      List.Forall₂ (fun x y => y.mUuid = x.mUuid) xs ys ∧
      List.Forall₂ (fun y cs => fmt.serializeVia y = .ok cs) ys css := by
  intro xs
  induction xs with
  | nil =>
    intro css ctx h _ _
    cases h
    exact ⟨[], by simp [deserializeVias], List.Forall₂.nil, List.Forall₂.nil⟩
  | cons x rest ih =>
    intro css ctx h hnd hdis
    cases h with
    | @cons _ cs _ css1 hx hrest =>
      obtain ⟨y, hy1, hy2, hy3⟩ := hf.via ctx x cs hx
      have hnone : (ctx.getViaByUuid y.mUuid).isSome = false := by
        have hn : ctx.getViaByUuid y.mUuid = none := by
          simp only [getViaByUuid, List.find?_eq_none, decide_eq_true_eq]
          intro z hz
          rw [hy2]
          exact hdis x (List.mem_cons_self _ _) z hz
        rw [hn]
        rfl
      rw [List.map_cons, List.nodup_cons] at hnd
      obtain ⟨ys, h1, h2, h3⟩ := ih css1
        ⟨ctx.ptr, ctx.mUuid, ctx.circuit, ctx.mNetSignal, ctx.mIsAddedToBoard,
          ctx.mVias ++ [y], ctx.mNetPoints, ctx.mNetLines⟩ hrest hnd.2 (by
          intro x1 hx1 z hz
          rcases List.mem_append.mp hz with hz1 | hz1
          · exact hdis x1 (List.mem_cons_of_mem _ hx1) z hz1
          · rw [List.mem_singleton] at hz1
            rw [hz1, hy2]
            intro heq
            exact hnd.1 (List.mem_map.mpr ⟨x1, hx1, heq.symm⟩))
      refine ⟨y :: ys, ?_, List.Forall₂.cons hy2 h2, List.Forall₂.cons hy3 h3⟩
      simp only [List.map_cons, deserializeVias, hy1, hnone, Bool.false_eq_true, if_false, h1,
        List.append_assoc, List.singleton_append]

/-- The net points loop reads the net points written by
`serializePointerContainer`, when the vias they are attached to are found in
the segment. -/
theorem deserializeNetPoints_faithful (fmt : ElementFormat) (hf : fmt.Faithful) :
    ∀ (xs : List BI_NetPoint) (css : List (List SExpression)) (ctx : BI_NetSegment),
    List.Forall₂ (fun x cs => fmt.serializeNetPoint x = .ok cs) xs css →
    (xs.map (fun x => x.mUuid)).Nodup →
    (∀ x ∈ xs, ∀ y ∈ ctx.mNetPoints, y.mUuid ≠ x.mUuid) →
    (∀ x ∈ xs, ∀ via, x.mVia = some via → (ctx.getViaByUuid via.mUuid).isSome = true) →
    ∃ ys, deserializeNetPoints fmt (css.map (SExpression.list "netpoint")) ctx =
        .ok ⟨ctx.ptr, ctx.mUuid, ctx.circuit, ctx.mNetSignal, ctx.mIsAddedToBoard,
          ctx.mVias, ctx.mNetPoints ++ ys, ctx.mNetLines⟩ ∧
      List.Forall₂ (fun x y => y.mUuid = x.mUuid ∧
        y.mVia = x.mVia.bind (fun via => ctx.getViaByUuid via.mUuid)) xs ys ∧
      List.Forall₂ (fun y cs => fmt.serializeNetPoint y = .ok cs) ys css := by
  intro xs
  induction xs with
  | nil =>
    intro css ctx h _ _ _
    cases h
    exact ⟨[], by simp [deserializeNetPoints], List.Forall₂.nil, List.Forall₂.nil⟩
  | cons x rest ih =>
    intro css ctx h hnd hdis hvia
    cases h with
    | @cons _ cs _ css1 hx hrest =>
      obtain ⟨y, hy1, hy2, hy4, hy3⟩ := hf.netPoint ctx x cs hx (hvia x (List.mem_cons_self _ _))
      have hnone : (ctx.getNetPointByUuid y.mUuid).isSome = false := by
        have hn : ctx.getNetPointByUuid y.mUuid = none := by
          simp only [getNetPointByUuid, List.find?_eq_none, decide_eq_true_eq]
          intro z hz
          rw [hy2]
          exact hdis x (List.mem_cons_self _ _) z hz
        rw [hn]
        rfl
      rw [List.map_cons, List.nodup_cons] at hnd
      obtain ⟨ys, h1, h2, h3⟩ := ih css1
        ⟨ctx.ptr, ctx.mUuid, ctx.circuit, ctx.mNetSignal, ctx.mIsAddedToBoard,
          ctx.mVias, ctx.mNetPoints ++ [y], ctx.mNetLines⟩ hrest hnd.2 (by
          intro x1 hx1 z hz
          rcases List.mem_append.mp hz with hz1 | hz1
          · exact hdis x1 (List.mem_cons_of_mem _ hx1) z hz1
          · rw [List.mem_singleton] at hz1
            rw [hz1, hy2]
            intro heq
            exact hnd.1 (List.mem_map.mpr ⟨x1, hx1, heq.symm⟩))
          (fun x1 hx1 via hv => hvia x1 (List.mem_cons_of_mem _ hx1) via hv)
      refine ⟨y :: ys, ?_, List.Forall₂.cons ⟨hy2, hy4⟩ h2, List.Forall₂.cons hy3 h3⟩
      simp only [List.map_cons, deserializeNetPoints, hy1, hnone, Bool.false_eq_true, if_false,
        h1, List.append_assoc, List.singleton_append]

/-- The net lines loop reads the net lines written by
`serializePointerContainer`, when their ends are found in the segment. -/
theorem deserializeNetLines_faithful (fmt : ElementFormat) (hf : fmt.Faithful) :
    ∀ (xs : List BI_NetLine) (css : List (List SExpression)) (ctx : BI_NetSegment),
    List.Forall₂ (fun x cs => fmt.serializeNetLine x = .ok cs) xs css →
    (xs.map (fun x => x.mUuid)).Nodup →
    (∀ x ∈ xs, ∀ y ∈ ctx.mNetLines, y.mUuid ≠ x.mUuid) →
    (∀ x ∈ xs, (ctx.getNetPointByUuid x.mStartPoint.mUuid).isSome = true ∧
      (ctx.getNetPointByUuid x.mEndPoint.mUuid).isSome = true) →
    ∃ ys, deserializeNetLines fmt (css.map (SExpression.list "netline")) ctx =
        .ok ⟨ctx.ptr, ctx.mUuid, ctx.circuit, ctx.mNetSignal, ctx.mIsAddedToBoard,
          ctx.mVias, ctx.mNetPoints, ctx.mNetLines ++ ys⟩ ∧
      List.Forall₂ (fun x y => y.mUuid = x.mUuid ∧
        ctx.getNetPointByUuid x.mStartPoint.mUuid = some y.mStartPoint ∧
        ctx.getNetPointByUuid x.mEndPoint.mUuid = some y.mEndPoint) xs ys ∧
      List.Forall₂ (fun y cs => fmt.serializeNetLine y = .ok cs) ys css := by
  intro xs
  induction xs with
  | nil =>
    intro css ctx h _ _ _
    cases h
    exact ⟨[], by simp [deserializeNetLines], List.Forall₂.nil, List.Forall₂.nil⟩
  | cons x rest ih =>
    intro css ctx h hnd hdis hends
    cases h with
    | @cons _ cs _ css1 hx hrest =>
      obtain ⟨he1, he2⟩ := hends x (List.mem_cons_self _ _)
      obtain ⟨p1, hp1⟩ := Option.isSome_iff_exists.mp he1
      obtain ⟨p2, hp2⟩ := Option.isSome_iff_exists.mp he2
      obtain ⟨y, hy1, hy2, hy4, hy5, hy3⟩ := hf.netLine ctx x cs p1 p2 hx hp1 hp2
      have hnone : (ctx.getNetLineByUuid y.mUuid).isSome = false := by
        have hn : ctx.getNetLineByUuid y.mUuid = none := by
          simp only [getNetLineByUuid, List.find?_eq_none, decide_eq_true_eq]
          intro z hz
          rw [hy2]
          exact hdis x (List.mem_cons_self _ _) z hz
        rw [hn]
        rfl
      rw [List.map_cons, List.nodup_cons] at hnd
      obtain ⟨ys, h1, h2, h3⟩ := ih css1
        ⟨ctx.ptr, ctx.mUuid, ctx.circuit, ctx.mNetSignal, ctx.mIsAddedToBoard,
          ctx.mVias, ctx.mNetPoints, ctx.mNetLines ++ [y]⟩ hrest hnd.2 (by
          intro x1 hx1 z hz
          rcases List.mem_append.mp hz with hz1 | hz1
          · exact hdis x1 (List.mem_cons_of_mem _ hx1) z hz1
          · rw [List.mem_singleton] at hz1
            rw [hz1, hy2]
            intro heq
            exact hnd.1 (List.mem_map.mpr ⟨x1, hx1, heq.symm⟩))
          (fun x1 hx1 => hends x1 (List.mem_cons_of_mem _ hx1))
      refine ⟨y :: ys, ?_,
        List.Forall₂.cons ⟨hy2, by rw [hy4]; exact hp1, by rw [hy5]; exact hp2⟩ h2,
        List.Forall₂.cons hy3 h3⟩
      simp only [List.map_cons, deserializeNetLines, hy1, hnone, Bool.false_eq_true, if_false,
        h1, List.append_assoc, List.singleton_append]

/-- The cohesion check passes on a segment that has, for the net points and
net lines of a segment that passes it, net points and net lines with the same
UUIDs that are attached and joined in the same way. -/
theorem cohesive_of_image (s t : BI_NetSegment) (via1 : BI_Via → Option BI_Via)
    (hs : s.areAllNetPointsConnectedTogether = true) (hsnd : s.mNetPoints.Nodup)
    (hsl : ∀ l ∈ s.mNetLines, l.mStartPoint ∈ s.mNetPoints ∧ l.mEndPoint ∈ s.mNetPoints)
    (htu : (t.mNetPoints.map (fun p => p.mUuid)).Nodup)
    (htl : ∀ l ∈ t.mNetLines, l.mStartPoint ∈ t.mNetPoints ∧ l.mEndPoint ∈ t.mNetPoints)
    (hP : ∀ p ∈ s.mNetPoints, ∃ q ∈ t.mNetPoints, q.mUuid = p.mUuid ∧
      q.mVia = p.mVia.bind via1)
    (hvia : ∀ p ∈ s.mNetPoints, ∀ via, p.mVia = some via → (via1 via).isSome = true)
    (hQ : ∀ q ∈ t.mNetPoints, ∃ p ∈ s.mNetPoints, q.mUuid = p.mUuid)
    (hL : ∀ l ∈ s.mNetLines, ∃ m ∈ t.mNetLines,
      m.mStartPoint.mUuid = l.mStartPoint.mUuid ∧ m.mEndPoint.mUuid = l.mEndPoint.mUuid) :
    t.areAllNetPointsConnectedTogether = true := by
  have huniq : ∀ q1 ∈ t.mNetPoints, ∀ q2 ∈ t.mNetPoints, q1.mUuid = q2.mUuid → q1 = q2 :=
    fun q1 h1 q2 h2 h => List.inj_on_of_nodup_map htu h1 h2 h
  have hadj : ∀ a b, s.Adjacent a b → ∀ a1 ∈ t.mNetPoints, ∀ b1 ∈ t.mNetPoints,
      a1.mUuid = a.mUuid → b1.mUuid = b.mUuid → t.Adjacent a1 b1 := by
    intro a b hab a1 ha1 b1 hb1 hau hbu
    obtain ⟨ha, hb, h⟩ := hab
    refine ⟨ha1, hb1, ?_⟩
    rcases h with ⟨l, hlm, h1⟩ | ⟨via, h1, h2⟩
    · obtain ⟨m, hm, hm1, hm2⟩ := hL l hlm
      left
      refine ⟨m, hm, ?_⟩
      rcases h1 with ⟨h3, h4⟩ | ⟨h3, h4⟩
      · left
        exact ⟨huniq _ (htl m hm).1 _ ha1 (by rw [hm1, h3, hau]),
          huniq _ (htl m hm).2 _ hb1 (by rw [hm2, h4, hbu])⟩
      · right
        exact ⟨huniq _ (htl m hm).1 _ hb1 (by rw [hm1, h3, hbu]),
          huniq _ (htl m hm).2 _ ha1 (by rw [hm2, h4, hau])⟩
    · right
      obtain ⟨w, hw⟩ := Option.isSome_iff_exists.mp (hvia a ha via h1)
      obtain ⟨qa, hqa, hqa1, hqa2⟩ := hP a ha
      obtain ⟨qb, hqb, hqb1, hqb2⟩ := hP b hb
      have e1 : qa = a1 := huniq _ hqa _ ha1 (by rw [hqa1, hau])
      have e2 : qb = b1 := huniq _ hqb _ hb1 (by rw [hqb1, hbu])
      subst e1 e2
      unfold BI_NetPoint.getVia at h1 h2 ⊢
      refine ⟨w, ?_, ?_⟩
      · rw [hqa2, h1]; exact hw
      · rw [hqb2, h2]; exact hw
  have hrtg : ∀ a b, Relation.ReflTransGen s.Adjacent a b → a ∈ s.mNetPoints →
      ∀ a1 ∈ t.mNetPoints, ∀ b1 ∈ t.mNetPoints, a1.mUuid = a.mUuid → b1.mUuid = b.mUuid →
      Relation.ReflTransGen t.Adjacent a1 b1 := by
    intro a b h
    induction h with
    | refl =>
      intro _ a1 ha1 b1 hb1 hau hbu
      rw [huniq a1 ha1 b1 hb1 (hau.trans hbu.symm)]
    | @tail c d _ hcd ih =>
      intro ha a1 ha1 d1 hd1 hau hdu
      obtain ⟨c1, hc1, hcu, -⟩ := hP c hcd.1
      exact Relation.ReflTransGen.tail (ih ha a1 ha1 c1 hc1 hau hcu)
        (hadj c d hcd c1 hc1 d1 hd1 hcu hdu)
  rw [cohesive_iff_connected t (List.Nodup.of_map _ htu) htl]
  intro a1 ha1 b1 hb1
  obtain ⟨a, ha, hau⟩ := hQ a1 ha1
  obtain ⟨b, hb, hbu⟩ := hQ b1 hb1
  exact hrtg a b ((cohesive_iff_connected s hsnd hsl).mp hs a ha b hb) ha a1 ha1 b1 hb1 hau hbu

end BI_NetSegment

/-- A list that has the UUIDs of a list sorted by UUID is sorted by UUID. -/
theorem insertionSort_uuid_of_map_eq {α : Type} (f : α → Uuid) (l ys : List α)
    (h : ys.map f = (l.insertionSort (fun a b => f a ≤ f b)).map f) :
    ys.insertionSort (fun a b => f a ≤ f b) = ys := by
  apply List.Sorted.insertionSort_eq
  have h1 : List.Pairwise (fun a b : Uuid => a ≤ b)
      ((l.insertionSort (fun a b => f a ≤ f b)).map f) :=
    List.pairwise_map.mpr (sorted_insertionSort_uuid f l)
  rw [← h] at h1
  exact List.pairwise_map.mp h1

namespace BI_NetSegment

/-- The header and the child lists of a node written by `serialize`. -/
theorem serialized_node (tag : String) (uuid netUuid : Uuid)
    (cvs cps cls : List (List SExpression)) (out : SExpression)
    (hout : out = .list tag ([.uuid uuid, .list "net" [.uuid netUuid]] ++
      cvs.map (SExpression.list "via") ++ cps.map (SExpression.list "netpoint") ++
      cls.map (SExpression.list "netline"))) :
    (out.getChildByIndex 0).bind SExpression.getUuid = .ok uuid ∧
    out.getValueByPath "net" SExpression.getUuid = .ok netUuid ∧
    out.getChildrenNamed "via" = cvs.map (SExpression.list "via") ∧
    out.getChildrenNamed "netpoint" = cps.map (SExpression.list "netpoint") ∧
    out.getChildrenNamed "netline" = cls.map (SExpression.list "netline") := by
  subst hout
  have n1 : ¬ "via" = "netpoint" := by decide
  have n2 : ¬ "via" = "netline" := by decide
  have n3 : ¬ "netpoint" = "via" := by decide
  have n4 : ¬ "netpoint" = "netline" := by decide
  have n5 : ¬ "netline" = "via" := by decide
  have n6 : ¬ "netline" = "netpoint" := by decide
  have b1 : ("net" == "via") = false := by decide
  have b2 : ("net" == "netpoint") = false := by decide
  have b3 : ("net" == "netline") = false := by decide
  refine ⟨rfl, ?_, ?_, ?_, ?_⟩
  · simp [SExpression.getValueByPath, SExpression.getChildByPath, SExpression.getChildren,
      SExpression.isList, SExpression.getChildByIndex, SExpression.getUuid]
  · simp only [SExpression.getChildrenNamed, SExpression.getChildren, List.filter_append,
      filter_isList_map, n3, n5, if_false, if_true, List.append_nil, List.filter_cons,
      List.filter_nil, SExpression.isList, b1, Bool.false_eq_true, List.nil_append]
  · simp only [SExpression.getChildrenNamed, SExpression.getChildren, List.filter_append,
      filter_isList_map, n1, n6, if_false, if_true, List.append_nil, List.filter_cons,
      List.filter_nil, SExpression.isList, b2, Bool.false_eq_true, List.nil_append]
  · simp only [SExpression.getChildrenNamed, SExpression.getChildren, List.filter_append,
      filter_isList_map, n2, n4, if_false, if_true, List.append_nil, List.filter_cons,
      List.filter_nil, SExpression.isList, b3, Bool.false_eq_true, List.nil_append]

end BI_NetSegment
namespace BI_NetSegment

/-- C19: the round trip of a net segment, for element code that reads back
what it writes (`ElementFormat.Faithful`). Take a segment in which no two
elements of one kind share a UUID, whose net lines end at its net points and
whose net points are attached to its vias, and whose net signal is found in
the circuit under its UUID. When the segment is serialized to `out`, which
needs that it passes the cohesion check, `out` is loaded, into a segment with
the same UUID, the same net signal and the same element UUIDs, and that
segment is serialized to `out` again. -/
theorem serialize_deserialize_serialize (fmt : ElementFormat) (hf : fmt.Faithful)
    (getUuid : Nat → Uuid) (getNetSignalByUuid : Uuid → Option Nat) (ptr circuit : Nat)
    (s : BI_NetSegment) (tag : String) (out : SExpression)
    (hsig : getNetSignalByUuid (getUuid s.mNetSignal) = some s.mNetSignal)
    (hu : s.UuidsUnique) (hcl : s.Closed)
    (hser : serialize fmt getUuid s (.list tag []) = .ok out) :
    ∃ s1, deserialize fmt getNetSignalByUuid ptr circuit out = .ok s1 ∧
      serialize fmt getUuid s1 (.list tag []) = .ok out ∧
      s1.mUuid = s.mUuid ∧ s1.mNetSignal = s.mNetSignal ∧
      (s1.mVias.map (fun x => x.mUuid)).Perm (s.mVias.map (fun x => x.mUuid)) ∧
      (s1.mNetPoints.map (fun x => x.mUuid)).Perm (s.mNetPoints.map (fun x => x.mUuid)) ∧
      (s1.mNetLines.map (fun x => x.mUuid)).Perm (s.mNetLines.map (fun x => x.mUuid)) := by
  obtain ⟨hc, cvs, cps, cls, hvs, hps, hls, hout⟩ :=
    (serialize_ok fmt getUuid s tag out).mp hser
  obtain ⟨hd0, hd1, hd2, hd3, hd4⟩ := serialized_node tag _ _ cvs cps cls out hout
  have pv := List.perm_insertionSort (fun a b : BI_Via => a.mUuid ≤ b.mUuid) s.mVias
  have pp := List.perm_insertionSort (fun a b : BI_NetPoint => a.mUuid ≤ b.mUuid) s.mNetPoints
  have pl := List.perm_insertionSort (fun a b : BI_NetLine => a.mUuid ≤ b.mUuid) s.mNetLines
  have nv := (pv.map (fun x => x.mUuid)).nodup_iff.mpr hu.1
  have np := (pp.map (fun x => x.mUuid)).nodup_iff.mpr hu.2.1
  have nl := (pl.map (fun x => x.mUuid)).nodup_iff.mpr hu.2.2
  -- the vias
  obtain ⟨vs1, hv1, hv2, hv3⟩ := deserializeVias_faithful fmt hf _ cvs
    ⟨ptr, s.mUuid, circuit, s.mNetSignal, false, [], [], []⟩ hvs nv
    (fun _ _ y hy => by cases hy)
  simp only [List.nil_append] at hv1
  have hvu := forall₂_map_eq (fun x : BI_Via => x.mUuid) (fun _ _ h => h) hv2
  have hfindv : ∀ p ∈ s.mNetPoints, ∀ via, p.mVia = some via →
      (getViaByUuid ⟨ptr, s.mUuid, circuit, s.mNetSignal, false, vs1, [], []⟩
        via.mUuid).isSome = true := by
    intro p hp via hpv
    obtain ⟨y, hy, hyu⟩ := forall₂_mem_left hv2 via (pv.mem_iff.mpr (hcl.2 p hp via hpv))
    exact find?_isSome_of_mem _ _ y hy (by simpa using hyu)
  -- the net points
  obtain ⟨ps1, hp1, hp2, hp3⟩ := deserializeNetPoints_faithful fmt hf _ cps
    ⟨ptr, s.mUuid, circuit, s.mNetSignal, false, vs1, [], []⟩ hps np
    (fun _ _ y hy => by cases hy)
    (fun x hx via hxv => hfindv x (pp.mem_iff.mp hx) via hxv)
  simp only [List.nil_append] at hp1
  have hpu := forall₂_map_eq (fun x : BI_NetPoint => x.mUuid) (fun _ _ h => h.1) hp2
  have hfindp : ∀ p ∈ s.mNetPoints,
      (getNetPointByUuid ⟨ptr, s.mUuid, circuit, s.mNetSignal, false, vs1, ps1, []⟩
        p.mUuid).isSome = true := by
    intro p hp
    obtain ⟨y, hy, hyu, -⟩ := forall₂_mem_left hp2 p (pp.mem_iff.mpr hp)
    exact find?_isSome_of_mem _ _ y hy (by simpa using hyu)
  -- the net lines
  obtain ⟨ls1, hl1, hl2, hl3⟩ := deserializeNetLines_faithful fmt hf _ cls
    ⟨ptr, s.mUuid, circuit, s.mNetSignal, false, vs1, ps1, []⟩ hls nl
    (fun _ _ y hy => by cases hy)
    (fun x hx => ⟨hfindp _ (hcl.1 x (pl.mem_iff.mp hx)).1,
      hfindp _ (hcl.1 x (pl.mem_iff.mp hx)).2⟩)
  simp only [List.nil_append] at hl1
  have hlu := forall₂_map_eq (fun x : BI_NetLine => x.mUuid) (fun _ _ h => h.1) hl2
  -- the cohesion check on the loaded segment
  have hc3 : areAllNetPointsConnectedTogether
      ⟨ptr, s.mUuid, circuit, s.mNetSignal, false, vs1, ps1, ls1⟩ = true := by
    refine cohesive_of_image s _
      (fun via => getViaByUuid ⟨ptr, s.mUuid, circuit, s.mNetSignal, false, vs1, [], []⟩
        via.mUuid) hc (List.Nodup.of_map _ hu.2.1) hcl.1 ?_ ?_ ?_ hfindv ?_ ?_
    · show (ps1.map (fun p => p.mUuid)).Nodup
      rw [hpu]
      exact np
    · intro m hm
      obtain ⟨l, -, -, h1, h2⟩ := forall₂_mem_right hl2 m hm
      exact ⟨List.mem_of_find?_eq_some h1, List.mem_of_find?_eq_some h2⟩
    · intro p hp
      obtain ⟨q, hq, hq1, hq2⟩ := forall₂_mem_left hp2 p (pp.mem_iff.mpr hp)
      exact ⟨q, hq, hq1, hq2⟩
    · intro q hq
      obtain ⟨p, hp, hp4, -⟩ := forall₂_mem_right hp2 q hq
      exact ⟨p, pp.mem_iff.mp hp, hp4⟩
    · intro l hl
      obtain ⟨m, hm, -, h1, h2⟩ := forall₂_mem_left hl2 l (pl.mem_iff.mpr hl)
      refine ⟨m, hm, ?_, ?_⟩
      · have := List.find?_some h1
        simpa using this
      · have := List.find?_some h2
        simpa using this
  have hv3a : checkAttributesValidity
      ⟨ptr, s.mUuid, circuit, s.mNetSignal, false, vs1, ps1, ls1⟩ = true := hc3
  refine ⟨⟨ptr, s.mUuid, circuit, s.mNetSignal, false, vs1, ps1, ls1⟩, ?_, ?_, rfl, rfl,
    ?_, ?_, ?_⟩
  · simp only [deserialize, hd0, deserializeTry, hd1, hsig, hd2, hv1, hd3, hp1, hd4, hl1, hc3,
      hv3a, not_true_eq_false, if_false]
  · refine (serialize_ok fmt getUuid _ tag out).mpr ⟨hc3, cvs, cps, cls, ?_, ?_, ?_, hout⟩
    · show List.Forall₂ _ (vs1.insertionSort _) cvs
      rw [insertionSort_uuid_of_map_eq (fun x : BI_Via => x.mUuid) s.mVias vs1 hvu]
      exact hv3
    · show List.Forall₂ _ (ps1.insertionSort _) cps
      rw [insertionSort_uuid_of_map_eq (fun x : BI_NetPoint => x.mUuid) s.mNetPoints ps1 hpu]
      exact hp3
    · show List.Forall₂ _ (ls1.insertionSort _) cls
      rw [insertionSort_uuid_of_map_eq (fun x : BI_NetLine => x.mUuid) s.mNetLines ls1 hlu]
      exact hl3
  · show (vs1.map (fun x => x.mUuid)).Perm _
    rw [hvu]
    exact pv.map _
  · show (ps1.map (fun x => x.mUuid)).Perm _
    rw [hpu]
    exact pp.map _
  · show (ls1.map (fun x => x.mUuid)).Perm _
    rw [hlu]
    exact pl.map _

end BI_NetSegment
namespace SimpleFormat

/-- The format of the examples reads back what it writes. -/
theorem format_faithful : format.Faithful := by
  refine ⟨?_, ?_, ?_⟩
  · intro ctx x cs h
    simp only [format, Except.ok.injEq] at h
    subst h
    exact ⟨⟨1000 + x.mUuid, ctx.ptr, x.mUuid⟩, rfl, rfl, rfl⟩
  · intro ctx x cs h hvia
    simp only [format, serializeNetPoint] at h
    cases hx : x.mVia with
    | none =>
      rw [hx] at h
      simp only [Except.ok.injEq] at h
      subst h
      exact ⟨⟨2000 + x.mUuid, ctx.ptr, x.mUuid, (0, 0), 0, none, none⟩, rfl, rfl, rfl, rfl⟩
    | some via =>
      rw [hx] at h
      simp only [Except.ok.injEq] at h
      subst h
      obtain ⟨w, hw⟩ := Option.isSome_iff_exists.mp (hvia via hx)
      have hwu : w.mUuid = via.mUuid := by
        have := List.find?_some hw
        simpa using this
      refine ⟨⟨2000 + x.mUuid, ctx.ptr, x.mUuid, (0, 0), 0, none, some w⟩, ?_, rfl, ?_, ?_⟩
      · have e1 : (SExpression.list "netpoint"
            [.uuid x.mUuid, .list "via" [.uuid via.mUuid]]).getChildrenNamed "via" =
            [.list "via" [.uuid via.mUuid]] := rfl
        have e2 : uuidOf (.list "via" [.uuid via.mUuid]) = .ok via.mUuid := rfl
        have e3 : uuidOf (.list "netpoint" [.uuid x.mUuid, .list "via" [.uuid via.mUuid]]) =
            .ok x.mUuid := rfl
        simp only [format, netPointFromNode, e1, e2, e3, hw]
      · simp only [Option.bind, hw]
      · simp only [format, serializeNetPoint, hwu]
  · intro ctx x cs p1 p2 h h1 h2
    simp only [format, Except.ok.injEq] at h
    subst h
    have hu1 : p1.mUuid = x.mStartPoint.mUuid := by
      have := List.find?_some h1
      simpa using this
    have hu2 : p2.mUuid = x.mEndPoint.mUuid := by
      have := List.find?_some h2
      simpa using this
    refine ⟨⟨3000 + x.mUuid, x.mUuid, p1, p2, 1⟩, ?_, rfl, rfl, rfl, ?_⟩
    · have e1 : uuidOf (.list "netline" [.uuid x.mUuid, .list "p1" [.uuid x.mStartPoint.mUuid],
          .list "p2" [.uuid x.mEndPoint.mUuid]]) = .ok x.mUuid := rfl
      have e2 : (SExpression.list "netline" [.uuid x.mUuid,
          .list "p1" [.uuid x.mStartPoint.mUuid],
          .list "p2" [.uuid x.mEndPoint.mUuid]]).getValueByPath "p1" SExpression.getUuid =
          .ok x.mStartPoint.mUuid := rfl
      have e3 : (SExpression.list "netline" [.uuid x.mUuid,
          .list "p1" [.uuid x.mStartPoint.mUuid],
          .list "p2" [.uuid x.mEndPoint.mUuid]]).getValueByPath "p2" SExpression.getUuid =
          .ok x.mEndPoint.mUuid := rfl
      simp only [format, netLineFromNode, e1, e2, e3, h1, h2]
    · simp only [format, hu1, hu2]

end SimpleFormat

namespace BI_NetSegment

/-- The segment of `ViaExample`, whose elements are not in the order of their
UUIDs, is serialized to `ViaExample.node`; the node is loaded and the segment
loaded is serialized to the same node. -/
theorem serialize_deserialize_serialize_witness :
    ∃ s1, deserialize SimpleFormat.format SimpleFormat.getNetSignalByUuid 200 0
        ViaExample.node = .ok s1 ∧
      serialize SimpleFormat.format SimpleFormat.getUuid s1 (.list "netsegment" []) =
        .ok ViaExample.node ∧
      s1.mUuid = 5 ∧ s1.mNetSignal = 7 ∧
      (s1.mVias.map (fun x => x.mUuid)).Perm [50] ∧
      (s1.mNetPoints.map (fun x => x.mUuid)).Perm [6, 2, 4] ∧
      (s1.mNetLines.map (fun x => x.mUuid)).Perm [8] :=
  serialize_deserialize_serialize SimpleFormat.format SimpleFormat.format_faithful
    SimpleFormat.getUuid SimpleFormat.getNetSignalByUuid 200 0 ViaExample.segment "netsegment"
    ViaExample.node rfl ⟨by decide, by decide, by decide⟩
    ⟨by decide, fun p hp via h => by
      simp only [ViaExample.segment, List.mem_cons, List.mem_singleton, List.not_mem_nil,
        or_false] at hp
      rcases hp with rfl | rfl | rfl
      · simp only [ViaExample.point, Option.some.injEq] at h
        subst h
        exact List.mem_singleton.mpr rfl
      · cases h
      · simp only [ViaExample.point, Option.some.injEq] at h
        subst h
        exact List.mem_singleton.mpr rfl⟩
    (by rfl)

end BI_NetSegment

/-! ## Board side and shape of a footprint pad -/

namespace FootprintPad

theorem getStringOrToken_token (str : String) (throwIfEmpty : Bool) :
    (SExpression.createToken str).getStringOrToken throwIfEmpty = .ok str ∨
    (SExpression.createToken str).getStringOrToken throwIfEmpty = .error .RuntimeError := by
  unfold SExpression.createToken SExpression.getStringOrToken
  by_cases h : throwIfEmpty = true ∧ str.isEmpty = true
  · right; simp only [h, and_self, if_true]
  · left; simp only [h, if_false]

/-- C30: for every board side and every shape, reading the token that
serialization gives for it gives it back, whatever `throwIfEmpty` is; reading
a token or string with any other text than "top", "bottom", "tht", for a
shape than "round", "rect", "octagon", throws a RuntimeError, and so does
reading a node that is not a token or string. -/
theorem boardSide_and_shape_tokens :
    (∀ (x : BoardSide) (throwIfEmpty : Bool),
      deserializeBoardSide (serializeBoardSide x) throwIfEmpty = .ok x) ∧
    (∀ (x : Shape) (throwIfEmpty : Bool),
      deserializeShape (serializeShape x) throwIfEmpty = .ok x) ∧
    (∀ (str : String) (throwIfEmpty : Bool), str ≠ "top" → str ≠ "bottom" → str ≠ "tht" →
      deserializeBoardSide (SExpression.createToken str) throwIfEmpty =
        .error .RuntimeError) ∧
    (∀ (str : String) (throwIfEmpty : Bool), str ≠ "round" → str ≠ "rect" →
      str ≠ "octagon" →
      deserializeShape (SExpression.createToken str) throwIfEmpty = .error .RuntimeError) ∧
    (∀ (sexpr : SExpression) (throwIfEmpty : Bool),
      (∀ str, sexpr ≠ SExpression.createToken str) →
      deserializeBoardSide sexpr throwIfEmpty = .error .RuntimeError ∧
      deserializeShape sexpr throwIfEmpty = .error .RuntimeError) := by
  refine ⟨?_, ?_, ?_, ?_, ?_⟩
  · intro x t
    cases x <;> cases t <;> rfl
  · intro x t
    cases x <;> cases t <;> rfl
  · intro str t h1 h2 h3
    unfold deserializeBoardSide
    rcases getStringOrToken_token str t with h | h
    · simp only [h, h1, h2, h3, if_false]
    · simp only [h]
  · intro str t h1 h2 h3
    unfold deserializeShape
    rcases getStringOrToken_token str t with h | h
    · simp only [h, h1, h2, h3, if_false]
    · simp only [h]
  · intro sexpr t h
    cases sexpr with
    | string value => exact absurd rfl (h value)
    | uuid _ => exact ⟨rfl, rfl⟩
    | bool _ => exact ⟨rfl, rfl⟩
    | list _ _ => exact ⟨rfl, rfl⟩

/-- The token "tht" is read as the board side THT, the token "oval" is not
read as a shape. -/
theorem boardSide_and_shape_tokens_witness :
    deserializeBoardSide (SExpression.createToken "tht") true = .ok BoardSide.THT ∧
    deserializeShape (SExpression.createToken "oval") false = .error .RuntimeError :=
  ⟨boardSide_and_shape_tokens.1 BoardSide.THT true,
    boardSide_and_shape_tokens.2.2.2.1 "oval" false (by decide) (by decide) (by decide)⟩

end FootprintPad

/-! ## The width of a net line -/

/-- C23 (amended): the width of a board net line is a positive length: the
constructor and setWidth take a `PositiveLength`, which exists for the lengths
greater than zero and for no other, so a width of zero is rejected and the
width stored is greater than zero. The width of a schematic net line is an
`UnsignedLength`, which exists for the lengths that are not negative: a
negative width is rejected, a width of zero is accepted and stored. -/
theorem netLine_width (length : Length) :
    ((∃ w, PositiveLength.new length = .ok w ∧ w.value = length) ↔ 0 < length) ∧
    (length ≤ 0 → PositiveLength.new length = .error .RuntimeError) ∧
    (∀ (l : BI_NetLine) (w : PositiveLength), 0 < (l.setWidth w).mWidth ∧
      (l.setWidth w).mWidth = w.value) ∧
    (∀ ptr uuid p1 p2 (w : PositiveLength) (l : BI_NetLine),
      BI_NetLine.new ptr uuid p1 p2 w = .ok l → 0 < l.mWidth) ∧
    ((∃ w, UnsignedLength.new length = .ok w ∧ w.value = length) ↔ 0 ≤ length) ∧
    (length < 0 → UnsignedLength.new length = .error .RuntimeError) ∧
    (∀ (l : SI_NetLine) (w : UnsignedLength), 0 ≤ (l.setWidth w).mWidth ∧
      (l.setWidth w).mWidth = w.value) ∧
    (∀ ptr uuid p1 p2 (w : UnsignedLength) (l : SI_NetLine),
      SI_NetLine.new ptr uuid p1 p2 w = .ok l → 0 ≤ l.mWidth) := by
  refine ⟨⟨?_, ?_⟩, ?_, ?_, ?_, ⟨?_, ?_⟩, ?_, ?_, ?_⟩
  · rintro ⟨w, -, hw⟩
    rw [← hw]
    exact w.positive
  · intro h
    exact ⟨⟨length, h⟩, by simp only [PositiveLength.new, h, dite_true], rfl⟩
  · intro h
    have hn : ¬ 0 < length := not_lt.mpr h
    simp only [PositiveLength.new, hn, dite_false]
  · intro l w
    exact ⟨w.positive, rfl⟩
  · intro ptr uuid p1 p2 w l h
    unfold BI_NetLine.new at h
    split at h
    · cases h
    · simp only [Except.ok.injEq] at h
      rw [← h]
      exact w.positive
  · rintro ⟨w, -, hw⟩
    rw [← hw]
    exact w.nonnegative
  · intro h
    exact ⟨⟨length, h⟩, by simp only [UnsignedLength.new, h, dite_true], rfl⟩
  · intro h
    have hn : ¬ 0 ≤ length := not_le.mpr h
    simp only [UnsignedLength.new, hn, dite_false]
  · intro l w
    exact ⟨w.nonnegative, rfl⟩
  · intro ptr uuid p1 p2 w l h
    unfold SI_NetLine.new at h
    split at h
    · cases h
    · simp only [Except.ok.injEq] at h
      rw [← h]
      exact w.nonnegative

/-- A width of zero is not a width of a board net line; a width of 250000 is
one, and a board net line keeps it. -/
theorem netLine_width_witness :
    PositiveLength.new 0 = .error .RuntimeError ∧
    ∃ w, PositiveLength.new 250000 = .ok w ∧ w.value = 250000 :=
  ⟨(netLine_width 0).2.1 (by decide), (netLine_width 250000).1.mpr (by decide)⟩

/-- C23 fails as stated for the schematic net line: the width zero is an
`UnsignedLength`, and setWidth stores it. -/
theorem schematic_netLine_accepts_width_zero :
    ∃ w, UnsignedLength.new 0 = .ok w ∧
      (SI_NetLine.setWidth ⟨1, 1, 2, 3, 158750⟩ w).mWidth = 0 :=
  ⟨⟨0, le_refl 0⟩, rfl, rfl⟩

/-! ## Termination of the traversal -/

section Traversal
variable {α : Type} [DecidableEq α]

/-- A result of `visitAll` stays the result when the visits are replaced by
visits that return whenever the old ones did, with the same result. -/
theorem visitAll_mono {visit1 visit2 : α → List α → Option (List α)}
    (h : ∀ p points r, visit1 p points = some r → visit2 p points = some r) :
    ∀ (qs points r : List α), visitAll visit1 qs points = some r →
      visitAll visit2 qs points = some r := by
  intro qs
  induction qs with
  | nil => intro points r hr; exact hr
  | cons q rest ih =>
    intro points r hr
    simp only [visitAll] at hr ⊢
    by_cases hq : q ∈ points
    · rw [if_pos hq] at hr ⊢
      exact ih points r hr
    · rw [if_neg hq] at hr ⊢
      cases h1 : visit1 q (points ++ [q]) with
      | none => rw [h1] at hr; cases hr
      | some r1 =>
        rw [h1] at hr
        rw [h _ _ _ h1]
        exact ih r1 r hr

/-- A traversal that returns within a depth returns the same within every
greater depth. -/
theorem traverse_mono (succs : α → List α) :
    ∀ (d : Nat) (p : α) (points r : List α), traverse succs d p points = some r →
      ∀ d1, d ≤ d1 → traverse succs d1 p points = some r := by
  intro d
  induction d with
  | zero => intro p points r h; simp [traverse] at h
  | succ d ih =>
    intro p points r h d1 hd
    cases d1 with
    | zero => omega
    | succ d2 =>
      simp only [traverse] at h ⊢
      exact visitAll_mono (fun q pts r1 h1 => ih q pts r1 h1 d2 (by omega)) _ _ _ h

end Traversal

namespace BI_NetSegment

/-- C26: `findAllConnectedNetPoints` returns on every segment, from every
point `p` and every list `points` of points visited so far, whatever cycles
and repeated net lines the segment has. A nested call is made only for a point
that was just added to `points` and was not in it before, so the nesting is
never deeper than the number of entries not in `points` among the net points
of the segment and the two ends of each of its net lines: within every depth
greater than that number the function returns, and always the same list. The list returned extends
`points`, and has no point twice if `points` has none twice, as the list
`[firstPoint]` with which `areAllNetPointsConnectedTogether` calls it. -/
theorem findAllConnectedNetPoints_terminates (s : BI_NetSegment) (p : BI_NetPoint)
    (points : List BI_NetPoint) :
    unvisited s.visitable points < s.maxDepth ∧
    ∃ r, (∀ depth, unvisited s.visitable points < depth →
        s.findAllConnectedNetPoints depth p points = some r) ∧
      points ⊆ r ∧ (points.Nodup → r.Nodup) := by
  have hlen : s.visitable.length = s.mNetPoints.length + 2 * s.mNetLines.length := by
    simp [visitable]; omega
  have hbound : unvisited s.visitable points < s.maxDepth := by
    have h := unvisited_le_length s.visitable points
    unfold maxDepth
    omega
  refine ⟨hbound, ?_⟩
  obtain ⟨r, hr⟩ := traverse_total s.neighbours s.visitable (neighbours_subset s)
    (unvisited s.visitable points + 1) p points (by omega)
  obtain ⟨h1, h2, -, -⟩ := traverse_sound s.neighbours _ p points r hr
  refine ⟨r, ?_, h1, h2⟩
  intro depth hd
  rw [findAllConnectedNetPoints_eq]
  exact traverse_mono s.neighbours _ p points r hr depth (by omega)

/-- On the cycle P1 - P2 - P3 - P1 with a doubled net line the traversal from
P1 returns the three points, each once. -/
theorem findAllConnectedNetPoints_terminates_witness :
    Cyclic.segment.findAllConnectedNetPoints Cyclic.segment.maxDepth ScenarioA.P1
        [ScenarioA.P1] = some [ScenarioA.P1, ScenarioA.P2, ScenarioA.P3] ∧
    ∃ r, Cyclic.segment.findAllConnectedNetPoints 8 ScenarioA.P1 [ScenarioA.P1] = some r ∧
      r.Nodup :=
  ⟨by decide,
    (findAllConnectedNetPoints_terminates Cyclic.segment ScenarioA.P1 [ScenarioA.P1]).2.elim
      fun r hr => ⟨r, hr.1 8 (by decide), hr.2.2 (by decide)⟩⟩

end BI_NetSegment

/-! ## The registrations of a net signal -/

namespace NetSignal

/-- A state with the lists and the flag of a state with `Registered`. -/
theorem registered_of_fields (s s1 : NetSignal) (h : s.Registered)
    (h1 : s1.mRegisteredComponentSignals = s.mRegisteredComponentSignals)
    (h2 : s1.mRegisteredSchematicNetSegments = s.mRegisteredSchematicNetSegments)
    (h3 : s1.mRegisteredBoardNetSegments = s.mRegisteredBoardNetSegments)
    (h4 : s1.mRegisteredBoardPlanes = s.mRegisteredBoardPlanes)
    (h5 : s1.mIsAddedToCircuit = s.mIsAddedToCircuit) : s1.Registered := by
  unfold Registered isUsed getRegisteredElementsCount at *
  rw [h1, h2, h3, h4, h5]
  exact h

/-- A state that is added to the circuit and whose lists hold no element
twice. -/
theorem registered_of_added (s : NetSignal) (h0 : s.mIsAddedToCircuit = true)
    (h1 : s.mRegisteredComponentSignals.Nodup) (h2 : s.mRegisteredSchematicNetSegments.Nodup)
    (h3 : s.mRegisteredBoardNetSegments.Nodup) (h4 : s.mRegisteredBoardPlanes.Nodup) :
    s.Registered :=
  ⟨fun _ => h0, h1, h2, h3, h4⟩

theorem updateErcMessages_registered (s : NetSignal) (h : s.Registered) :
    s.updateErcMessages.Registered := by
  obtain ⟨f1, f2, f3, f4, f5, -, -, -⟩ := updateErcMessages_fields s
  exact registered_of_fields s _ h f1 f2 f3 f4 f5

theorem registerComponentSignal_registered (s : NetSignal) (e : ComponentSignalInstance) (h : s.Registered) :
    (s.registerComponentSignal e).state.Registered := by
  unfold registerComponentSignal
  split
  · exact h
  · rename_i hc
    simp only [not_or, not_not] at hc
    apply updateErcMessages_registered
    exact registered_of_added _ hc.1 (List.nodup_append.mpr ⟨h.2.1, List.nodup_singleton _, by
          intro a ha hb; rw [List.mem_singleton] at hb; subst hb
          exact hc.2.1 ha⟩) h.2.2.1 h.2.2.2.1 h.2.2.2.2

theorem unregisterComponentSignal_registered (s : NetSignal) (e : ComponentSignalInstance) (h : s.Registered) :
    (s.unregisterComponentSignal e).state.Registered ∧
    ((s.unregisterComponentSignal e).thrown = none →
      e ∉ (s.unregisterComponentSignal e).state.mRegisteredComponentSignals) := by
  unfold unregisterComponentSignal
  split
  · exact ⟨h, fun ht => by simp [Outcome.thrown] at ht⟩
  · rename_i hc
    simp only [not_or, not_not] at hc
    refine ⟨?_, fun _ => ?_⟩
    · apply updateErcMessages_registered
      exact registered_of_added _ hc.1 (h.2.1.erase _) h.2.2.1 h.2.2.2.1 h.2.2.2.2
    · simp only [Outcome.state]
      rw [(updateErcMessages_fields _).1]
      exact fun hm => ((h.2.1).mem_erase_iff.mp hm).1 rfl

theorem registerSchematicNetSegment_registered (s : NetSignal) (e : SI_NetSegment) (h : s.Registered) :
    (s.registerSchematicNetSegment e).state.Registered := by
  unfold registerSchematicNetSegment
  split
  · exact h
  · rename_i hc
    simp only [not_or, not_not] at hc
    apply updateErcMessages_registered
    exact registered_of_added _ hc.1 h.2.1 (List.nodup_append.mpr ⟨h.2.2.1, List.nodup_singleton _, by
          intro a ha hb; rw [List.mem_singleton] at hb; subst hb
          exact hc.2.1 ha⟩) h.2.2.2.1 h.2.2.2.2

theorem unregisterSchematicNetSegment_registered (s : NetSignal) (e : SI_NetSegment) (h : s.Registered) :
    (s.unregisterSchematicNetSegment e).state.Registered ∧
    ((s.unregisterSchematicNetSegment e).thrown = none →
      e ∉ (s.unregisterSchematicNetSegment e).state.mRegisteredSchematicNetSegments) := by
  unfold unregisterSchematicNetSegment
  split
  · exact ⟨h, fun ht => by simp [Outcome.thrown] at ht⟩
  · rename_i hc
    simp only [not_or, not_not] at hc
    refine ⟨?_, fun _ => ?_⟩
    · apply updateErcMessages_registered
      exact registered_of_added _ hc.1 h.2.1 (h.2.2.1.erase _) h.2.2.2.1 h.2.2.2.2
    · simp only [Outcome.state]
      rw [(updateErcMessages_fields _).2.1]
      exact fun hm => ((h.2.2.1).mem_erase_iff.mp hm).1 rfl

theorem registerBoardNetSegment_registered (s : NetSignal) (e : BI_NetSegmentPtr) (h : s.Registered) :
    (s.registerBoardNetSegment e).state.Registered := by
  unfold registerBoardNetSegment
  split
  · exact h
  · rename_i hc
    simp only [not_or, not_not] at hc
    apply updateErcMessages_registered
    exact registered_of_added _ hc.1 h.2.1 h.2.2.1 (List.nodup_append.mpr ⟨h.2.2.2.1, List.nodup_singleton _, by
          intro a ha hb; rw [List.mem_singleton] at hb; subst hb
          exact hc.2.1 ha⟩) h.2.2.2.2

theorem unregisterBoardNetSegment_registered (s : NetSignal) (e : BI_NetSegmentPtr) (h : s.Registered) :
    (s.unregisterBoardNetSegment e).state.Registered ∧
    ((s.unregisterBoardNetSegment e).thrown = none →
      e ∉ (s.unregisterBoardNetSegment e).state.mRegisteredBoardNetSegments) := by
  unfold unregisterBoardNetSegment
  split
  · exact ⟨h, fun ht => by simp [Outcome.thrown] at ht⟩
  · rename_i hc
    simp only [not_or, not_not] at hc
    refine ⟨?_, fun _ => ?_⟩
    · apply updateErcMessages_registered
      exact registered_of_added _ hc.1 h.2.1 h.2.2.1 (h.2.2.2.1.erase _) h.2.2.2.2
    · simp only [Outcome.state]
      rw [(updateErcMessages_fields _).2.2.1]
      exact fun hm => ((h.2.2.2.1).mem_erase_iff.mp hm).1 rfl

theorem registerBoardPlane_registered (s : NetSignal) (e : BI_Plane) (h : s.Registered) :
    (s.registerBoardPlane e).state.Registered := by
  unfold registerBoardPlane
  split
  · exact h
  · rename_i hc
    simp only [not_or, not_not] at hc
    apply updateErcMessages_registered
    exact registered_of_added _ hc.1 h.2.1 h.2.2.1 h.2.2.2.1 (List.nodup_append.mpr ⟨h.2.2.2.2, List.nodup_singleton _, by
          intro a ha hb; rw [List.mem_singleton] at hb; subst hb
          exact hc.2.1 ha⟩)

theorem unregisterBoardPlane_registered (s : NetSignal) (e : BI_Plane) (h : s.Registered) :
    (s.unregisterBoardPlane e).state.Registered ∧
    ((s.unregisterBoardPlane e).thrown = none →
      e ∉ (s.unregisterBoardPlane e).state.mRegisteredBoardPlanes) := by
  unfold unregisterBoardPlane
  split
  · exact ⟨h, fun ht => by simp [Outcome.thrown] at ht⟩
  · rename_i hc
    simp only [not_or, not_not] at hc
    refine ⟨?_, fun _ => ?_⟩
    · apply updateErcMessages_registered
      exact registered_of_added _ hc.1 h.2.1 h.2.2.1 h.2.2.2.1 (h.2.2.2.2.erase _)
    · simp only [Outcome.state]
      rw [(updateErcMessages_fields _).2.2.2.1]
      exact fun hm => ((h.2.2.2.2).mem_erase_iff.mp hm).1 rfl

theorem addToCircuit_registered {C : Type} (nc : NetClasses C) (st : NetSignal × C)
    (h : st.1.Registered) : (addToCircuit nc st).state.1.Registered := by
  unfold addToCircuit
  split
  · exact h
  · split
    · exact h
    · apply updateErcMessages_registered
      exact registered_of_added _ rfl h.2.1 h.2.2.1 h.2.2.2.1 h.2.2.2.2

theorem removeFromCircuit_registered {C : Type} (nc : NetClasses C) (st : NetSignal × C)
    (h : st.1.Registered) : (removeFromCircuit nc st).state.1.Registered := by
  unfold removeFromCircuit
  split
  · exact h
  · split
    · exact h
    · rename_i hu
      split
      · exact h
      · apply updateErcMessages_registered
        refine ⟨fun hused => ?_, h.2.1, h.2.2.1, h.2.2.2.1, h.2.2.2.2⟩
        exact absurd hused hu

theorem setName_registered (s : NetSignal) (name : String) (isAutoName : Bool)
    (h : s.Registered) :
    (match s.setName name isAutoName with
      | .ok (s1, _) => s1.Registered
      | .error (_, s1) => s1.Registered) := by
  unfold setName
  split_ifs with h1 h2
  · exact h
  · exact h
  · obtain ⟨f1, f2, f3, f4, f5, -, -, -⟩ :=
      updateErcMessages_fields { s with mName := name, mHasAutoName := isAutoName }
    exact registered_of_fields s _ h f1 f2 f3 f4 f5

theorem new_registered (ptr circuit : Nat) (uuid : Uuid) (netclass : Nat) (name : String)
    (autoName : Bool) (s : NetSignal)
    (h : NetSignal.new ptr circuit uuid netclass name autoName = .ok s) : s.Registered := by
  unfold NetSignal.new at h
  simp only at h
  split at h
  · cases h
  · simp only [Except.ok.injEq] at h
    subst h
    exact ⟨fun hu => by simp [isUsed, getRegisteredElementsCount] at hu, List.nodup_nil,
      List.nodup_nil, List.nodup_nil, List.nodup_nil⟩

theorem load_registered (ptr circuit : Nat) (classes : CircuitNetClasses) (node : SExpression)
    (s : NetSignal) (h : NetSignal.load ptr circuit classes node = .ok s) : s.Registered := by
  unfold NetSignal.load at h
  split at h
  · cases h
  · split at h
    · cases h
    · split at h
      · cases h
      · split at h
        · cases h
        · simp only at h
          split at h
          · cases h
          · split at h
            · cases h
            · simp only [Except.ok.injEq] at h
              subst h
              exact ⟨fun hu => by simp [isUsed, getRegisteredElementsCount] at hu,
                List.nodup_nil, List.nodup_nil, List.nodup_nil, List.nodup_nil⟩

end NetSignal

/-- Every call keeps the registrations of a net signal in order. -/
theorem NetSignalCall.run_registered {C : Type} (nc : NetClasses C) (call : NetSignalCall)
    (st : NetSignal × C) (h : st.1.Registered) : (call.run nc st).state.1.Registered := by
  cases call with
  | setName name isAutoName =>
    have hk := NetSignal.setName_registered st.1 name isAutoName h
    simp only [NetSignalCall.run]
    cases hs : st.1.setName name isAutoName with
    | ok r => obtain ⟨s1, l⟩ := r; rw [hs] at hk; exact hk
    | error r => obtain ⟨e, s1⟩ := r; rw [hs] at hk; exact hk
  | addToCircuit => exact NetSignal.addToCircuit_registered nc st h
  | removeFromCircuit => exact NetSignal.removeFromCircuit_registered nc st h
  | registerComponentSignal e =>
    simp only [NetSignalCall.run, (NetSignalCall.lift_state _ st.2).1]
    exact NetSignal.registerComponentSignal_registered st.1 e h
  | unregisterComponentSignal e =>
    simp only [NetSignalCall.run, (NetSignalCall.lift_state _ st.2).1]
    exact (NetSignal.unregisterComponentSignal_registered st.1 e h).1
  | registerSchematicNetSegment e =>
    simp only [NetSignalCall.run, (NetSignalCall.lift_state _ st.2).1]
    exact NetSignal.registerSchematicNetSegment_registered st.1 e h
  | unregisterSchematicNetSegment e =>
    simp only [NetSignalCall.run, (NetSignalCall.lift_state _ st.2).1]
    exact (NetSignal.unregisterSchematicNetSegment_registered st.1 e h).1
  | registerBoardNetSegment e =>
    simp only [NetSignalCall.run, (NetSignalCall.lift_state _ st.2).1]
    exact NetSignal.registerBoardNetSegment_registered st.1 e h
  | unregisterBoardNetSegment e =>
    simp only [NetSignalCall.run, (NetSignalCall.lift_state _ st.2).1]
    exact (NetSignal.unregisterBoardNetSegment_registered st.1 e h).1
  | registerBoardPlane e =>
    simp only [NetSignalCall.run, (NetSignalCall.lift_state _ st.2).1]
    exact NetSignal.registerBoardPlane_registered st.1 e h
  | unregisterBoardPlane e =>
    simp only [NetSignalCall.run, (NetSignalCall.lift_state _ st.2).1]
    exact (NetSignal.unregisterBoardPlane_registered st.1 e h).1

/-- C25: a net signal that one of its two constructors has constructed has no
registrant; in every state reached from there by any sequence of calls of
setName, addToCircuit, removeFromCircuit and the register and unregister
functions, whether the calls return or throw, a signal that has a registrant
is added to the circuit and none of the four registrant lists holds an element
twice. So after a call of an unregister function that returned, the element is
in its list no more. -/
theorem registrants_in_order {C : Type} (nc : NetClasses C) :
    (∀ ptr circuit uuid netclass name autoName s,
      NetSignal.new ptr circuit uuid netclass name autoName = .ok s →
      s.Registered ∧ s.isUsed = false) ∧
    (∀ ptr circuit classes node s, NetSignal.load ptr circuit classes node = .ok s →
      s.Registered ∧ s.isUsed = false) ∧
    (∀ (calls : List NetSignalCall) (st : NetSignal × C), st.1.Registered →
      ∀ o ∈ NetSignalCall.trace nc calls st, o.state.1.Registered) ∧
    (∀ s : NetSignal, s.Registered →
      (∀ e, (s.unregisterComponentSignal e).thrown = none →
        e ∉ (s.unregisterComponentSignal e).state.mRegisteredComponentSignals) ∧
      (∀ e, (s.unregisterSchematicNetSegment e).thrown = none →
        e ∉ (s.unregisterSchematicNetSegment e).state.mRegisteredSchematicNetSegments) ∧
      (∀ e, (s.unregisterBoardNetSegment e).thrown = none →
        e ∉ (s.unregisterBoardNetSegment e).state.mRegisteredBoardNetSegments) ∧
      (∀ e, (s.unregisterBoardPlane e).thrown = none →
        e ∉ (s.unregisterBoardPlane e).state.mRegisteredBoardPlanes)) := by
  have hempty : ∀ s : NetSignal, s.Registered → s.mIsAddedToCircuit = false →
      s.isUsed = false := by
    intro s hs hf
    cases hu : s.isUsed with
    | false => rfl
    | true => rw [hs.1 hu] at hf; cases hf
  refine ⟨?_, ?_, ?_, ?_⟩
  · intro ptr circuit uuid netclass name autoName s h
    refine ⟨NetSignal.new_registered _ _ _ _ _ _ s h, ?_⟩
    unfold NetSignal.new at h
    simp only at h
    split at h
    · cases h
    · simp only [Except.ok.injEq] at h
      subst h
      rfl
  · intro ptr circuit classes node s h
    have hr := NetSignal.load_registered _ _ _ _ s h
    refine ⟨hr, hempty s hr ?_⟩
    unfold NetSignal.load at h
    split at h
    · cases h
    · split at h
      · cases h
      · split at h
        · cases h
        · split at h
          · cases h
          · simp only at h
            split at h
            · cases h
            · split at h
              · cases h
              · simp only [Except.ok.injEq] at h
                subst h
                rfl
  · intro calls
    induction calls with
    | nil => intro st _ o ho; cases ho
    | cons c rest ih =>
      intro st hst o ho
      simp only [NetSignalCall.trace, List.mem_cons] at ho
      rcases ho with rfl | ho
      · exact NetSignalCall.run_registered nc c st hst
      · exact ih _ (NetSignalCall.run_registered nc c st hst) o ho
  · intro s hs
    exact ⟨fun e => (NetSignal.unregisterComponentSignal_registered s e hs).2,
      fun e => (NetSignal.unregisterSchematicNetSegment_registered s e hs).2,
      fun e => (NetSignal.unregisterBoardNetSegment_registered s e hs).2,
      fun e => (NetSignal.unregisterBoardPlane_registered s e hs).2⟩

/-- The signal of scenario D, which has a registered pin, stays added to the
circuit through an attempt to remove it and an attempt to register the pin
again, and the pin stays registered once. -/
theorem registrants_in_order_witness :
    ∀ o ∈ NetSignalCall.trace ScenarioD.netClasses
        [NetSignalCall.removeFromCircuit, NetSignalCall.registerComponentSignal ScenarioD.pin]
        (ScenarioD.signal, ()),
      o.state.1.Registered :=
  (registrants_in_order ScenarioD.netClasses).2.2.1 _ (ScenarioD.signal, ())
    ⟨fun _ => by decide, by decide, by decide, by decide, by decide⟩

/-! ## Batches that are refused -/

namespace BI_NetSegment

/-- C28: on a segment that is not added to the board, addElements and
removeElements throw a LogicError for every batch, the three empty lists
included, and leave the segment and the board items as they are. A call of
removeElements that lists an element that is not in the segment throws: a
LogicError with nothing changed when the element that is not in the segment
is the first net line listed, in every case an exception, and when the element
operations undo each other the state of every board item is the one before the
call and the segment has the elements it had before the call. -/
theorem batch_refused {W : Type} (ops : BoardItems W) (vias : List BI_Via)
    (netpoints : List BI_NetPoint) (netlines : List BI_NetLine) (st : SegmentState W) :
    (st.seg.mIsAddedToBoard = false →
      addElements ops vias netpoints netlines st = .error (.LogicError, st) ∧
      removeElements ops vias netpoints netlines st = .error (.LogicError, st)) ∧
    (∀ l, st.seg.mIsAddedToBoard = true → l ∉ st.seg.mNetLines →
      removeElements ops vias netpoints (l :: netlines) st = .error (.LogicError, st)) ∧
    (((∃ x ∈ vias, x ∉ st.seg.mVias) ∨ (∃ x ∈ netpoints, x ∉ st.seg.mNetPoints) ∨
        (∃ x ∈ netlines, x ∉ st.seg.mNetLines)) →
      (removeElements ops vias netpoints netlines st).thrown ≠ none ∧
      (ops.Reversible → (removeElements ops vias netpoints netlines st).state.Restored st)) := by
  refine ⟨?_, ?_, ?_⟩
  · intro h
    constructor
    · simp only [addElements, h, Bool.false_eq_true, not_false_eq_true, if_true]
    · simp only [removeElements, h, Bool.false_eq_true, not_false_eq_true, if_true]
  · intro l hadd hl
    simp only [removeElements, hadd, not_true_eq_false, if_false, removeElementsNetLines, hl,
      not_false_eq_true, if_true, ScopeGuardList.unwind, List.foldl_nil]
  · intro h
    have hthrown : (removeElements ops vias netpoints netlines st).thrown ≠ none := by
      intro hnone
      obtain ⟨-, -, h1, h2, h3⟩ := removeElements_ok ops vias netpoints netlines st hnone
      rcases h with ⟨x, hx, hn⟩ | ⟨x, hx, hn⟩ | ⟨x, hx, hn⟩
      · exact hn (h1 x hx)
      · exact hn (h2 x hx)
      · exact hn (h3 x hx)
    exact ⟨hthrown, fun hrev => removeElements_thrown_state ops hrev vias netpoints netlines st
      hthrown⟩

/-- The segment of scenario A before it is added to the board refuses the
empty batch; added to the board, it refuses to remove a net point that it does
not hold together with its net line L2, and L2 and its flags are as before. -/
theorem batch_refused_witness :
    addElements flagItems [] [] [] ⟨ScenarioA.loaded, ScenarioA.noFlags⟩ =
      .error (.LogicError, ⟨ScenarioA.loaded, ScenarioA.noFlags⟩) ∧
    (removeElements flagItems [] [ScenarioA.point 9] [ScenarioA.L2]
      ⟨ScenarioA.segment, ScenarioA.flags⟩).thrown ≠ none ∧
    (removeElements flagItems [] [ScenarioA.point 9] [ScenarioA.L2]
      ⟨ScenarioA.segment, ScenarioA.flags⟩).state.Restored
        ⟨ScenarioA.segment, ScenarioA.flags⟩ :=
  ⟨((batch_refused flagItems [] [] [] ⟨ScenarioA.loaded, ScenarioA.noFlags⟩).1 rfl).1,
    ((batch_refused flagItems [] [ScenarioA.point 9] [ScenarioA.L2]
      ⟨ScenarioA.segment, ScenarioA.flags⟩).2.2 (Or.inr (Or.inl (by decide)))).1,
    ((batch_refused flagItems [] [ScenarioA.point 9] [ScenarioA.L2]
      ⟨ScenarioA.segment, ScenarioA.flags⟩).2.2 (Or.inr (Or.inl (by decide)))).2
      flagItems_reversible⟩

end BI_NetSegment

/-! ## Two net points -/

namespace BI_NetSegment

/-- The net line joins the two net points, in one direction or the other. -/
theorem two_points_cohesive_iff (s : BI_NetSegment) (a b : BI_NetPoint)
    (hpts : s.mNetPoints = [a, b]) (hab : a ≠ b) (ha : a.mVia = none) (hb : b.mVia = none)
    (hl : ∀ l ∈ s.mNetLines, l.mStartPoint ∈ s.mNetPoints ∧ l.mEndPoint ∈ s.mNetPoints) :
    s.areAllNetPointsConnectedTogether = true ↔
      ∃ l ∈ s.mNetLines, (l.mStartPoint = a ∧ l.mEndPoint = b) ∨
        (l.mStartPoint = b ∧ l.mEndPoint = a) := by
  have hnd : s.mNetPoints.Nodup := by
    rw [hpts]
    simp [hab]
  have hma : a ∈ s.mNetPoints := by rw [hpts]; simp
  have hmb : b ∈ s.mNetPoints := by rw [hpts]; simp
  rw [cohesive_iff_connected s hnd hl]
  constructor
  · intro h
    by_contra hno
    have hstay : ∀ x, Relation.ReflTransGen s.Adjacent a x → x = a := by
      intro x hx
      induction hx with
      | refl => rfl
      | @tail c d _ hcd ih =>
        subst ih
        obtain ⟨-, hd, hcase⟩ := hcd
        rw [hpts] at hd
        simp only [List.mem_cons, List.mem_singleton, List.not_mem_nil, or_false] at hd
        rcases hd with rfl | rfl
        · rfl
        · exfalso
          rcases hcase with hline | ⟨via, hv, -⟩
          · exact hno hline
          · unfold BI_NetPoint.getVia at hv
            rw [ha] at hv
            cases hv
    exact hab (hstay b (h a hma b hmb)).symm
  · rintro ⟨l, hlm, hj⟩
    have h1 : s.Adjacent a b := ⟨hma, hmb, Or.inl ⟨l, hlm, hj⟩⟩
    have h2 : s.Adjacent b a := adjacent_symm s a b h1
    intro x hx y hy
    rw [hpts] at hx hy
    simp only [List.mem_cons, List.mem_singleton, List.not_mem_nil, or_false] at hx hy
    rcases hx with rfl | rfl <;> rcases hy with rfl | rfl
    · exact Relation.ReflTransGen.refl
    · exact Relation.ReflTransGen.single h1
    · exact Relation.ReflTransGen.single h2
    · exact Relation.ReflTransGen.refl

/-- C21: a segment has exactly the two net points `a` and `b`, neither
attached to a via, and its net lines end at its net points. Whatever the
positions and the layers of `a` and `b` are, the segment passes the cohesion
check exactly when one of its net lines joins `a` and `b`; without net lines
it fails the check. So on an empty segment addElements of the two points alone
throws, and addElements of the two points and a net line that joins them
returns, with the three elements in the segment, when the element operations
return. -/
theorem two_points_need_a_line (a b : BI_NetPoint) (hab : a ≠ b) (ha : a.mVia = none)
    (hb : b.mVia = none) :
    (∀ s : BI_NetSegment, s.mNetPoints = [a, b] →
      (∀ l ∈ s.mNetLines, l.mStartPoint ∈ s.mNetPoints ∧ l.mEndPoint ∈ s.mNetPoints) →
      (s.areAllNetPointsConnectedTogether = true ↔
        ∃ l ∈ s.mNetLines, (l.mStartPoint = a ∧ l.mEndPoint = b) ∨
          (l.mStartPoint = b ∧ l.mEndPoint = a))) ∧
    (∀ s : BI_NetSegment, s.mNetPoints = [a, b] → s.mNetLines = [] →
      s.areAllNetPointsConnectedTogether = false) ∧
    (∀ {W : Type} (ops : BoardItems W) (st : SegmentState W), st.seg.mNetPoints = [] →
      st.seg.mNetLines = [] →
      (addElements ops [] [a, b] [] st).thrown ≠ none) ∧
    (∀ {W : Type} (ops : BoardItems W) (st : SegmentState W) (l : BI_NetLine) (w1 w2 w3 : W),
      st.seg.mIsAddedToBoard = true → st.seg.mNetPoints = [] → st.seg.mNetLines = [] →
      a.mNetSegment = st.seg.ptr → b.mNetSegment = st.seg.ptr → a.mUuid ≠ b.mUuid →
      ((l.mStartPoint = a ∧ l.mEndPoint = b) ∨ (l.mStartPoint = b ∧ l.mEndPoint = a)) →
      ops.netPointAddToBoard a st.items = .ok w1 → ops.netPointAddToBoard b w1 = .ok w2 →
      ops.netLineAddToBoard l w2 = .ok w3 →
      addElements ops [] [a, b] [l] st =
        .ok ⟨{ st.seg with mNetPoints := [a, b], mNetLines := [l] }, w3⟩) := by
  have hno : ∀ s : BI_NetSegment, s.mNetPoints = [a, b] → s.mNetLines = [] →
      s.areAllNetPointsConnectedTogether = false := by
    intro s hpts hlines
    rw [Bool.eq_false_iff]
    intro hc
    obtain ⟨l, hl, -⟩ := (two_points_cohesive_iff s a b hpts hab ha hb
      (by rw [hlines]; intro l hl; cases hl)).mp hc
    rw [hlines] at hl
    cases hl
  refine ⟨fun s hpts hl => two_points_cohesive_iff s a b hpts hab ha hb hl, hno, ?_, ?_⟩
  · intro W ops st hpts hlines hnone
    obtain ⟨-, hseg, -⟩ := addElements_ok ops [] [a, b] [] st hnone
    have hc := addElements_ok_cohesive ops [] [a, b] [] st hnone
    rw [hseg] at hc
    rw [hno _ (by simp [hpts]) (by simp [hlines])] at hc
    cases hc
  · intro W ops st l w1 w2 w3 hadd hpts hlines hsa hsb hu hj h1 h2 h3
    have hseg : l.getNetSegment = st.seg.ptr := by
      unfold BI_NetLine.getNetSegment
      rcases hj with ⟨h, -⟩ | ⟨h, -⟩
      · rw [h]; exact hsa
      · rw [h]; exact hsb
    have hc : ∀ s1 : BI_NetSegment, s1.mNetPoints = [a, b] → s1.mNetLines = [l] →
        s1.areAllNetPointsConnectedTogether = true := by
      intro s1 hp1 hl1
      refine (two_points_cohesive_iff s1 a b hp1 hab ha hb ?_).mpr
        ⟨l, by rw [hl1]; exact List.mem_singleton.mpr rfl, hj⟩
      intro l1 hm
      rw [hl1] at hm
      rw [List.mem_singleton.mp hm, hp1]
      rcases hj with ⟨h, h'⟩ | ⟨h, h'⟩ <;> rw [h, h'] <;> simp
    have hba : ¬ b = a := fun h => hab h.symm
    have hua : ¬ a.mUuid = b.mUuid := hu
    simp [addElements, hadd, addElementsVias, addElementsNetPoints, addElementsNetLines, hpts,
      hlines, hsa, hsb, hseg, getNetPointByUuid, getNetLineByUuid, h1, h2, h3, hba, hua]
    exact hc _ rfl rfl

/-- Scenario B: P1 and `Q` are at the same position on different layers.
Adding them alone to the empty segment throws; adding them with the net line
`L` between them returns. -/
theorem two_points_need_a_line_witness :
    (addElements flagItems [] [ScenarioA.P1, ScenarioB.Q] []
      ⟨ScenarioA.empty, ScenarioA.noFlags⟩).thrown ≠ none ∧
    (addElements flagItems [] [ScenarioA.P1, ScenarioB.Q] [ScenarioB.L]
      ⟨ScenarioA.empty, ScenarioA.noFlags⟩).thrown = none :=
  ⟨(two_points_need_a_line ScenarioA.P1 ScenarioB.Q (by decide) rfl rfl).2.2.1 flagItems
      ⟨ScenarioA.empty, ScenarioA.noFlags⟩ rfl rfl,
    by
      rw [(two_points_need_a_line ScenarioA.P1 ScenarioB.Q (by decide) rfl rfl).2.2.2 flagItems
        ⟨ScenarioA.empty, ScenarioA.noFlags⟩ ScenarioB.L _ _ _ rfl rfl rfl rfl rfl (by decide)
        (Or.inl ⟨rfl, rfl⟩) rfl rfl rfl]
      rfl⟩

end BI_NetSegment

/-! ## Footprint pads: position and registered net points -/

namespace QMap

theorem mem_values_of_find {β : Type} (m : QMap β) (key : String) (v : β)
    (h : m.find key = some v) : v ∈ m.values := by
  unfold find at h
  cases hf : List.find? (fun e => e.1 == key) m with
  | none => rw [hf] at h; cases h
  | some e =>
    rw [hf] at h
    simp only [Option.map_some', Option.some.injEq] at h
    exact List.mem_map.mpr ⟨e, List.mem_of_find?_eq_some hf, h⟩

end QMap

namespace BI_FootprintPad

/-- The loop of `updatePosition`: the net points listed are at the position,
the others are as before, and nothing but the position of a net point is
changed. -/
theorem setPositions_spec (position : Point) : ∀ (ptrs : List Nat) (netpoints : NetPoints),
    (∀ a ∈ ptrs, (setPositions position ptrs netpoints a).mPosition = position) ∧
    (∀ a, a ∉ ptrs → setPositions position ptrs netpoints a = netpoints a) ∧
    (∀ a, (setPositions position ptrs netpoints a).setPosition (netpoints a).mPosition =
      netpoints a) := by
  intro ptrs
  induction ptrs with
  | nil =>
    intro netpoints
    exact ⟨fun a ha => (by cases ha), fun a _ => rfl, fun a => rfl⟩
  | cons x rest ih =>
    intro netpoints
    obtain ⟨h1, h2, h3⟩ := ih (Function.update netpoints x ((netpoints x).setPosition position))
    refine ⟨?_, ?_, ?_⟩
    · intro a ha
      simp only [setPositions]
      by_cases hr : a ∈ rest
      · exact h1 a hr
      · have hax : a = x := by
          rcases List.mem_cons.mp ha with h | h
          · exact h
          · exact absurd h hr
        rw [h2 a hr, hax, Function.update_same]
        rfl
    · intro a ha
      simp only [setPositions]
      rw [List.mem_cons, not_or] at ha
      rw [h2 a ha.2, Function.update_noteq ha.1]
    · intro a
      simp only [setPositions]
      have h := h3 a
      by_cases hax : a = x
      · subst hax
        rw [Function.update_same] at h
        have e := congrArg (fun p : BI_NetPoint => p.setPosition (netpoints a).mPosition) h
        simpa only [BI_NetPoint.setPosition] using e
      · rw [Function.update_noteq hax] at h
        exact h

/-- C22: after `updatePosition()` the position of the pad is the scene
position of the library pad in the footprint, and every net point registered
with the pad, for whatever layer, is at the position of the pad. The
registrations are as before, the net points that are not registered with the
pad are as before, and of the registered net points nothing but the position
has changed. -/
theorem updatePosition_moves_netPoints (ctx : PadContext) (pad : BI_FootprintPad)
    (netpoints : NetPoints) :
    (pad.updatePosition ctx netpoints).1.mPosition =
      ctx.footprintMapToScene ctx.libPadGetPosition ∧
    (pad.updatePosition ctx netpoints).1.mRegisteredNetPoints = pad.mRegisteredNetPoints ∧
    (∀ layerName a, (pad.updatePosition ctx netpoints).1.getNetPointOfLayer layerName = some a →
      ((pad.updatePosition ctx netpoints).2 a).mPosition =
        (pad.updatePosition ctx netpoints).1.mPosition) ∧
    (∀ a, a ∉ pad.mRegisteredNetPoints.values →
      (pad.updatePosition ctx netpoints).2 a = netpoints a) ∧
    (∀ a, ((pad.updatePosition ctx netpoints).2 a).setPosition (netpoints a).mPosition =
      netpoints a) := by
  obtain ⟨h1, h2, h3⟩ := setPositions_spec (ctx.footprintMapToScene ctx.libPadGetPosition)
    pad.mRegisteredNetPoints.values netpoints
  refine ⟨rfl, rfl, ?_, h2, h3⟩
  intro layerName a ha
  exact h1 a (QMap.mem_values_of_find pad.mRegisteredNetPoints layerName a ha)

/-- The pad of the example is moved to (110, 220), and with it the net points
at the addresses 1 and 4 that are registered for its two layers; the net point
at address 2 stays where it is. -/
theorem updatePosition_moves_netPoints_witness :
    ((PadExample.used.updatePosition PadExample.ctx PadExample.netpoints).2 4).mPosition =
      (110, 220) ∧
    ((PadExample.used.updatePosition PadExample.ctx PadExample.netpoints).2 1).mPosition =
      (110, 220) ∧
    (PadExample.used.updatePosition PadExample.ctx PadExample.netpoints).2 2 =
      ScenarioA.P2 :=
  ⟨(updatePosition_moves_netPoints PadExample.ctx PadExample.used PadExample.netpoints).2.2.1
      "bot_cu" 4 rfl,
    (updatePosition_moves_netPoints PadExample.ctx PadExample.used PadExample.netpoints).2.2.1
      "top_cu" 1 rfl,
    (updatePosition_moves_netPoints PadExample.ctx PadExample.used PadExample.netpoints).2.2.2.1
      2 (by decide)⟩

end BI_FootprintPad

namespace QMap

theorem contains_eq_false_iff {β : Type} (m : QMap β) (key : String) :
    m.contains key = false ↔ ∀ e ∈ m, e.1 ≠ key := by
  unfold contains
  rw [List.any_eq_false]
  constructor
  · intro h e he
    have := h e he
    simpa using this
  · intro h e he
    simpa using h e he

theorem find_insert_self {β : Type} (m : QMap β) (key : String) (value : β) :
    (m.insert key value).find key = some value := by
  induction m with
  | nil => simp [insert, find]
  | cons e rest ih =>
    obtain ⟨k, v⟩ := e
    simp only [insert]
    split_ifs with h1 h2
    · simp [find]
    · simp [find]
    · have hb : (k == key) = false := by
        rw [beq_eq_false_iff_ne]
        exact fun h => h2 h.symm
      unfold find at ih ⊢
      rw [List.find?_cons]
      simp only [hb]
      exact ih

theorem contains_insert_self {β : Type} (m : QMap β) (key : String) (value : β) :
    (m.insert key value).contains key = true := by
  induction m with
  | nil => simp [insert, contains]
  | cons e rest ih =>
    obtain ⟨k, v⟩ := e
    simp only [insert]
    split_ifs with h1 h2
    · simp [contains]
    · simp [contains]
    · unfold contains at ih ⊢
      rw [List.any_cons, ih, Bool.or_true]

/-- Inserting a new key adds one entry and keeps the others. -/
theorem insert_perm {β : Type} (m : QMap β) (key : String) (value : β)
    (h : m.contains key = false) : (m.insert key value).Perm ((key, value) :: m) := by
  induction m with
  | nil => exact List.Perm.refl _
  | cons e rest ih =>
    obtain ⟨k, v⟩ := e
    have hk : k ≠ key := (contains_eq_false_iff _ _).mp h (k, v) (List.mem_cons_self _ _)
    have hrest : contains rest key = false :=
      (contains_eq_false_iff _ _).mpr fun e he =>
        (contains_eq_false_iff _ _).mp h e (List.mem_cons_of_mem _ he)
    simp only [insert]
    split_ifs with h1 h2
    · exact List.Perm.refl _
    · exact absurd h2.symm hk
    · exact ((ih hrest).cons (k, v)).trans (List.Perm.swap _ _ _)

/-- Removing a key that was new when it was inserted gives back the map. -/
theorem remove_insert {β : Type} (m : QMap β) (key : String) (value : β)
    (h : m.contains key = false) : (m.insert key value).remove key = m := by
  induction m with
  | nil => simp [insert, remove]
  | cons e rest ih =>
    obtain ⟨k, v⟩ := e
    have hall := (contains_eq_false_iff _ _).mp h
    have hk : k ≠ key := hall (k, v) (List.mem_cons_self _ _)
    have hrest : contains rest key = false :=
      (contains_eq_false_iff _ _).mpr fun e he => hall e (List.mem_cons_of_mem _ he)
    have hfilter : ∀ l : QMap β, (∀ e ∈ l, e.1 ≠ key) →
        List.filter (fun e => e.1 != key) l = l := by
      intro l hl
      rw [List.filter_eq_self]
      intro e he
      simpa using hl e he
    simp only [insert]
    split_ifs with h1 h2
    · unfold remove
      rw [List.filter_cons]
      simp only [bne_self_eq_false, Bool.false_eq_true, if_false]
      exact hfilter _ hall
    · exact absurd h2.symm hk
    · unfold remove at ih ⊢
      rw [List.filter_cons]
      have hb : (k != key) = true := by simpa using hk
      simp only [hb, if_true]
      rw [ih hrest]

theorem keys_nodup_insert {β : Type} (m : QMap β) (key : String) (value : β)
    (h : m.contains key = false) (hnd : m.keys.Nodup) : (m.insert key value).keys.Nodup := by
  have hp : (m.insert key value).keys.Perm (key :: m.keys) := (insert_perm m key value h).map _
  rw [hp.nodup_iff, List.nodup_cons]
  refine ⟨?_, hnd⟩
  intro hmem
  obtain ⟨e, he, hek⟩ := List.mem_map.mp hmem
  exact (contains_eq_false_iff _ _).mp h e he hek

end QMap

namespace BI_FootprintPad

/-- C27: registerNetPoint throws a LogicError and leaves the pad as it is when
the pad is not added to the board, when it has no component signal instance,
when the net point is of another board, when a net point is registered for
the layer of the net point, when the net signal of the net point is not the
net signal of the component signal instance of the pad, when the layer is not
a copper layer, and when the pad is not on the layer. A call that returns has
entered the net point for its layer: the layers of the map stay distinct, a
further registration for the same layer is refused, and unregisterNetPoint of
the same net point returns with the pad as it was before the registration. -/
theorem registerNetPoint_one_per_layer (ctx : PadContext) (pad : BI_FootprintPad)
    (netpoint : BI_NetPoint) :
    ((pad.mIsAddedToBoard = false ∨ pad.mComponentSignalInstance = none ∨
        ctx.netPointGetBoard netpoint ≠ pad.mBoard ∨
        pad.mRegisteredNetPoints.contains (ctx.layerGetName netpoint.mLayer) = true ∨
        some (ctx.netPointGetNetSignalOfNetSegment netpoint) ≠ pad.getCompSigInstNetSignal ctx ∨
        ctx.layerIsCopperLayer netpoint.mLayer = false ∨
        pad.isOnLayer ctx (ctx.layerGetName netpoint.mLayer) = false) →
      pad.registerNetPoint ctx netpoint = .error (.LogicError, pad)) ∧
    ((pad.registerNetPoint ctx netpoint).thrown = none →
      (pad.registerNetPoint ctx netpoint).state.mRegisteredNetPoints =
        pad.mRegisteredNetPoints.insert (ctx.layerGetName netpoint.mLayer) netpoint.ptr ∧
      (pad.registerNetPoint ctx netpoint).state.getNetPointOfLayer
        (ctx.layerGetName netpoint.mLayer) = some netpoint.ptr ∧
      (pad.mRegisteredNetPoints.keys.Nodup →
        (pad.registerNetPoint ctx netpoint).state.mRegisteredNetPoints.keys.Nodup) ∧
      (∀ q : BI_NetPoint, ctx.layerGetName q.mLayer = ctx.layerGetName netpoint.mLayer →
        (pad.registerNetPoint ctx netpoint).state.registerNetPoint ctx q =
          .error (.LogicError, (pad.registerNetPoint ctx netpoint).state)) ∧
      (pad.registerNetPoint ctx netpoint).state.unregisterNetPoint ctx netpoint = .ok pad) := by
  constructor
  · intro h
    unfold registerNetPoint
    rw [if_pos]
    rcases h with h | h | h | h | h | h | h
    · left; simp [h]
    · right; left; exact h
    · right; right; left; exact h
    · right; right; right; left; exact h
    · right; right; right; right; left; exact h
    · right; right; right; right; right; left; simp [h]
    · right; right; right; right; right; right; simp [h]
  · intro h
    unfold registerNetPoint at h ⊢
    split at h
    · simp [Outcome.thrown] at h
    · rename_i hc
      rw [if_neg hc]
      simp only [not_or, not_not] at hc
      obtain ⟨c1, c2, c3, c4, c5, c6, c7⟩ := hc
      have c4f : pad.mRegisteredNetPoints.contains (ctx.layerGetName netpoint.mLayer) = false := by
        simpa using c4
      refine ⟨rfl, QMap.find_insert_self _ _ _, QMap.keys_nodup_insert _ _ _ c4f, ?_, ?_⟩
      · intro q hq
        show registerNetPoint ctx
          { pad with mRegisteredNetPoints :=
              pad.mRegisteredNetPoints.insert (ctx.layerGetName netpoint.mLayer) netpoint.ptr } q =
          _
        unfold registerNetPoint
        rw [if_pos]
        · rfl
        · right; right; right; left
          rw [hq]
          exact QMap.contains_insert_self _ _ _
      · show unregisterNetPoint ctx
          { pad with mRegisteredNetPoints :=
              pad.mRegisteredNetPoints.insert (ctx.layerGetName netpoint.mLayer) netpoint.ptr }
          netpoint = _
        unfold unregisterNetPoint
        rw [if_neg]
        · have hr := QMap.remove_insert pad.mRegisteredNetPoints
            (ctx.layerGetName netpoint.mLayer) netpoint.ptr c4f
          simp only [hr]
        · rintro (h1 | h1 | h1 | h1)
          · exact h1 c1
          · exact c2 h1
          · exact h1 (QMap.find_insert_self _ _ _)
          · exact h1 c5

/-- The pad of the example accepts P1 for the top copper layer and refuses it
a second time; unregistering P1 leaves the pad without net points again. A net
point of another board is refused. -/
theorem registerNetPoint_one_per_layer_witness :
    (PadExample.pad.registerNetPoint PadExample.ctx ScenarioA.P1).state.registerNetPoint
        PadExample.ctx ScenarioA.P1 =
      .error (.LogicError, (PadExample.pad.registerNetPoint PadExample.ctx ScenarioA.P1).state) ∧
    (PadExample.pad.registerNetPoint PadExample.ctx ScenarioA.P1).state.unregisterNetPoint
        PadExample.ctx ScenarioA.P1 = .ok PadExample.pad ∧
    PadExample.pad.registerNetPoint PadExample.ctx (ScenarioA.point 9) =
      .error (.LogicError, PadExample.pad) :=
  ⟨((registerNetPoint_one_per_layer PadExample.ctx PadExample.pad ScenarioA.P1).2 rfl).2.2.2.1
      ScenarioA.P1 rfl,
    ((registerNetPoint_one_per_layer PadExample.ctx PadExample.pad ScenarioA.P1).2
      rfl).2.2.2.2,
    (registerNetPoint_one_per_layer PadExample.ctx PadExample.pad (ScenarioA.point 9)).1
      (Or.inr (Or.inr (Or.inl (by decide))))⟩

end BI_FootprintPad

/-! ## SerializableKeyValueMap -/

namespace QMap

theorem contains_iff_mem_keys {β : Type} (m : QMap β) (key : String) :
    m.contains key = true ↔ key ∈ m.keys := by
  unfold contains keys
  rw [List.any_eq_true, List.mem_map]
  constructor
  · rintro ⟨e, he, h⟩
    exact ⟨e, he, by simpa using h⟩
  · rintro ⟨e, he, h⟩
    exact ⟨e, he, by simpa using h⟩

theorem contains_eq_false_iff_keys {β : Type} (m : QMap β) (key : String) :
    m.contains key = false ↔ key ∉ m.keys := by
  rw [← contains_iff_mem_keys, Bool.not_eq_true]

/-- In a map with one entry for a key, the value found for a key is the value
of its entry. -/
theorem find_eq_some_iff {β : Type} (m : QMap β) (hnd : m.keys.Nodup) (key : String)
    (value : β) : m.find key = some value ↔ (key, value) ∈ m := by
  induction m with
  | nil => simp [find]
  | cons e rest ih =>
    obtain ⟨k, v⟩ := e
    simp only [keys, List.map_cons, List.nodup_cons] at hnd
    have ih1 := ih hnd.2
    unfold find at ih1 ⊢
    rw [List.find?_cons]
    by_cases hk : k = key
    · subst hk
      simp only [beq_self_eq_true, Option.map_some', Option.some.injEq, List.mem_cons,
        Prod.mk.injEq, true_and]
      constructor
      · intro h; exact Or.inl h.symm
      · rintro (h | h)
        · exact h.symm
        · exact absurd (List.mem_map.mpr ⟨(k, value), h, rfl⟩) hnd.1
    · have hb : (k == key) = false := by simpa using hk
      simp only [hb, List.mem_cons, Prod.mk.injEq]
      rw [ih1]
      constructor
      · intro h; exact Or.inr h
      · rintro (h | h)
        · exact absurd h.1.symm hk
        · exact h

/-- Inserting a key that comes after all keys of the map appends its entry. -/
theorem insert_append {β : Type} (m : QMap β) (key : String) (value : β)
    (h : ∀ e ∈ m, e.1.toList < key.toList) : m.insert key value = m ++ [(key, value)] := by
  induction m with
  | nil => rfl
  | cons e rest ih =>
    obtain ⟨k, v⟩ := e
    have hk : k.toList < key.toList := h (k, v) (List.mem_cons_self _ _)
    have h1 : ¬ key.toList < k.toList := lt_asymm hk
    have h2 : ¬ key = k := fun e => by subst e; exact lt_irrefl _ hk
    simp only [insert, h1, h2, if_false, List.cons_append]
    rw [ih (fun e he => h e (List.mem_cons_of_mem _ he))]

/-- Inserting the entries of a map whose keys are in ascending order, one
after the other, gives the entries in their order. -/
theorem foldl_insert_sorted {β : Type} : ∀ (rest acc : QMap β),
    (acc ++ rest).keys.Pairwise (fun a b => a.toList < b.toList) →
    rest.foldl (fun a e => a.insert e.1 e.2) acc = acc ++ rest := by
  intro rest
  induction rest with
  | nil => intro acc _; simp
  | cons e rest ih =>
    intro acc h
    have hlt : ∀ x ∈ acc, x.1.toList < e.1.toList := by
      intro x hx
      simp only [keys, List.map_append, List.map_cons, List.pairwise_append] at h
      exact h.2.2 x.1 (List.mem_map.mpr ⟨x, hx, rfl⟩) e.1 (List.mem_cons_self _ _)
    simp only [List.foldl_cons]
    rw [insert_append acc e.1 e.2 hlt, ih]
    · simp
    · simpa using h

/-- Inserting entries with new and distinct keys keeps every entry. -/
theorem foldl_insert_perm {β : Type} : ∀ (kvs acc : QMap β), kvs.keys.Nodup →
    (∀ kv ∈ kvs, acc.contains kv.1 = false) →
    (kvs.foldl (fun a e => a.insert e.1 e.2) acc).Perm (acc ++ kvs) := by
  intro kvs
  induction kvs with
  | nil => intro acc _ _; simp
  | cons e rest ih =>
    intro acc hnd hnew
    simp only [keys, List.map_cons, List.nodup_cons] at hnd
    have he : acc.contains e.1 = false := hnew e (List.mem_cons_self _ _)
    have hp := insert_perm acc e.1 e.2 he
    simp only [List.foldl_cons]
    refine (ih (acc.insert e.1 e.2) hnd.2 ?_).trans ?_
    · intro kv hkv
      rw [contains_eq_false_iff_keys]
      intro hmem
      have hmem1 : kv.1 ∈ e.1 :: acc.keys := (List.Perm.map (fun x => x.1) hp).mem_iff.mp hmem
      rcases List.mem_cons.mp hmem1 with h | h
      · exact hnd.1 (h ▸ List.mem_map.mpr ⟨kv, hkv, rfl⟩)
      · exact (contains_eq_false_iff_keys _ _).mp (hnew kv (List.mem_cons_of_mem _ hkv)) h
    · exact (List.Perm.append_right rest hp).trans (by
        simpa using (@List.perm_middle _ e acc rest).symm)

/-- The values looked up for the keys of a map with one entry for a key are
the values of the entries. -/
theorem keys_map_value (m : QMap String) (hnd : m.keys.Nodup) :
    m.keys.map (fun key => (key, m.value key)) = m := by
  have h : ∀ e ∈ m, (fun key => (key, m.value key)) e.1 = e := by
    intro e he
    have hf : m.find e.1 = some e.2 := (find_eq_some_iff m hnd e.1 e.2).mpr he
    simp only [value, hf, Option.getD_some]
  unfold keys
  rw [List.map_map]
  conv_rhs => rw [← List.map_id m]
  exact List.map_congr_left (fun e he => h e he)

end QMap
namespace SerializableKeyValueMap

/-- When the loop of `loadFromDomElement` completes, for children that all
have a key and a value. -/
theorem loadEntries_ok_iff (keyname : String) : ∀ (children : List SExpression)
    (kvs : List (String × String)),
    List.Forall₂ (fun child kv => entry keyname child = .ok kv) children kvs →
    ∀ (acc m : QMap String), loadEntries keyname children acc = .ok m ↔
      (QMap.keys kvs).Nodup ∧ (∀ kv ∈ kvs, acc.contains kv.1 = false) ∧
      m = kvs.foldl (fun a e => a.insert e.1 e.2) acc := by
  intro children kvs h
  induction h with
  | nil =>
    intro acc m
    simp only [loadEntries, Except.ok.injEq, QMap.keys, List.map_nil, List.nodup_nil,
      List.not_mem_nil, false_implies, implies_true, List.foldl_nil, true_and]
    exact eq_comm
  | @cons child kv children1 kvs1 hchild _ ih =>
    intro acc m
    obtain ⟨k, v⟩ := kv
    simp only [loadEntries, hchild]
    by_cases hc : acc.contains k = true
    · simp only [hc, if_true]
      constructor
      · intro h; cases h
      · rintro ⟨-, h2, -⟩
        have := h2 (k, v) (List.mem_cons_self _ _)
        simp only at this
        rw [hc] at this
        cases this
    · have hcf : acc.contains k = false := by simpa using hc
      simp only [hc, if_false, Bool.false_eq_true]
      rw [ih]
      have hp := QMap.insert_perm acc k v hcf
      have hkeys : ∀ x, (acc.insert k v).contains x = false ↔ x ≠ k ∧ acc.contains x = false := by
        intro x
        rw [QMap.contains_eq_false_iff_keys, QMap.contains_eq_false_iff_keys]
        have hm : x ∈ QMap.keys (acc.insert k v) ↔ x ∈ k :: QMap.keys acc :=
          (List.Perm.map (fun e => e.1) hp).mem_iff
        rw [hm, List.mem_cons, not_or]
      simp only [QMap.keys, List.map_cons, List.nodup_cons, List.foldl_cons, List.mem_cons,
        forall_eq_or_imp]
      constructor
      · rintro ⟨h1, h2, h3⟩
        refine ⟨⟨?_, h1⟩, ⟨hcf, fun kv hkv => ((hkeys kv.1).mp (h2 kv hkv)).2⟩, h3⟩
        intro hmem
        obtain ⟨kv, hkv, hk⟩ := List.mem_map.mp hmem
        exact ((hkeys kv.1).mp (h2 kv hkv)).1 hk
      · rintro ⟨⟨h0, h1⟩, ⟨-, h2⟩, h3⟩
        refine ⟨h1, fun kv hkv => (hkeys kv.1).mpr ⟨?_, h2 kv hkv⟩, h3⟩
        intro hk
        exact h0 (List.mem_map.mpr ⟨kv, hkv, hk⟩)

/-- The loop of `loadFromDomElement` throws nothing but a RuntimeError, for
children that all have a key and a value. -/
theorem loadEntries_error (keyname : String) : ∀ (children : List SExpression)
    (kvs : List (String × String)),
    List.Forall₂ (fun child kv => entry keyname child = .ok kv) children kvs →
    ∀ (acc : QMap String) (e : Exception) (m : QMap String),
      loadEntries keyname children acc = .error (e, m) → e = .RuntimeError := by
  intro children kvs h
  induction h with
  | nil => intro acc e m h; cases h
  | @cons child kv children1 kvs1 hchild _ ih =>
    intro acc e m h
    obtain ⟨k, v⟩ := kv
    simp only [loadEntries, hchild] at h
    split at h
    · simp only [Except.error.injEq, Prod.mk.injEq] at h
      exact h.1.symm
    · exact ih _ e m h

/-- What `serialize` appends to a list node: one child for each key, in the
order of the keys. -/
theorem serializeKeys_eq (tagname keyname : String) (mValues : QMap String) (tag : String) :
    ∀ (keys : List String) (children : List SExpression),
    serializeKeys tagname keyname mValues keys (.list tag children) =
      .list tag (children ++ keys.map (serializeEntry tagname keyname mValues)) := by
  intro keys
  induction keys with
  | nil => intro children; simp [serializeKeys]
  | cons key rest ih =>
    intro children
    simp only [serializeKeys, SExpression.appendChild, ih, List.map_cons, List.append_assoc,
      List.singleton_append]

/-- The child that `serialize` appends for a key is a list with the name
`tagname`, from which the loop of `loadFromDomElement` reads the key and its
value. -/
theorem entry_serializeEntry (tagname keyname : String) (mValues : QMap String)
    (key : String) :
    SExpression.isList tagname (serializeEntry tagname keyname mValues key) = true ∧
    entry keyname (serializeEntry tagname keyname mValues key) =
      .ok (key, mValues.value key) := by
  by_cases hk : key.isEmpty = true
  · have hk1 : key = "" := (String.isEmpty_iff key).mp hk
    subst hk1
    have hnode : serializeEntry tagname keyname mValues "" =
        .list tagname [.string (mValues.value "")] := by
      simp [serializeEntry, hk, SExpression.appendChild]
    rw [hnode]
    exact ⟨by simp [SExpression.isList], rfl⟩
  · have hnode : serializeEntry tagname keyname mValues key =
        .list tagname [.list keyname [.string key], .string (mValues.value key)] := by
      simp [serializeEntry, hk, SExpression.appendChild, SExpression.appendNamed]
    rw [hnode]
    refine ⟨by simp [SExpression.isList], ?_⟩
    simp [entry, SExpression.getChildren, SExpression.getChildByIndex, SExpression.getString,
      SExpression.getValueByPath, SExpression.getChildByPath, SExpression.isList, Except.bind,
      bind]

end SerializableKeyValueMap

namespace SerializableKeyValueMap

theorem loadFromDomElement_ok_iff (tagname keyname : String) (node : SExpression)
    (m : QMap String) :
    loadFromDomElement tagname keyname node = .ok m ↔
      loadEntries keyname (node.getChildrenNamed tagname) [] = .ok m ∧
      m.contains "" = true := by
  unfold loadFromDomElement
  cases hl : loadEntries keyname (node.getChildrenNamed tagname) [] with
  | error e =>
    constructor
    · intro h; cases h
    · rintro ⟨h, -⟩; cases h
  | ok m1 =>
    by_cases hc : m1.contains "" = true
    · simp only [hc, not_true_eq_false, if_false, Except.ok.injEq]
      constructor
      · intro h; subst h; exact ⟨rfl, hc⟩
      · intro h; exact h.1
    · simp only [hc, not_false_eq_true, if_true, Except.ok.injEq]
      constructor
      · intro h; cases h
      · rintro ⟨h1, h2⟩
        rw [h1] at hc
        exact absurd h2 hc

/-- When the loop of `loadFromDomElement` completes, every child had a key and
a value. -/
theorem loadEntries_ok_entries (keyname : String) : ∀ (children : List SExpression)
    (acc m : QMap String), loadEntries keyname children acc = .ok m →
    ∃ kvs, List.Forall₂ (fun child kv => entry keyname child = .ok kv) children kvs := by
  intro children
  induction children with
  | nil => intro acc m _; exact ⟨[], List.Forall₂.nil⟩
  | cons child rest ih =>
    intro acc m h
    simp only [loadEntries] at h
    cases hc : entry keyname child with
    | error e => rw [hc] at h; cases h
    | ok kv =>
      obtain ⟨k, v⟩ := kv
      rw [hc] at h
      simp only at h
      split at h
      · cases h
      · obtain ⟨kvs, hk⟩ := ih _ m h
        exact ⟨(k, v) :: kvs, List.Forall₂.cons hc hk⟩

/-- C29: `loadFromDomElement` returns exactly when the children named
`T::tagname` of the node all have a key and a value, the keys are distinct and
one of them is the empty key; when all have a key and a value and it does not
return, it throws a RuntimeError. The map loaded holds the entries of the node
and no others, and looks each key up to its value. `value(keyOrder)` returns the value of the first key of `keyOrder` that
is in the map, with that key as the used key, and the default value with the
empty key if none is. Loading what `serialize()` wrote for a map with a default
value, to a node without other children named `T::tagname`, gives the map
back. -/
theorem keyValueMap_load_and_value (tagname keyname : String) :
    (∀ node : SExpression, (∃ m, loadFromDomElement tagname keyname node = .ok m) ↔
      ∃ kvs, List.Forall₂ (fun child kv => entry keyname child = .ok kv)
          (node.getChildrenNamed tagname) kvs ∧
        (QMap.keys kvs).Nodup ∧ "" ∈ QMap.keys kvs) ∧
    (∀ (node : SExpression) (kvs : List (String × String)),
      List.Forall₂ (fun child kv => entry keyname child = .ok kv)
        (node.getChildrenNamed tagname) kvs →
      ((∃ m, loadFromDomElement tagname keyname node = .ok m) ↔
        (QMap.keys kvs).Nodup ∧ "" ∈ QMap.keys kvs) ∧
      (∀ m, loadFromDomElement tagname keyname node = .ok m →
        m.Perm kvs ∧ ∀ key value, m.find key = some value ↔ (key, value) ∈ kvs) ∧
      (∀ e m, loadFromDomElement tagname keyname node = .error (e, m) →
        e = .RuntimeError)) ∧
    (∀ (mValues : QMap String) (pre : List String) (key : String) (post : List String),
      (∀ k ∈ pre, mValues.contains k = false) → mValues.contains key = true →
      value mValues (pre ++ key :: post) = (mValues.value key, key)) ∧
    (∀ (mValues : QMap String) (keyOrder : List String),
      (∀ k ∈ keyOrder, mValues.contains k = false) →
      value mValues keyOrder = (getDefaultValue mValues, "")) ∧
    (∀ (mValues : QMap String) (tag : String) (children : List SExpression),
      mValues.keys.Pairwise (fun a b => a.toList < b.toList) → mValues.contains "" = true →
      children.filter (SExpression.isList tagname) = [] →
      loadFromDomElement tagname keyname
        (serialize tagname keyname mValues (.list tag children)) = .ok mValues) := by
  have part1 : ∀ (node : SExpression) (kvs : List (String × String)),
      List.Forall₂ (fun child kv => entry keyname child = .ok kv)
        (node.getChildrenNamed tagname) kvs →
      ((∃ m, loadFromDomElement tagname keyname node = .ok m) ↔
        (QMap.keys kvs).Nodup ∧ "" ∈ QMap.keys kvs) ∧
      (∀ m, loadFromDomElement tagname keyname node = .ok m →
        m.Perm kvs ∧ ∀ key value, m.find key = some value ↔ (key, value) ∈ kvs) ∧
      (∀ e m, loadFromDomElement tagname keyname node = .error (e, m) →
        e = .RuntimeError) := by
    intro node kvs h
    have hiff := loadEntries_ok_iff keyname _ kvs h []
    have hnew : ∀ kv ∈ kvs, QMap.contains ([] : QMap String) kv.1 = false := fun _ _ => rfl
    have hperm : (QMap.keys kvs).Nodup →
        (kvs.foldl (fun a e => QMap.insert a e.1 e.2) ([] : QMap String)).Perm kvs := by
      intro hnd
      simpa using QMap.foldl_insert_perm kvs [] hnd hnew
    refine ⟨⟨?_, ?_⟩, ?_, ?_⟩
    · rintro ⟨m, hm⟩
      obtain ⟨h1, h2⟩ := (loadFromDomElement_ok_iff _ _ _ _).mp hm
      obtain ⟨hnd, -, hfold⟩ := (hiff m).mp h1
      refine ⟨hnd, ?_⟩
      have hp := hperm hnd
      rw [← hfold] at hp
      exact (List.Perm.map (fun e => e.1) hp).mem_iff.mp
        ((QMap.contains_iff_mem_keys m "").mp h2)
    · rintro ⟨hnd, hdef⟩
      refine ⟨_, (loadFromDomElement_ok_iff _ _ _ _).mpr ⟨(hiff _).mpr ⟨hnd, hnew, rfl⟩, ?_⟩⟩
      exact (QMap.contains_iff_mem_keys _ "").mpr
        ((List.Perm.map (fun e => e.1) (hperm hnd)).mem_iff.mpr hdef)
    · intro m hm
      obtain ⟨h1, -⟩ := (loadFromDomElement_ok_iff _ _ _ _).mp hm
      obtain ⟨hnd, -, hfold⟩ := (hiff m).mp h1
      have hp := hperm hnd
      rw [← hfold] at hp
      refine ⟨hp, fun key value => ?_⟩
      have hndm : m.keys.Nodup :=
        (List.Perm.map (fun e : String × String => e.1) hp).nodup_iff.mpr hnd
      rw [QMap.find_eq_some_iff m hndm]
      exact hp.mem_iff
    · intro e m hm
      unfold loadFromDomElement at hm
      cases hl : loadEntries keyname (node.getChildrenNamed tagname) [] with
      | error e1 =>
        rw [hl] at hm
        simp only [Except.error.injEq] at hm
        subst hm
        exact loadEntries_error keyname _ kvs h [] e m hl
      | ok m1 =>
        rw [hl] at hm
        simp only at hm
        split at hm
        · simp only [Except.error.injEq, Prod.mk.injEq] at hm
          exact hm.1.symm
        · cases hm
  refine ⟨?_, part1, ?_, ?_, ?_⟩
  · intro node
    constructor
    · rintro ⟨m, hm⟩
      obtain ⟨h1, -⟩ := (loadFromDomElement_ok_iff _ _ _ _).mp hm
      obtain ⟨kvs, hk⟩ := loadEntries_ok_entries keyname _ [] m h1
      exact ⟨kvs, hk, ((part1 node kvs hk).1).mp ⟨m, hm⟩⟩
    · rintro ⟨kvs, hk, hnd⟩
      exact ((part1 node kvs hk).1).mpr hnd
  · intro mValues pre key post hpre hkey
    induction pre with
    | nil => simp only [List.nil_append, value, hkey, if_true]
    | cons k rest ih =>
      have hk : mValues.contains k = false := hpre k (List.mem_cons_self _ _)
      simp only [List.cons_append, value, hk, Bool.false_eq_true, if_false]
      exact ih (fun x hx => hpre x (List.mem_cons_of_mem _ hx))
  · intro mValues keyOrder hnone
    induction keyOrder with
    | nil => rfl
    | cons k rest ih =>
      have hk : mValues.contains k = false := hnone k (List.mem_cons_self _ _)
      simp only [value, hk, Bool.false_eq_true, if_false]
      exact ih (fun x hx => hnone x (List.mem_cons_of_mem _ hx))
  · intro mValues tag children hsorted hdef hchildren
    have hnd : mValues.keys.Nodup :=
      hsorted.imp (fun {a b} hab e => by subst e; exact lt_irrefl _ hab)
    have hnodes : (serialize tagname keyname mValues (.list tag children)).getChildrenNamed
        tagname = mValues.keys.map (serializeEntry tagname keyname mValues) := by
      unfold serialize
      rw [serializeKeys_eq]
      simp only [SExpression.getChildrenNamed, SExpression.getChildren, List.filter_append,
        hchildren, List.nil_append]
      rw [List.filter_eq_self]
      intro x hx
      obtain ⟨key, -, rfl⟩ := List.mem_map.mp hx
      exact (entry_serializeEntry tagname keyname mValues key).1
    have hentries : List.Forall₂ (fun child kv => entry keyname child = .ok kv)
        (mValues.keys.map (serializeEntry tagname keyname mValues)) mValues := by
      have h1 : List.Forall₂ (fun child kv => entry keyname child = .ok kv)
          (mValues.keys.map (serializeEntry tagname keyname mValues))
          (mValues.keys.map (fun key => (key, mValues.value key))) := by
        rw [List.forall₂_map_left_iff, List.forall₂_map_right_iff, List.forall₂_same]
        intro key _
        exact (entry_serializeEntry tagname keyname mValues key).2
      rw [QMap.keys_map_value mValues hnd] at h1
      exact h1
    rw [loadFromDomElement_ok_iff, hnodes]
    refine ⟨?_, hdef⟩
    rw [loadEntries_ok_iff keyname _ mValues hentries]
    refine ⟨hnd, fun _ _ => rfl, ?_⟩
    have := QMap.foldl_insert_sorted mValues [] (by simpa using hsorted)
    simpa using this.symm

/-- The name map of the example is loaded from its node; a node with two
default names and a node without a default name are refused; for the key
order French, German the German name is the value. -/
theorem keyValueMap_load_and_value_witness :
    loadFromDomElement "name" "locale" LocalizedNameMap.node = .ok LocalizedNameMap.names ∧
    (¬ ∃ m, loadFromDomElement "name" "locale" LocalizedNameMap.twice = .ok m) ∧
    value LocalizedNameMap.names ["fr_FR", "de_DE"] = ("Widerstand", "de_DE") :=
  ⟨(keyValueMap_load_and_value "name" "locale").2.2.2.2 LocalizedNameMap.names "component"
      [.uuid 5] (by decide) rfl rfl,
    fun h => absurd (((keyValueMap_load_and_value "name" "locale").2.1 LocalizedNameMap.twice
      [("", "Resistor"), ("", "R")]
      (List.Forall₂.cons rfl (List.Forall₂.cons rfl List.Forall₂.nil))).1.mp h).1 (by decide),
    (keyValueMap_load_and_value "name" "locale").2.2.1 LocalizedNameMap.names ["fr_FR"] "de_DE" []
      (by decide) rfl⟩

end SerializableKeyValueMap

/-! ## No dangling net line -/

namespace Incidence

end Incidence

namespace BI_NetSegment

end BI_NetSegment

end LibrePCB
